import Mathlib

/-!
# IFJ24 compiler: expressions, statements, symbol table and the two passes

A shallow embedding of the expression parser (`pars_expr.c`), of the precedence
stack (`prec_stack.c`), of the symbol table with its scopes (`symtable.c`), of the
statement and declaration routines and the two passes of `parser.c`, of the printing
routines of `generator.c` and of the error latch of `error_codes.c`.

Conventions of the embedding
* `printf` output is a list of instructions appended to the `out` field of the state.
* `error_exit(code, _)` ends the run: result `Res.exit code`.
* a C function returning `-1` / `false` to its caller is `Res.fail`.
* dereferencing a NULL pointer is `Res.crash`.
* the `while (true)` loop of `parse_expr` is driven by a fuel counter; `Res.timeout`
  is the artefact of running out of it.
* the scanner is abstracted to the list of tokens it still has to deliver; the head of
  the list is `current_token` and an exhausted list delivers `TOKEN_EOF`.
-/

namespace IFJ24

/-! ## Data model (`symtable.h`, `token.h`, `prec_sym_types.h`, `prec_stack.h`) -/

/-- The enum `data_type` of `symtable.h`, in declaration order. -/
inductive data_type where
  | int_type
  | float_type
  | string_type
  | bool_type
  | null_int_type
  | null_float_type
  | null_string_type
  | null_type
  | void_type
  | null
  deriving DecidableEq, Repr

/-- The enum `symbol_type` of `symtable.h`. -/
inductive symbol_type where
  | var_t
  | const_t
  | fn_t
  deriving DecidableEq, Repr

/-- The struct `func_data_t` (the allocation bookkeeping `paramCapacity` is left out). -/
structure func_data_t where
  name : String
  isDefined : Bool
  paramCount : Nat
  params : List data_type
  returnType : data_type
  deriving DecidableEq, Repr

/-- The struct `var_data_t`. -/
structure var_data_t where
  name : String
  type : data_type
  isUsed : Bool
  deriving DecidableEq, Repr

/-- The struct `symtable_data_t`; a NULL `funcData` / `varData` pointer is `none`. -/
structure symtable_data_t where
  type : symbol_type
  funcData : Option func_data_t
  varData : Option var_data_t
  deriving DecidableEq, Repr

/-- The struct `symtable_item_t`; the `next` pointer is the tail of the bucket chain. -/
structure symtable_item_t where
  key : String
  value : symtable_data_t
  scope_level : Int
  deriving DecidableEq, Repr

/-- The struct `symtable_t`: `items i` is the chain hanging off bucket `i`; `scope_level`
is a C `int`. -/
structure symtable_t where
  items : Nat → List symtable_item_t
  size : Nat
  scope_level : Int

/-- The macro `TABLE_SIZE` of `symtable.h`. -/
def TABLE_SIZE : Nat := 1024

/-- The static `hash_function` of `symtable.c`: `hash = hash * 31 + key[i]` in `size_t`
arithmetic (64 bit), reduced modulo `TABLE_SIZE`. Keys are ASCII identifiers. -/
def hash_function (key : String) : Nat :=
  (key.toList.foldl (fun hash c => (hash * 31 + c.toNat) % 2 ^ 64) 0) % TABLE_SIZE

/-- Prepend `item` to the chain of bucket `index` (`new_item->next = table->items[index];
table->items[index] = new_item`). -/
def bucket_prepend (table : symtable_t) (index : Nat) (item : symtable_item_t) : symtable_t :=
  { table with items := fun i => if i = index then item :: table.items i else table.items i }

/-- The function `symtable_insert_function`. -/
def symtable_insert_function (table : symtable_t) (name : String) (func_data : func_data_t)
    (scope_level : Int) : symtable_t :=
  bucket_prepend table (hash_function name)
    { key := name,
      value := { type := symbol_type.fn_t, funcData := some func_data, varData := none },
      scope_level := scope_level }

/-- The function `symtable_insert_variable`. -/
def symtable_insert_variable (table : symtable_t) (name : String) (var_data : var_data_t)
    (scope_level : Int) (isConst : Bool) : symtable_t :=
  bucket_prepend table (hash_function name)
    { key := name,
      value := { type := if isConst then symbol_type.const_t else symbol_type.var_t,
                 funcData := none, varData := some var_data },
      scope_level := scope_level }

/-- The function `symtable_find`: walk the chain of the key's bucket, first key match wins. -/
def symtable_find (table : symtable_t) (key : String) : Option symtable_data_t :=
  ((table.items (hash_function key)).find? (fun item => item.key == key)).map (fun item => item.value)

/-- The in-place write `entry->varData->isUsed = true` through the pointer that
`symtable_find` returned: the first item of the chain whose key matches is updated. -/
def chain_mark_used (key : String) : List symtable_item_t → List symtable_item_t
  | [] => []
  | item :: rest =>
    if item.key == key then
      { item with value := { item.value with
          varData := item.value.varData.map (fun v => { v with isUsed := true }) } } :: rest
    else item :: chain_mark_used key rest

/-- Apply `chain_mark_used` to the bucket of `key`. -/
def symtable_mark_used (table : symtable_t) (key : String) : symtable_t :=
  { table with items := fun i =>
      if i = hash_function key then chain_mark_used key (table.items i) else table.items i }

/-- One built-in signature as `built_in_func` fills it in. -/
def mk_builtin (name : String) (params : List data_type) (ret : data_type) : func_data_t :=
  { name := name, isDefined := true, paramCount := params.length, params := params, returnType := ret }

/-- The function `built_in_func`: the 13 built-ins, inserted at scope 0 in source order. -/
def built_in_func (table : symtable_t) : symtable_t :=
  let ins := fun (t : symtable_t) (f : func_data_t) => symtable_insert_function t f.name f 0
  [ mk_builtin "ifj.readstr" [] data_type.null_string_type,
    mk_builtin "ifj.readi32" [] data_type.null_int_type,
    mk_builtin "ifj.readf64" [] data_type.null_float_type,
    mk_builtin "ifj.write" [data_type.void_type] data_type.void_type,
    mk_builtin "ifj.i2f" [data_type.int_type] data_type.float_type,
    mk_builtin "ifj.f2i" [data_type.float_type] data_type.int_type,
    mk_builtin "ifj.string" [data_type.void_type] data_type.string_type,
    mk_builtin "ifj.length" [data_type.string_type] data_type.int_type,
    mk_builtin "ifj.concat" [data_type.string_type, data_type.string_type] data_type.string_type,
    mk_builtin "ifj.substring" [data_type.string_type, data_type.int_type, data_type.int_type]
      data_type.null_string_type,
    mk_builtin "ifj.strcmp" [data_type.string_type, data_type.string_type] data_type.int_type,
    mk_builtin "ifj.ord" [data_type.string_type, data_type.int_type] data_type.int_type,
    mk_builtin "ifj.chr" [data_type.int_type] data_type.string_type ].foldl ins table

/-- The function `symtable_create`: empty buckets, level 0, then the built-ins. -/
def symtable_create (size : Nat) : symtable_t :=
  built_in_func { items := fun _ => [], size := size, scope_level := 0 }

/-- The function `symtable_find_in_scope`: first item of the key's bucket with this key and
this scope level. -/
def symtable_find_in_scope (table : symtable_t) (key : String) (scope_level : Int) :
    Option symtable_data_t :=
  ((table.items (hash_function key)).find?
    (fun item => item.key == key && item.scope_level == scope_level)).map
    (fun item => item.value)

/-- The function `symtable_enter_scope`. -/
def symtable_enter_scope (table : symtable_t) : symtable_t :=
  { table with scope_level := table.scope_level + 1 }

/-- The test that `check_unused_variables_in_scope` applies to one item. -/
def item_is_unused (scope_level : Int) (item : symtable_item_t) : Bool :=
  item.scope_level == scope_level &&
  (item.value.type == symbol_type.var_t || item.value.type == symbol_type.const_t) &&
  (match item.value.varData with
   | some v => !v.isUsed
   | none => false)

/-- The macro `ERROR_SEMANTIC_UNUSED_VARIABLE`. -/
def ERROR_SEMANTIC_UNUSED_VARIABLE : Nat := 9

/-- The function `check_unused_variables_in_scope`: the buckets `0 .. size - 1` are walked
in order, the first unused variable or constant of the current level gives 9. -/
def check_unused_variables_in_scope (table : symtable_t) : Nat :=
  if (List.range table.size).any
      (fun i => (table.items i).any (item_is_unused table.scope_level)) then
    ERROR_SEMANTIC_UNUSED_VARIABLE
  else 0

/-- The function `symtable_exit_scope`: in every bucket `0 .. size - 1` the items of the
current level are unlinked (the others keep their order), then the level is decremented. -/
def symtable_exit_scope (table : symtable_t) : symtable_t :=
  { table with
    items := fun i =>
      if i < table.size then
        (table.items i).filter (fun item => !(item.scope_level == table.scope_level))
      else table.items i,
    scope_level := table.scope_level - 1 }

/-- The enum `token_type` of `token.h`, in declaration order. -/
inductive token_type where
  | KW_CONST | KW_FN | KW_IF | KW_ELSE | KW_WHILE | KW_RETURN | KW_VAR | KW_VOID | KW_PUB
  | KW_NULL | KW_INT_TYPE | KW_FLOAT_TYPE | KW_CHAR_TYPE | KW_STRING_TYPE
  | TOKEN_INT_NULL | TOKEN_FLOAT_NULL | TOKEN_STRING_NULL
  | TOKEN_NULL | TOKEN_ID | TOKEN_EOF | TOKEN_EOL | TOKEN_UNDERSCORE
  | TOKEN_OPENING_PARENTHESES | TOKEN_CLOSING_PARENTHESES
  | TOKEN_OPENING_BRACKET | TOKEN_CLOSING_BRACKET
  | TOKEN_OPEN_BRACK_LEFT | TOKEN_OPEN_BRACK_RIGHT
  | TOKEN_COMMA | TOKEN_SEMICOLON | TOKEN_TWODOT | TOKEN_QUEST
  | TOKEN_ASSIGN | TOKEN_EQ | TOKEN_COMP_L | TOKEN_COMP_LE | TOKEN_COMP_G | TOKEN_COMP_GE
  | TOKEN_NOT | TOKEN_NEQ | TOKEN_LOGICAL_AND | TOKEN_VERTICAL_BAR | TOKEN_LOGICAL_OR
  | TOKEN_ADD | TOKEN_SUB | TOKEN_MUL | TOKEN_DIV
  | TOKEN_STRING | TOKEN_INT | TOKEN_FLOAT
  | TOKEN_IMPORT | TOKEN_DOT
  deriving DecidableEq, Repr

/-- The union `token_attribute`: the member that was written. `none` is the zeroed
attribute of `token_init(type, NULL)`; a float payload is kept as its lexeme. -/
inductive token_attribute where
  | none
  | i (v : Int)
  | f (lexeme : String)
  | s (v : String)
  deriving DecidableEq, Repr

/-- The struct `token_t`; the member `attribute` is named `attr` here. -/
structure token_t where
  type : token_type
  attr : token_attribute
  deriving DecidableEq, Repr

/-- Reading `attribute.s`: a string pointer, NULL (`none`) when no string was stored. -/
def token_t.attr_s (t : token_t) : Option String :=
  match t.attr with
  | token_attribute.s v => some v
  | _ => Option.none

/-- Reading `attribute.i`. -/
def token_t.attr_i (t : token_t) : Int :=
  match t.attr with
  | token_attribute.i v => v
  | _ => 0

/-- Reading `attribute.f` (as the lexeme that produced it). -/
def token_t.attr_f (t : token_t) : String :=
  match t.attr with
  | token_attribute.f v => v
  | _ => ""

/-- The enum `prec_sym_t` of `prec_sym_types.h`, in declaration order. -/
inductive prec_sym_t where
  | ADD | SUB | MUL | DIV | EQ | NEQ | NOT | LT | GT | LE | GE | AND | OR
  | LPAR | RPAR | ID | DOLLAR | EXP | UNDEFINED
  deriving DecidableEq, Repr

/-- The integer value of a `prec_sym_t` enumerator (its row / column in the table). -/
def prec_sym_t.toNat : prec_sym_t → Nat
  | ADD => 0 | SUB => 1 | MUL => 2 | DIV => 3 | EQ => 4 | NEQ => 5 | NOT => 6
  | LT => 7 | GT => 8 | LE => 9 | GE => 10 | AND => 11 | OR => 12
  | LPAR => 13 | RPAR => 14 | ID => 15 | DOLLAR => 16 | EXP => 17 | UNDEFINED => 18

/-- The struct `StackData` of `prec_stack.h`; a NULL `token` is `none`. -/
structure StackData where
  symbol : prec_sym_t
  type : data_type
  is_literal : Bool
  token : Option token_t
  deriving DecidableEq, Repr

/-- The lines of IFJcode24 that the compiler prints. The lines of the expression parser and
of the call routines have a constructor each; every other line is `line opcode operands`
(an empty output line is `line "" []`). -/
inductive Instr where
  | PUSHS_int (v : Int)
  | PUSHS_float (lexeme : String)
  | PUSHS_string (v : String)
  | PUSHS_nil
  | PUSHS_GF_return
  | PUSHS_GF_temp
  | PUSHS_LF (name : String)
  | POPS_GF_temp
  | INT2FLOATS
  | ADDS | SUBS | MULS | DIVS | ANDS | ORS | NOTS | EQS | LTS | GTS
  | CALL (label : String)
  | line (opcode : String) (operands : List String)
  deriving DecidableEq, Repr

/-- Outcome of a routine: `ok` (returned 0 / true), `fail` (returned -1 / false to the
caller), `exit code` (the process ended through `error_exit` / `exit`), `crash`
(NULL dereference), `timeout` (the fuel of the model ran out). -/
inductive Res (ε α : Type) where
  | ok (a : α)
  | fail (e : ε)
  | exit (code : Nat)
  | crash
  | timeout
  deriving DecidableEq, Repr

/-! Error codes of `error_codes.h`. -/

def ERROR_LEXICAL_ANALYSIS : Nat := 1
def ERROR_SYNTAX_ANALYSIS : Nat := 2
def ERROR_SEMANTIC_UNDEFINED_FUNCTION_OR_VARIABLE : Nat := 3
def ERROR_SEMANTIC_INCORRECT_FUNCTION_PARAMETERS_OR_RETURN_VALUE : Nat := 4
def ERROR_SEMANTIC_TYPE_INCOMPATIBILITY : Nat := 7
def ERROR_INTERNAL_COMPILER_ERROR : Nat := 99

/-! ## Type rules -/

/-- The function `is_type_compatible` of `parser.c`. -/
def is_type_compatible (first_type second_type : data_type) : Bool :=
  if first_type = second_type then true
  else if (first_type = data_type.null_int_type ∧ second_type = data_type.int_type) ∨
      (first_type = data_type.null_float_type ∧ second_type = data_type.float_type) ∨
      (first_type = data_type.null_string_type ∧ second_type = data_type.string_type) then true
  else if (first_type = data_type.null_int_type ∧ second_type = data_type.null_type) ∨
      (first_type = data_type.null_float_type ∧ second_type = data_type.null_type) ∨
      (first_type = data_type.null_string_type ∧ second_type = data_type.null_type) then true
  else false

/-- The function `check_arithmetic_compatibility`: the value written to `*result_type`
and the lines printed, or the exit. -/
def check_arithmetic_compatibility (lhs_type rhs_type : data_type)
    (lhs_is_literal rhs_is_literal : Bool) : Res Unit (data_type × List Instr) :=
  if lhs_type = data_type.int_type ∧ rhs_type = data_type.int_type then
    Res.ok (data_type.int_type, [])
  else if lhs_type = data_type.float_type ∧ rhs_type = data_type.float_type then
    Res.ok (data_type.float_type, [])
  else if lhs_type = data_type.int_type ∧ rhs_type = data_type.float_type then
    if lhs_is_literal then
      Res.ok (data_type.float_type, [Instr.POPS_GF_temp, Instr.INT2FLOATS, Instr.PUSHS_GF_temp])
    else Res.exit ERROR_SEMANTIC_TYPE_INCOMPATIBILITY
  else if lhs_type = data_type.float_type ∧ rhs_type = data_type.int_type then
    if rhs_is_literal then Res.ok (data_type.float_type, [Instr.INT2FLOATS])
    else Res.exit ERROR_SEMANTIC_TYPE_INCOMPATIBILITY
  else Res.exit ERROR_SEMANTIC_TYPE_INCOMPATIBILITY

/-- The function `check_equality_compatibility`. -/
def check_equality_compatibility (lhs_type rhs_type : data_type)
    (lhs_is_literal rhs_is_literal : Bool) : Res Unit (data_type × List Instr) :=
  if lhs_type = rhs_type then Res.ok (data_type.bool_type, [])
  else if (lhs_type = data_type.int_type ∧ rhs_type = data_type.float_type) ∨
      (lhs_type = data_type.float_type ∧ rhs_type = data_type.int_type) then
    if lhs_type = data_type.int_type ∧ (lhs_is_literal ∨ rhs_is_literal) then
      Res.ok (data_type.bool_type, [Instr.POPS_GF_temp, Instr.INT2FLOATS, Instr.PUSHS_GF_temp])
    else if rhs_type = data_type.int_type ∧ (rhs_is_literal ∨ lhs_is_literal) then
      Res.ok (data_type.bool_type, [Instr.INT2FLOATS])
    else Res.exit ERROR_SEMANTIC_TYPE_INCOMPATIBILITY
  else if lhs_type = data_type.null_type ∨ rhs_type = data_type.null_type ∨
      (lhs_type = data_type.null_int_type ∧ rhs_type = data_type.int_type) ∨
      (lhs_type = data_type.int_type ∧ rhs_type = data_type.null_int_type) ∨
      (lhs_type = data_type.null_float_type ∧ rhs_type = data_type.float_type) ∨
      (lhs_type = data_type.float_type ∧ rhs_type = data_type.null_float_type) then
    Res.ok (data_type.bool_type, [])
  else Res.exit ERROR_SEMANTIC_TYPE_INCOMPATIBILITY

/-- The function `check_relational_compatibility`. With a `null_type` operand it only
records the error (`set_error`) and returns `false`. -/
def check_relational_compatibility (lhs_type rhs_type : data_type)
    (lhs_is_literal rhs_is_literal : Bool) : Res Unit (data_type × List Instr) :=
  if lhs_type = data_type.null_type ∨ rhs_type = data_type.null_type then Res.fail ()
  else if lhs_type = rhs_type then Res.ok (data_type.bool_type, [])
  else if (lhs_type = data_type.int_type ∧ rhs_type = data_type.float_type) ∨
      (lhs_type = data_type.float_type ∧ rhs_type = data_type.int_type) then
    if lhs_type = data_type.float_type ∧ ¬ lhs_is_literal then
      Res.ok (data_type.bool_type, [Instr.INT2FLOATS])
    else if rhs_type = data_type.float_type ∧ ¬ rhs_is_literal then
      Res.ok (data_type.bool_type, [Instr.POPS_GF_temp, Instr.INT2FLOATS, Instr.PUSHS_GF_temp])
    else Res.exit ERROR_SEMANTIC_TYPE_INCOMPATIBILITY
  else Res.exit ERROR_SEMANTIC_TYPE_INCOMPATIBILITY

/-! ## Parser state -/

/-- The globals of the parser and of the generator: the scanner (as the tokens still to be
delivered, head = `current_token`), `symbol_table`, `bracket_count`, `main_stack`,
`temp_stack`, `is_main_stack`, what has been printed so far, and the globals of `parser.c`
and `generator.c`: `current_function` (the callee data it points to), `has_return`,
`first_control`, `label_counter` and the two label stacks (top first). The last field,
`freed_reads`, is no variable of the program but the heap as `reduce` meets it:
`freed_reads tokens stack n` is what the read of `is_literal` through the pointer
`stack_peek_n(stack, n)` gives once `stack_pop` has freed the entry, at the reduction of
`stack` with `tokens` still to be delivered. C gives such a read no value; no routine
writes the field. -/
structure PState where
  tokens : List token_t
  symbol_table : symtable_t
  bracket_count : Int
  main_stack : List StackData
  temp_stack : List StackData
  is_main_stack : Bool
  out : List Instr
  current_function : Option func_data_t
  has_return : Bool
  first_control : Bool
  label_counter : Int
  if_stack : List Int
  while_stack : List Int
  freed_reads : List token_t → List StackData → Nat → Bool

/-- The flag that the entry `stack_peek_n(stack, n)` holds (`false` for a NULL pointer). -/
def held_flag (stack : List StackData) (n : Nat) : Bool :=
  match stack.get? n with
  | some data => data.is_literal
  | none => false

/-- The heap on which a freed entry keeps what was stored in it until the block is handed
out again: a read through the stale pointer gives the flag the entry held. -/
def held_reads (_tokens : List token_t) (stack : List StackData) (n : Nat) : Bool :=
  held_flag stack n

/-- The global `current_token`. -/
def current_token (s : PState) : token_t :=
  s.tokens.headD { type := token_type.TOKEN_EOF, attr := token_attribute.none }

/-- The function `fetch_next_token` (the scanner delivers the next token of the list). -/
def fetch_next_token (s : PState) : PState :=
  { s with tokens := s.tokens.tail }

/-- Append printed lines. -/
def emit (s : PState) (lines : List Instr) : PState :=
  { s with out := s.out ++ lines }

/-- The stack `active_stack` points to: `main_stack` or `temp_stack`. -/
def active_stack (s : PState) (use_main : Bool) : List StackData :=
  if use_main then s.main_stack else s.temp_stack

/-- Write through the pointer `active_stack`. -/
def set_active_stack (s : PState) (use_main : Bool) (stack : List StackData) : PState :=
  if use_main then { s with main_stack := stack } else { s with temp_stack := stack }

/-- The function `cleanup_stacks`. -/
def cleanup_stacks (s : PState) : PState :=
  if ¬ s.is_main_stack then { s with bracket_count := 0, temp_stack := [], main_stack := [] }
  else { s with bracket_count := 0, main_stack := [] }

/-! ## Precedence table -/

/-- The character `<` (shift). -/
def act_shift : Int := 60
/-- The character `>` (reduce). -/
def act_reduce : Int := 62
/-- The character `=`. -/
def act_equal : Int := 61
/-- The entry `-1` (undefined). -/
def act_undef : Int := -1

/-- The array `prec_table` of `pars_expr.c`, row = top terminal, column = incoming symbol,
both in the order `+ - * / == != ! < > <= >= && || ( ) i $`. -/
def prec_table : List (List Int) :=
  let l := act_shift
  let g := act_reduce
  let e := act_equal
  let u := act_undef
  [ [g, g, l, l, g, g, l, g, g, g, g, g, g, l, g, l, g],   -- +
    [g, g, l, l, g, g, l, g, g, g, g, g, g, l, g, l, g],   -- -
    [g, g, g, g, g, g, l, g, g, g, g, g, g, l, g, l, g],   -- *
    [g, g, g, g, g, g, l, g, g, g, g, g, g, l, g, l, g],   -- /
    [l, l, l, l, u, u, l, u, u, u, u, g, g, l, g, l, g],   -- ==
    [l, l, l, l, u, u, l, u, u, u, u, g, g, l, g, l, g],   -- !=
    [g, g, g, g, g, g, g, g, g, g, g, g, g, l, g, l, g],   -- !
    [l, l, l, l, u, u, l, u, u, u, u, g, g, l, g, l, g],   -- <
    [l, l, l, l, u, u, l, u, u, u, u, g, g, l, g, l, g],   -- >
    [l, l, l, l, u, u, l, u, u, u, u, g, g, l, g, l, g],   -- <=
    [l, l, l, l, u, u, l, u, u, u, u, g, g, l, g, l, g],   -- >=
    [l, l, l, l, l, l, l, l, l, l, l, g, g, l, g, l, g],   -- &&
    [l, l, l, l, l, l, l, l, l, l, l, l, g, l, g, l, g],   -- ||
    [l, l, l, l, l, l, l, l, l, l, l, l, l, l, e, l, u],   -- (
    [g, g, g, g, g, g, u, g, g, g, g, g, g, u, g, u, g],   -- )
    [g, g, g, g, g, g, u, g, g, g, g, g, g, u, g, u, g],   -- i
    [l, l, l, l, l, l, l, l, l, l, l, l, l, l, u, l, u] ]  -- $

/-- The read `prec_table[top_symbol][current_symbol]`. -/
def prec_action (top_symbol current_symbol : prec_sym_t) : Int :=
  (prec_table.getD top_symbol.toNat []).getD current_symbol.toNat act_undef

/-! ## `token_to_prec_symb` -/

/-- The function `token_to_prec_symb`. The returned `StackData` is `*data`; its `symbol`
field is also the return value. `call` is `parse_function_call_expr`, entered when the
identifier names a function. -/
def token_to_prec_symb (call : PState → Res PState (data_type × PState)) (s : PState) :
    Res PState (StackData × PState) :=
  let tok := current_token s
  let d := fun (sym : prec_sym_t) (ty : data_type) (lit : Bool) =>
    ({ symbol := sym, type := ty, is_literal := lit, token := some tok } : StackData)
  let op := fun (sym : prec_sym_t) =>
    (Res.ok (d sym data_type.void_type false, s) : Res PState (StackData × PState))
  match tok.type with
  | token_type.TOKEN_ADD => op prec_sym_t.ADD
  | token_type.TOKEN_SUB => op prec_sym_t.SUB
  | token_type.TOKEN_MUL => op prec_sym_t.MUL
  | token_type.TOKEN_DIV => op prec_sym_t.DIV
  | token_type.TOKEN_EQ => op prec_sym_t.EQ
  | token_type.TOKEN_NEQ => op prec_sym_t.NEQ
  | token_type.TOKEN_NOT => op prec_sym_t.NOT
  | token_type.TOKEN_COMP_L => op prec_sym_t.LT
  | token_type.TOKEN_COMP_G => op prec_sym_t.GT
  | token_type.TOKEN_COMP_LE => op prec_sym_t.LE
  | token_type.TOKEN_COMP_GE => op prec_sym_t.GE
  | token_type.TOKEN_LOGICAL_AND => op prec_sym_t.AND
  | token_type.TOKEN_LOGICAL_OR => op prec_sym_t.OR
  | token_type.TOKEN_OPENING_PARENTHESES =>
    Res.ok (d prec_sym_t.LPAR data_type.void_type false,
      { s with bracket_count := s.bracket_count + 1 })
  | token_type.TOKEN_CLOSING_PARENTHESES =>
    Res.ok (d prec_sym_t.RPAR data_type.void_type false,
      { s with bracket_count := s.bracket_count - 1 })
  | token_type.TOKEN_STRING => Res.ok (d prec_sym_t.ID data_type.string_type true, s)
  | token_type.TOKEN_INT => Res.ok (d prec_sym_t.ID data_type.int_type true, s)
  | token_type.TOKEN_FLOAT => Res.ok (d prec_sym_t.ID data_type.float_type true, s)
  | token_type.TOKEN_INT_NULL => Res.ok (d prec_sym_t.ID data_type.null_int_type false, s)
  | token_type.TOKEN_STRING_NULL => Res.ok (d prec_sym_t.ID data_type.null_string_type false, s)
  | token_type.TOKEN_FLOAT_NULL => Res.ok (d prec_sym_t.ID data_type.null_float_type false, s)
  | token_type.KW_NULL => Res.ok (d prec_sym_t.ID data_type.null_type true, s)
  | token_type.TOKEN_ID =>
    match tok.attr_s with
    | none => Res.crash
    | some name =>
      match symtable_find s.symbol_table name with
      | none => Res.exit ERROR_SEMANTIC_UNDEFINED_FUNCTION_OR_VARIABLE
      | some entry =>
        if (entry.type = symbol_type.var_t ∨ entry.type = symbol_type.const_t) ∧
            entry.varData = none then Res.crash
        else
          let s1 :=
            if entry.type = symbol_type.var_t ∨ entry.type = symbol_type.const_t then
              { s with symbol_table := symtable_mark_used s.symbol_table name }
            else s
          match entry.varData with
          | some v => Res.ok (d prec_sym_t.ID v.type false, s1)
          | none =>
            match entry.funcData with
            | some _ =>
              match call s1 with
              | Res.ok (func_return_type, s2) =>
                Res.ok (d prec_sym_t.ID func_return_type false,
                  { s2 with bracket_count := s1.bracket_count })
              | Res.fail _ =>
                Res.exit ERROR_SEMANTIC_INCORRECT_FUNCTION_PARAMETERS_OR_RETURN_VALUE
              | Res.exit code => Res.exit code
              | Res.crash => Res.crash
              | Res.timeout => Res.timeout
            | none => Res.ok (d prec_sym_t.ID data_type.void_type false, s1)
  | token_type.TOKEN_OPENING_BRACKET => op prec_sym_t.DOLLAR
  | token_type.TOKEN_SEMICOLON => op prec_sym_t.DOLLAR
  | token_type.TOKEN_EOL => op prec_sym_t.DOLLAR
  | token_type.TOKEN_COMMA => op prec_sym_t.DOLLAR
  | _ => Res.exit ERROR_LEXICAL_ANALYSIS

/-! ## `reduce` -/

/-- The non-terminal pushed after a reduction:
`{.symbol = EXP, .type = ..., .is_literal = ..., .token = NULL}`. -/
def exp_data (type : data_type) (is_literal : Bool) : StackData :=
  { symbol := prec_sym_t.EXP, type := type, is_literal := is_literal, token := none }

/-- The `switch (op->symbol)` of `reduce` that prints the operation. -/
def op_lines : prec_sym_t → List Instr
  | prec_sym_t.ADD => [Instr.ADDS]
  | prec_sym_t.SUB => [Instr.SUBS]
  | prec_sym_t.MUL => [Instr.MULS]
  | prec_sym_t.DIV => [Instr.DIVS]
  | prec_sym_t.AND => [Instr.ANDS]
  | prec_sym_t.OR => [Instr.ORS]
  | prec_sym_t.EQ => [Instr.EQS]
  | prec_sym_t.NEQ => [Instr.EQS, Instr.NOTS]
  | prec_sym_t.LT => [Instr.LTS]
  | prec_sym_t.GT => [Instr.GTS]
  | prec_sym_t.GE => [Instr.LTS, Instr.NOTS]
  | prec_sym_t.LE => [Instr.GTS, Instr.NOTS]
  | _ => []

/-- The `if / else if` chain of rule `E -> E op E` that selects the type check; no branch
taken leaves `compatible = false`. -/
def check_operation (op : prec_sym_t) (lhs rhs : StackData) : Res Unit (data_type × List Instr) :=
  if op = prec_sym_t.ADD ∨ op = prec_sym_t.SUB ∨ op = prec_sym_t.MUL then
    check_arithmetic_compatibility lhs.type rhs.type lhs.is_literal rhs.is_literal
  else if op = prec_sym_t.DIV then
    check_arithmetic_compatibility lhs.type rhs.type lhs.is_literal rhs.is_literal
  else if op = prec_sym_t.AND ∨ op = prec_sym_t.OR then Res.ok (data_type.bool_type, [])
  else if op = prec_sym_t.EQ ∨ op = prec_sym_t.NEQ then
    check_equality_compatibility lhs.type rhs.type lhs.is_literal rhs.is_literal
  else if op = prec_sym_t.LT ∨ op = prec_sym_t.GT ∨ op = prec_sym_t.LE ∨ op = prec_sym_t.GE then
    check_relational_compatibility lhs.type rhs.type lhs.is_literal rhs.is_literal
  else Res.fail ()

/-- Rule `E -> id` of `reduce`, `top` being the `ID` entry on top of the stack and `rest`
the stack below it. -/
def reduce_id (table : symtable_t) (top : StackData) (rest : List StackData) :
    Res Unit (List StackData × List Instr) :=
  if top.is_literal then
    match top.token with
    | none => Res.crash
    | some tok =>
      match top.type with
      | data_type.int_type =>
        Res.ok (exp_data top.type true :: rest, [Instr.PUSHS_int tok.attr_i])
      | data_type.float_type =>
        Res.ok (exp_data top.type true :: rest, [Instr.PUSHS_float tok.attr_f])
      | data_type.string_type =>
        match tok.attr_s with
        | none => Res.crash
        | some str => Res.ok (exp_data top.type true :: rest, [Instr.PUSHS_string str])
      | data_type.null_type => Res.ok (exp_data top.type true :: rest, [Instr.PUSHS_nil])
      | _ => Res.exit ERROR_SEMANTIC_TYPE_INCOMPATIBILITY
  else
    match top.token with
    | none => Res.crash
    | some tok =>
      match tok.attr_s with
      | none => Res.crash
      | some name =>
        match symtable_find table name with
        | none => Res.exit ERROR_SEMANTIC_UNDEFINED_FUNCTION_OR_VARIABLE
        | some entry =>
          if entry.type = symbol_type.fn_t then
            Res.ok (exp_data top.type false :: rest, [Instr.PUSHS_GF_return])
          else
            match entry.varData with
            | none => Res.crash
            | some v => Res.ok (exp_data v.type false :: rest, [Instr.PUSHS_LF name])

/-- The function `reduce`: the new stack and the lines printed. The rules for `(E)`,
`E op E` and `!E` build the new entry from `rhs->is_literal && lhs->is_literal`, where
`rhs = stack_peek_n(stack, 0)` and `lhs = stack_peek_n(stack, 2)`, and they evaluate this
after the calls of `stack_pop`, which free the entries popped. `freed_rhs` and `freed_lhs`
are what these reads through the stale pointers give; they are arguments because the
program does not determine them. In the rule `!E` only two entries are popped: `lhs` is
still on the stack and its flag is the one it holds; with nothing below `!`, `lhs` is
NULL and is dereferenced when the first read gives true. -/
def reduce_freed (table : symtable_t) (stack : List StackData) (freed_rhs freed_lhs : Bool) :
    Res Unit (List StackData × List Instr) :=
  match stack with
  | [] => Res.exit ERROR_SYNTAX_ANALYSIS
  | top :: below =>
    if top.symbol = prec_sym_t.ID then reduce_id table top below
    else
      match stack.get? 0, stack.get? 1, stack.get? 2 with
      | some rhs, some inner, some lhs =>
        if rhs.symbol = prec_sym_t.RPAR ∧ inner.symbol = prec_sym_t.EXP ∧
            lhs.symbol = prec_sym_t.LPAR then
          Res.ok (exp_data inner.type (freed_rhs && freed_lhs) :: stack.drop 3, [])
        else if lhs.symbol = prec_sym_t.EXP ∧ rhs.symbol = prec_sym_t.EXP then
          match check_operation inner.symbol lhs rhs with
          | Res.ok (result_type, lines) =>
            Res.ok (exp_data result_type (freed_rhs && freed_lhs) :: stack.drop 3,
              lines ++ op_lines inner.symbol)
          | Res.fail _ => Res.exit ERROR_SEMANTIC_TYPE_INCOMPATIBILITY
          | Res.exit code => Res.exit code
          | Res.crash => Res.crash
          | Res.timeout => Res.timeout
        else if inner.symbol = prec_sym_t.NOT ∧ rhs.symbol = prec_sym_t.EXP then
          Res.ok (exp_data data_type.bool_type (freed_rhs && lhs.is_literal) :: stack.drop 2,
            [Instr.NOTS])
        else Res.fail ()
      | some rhs, some not_op, none =>
        if not_op.symbol = prec_sym_t.NOT ∧ rhs.symbol = prec_sym_t.EXP then
          if freed_rhs then Res.crash
          else Res.ok (exp_data data_type.bool_type false :: stack.drop 2, [Instr.NOTS])
        else Res.fail ()
      | _, _, _ => Res.fail ()

/-- The function `reduce` on the heap of `held_reads`, where the two stale reads give the
flags that the popped entries held. -/
def reduce (table : symtable_t) (stack : List StackData) :
    Res Unit (List StackData × List Instr) :=
  reduce_freed table stack (held_flag stack 0) (held_flag stack 2)

/-- The function `correct_exp_end`; `none` when it dereferences a NULL `top` / `next`. -/
def correct_exp_end (stack : List StackData) : Option Bool :=
  match stack with
  | [] => none
  | top :: [] => if top.symbol = prec_sym_t.EXP then none else some false
  | top :: next :: rest =>
    some (top.symbol = prec_sym_t.EXP ∧ next.symbol = prec_sym_t.DOLLAR ∧ rest = [])

/-- The function `stack_top_terminal`: the first entry from the top that is not `EXP`. -/
def stack_top_terminal (stack : List StackData) : Option StackData :=
  stack.find? (fun data => data.symbol ≠ prec_sym_t.EXP)

/-! ## `parse_expr` -/

/-- The struct copy `new_data = {current_data.symbol, .type, .is_literal, token_copy(...)}`
pushed by a shift. -/
def shift_data (current_data : StackData) : StackData :=
  { symbol := current_data.symbol, type := current_data.type,
    is_literal := current_data.is_literal, token := current_data.token }

/-- The code of `parse_expr` after its loop: the unmatched-parenthesis check, the result
type read from the top of the active stack, and the release of the stack. -/
def parse_expr_finish (use_main : Bool) (s : PState) : Res PState (data_type × PState) :=
  if s.bracket_count > 0 then Res.exit ERROR_SYNTAX_ANALYSIS
  else
    match active_stack s use_main with
    | [] => Res.crash
    | top :: _ =>
      let s1 := if ¬ s.is_main_stack then { s with temp_stack := [] } else { s with main_stack := [] }
      Res.ok (top.type, { s1 with is_main_stack := true })

/-- The first half of one iteration of the `while (true)` loop of `parse_expr`: look up the
action for the top terminal and the incoming symbol, then shift (`<` and `=`), reduce (`>`)
or stop with a syntax error. Gives the new `current_data`, `current_symbol` and state. -/
def parse_expr_step (call : PState → Res PState (data_type × PState)) (use_main : Bool)
    (current_data : StackData) (current_symbol : prec_sym_t) (s : PState) :
    Res PState (StackData × prec_sym_t × PState) :=
  match stack_top_terminal (active_stack s use_main) with
  | none => Res.exit ERROR_SYNTAX_ANALYSIS
  | some top_terminal =>
    let action := prec_action top_terminal.symbol current_symbol
    if action = act_shift ∨ action = act_equal then
      let s1 := set_active_stack s use_main (shift_data current_data :: active_stack s use_main)
      match token_to_prec_symb call (fetch_next_token s1) with
      | Res.ok (data, s2) => Res.ok (data, data.symbol, s2)
      | Res.fail e => Res.fail e
      | Res.exit code => Res.exit code
      | Res.crash => Res.crash
      | Res.timeout => Res.timeout
    else if action = act_reduce then
      match reduce_freed s.symbol_table (active_stack s use_main)
          (s.freed_reads s.tokens (active_stack s use_main) 0)
          (s.freed_reads s.tokens (active_stack s use_main) 2) with
      | Res.ok (stack, lines) =>
        Res.ok (current_data, current_symbol, emit (set_active_stack s use_main stack) lines)
      | Res.fail _ => Res.fail (cleanup_stacks s)
      | Res.exit code => Res.exit code
      | Res.crash => Res.crash
      | Res.timeout => Res.timeout
    else Res.exit ERROR_SYNTAX_ANALYSIS

/-- The `while (true)` loop of `parse_expr`, one iteration per unit of fuel.
`use_main` says which stack `active_stack` points to; `current_data` and `current_symbol`
are the locals of the same name. After the step, a negative `bracket_count` turns the
incoming symbol into `$`, and the loop is left when the symbol is `$` and the stack is
`$ E`. -/
def parse_expr_loop (call : PState → Res PState (data_type × PState)) :
    Nat → Bool → StackData → prec_sym_t → PState → Res PState (data_type × PState)
  | 0, _, _, _, _ => Res.timeout
  | fuel + 1, use_main, current_data, current_symbol, s =>
    match parse_expr_step call use_main current_data current_symbol s with
    | Res.ok (data, symbol, s1) =>
      let symbol1 := if s1.bracket_count < 0 then prec_sym_t.DOLLAR else symbol
      if symbol1 = prec_sym_t.DOLLAR then
        match correct_exp_end (active_stack s1 use_main) with
        | none => Res.crash
        | some true => parse_expr_finish use_main s1
        | some false => parse_expr_loop call fuel use_main data symbol1 s1
      else parse_expr_loop call fuel use_main data symbol1 s1
    | Res.fail e => Res.fail e
    | Res.exit code => Res.exit code
    | Res.crash => Res.crash
    | Res.timeout => Res.timeout

/-- The bottom marker `{.symbol = DOLLAR, .type = void_type, .is_literal = false, NULL}`. -/
def dollar_data : StackData :=
  { symbol := prec_sym_t.DOLLAR, type := data_type.void_type, is_literal := false, token := none }

/-- The function `parse_expr`, with `fuel` iterations for its loop. -/
def parse_expr (call : PState → Res PState (data_type × PState)) (fuel : Nat) (s : PState) :
    Res PState (data_type × PState) :=
  let s0 := { s with bracket_count := 0 }
  let use_main := s0.main_stack.isEmpty
  let s1 : PState :=
    if use_main then { s0 with is_main_stack := true, main_stack := [] }
    else { s0 with is_main_stack := false, temp_stack := [] }
  let s2 := set_active_stack s1 use_main (dollar_data :: active_stack s1 use_main)
  match token_to_prec_symb call s2 with
  | Res.ok (data, s3) => parse_expr_loop call fuel use_main data data.symbol s3
  | Res.fail e => Res.fail e
  | Res.exit code => Res.exit code
  | Res.crash => Res.crash
  | Res.timeout => Res.timeout

/-! ## Calls and arguments (`parser.c`, `generator.c`) -/

/-- The function `gen_function_call`. -/
def gen_function_call (func_name : String) : List Instr :=
  if func_name = "ifj.string" then [Instr.CALL "$ifj_string"]
  else if func_name = "ifj.write" then [Instr.CALL "$ifj_write"]
  else if func_name = "ifj.readi32" then [Instr.CALL "$ifj_readi32"]
  else if func_name = "ifj.readstr" then [Instr.CALL "$ifj_readstr"]
  else if func_name = "ifj.readf64" then [Instr.CALL "$ifj_readf64"]
  else if func_name = "ifj.i2f" then [Instr.CALL "$ifj_i2f"]
  else if func_name = "ifj.f2i" then [Instr.CALL "$ifj_f2i"]
  else if func_name = "ifj.concat" then [Instr.CALL "$ifj_concat"]
  else if func_name = "ifj.length" then [Instr.CALL "$ifj_length"]
  else if func_name = "ifj.substring" then [Instr.CALL "$ifj_substring"]
  else if func_name = "ifj.strcmp" then [Instr.CALL "$ifj_strcmp"]
  else if func_name = "ifj.ord" then [Instr.CALL "$ifj_ord"]
  else if func_name = "ifj.chr" then [Instr.CALL "$ifj_chr"]
  else [Instr.CALL ("$" ++ func_name)]

/-- The function `parse_expression`; `pe` is `parse_expr`. -/
def parse_expression (pe : PState → Res PState (data_type × PState)) (s : PState) :
    Res PState (data_type × PState) :=
  let run : Res PState (data_type × PState) :=
    match pe s with
    | Res.ok r => Res.ok r
    | Res.fail e => Res.fail e
    | Res.exit code => Res.exit code
    | Res.crash => Res.crash
    | Res.timeout => Res.timeout
  if (current_token s).type = token_type.TOKEN_ID then
    match (current_token s).attr_s with
    | none => Res.crash
    | some name =>
      match symtable_find s.symbol_table name with
      | some _ => run
      | none => Res.exit ERROR_SEMANTIC_UNDEFINED_FUNCTION_OR_VARIABLE
  else run

/-- The `while` loop of `parse_arguments` with its local `argIndex`, and the arity check
that follows it. Reading `params[argIndex]` beyond the array is `crash`. -/
def parse_arguments_loop (pe : PState → Res PState (data_type × PState))
    (func_data : func_data_t) : Nat → Nat → PState → Res PState PState
  | 0, _, _ => Res.timeout
  | fuel + 1, argIndex, s =>
    if (current_token s).type ≠ token_type.TOKEN_CLOSING_PARENTHESES then
      if argIndex ≥ func_data.paramCount then
        Res.exit ERROR_SEMANTIC_INCORRECT_FUNCTION_PARAMETERS_OR_RETURN_VALUE
      else
        match parse_expression pe s with
        | Res.ok (argType, s1) =>
          let next : PState :=
            if (current_token s1).type = token_type.TOKEN_COMMA then fetch_next_token s1 else s1
          if func_data.name = "ifj.write" ∨ func_data.name = "ifj.string" then
            if argType = data_type.null then
              Res.exit ERROR_SEMANTIC_INCORRECT_FUNCTION_PARAMETERS_OR_RETURN_VALUE
            else parse_arguments_loop pe func_data fuel (argIndex + 1) next
          else
            match func_data.params.get? argIndex with
            | none => Res.crash
            | some paramType =>
              if argType ≠ paramType then
                Res.exit ERROR_SEMANTIC_INCORRECT_FUNCTION_PARAMETERS_OR_RETURN_VALUE
              else parse_arguments_loop pe func_data fuel (argIndex + 1) next
        | Res.fail e => Res.fail e
        | Res.exit code => Res.exit code
        | Res.crash => Res.crash
        | Res.timeout => Res.timeout
    else if argIndex ≠ func_data.paramCount then
      Res.exit ERROR_SEMANTIC_INCORRECT_FUNCTION_PARAMETERS_OR_RETURN_VALUE
    else Res.ok s

/-- The function `parse_arguments`. -/
def parse_arguments (pe : PState → Res PState (data_type × PState)) (fuel : Nat)
    (func_data : func_data_t) (s : PState) : Res PState PState :=
  parse_arguments_loop pe func_data fuel 0 s

/-- The function `parse_function_call_expr`: on entry `current_token` is the identifier of
the callee, on return it is the closing parenthesis of the call. -/
def parse_function_call_expr (pe : PState → Res PState (data_type × PState)) (fuel : Nat)
    (s : PState) : Res PState (data_type × PState) :=
  match (current_token s).attr_s with
  | none => Res.crash
  | some func_name =>
    match symtable_find s.symbol_table func_name with
    | none => Res.exit ERROR_SEMANTIC_UNDEFINED_FUNCTION_OR_VARIABLE
    | some func_entry =>
      if func_entry.type ≠ symbol_type.fn_t then
        Res.exit ERROR_SEMANTIC_UNDEFINED_FUNCTION_OR_VARIABLE
      else
        match func_entry.funcData with
        | none => Res.crash
        | some func_data =>
          let s1 := fetch_next_token s
          if (current_token s1).type ≠ token_type.TOKEN_OPENING_PARENTHESES then
            Res.exit ERROR_SYNTAX_ANALYSIS
          else
            match parse_arguments pe fuel func_data (fetch_next_token s1) with
            | Res.ok s2 =>
              if (current_token s2).type ≠ token_type.TOKEN_CLOSING_PARENTHESES then
                Res.exit ERROR_SYNTAX_ANALYSIS
              else Res.ok (func_data.returnType, emit s2 (gen_function_call func_name))
            | Res.fail _ =>
              Res.exit ERROR_SEMANTIC_INCORRECT_FUNCTION_PARAMETERS_OR_RETURN_VALUE
            | Res.exit code => Res.exit code
            | Res.crash => Res.crash
            | Res.timeout => Res.timeout

/-- The function `parse_function_call` (a call statement `id(args);`): on entry
`current_token` is the opening parenthesis and `id_name` the callee. -/
def parse_function_call (pe : PState → Res PState (data_type × PState)) (fuel : Nat)
    (id_name : String) (s : PState) : Res PState PState :=
  if (current_token s).type ≠ token_type.TOKEN_OPENING_PARENTHESES then
    Res.exit ERROR_SYNTAX_ANALYSIS
  else
    match symtable_find s.symbol_table id_name with
    | none => Res.exit ERROR_SEMANTIC_UNDEFINED_FUNCTION_OR_VARIABLE
    | some func_entry =>
      if func_entry.type ≠ symbol_type.fn_t then
        Res.exit ERROR_SEMANTIC_UNDEFINED_FUNCTION_OR_VARIABLE
      else
        match func_entry.funcData with
        | none => Res.crash
        | some func_data =>
          match parse_arguments pe fuel func_data (fetch_next_token s) with
          | Res.ok s2 =>
            if (current_token s2).type ≠ token_type.TOKEN_CLOSING_PARENTHESES then
              Res.exit ERROR_SYNTAX_ANALYSIS
            else
              let s3 := fetch_next_token s2
              if (current_token s3).type ≠ token_type.TOKEN_SEMICOLON then
                Res.exit ERROR_SYNTAX_ANALYSIS
              else if func_data.returnType ≠ data_type.void_type then
                Res.exit ERROR_SEMANTIC_INCORRECT_FUNCTION_PARAMETERS_OR_RETURN_VALUE
              else Res.ok (fetch_next_token (emit s3 (gen_function_call id_name)))
          | Res.fail _ => Res.exit ERROR_SEMANTIC_INCORRECT_FUNCTION_PARAMETERS_OR_RETURN_VALUE
          | Res.exit code => Res.exit code
          | Res.crash => Res.crash
          | Res.timeout => Res.timeout

/-- The mutual recursion `parse_expr -> token_to_prec_symb -> parse_function_call_expr ->
parse_arguments -> parse_expression -> parse_expr`, unrolled `depth` times; every loop gets
`fuel` iterations. -/
def parse_expr_rec : Nat → Nat → PState → Res PState (data_type × PState)
  | 0, _, _ => Res.timeout
  | depth + 1, fuel, s =>
    parse_expr (parse_function_call_expr (parse_expr_rec depth fuel) fuel) fuel s

/-! ## Generator (`generator.c`, `stack.c`) -/

/-- Sequencing of routines: go on with `f` after a routine that returned 0; a routine that
returned -1, ended the process, crashed or ran out of fuel ends the sequence the same way. -/
def Res.bind {ε α β : Type} (r : Res ε α) (f : α → Res ε β) : Res ε β :=
  match r with
  | Res.ok a => f a
  | Res.fail e => Res.fail e
  | Res.exit code => Res.exit code
  | Res.crash => Res.crash
  | Res.timeout => Res.timeout

/-- The macro `STACK_MAX` of `stack.h`. -/
def STACK_MAX : Nat := 256

/-- The value `EXIT_FAILURE` of the C library. -/
def EXIT_FAILURE : Nat := 1

/-- The function `gen_stack_push`; a `genStack` is the list of its values, top first, so
`top` is the length. A full stack (`top == STACK_MAX - 1`) is left as it is. -/
def gen_stack_push (stack : List Int) (value : Int) : List Int :=
  if stack.length = STACK_MAX - 1 then stack else value :: stack

/-- The label operand built by `printf` from a prefix and `%d`. -/
def numbered (pre : String) (label : Int) : String := pre ++ toString label

/-- The function `gen_if_start`. -/
def gen_if_start (s : PState) : PState :=
  let label := s.label_counter
  { s with
    label_counter := s.label_counter + 1,
    out := s.out ++
      [Instr.line "DEFVAR" [numbered "LF@if_cond_" label],
       Instr.line "POPS" [numbered "LF@if_cond_" label],
       Instr.line "JUMPIFEQ"
         [numbered "$if_else_" label, numbered "LF@if_cond_" label, "bool@false"]],
    if_stack := gen_stack_push s.if_stack label }

/-- The function `gen_if_else`. -/
def gen_if_else (s : PState) : Res PState PState :=
  match s.if_stack with
  | [] => Res.exit EXIT_FAILURE
  | current_label :: _ =>
    Res.ok (emit s [Instr.line "JUMP" [numbered "$if_end_" current_label],
                    Instr.line "LABEL" [numbered "$if_else_" current_label]])

/-- The function `gen_if_end`. -/
def gen_if_end (s : PState) : Res PState PState :=
  match s.if_stack with
  | [] => Res.exit EXIT_FAILURE
  | current_label :: rest =>
    Res.ok (emit { s with if_stack := rest }
      [Instr.line "LABEL" [numbered "$if_end_" current_label]])

/-- The function `gen_if_nullable_start`. -/
def gen_if_nullable_start (non_null_id : String) (s : PState) : PState :=
  let current_label := s.label_counter
  { s with
    label_counter := s.label_counter + 1,
    out := s.out ++
      [Instr.line "DEFVAR" [numbered "LF@nullable_check_" current_label],
       Instr.line "POPS" [numbered "LF@nullable_check_" current_label],
       Instr.line "JUMPIFEQ"
         [numbered "$if_nullable_else_" current_label,
          numbered "LF@nullable_check_" current_label, "nil@nil"],
       Instr.line "DEFVAR" ["LF@" ++ non_null_id],
       Instr.line "MOVE" ["LF@" ++ non_null_id, numbered "LF@nullable_check_" current_label]],
    if_stack := gen_stack_push s.if_stack current_label }

/-- The function `gen_if_nullable_else`. -/
def gen_if_nullable_else (s : PState) : Res PState PState :=
  match s.if_stack with
  | [] => Res.exit EXIT_FAILURE
  | label :: rest =>
    Res.ok (emit { s with if_stack := gen_stack_push rest label }
      [Instr.line "JUMP" [numbered "$if_nullable_end_" label],
       Instr.line "LABEL" [numbered "$if_nullable_else_" label]])

/-- The function `gen_if_nullable_end`. -/
def gen_if_nullable_end (s : PState) : Res PState PState :=
  match s.if_stack with
  | [] => Res.exit EXIT_FAILURE
  | label :: rest =>
    Res.ok (emit { s with if_stack := rest }
      [Instr.line "LABEL" [numbered "$if_nullable_end_" label]])

/-- The function `gen_while_start`. -/
def gen_while_start (s : PState) : PState :=
  let label := s.label_counter
  { s with
    label_counter := s.label_counter + 1,
    out := s.out ++
      [Instr.line "DEFVAR" [numbered "LF@while_cond_" label],
       Instr.line "LABEL" [numbered "$while_start_" label]],
    while_stack := gen_stack_push s.while_stack label }

/-- The function `gen_while_cond`. -/
def gen_while_cond (s : PState) : Res PState PState :=
  match s.while_stack with
  | [] => Res.exit EXIT_FAILURE
  | current_label :: _ =>
    Res.ok (emit s
      [Instr.line "POPS" [numbered "LF@while_cond_" current_label],
       Instr.line "JUMPIFEQ"
         [numbered "$while_end_" current_label, numbered "LF@while_cond_" current_label,
          "bool@false"]])

/-- The function `gen_while_end`. -/
def gen_while_end (s : PState) : Res PState PState :=
  match s.while_stack with
  | [] => Res.exit EXIT_FAILURE
  | current_label :: rest =>
    Res.ok (emit { s with while_stack := rest }
      [Instr.line "JUMP" [numbered "$while_start_" current_label],
       Instr.line "LABEL" [numbered "$while_end_" current_label]])

/-- The function `gen_while_nullable_cond`. -/
def gen_while_nullable_cond (non_null_id : String) (s : PState) : Res PState PState :=
  match s.while_stack with
  | [] => Res.exit EXIT_FAILURE
  | current_label :: rest =>
    Res.ok (emit { s with while_stack := gen_stack_push rest current_label }
      [Instr.line "POPS" [numbered "LF@while_cond_" current_label],
       Instr.line "JUMPIFEQ"
         [numbered "$while_nullable_end_" current_label,
          numbered "LF@while_cond_" current_label, "nil@nil"],
       Instr.line "DEFVAR" ["LF@" ++ non_null_id],
       Instr.line "MOVE" ["LF@" ++ non_null_id, numbered "LF@while_cond_" current_label]])

/-- The function `gen_while_nullable_end`. -/
def gen_while_nullable_end (s : PState) : Res PState PState :=
  match s.while_stack with
  | [] => Res.exit EXIT_FAILURE
  | label :: rest =>
    Res.ok (emit { s with while_stack := rest }
      [Instr.line "JUMP" [numbered "$while_start_" label],
       Instr.line "LABEL" [numbered "$while_nullable_end_" label]])

/-- The function `gen_func_start`. -/
def gen_func_start (func_name : String) : List Instr :=
  [Instr.line "" [], Instr.line "LABEL" ["$" ++ func_name], Instr.line "CREATEFRAME" [],
   Instr.line "PUSHFRAME" []]

/-- The function `gen_func_end`. -/
def gen_func_end : List Instr := [Instr.line "POPFRAME" [], Instr.line "RETURN" []]

/-- The function `gen_defvar`. -/
def gen_defvar (var_name : String) : List Instr := [Instr.line "DEFVAR" ["LF@" ++ var_name]]

/-- The function `gen_pop_operand`; `none` is the NULL name. -/
def gen_pop_operand (var_name : Option String) : List Instr :=
  match var_name with
  | some name => [Instr.line "POPS" ["LF@" ++ name]]
  | none => [Instr.line "POPS" ["GF@_discard"]]

/-- The function `gen_return`. -/
def gen_return : List Instr :=
  [Instr.line "POPS" ["GF@return"], Instr.line "POPFRAME" [], Instr.line "RETURN" []]

/-- The function `gen_builtin_functions`: the bodies of the built-ins, line by line. -/
def gen_builtin_functions : List Instr :=
  [ Instr.line "" [],
    Instr.line "LABEL" ["$ifj_readstr"],
    Instr.line "CREATEFRAME" [],
    Instr.line "PUSHFRAME" [],
    Instr.line "READ" ["GF@return", "string"],
    Instr.line "POPFRAME" [],
    Instr.line "RETURN" [],
    Instr.line "" [],
    Instr.line "LABEL" ["$ifj_readi32"],
    Instr.line "CREATEFRAME" [],
    Instr.line "PUSHFRAME" [],
    Instr.line "READ" ["GF@return", "int"],
    Instr.line "POPFRAME" [],
    Instr.line "RETURN" [],
    Instr.line "" [],
    Instr.line "LABEL" ["$ifj_readf64"],
    Instr.line "CREATEFRAME" [],
    Instr.line "PUSHFRAME" [],
    Instr.line "READ" ["GF@return", "float"],
    Instr.line "POPFRAME" [],
    Instr.line "RETURN" [],
    Instr.line "" [],
    Instr.line "LABEL" ["$ifj_write"],
    Instr.line "CREATEFRAME" [],
    Instr.line "PUSHFRAME" [],
    Instr.line "DEFVAR" ["LF@param1"],
    Instr.line "POPS" ["LF@param1"],
    Instr.line "WRITE" ["LF@param1"],
    Instr.line "POPFRAME" [],
    Instr.line "RETURN" [],
    Instr.line "" [],
    Instr.line "LABEL" ["$ifj_i2f"],
    Instr.line "CREATEFRAME" [],
    Instr.line "PUSHFRAME" [],
    Instr.line "DEFVAR" ["LF@param1"],
    Instr.line "POPS" ["LF@param1"],
    Instr.line "INT2FLOAT" ["GF@return", "LF@param1"],
    Instr.line "POPFRAME" [],
    Instr.line "RETURN" [],
    Instr.line "" [],
    Instr.line "LABEL" ["$ifj_f2i"],
    Instr.line "CREATEFRAME" [],
    Instr.line "PUSHFRAME" [],
    Instr.line "DEFVAR" ["LF@param1"],
    Instr.line "POPS" ["LF@param1"],
    Instr.line "FLOAT2INT" ["GF@return", "LF@param1"],
    Instr.line "POPFRAME" [],
    Instr.line "RETURN" [],
    Instr.line "" [],
    Instr.line "LABEL" ["$ifj_string"],
    Instr.line "CREATEFRAME" [],
    Instr.line "PUSHFRAME" [],
    Instr.line "DEFVAR" ["LF@param1"],
    Instr.line "POPS" ["LF@param1"],
    Instr.line "MOVE" ["GF@return", "LF@param1"],
    Instr.line "POPFRAME" [],
    Instr.line "RETURN" [],
    Instr.line "" [],
    Instr.line "LABEL" ["$ifj_concat"],
    Instr.line "CREATEFRAME" [],
    Instr.line "PUSHFRAME" [],
    Instr.line "DEFVAR" ["LF@param1"],
    Instr.line "DEFVAR" ["LF@param2"],
    Instr.line "POPS" ["LF@param1"],
    Instr.line "POPS" ["LF@param2"],
    Instr.line "CONCAT" ["GF@return", "LF@param1", "LF@param2"],
    Instr.line "POPFRAME" [],
    Instr.line "RETURN" [],
    Instr.line "" [],
    Instr.line "LABEL" ["$ifj_length"],
    Instr.line "CREATEFRAME" [],
    Instr.line "PUSHFRAME" [],
    Instr.line "DEFVAR" ["LF@param1"],
    Instr.line "POPS" ["LF@param1"],
    Instr.line "STRLEN" ["GF@return", "LF@param1"],
    Instr.line "POPFRAME" [],
    Instr.line "RETURN" [],
    Instr.line "" [],
    Instr.line "LABEL" ["$ifj_chr"],
    Instr.line "CREATEFRAME" [],
    Instr.line "PUSHFRAME" [],
    Instr.line "DEFVAR" ["LF@param1"],
    Instr.line "POPS" ["LF@param1"],
    Instr.line "INT2CHAR" ["GF@return", "LF@param1"],
    Instr.line "POPFRAME" [],
    Instr.line "RETURN" [],
    Instr.line "" [],
    Instr.line "LABEL" ["$ifj_ord"],
    Instr.line "CREATEFRAME" [],
    Instr.line "PUSHFRAME" [],
    Instr.line "DEFVAR" ["LF@param1"],
    Instr.line "DEFVAR" ["LF@param2"],
    Instr.line "DEFVAR" ["LF@length"],
    Instr.line "DEFVAR" ["LF@char"],
    Instr.line "DEFVAR" ["LF@result"],
    Instr.line "DEFVAR" ["LF@type_check"],
    Instr.line "POPS" ["LF@param1"],
    Instr.line "POPS" ["LF@param2"],
    Instr.line "TYPE" ["LF@type_check", "LF@param1"],
    Instr.line "JUMPIFNEQ" ["$ord_error", "LF@type_check", "string@string"],
    Instr.line "STRLEN" ["LF@length", "LF@param1"],
    Instr.line "LT" ["GF@temp", "LF@param2", "int@0"],
    Instr.line "JUMPIFEQ" ["$ord_error", "GF@temp", "bool@true"],
    Instr.line "LT" ["GF@temp", "LF@param2", "LF@length"],
    Instr.line "JUMPIFEQ" ["$ord_inbounds", "GF@temp", "bool@true"],
    Instr.line "LABEL" ["$ord_error"],
    Instr.line "MOVE" ["GF@return", "int@0"],
    Instr.line "POPFRAME" [],
    Instr.line "RETURN" [],
    Instr.line "LABEL" ["$ord_inbounds"],
    Instr.line "STRI2INT" ["LF@result", "LF@param1", "LF@param2"],
    Instr.line "MOVE" ["GF@return", "LF@result"],
    Instr.line "POPFRAME" [],
    Instr.line "RETURN" [],
    Instr.line "" [],
    Instr.line "LABEL" ["$ifj_substring"],
    Instr.line "CREATEFRAME" [],
    Instr.line "PUSHFRAME" [],
    Instr.line "DEFVAR" ["LF@param1"],
    Instr.line "DEFVAR" ["LF@param2"],
    Instr.line "DEFVAR" ["LF@param3"],
    Instr.line "DEFVAR" ["LF@result"],
    Instr.line "DEFVAR" ["LF@char"],
    Instr.line "DEFVAR" ["LF@index"],
    Instr.line "DEFVAR" ["LF@end"],
    Instr.line "DEFVAR" ["LF@type_check"],
    Instr.line "MOVE" ["LF@result", "string@"],
    Instr.line "POPS" ["LF@param1"],
    Instr.line "POPS" ["LF@param2"],
    Instr.line "POPS" ["LF@param3"],
    Instr.line "TYPE" ["LF@type_check", "LF@param2"],
    Instr.line "JUMPIFNEQ" ["$substr_error", "LF@type_check", "string@int"],
    Instr.line "TYPE" ["LF@type_check", "LF@param3"],
    Instr.line "JUMPIFNEQ" ["$substr_error", "LF@type_check", "string@int"],
    Instr.line "LT" ["GF@temp", "LF@param2", "int@0"],
    Instr.line "JUMPIFEQ" ["$substr_error", "GF@temp", "bool@true"],
    Instr.line "LT" ["GF@temp", "LF@param3", "int@0"],
    Instr.line "JUMPIFEQ" ["$substr_error", "GF@temp", "bool@true"],
    Instr.line "ADD" ["LF@end", "LF@param2", "LF@param3"],
    Instr.line "MOVE" ["LF@index", "LF@param2"],
    Instr.line "LABEL" ["$substr_loop"],
    Instr.line "LT" ["GF@temp", "LF@index", "LF@end"],
    Instr.line "JUMPIFEQ" ["$substr_end", "GF@temp", "bool@false"],
    Instr.line "STRLEN" ["GF@temp", "LF@param1"],
    Instr.line "LT" ["GF@temp", "LF@index", "GF@temp"],
    Instr.line "JUMPIFEQ" ["$substr_error", "GF@temp", "bool@false"],
    Instr.line "STRI2INT" ["LF@char", "LF@param1", "LF@index"],
    Instr.line "INT2CHAR" ["LF@char", "LF@char"],
    Instr.line "CONCAT" ["LF@result", "LF@result", "LF@char"],
    Instr.line "ADD" ["LF@index", "LF@index", "int@1"],
    Instr.line "JUMP" ["$substr_loop"],
    Instr.line "LABEL" ["$substr_end"],
    Instr.line "MOVE" ["GF@return", "LF@result"],
    Instr.line "POPFRAME" [],
    Instr.line "RETURN" [],
    Instr.line "LABEL" ["$substr_error"],
    Instr.line "MOVE" ["GF@return", "nil@nil"],
    Instr.line "POPFRAME" [],
    Instr.line "RETURN" [],
    Instr.line "" [],
    Instr.line "LABEL" ["$ifj_strcmp"],
    Instr.line "CREATEFRAME" [],
    Instr.line "PUSHFRAME" [],
    Instr.line "DEFVAR" ["LF@result"],
    Instr.line "DEFVAR" ["LF@param1"],
    Instr.line "DEFVAR" ["LF@param2"],
    Instr.line "POPS" ["LF@param1"],
    Instr.line "POPS" ["LF@param2"],
    Instr.line "GT" ["LF@result", "LF@param1", "LF@param2"],
    Instr.line "JUMPIFEQ" ["$strcmp_greater", "GF@return", "bool@true"],
    Instr.line "LT" ["GF@return", "LF@param1", "LF@param2"],
    Instr.line "JUMPIFEQ" ["$strcmp_less", "GF@return", "bool@true"],
    Instr.line "MOVE" ["GF@return", "int@0"],
    Instr.line "POPFRAME" [],
    Instr.line "RETURN" [],
    Instr.line "LABEL" ["$strcmp_greater"],
    Instr.line "MOVE" ["GF@return", "int@1"],
    Instr.line "POPFRAME" [],
    Instr.line "RETURN" [],
    Instr.line "LABEL" ["$strcmp_less"],
    Instr.line "MOVE" ["GF@return", "int@-1"],
    Instr.line "POPFRAME" [],
    Instr.line "RETURN" [] ]

/-- The function `gen_header`. -/
def gen_header : List Instr :=
  [Instr.line ".IFJcode24" [], Instr.line "DEFVAR" ["GF@return"],
   Instr.line "DEFVAR" ["GF@_discard"], Instr.line "DEFVAR" ["GF@temp"],
   Instr.line "JUMP" ["$main"]] ++ gen_builtin_functions

/-- The function `generator_init`. -/
def generator_init (s : PState) : PState :=
  { s with if_stack := [], while_stack := [], label_counter := 0 }

/-! ## Declarations and statements (`parser.c`) -/

def ERROR_SEMANTIC_REDEFINITION : Nat := 5
def ERROR_SEMANTIC_MISSING_OR_ABSENT_EXPRESSION_IN_RETURN : Nat := 6
def ERROR_SEMANTIC_TYPE_INFERENCE_FAILURE : Nat := 8

/-- The function `parse_type`: `true` for the return value 0. -/
def parse_type (s : PState) : Bool :=
  (current_token s).type = token_type.KW_INT_TYPE ∨
  (current_token s).type = token_type.KW_FLOAT_TYPE ∨
  (current_token s).type = token_type.KW_STRING_TYPE ∨
  (current_token s).type = token_type.TOKEN_INT_NULL ∨
  (current_token s).type = token_type.TOKEN_FLOAT_NULL ∨
  (current_token s).type = token_type.TOKEN_STRING_NULL

/-- The `switch (current_token->type)` that maps a type token to its `data_type`; `none` is
the `default` branch. -/
def type_of_token : token_type → Option data_type
  | token_type.KW_INT_TYPE => some data_type.int_type
  | token_type.KW_FLOAT_TYPE => some data_type.float_type
  | token_type.KW_STRING_TYPE => some data_type.string_type
  | token_type.TOKEN_INT_NULL => some data_type.null_int_type
  | token_type.TOKEN_FLOAT_NULL => some data_type.null_float_type
  | token_type.TOKEN_STRING_NULL => some data_type.null_string_type
  | _ => none

/-- The function `func_data_add_param`: `params[paramCount++] = paramType`. -/
def func_data_add_param (func_data : func_data_t) (paramType : data_type) : func_data_t :=
  { func_data with
    params := func_data.params.take func_data.paramCount ++ [paramType],
    paramCount := func_data.paramCount + 1 }

/-- The function `parse_parameter`. `func_data` is the callee data the pointer argument
points to; the data after the call is returned with the state. In pass 1
(`first_control`) the type is added to the parameter vector; in pass 2 the parameter is
entered as a constant of the current level and its `DEFVAR` / `POPS` are printed. -/
def parse_parameter (func_data : func_data_t) (s : PState) : Res PState (func_data_t × PState) :=
  if (current_token s).type ≠ token_type.TOKEN_ID then Res.exit ERROR_SYNTAX_ANALYSIS
  else
    match (current_token s).attr_s with
    | none => Res.crash
    | some param_name =>
      if ¬ s.first_control ∧
          (symtable_find_in_scope s.symbol_table param_name s.symbol_table.scope_level).isSome then
        Res.exit ERROR_SEMANTIC_REDEFINITION
      else
        let s1 := fetch_next_token s
        if (current_token s1).type ≠ token_type.TOKEN_TWODOT then Res.exit ERROR_SYNTAX_ANALYSIS
        else
          let s2 := fetch_next_token s1
          if parse_type s2 then
            match type_of_token (current_token s2).type with
            | none => Res.exit ERROR_SYNTAX_ANALYSIS
            | some param_type =>
              if s2.first_control then
                Res.ok (func_data_add_param func_data param_type, fetch_next_token s2)
              else
                let table := symtable_insert_variable s2.symbol_table param_name
                  { name := param_name, type := param_type, isUsed := false }
                  s2.symbol_table.scope_level true
                let s3 : PState := { s2 with symbol_table := table }
                Res.ok (func_data, fetch_next_token
                  (emit s3 (gen_defvar param_name ++ gen_pop_operand (some param_name))))
          else Res.exit ERROR_SYNTAX_ANALYSIS

/-- The `do ... while` loop of `parse_parameters`, one iteration per unit of fuel. -/
def parse_parameters_loop : Nat → func_data_t → PState → Res PState (func_data_t × PState)
  | 0, _, _ => Res.timeout
  | fuel + 1, func_data, s =>
    (parse_parameter func_data s).bind fun (func_data1, s1) =>
      if (current_token s1).type = token_type.TOKEN_COMMA then
        let s2 := fetch_next_token s1
        if (current_token s2).type ≠ token_type.TOKEN_ID then Res.exit ERROR_SYNTAX_ANALYSIS
        else if (current_token s2).type ≠ token_type.TOKEN_CLOSING_PARENTHESES then
          parse_parameters_loop fuel func_data1 s2
        else Res.ok (func_data1, s2)
      else if (current_token s1).type ≠ token_type.TOKEN_CLOSING_PARENTHESES then
        Res.exit ERROR_SYNTAX_ANALYSIS
      else Res.ok (func_data1, s1)

/-- The function `parse_parameters`. -/
def parse_parameters (fuel : Nat) (func_data : func_data_t) (s : PState) :
    Res PState (func_data_t × PState) :=
  let func_data0 :=
    if s.first_control then { func_data with paramCount := 0, params := [] } else func_data
  if (current_token s).type = token_type.TOKEN_CLOSING_PARENTHESES then Res.ok (func_data0, s)
  else parse_parameters_loop fuel func_data0 s

/-- The function `parse_return_type`. -/
def parse_return_type (func_data : func_data_t) (s : PState) :
    Res PState (func_data_t × PState) :=
  if (current_token s).type = token_type.KW_VOID then
    Res.ok ({ func_data with returnType := data_type.void_type }, fetch_next_token s)
  else if parse_type s then
    match type_of_token (current_token s).type with
    | none => Res.exit ERROR_SYNTAX_ANALYSIS
    | some type => Res.ok ({ func_data with returnType := type }, fetch_next_token s)
  else Res.exit ERROR_SYNTAX_ANALYSIS

/-- The write through the pointer `func_data` that the symbol table entry of the function
shares: the first item of the chain with this key gets the new callee data. -/
def chain_set_func_data (key : String) (func_data : func_data_t) :
    List symtable_item_t → List symtable_item_t
  | [] => []
  | item :: rest =>
    if item.key == key then
      { item with value := { item.value with funcData := some func_data } } :: rest
    else item :: chain_set_func_data key func_data rest

/-- Apply `chain_set_func_data` to the bucket of `key`. -/
def symtable_set_func_data (table : symtable_t) (key : String) (func_data : func_data_t) :
    symtable_t :=
  { table with items := fun i =>
      if i = hash_function key then chain_set_func_data key func_data (table.items i)
      else table.items i }

/-- The loop `while (type != KW_PUB && type != TOKEN_EOF) fetch_next_token()` that skips a
function body in pass 1. -/
def skip_to_pub (s : PState) : PState :=
  let rest := s.tokens.dropWhile
    (fun t => t.type ≠ token_type.KW_PUB ∧ t.type ≠ token_type.TOKEN_EOF)
  { s with tokens := rest }

/-- The function `parse_function_header` (pass 1). The callee data is entered into the
symbol table first and filled in through the shared pointer afterwards. -/
def parse_function_header (fuel : Nat) (s : PState) : Res PState PState :=
  if (current_token s).type ≠ token_type.TOKEN_ID then Res.exit ERROR_SYNTAX_ANALYSIS
  else
    match (current_token s).attr_s with
    | none => Res.crash
    | some func_name =>
      if (symtable_find s.symbol_table func_name).isSome then Res.exit ERROR_SEMANTIC_REDEFINITION
      else
        let is_main : Bool := func_name = "main"
        let func_data : func_data_t :=
          { name := func_name, isDefined := true, paramCount := 0, params := [],
            returnType := data_type.void_type }
        let table := symtable_insert_function s.symbol_table func_name func_data
          s.symbol_table.scope_level
        let s1 := fetch_next_token { s with symbol_table := table }
        if (current_token s1).type ≠ token_type.TOKEN_OPENING_PARENTHESES then
          Res.exit ERROR_SYNTAX_ANALYSIS
        else
          match parse_parameters fuel func_data (fetch_next_token s1) with
          | Res.ok (func_data1, s2) =>
            let s3 := { s2 with
              symbol_table := symtable_set_func_data s2.symbol_table func_name func_data1 }
            if (current_token s3).type ≠ token_type.TOKEN_CLOSING_PARENTHESES then
              Res.exit ERROR_SYNTAX_ANALYSIS
            else if is_main ∧ func_data1.paramCount > 0 then
              Res.exit ERROR_SEMANTIC_INCORRECT_FUNCTION_PARAMETERS_OR_RETURN_VALUE
            else
              match parse_return_type func_data1 (fetch_next_token s3) with
              | Res.ok (func_data2, s4) =>
                let s5 := { s4 with
                  symbol_table := symtable_set_func_data s4.symbol_table func_name func_data2 }
                if is_main ∧ func_data2.returnType ≠ data_type.void_type then
                  Res.exit ERROR_SEMANTIC_INCORRECT_FUNCTION_PARAMETERS_OR_RETURN_VALUE
                else if (current_token s5).type ≠ token_type.TOKEN_OPENING_BRACKET then
                  Res.exit ERROR_SYNTAX_ANALYSIS
                else Res.ok (skip_to_pub s5)
              | Res.fail _ =>
                Res.exit ERROR_SEMANTIC_INCORRECT_FUNCTION_PARAMETERS_OR_RETURN_VALUE
              | Res.exit code => Res.exit code
              | Res.crash => Res.crash
              | Res.timeout => Res.timeout
          | Res.fail _ => Res.exit ERROR_SEMANTIC_INCORRECT_FUNCTION_PARAMETERS_OR_RETURN_VALUE
          | Res.exit code => Res.exit code
          | Res.crash => Res.crash
          | Res.timeout => Res.timeout

/-- The common body of `parse_var_decl` (`keyword = KW_VAR`, `isConst = false`) and of
`parse_const_decl` (`keyword = KW_CONST`, `isConst = true`), which differ in nothing else:
`keyword id [: type] = expression ;`. The local `type_specified` is `annot.isSome`. -/
def parse_decl (pe : PState → Res PState (data_type × PState)) (keyword : token_type)
    (isConst : Bool) (s : PState) : Res PState PState :=
  if (current_token s).type ≠ keyword then Res.exit ERROR_SYNTAX_ANALYSIS
  else
    let s1 := fetch_next_token s
    if (current_token s1).type ≠ token_type.TOKEN_ID then Res.exit ERROR_SYNTAX_ANALYSIS
    else
      match (current_token s1).attr_s with
      | none => Res.crash
      | some name =>
        if (symtable_find s1.symbol_table name).isSome then Res.exit ERROR_SEMANTIC_REDEFINITION
        else
          let s2 := fetch_next_token s1
          let type_clause : Res PState (Option data_type × PState) :=
            if (current_token s2).type = token_type.TOKEN_TWODOT then
              let s3 := fetch_next_token s2
              if parse_type s3 then
                match type_of_token (current_token s3).type with
                | none => Res.exit ERROR_SYNTAX_ANALYSIS
                | some type => Res.ok (some type, fetch_next_token s3)
              else Res.fail s3
            else Res.ok (none, s2)
          type_clause.bind fun (annot, s4) =>
            if (current_token s4).type ≠ token_type.TOKEN_ASSIGN then
              Res.exit ERROR_SYNTAX_ANALYSIS
            else
              match parse_expression pe (emit (fetch_next_token s4) (gen_defvar name)) with
              | Res.ok (expr_type, s6) =>
                if expr_type = data_type.null then Res.exit ERROR_SEMANTIC_TYPE_INCOMPATIBILITY
                else if (expr_type = data_type.null ∨ expr_type = data_type.null_type) ∧
                    annot = none then
                  Res.exit ERROR_SEMANTIC_TYPE_INFERENCE_FAILURE
                else
                  let checked : Option data_type :=
                    match annot with
                    | none => some expr_type
                    | some type => if is_type_compatible type expr_type then some type else none
                  match checked with
                  | none => Res.exit ERROR_SEMANTIC_TYPE_INCOMPATIBILITY
                  | some var_type =>
                    let s7 := emit s6 (gen_pop_operand (some name))
                    if (current_token s7).type ≠ token_type.TOKEN_SEMICOLON then
                      Res.exit ERROR_SYNTAX_ANALYSIS
                    else
                      let table := symtable_insert_variable s7.symbol_table name
                        { name := name, type := var_type, isUsed := false }
                        s7.symbol_table.scope_level isConst
                      let s8 : PState := { s7 with symbol_table := table }
                      Res.ok (fetch_next_token s8)
              | Res.fail _ => Res.exit ERROR_SYNTAX_ANALYSIS
              | Res.exit code => Res.exit code
              | Res.crash => Res.crash
              | Res.timeout => Res.timeout

/-- The function `parse_var_decl`. -/
def parse_var_decl (pe : PState → Res PState (data_type × PState)) (s : PState) :
    Res PState PState :=
  parse_decl pe token_type.KW_VAR false s

/-- The function `parse_const_decl`. -/
def parse_const_decl (pe : PState → Res PState (data_type × PState)) (s : PState) :
    Res PState PState :=
  parse_decl pe token_type.KW_CONST true s

/-- The function `parse_assignment`; `id_name = none` is the NULL name of `_ = expr;`.
On entry `current_token` is the `=`. -/
def parse_assignment (pe : PState → Res PState (data_type × PState))
    (id_name : Option String) (s : PState) : Res PState PState :=
  match id_name with
  | some var_name =>
    match symtable_find s.symbol_table var_name with
    | none => Res.exit ERROR_SEMANTIC_UNDEFINED_FUNCTION_OR_VARIABLE
    | some entry =>
      match entry.varData with
      | none => Res.crash
      | some var_data =>
        let s1 : PState :=
          { s with symbol_table := symtable_mark_used s.symbol_table var_name }
        if entry.type = symbol_type.const_t then Res.exit ERROR_SEMANTIC_REDEFINITION
        else if (current_token s1).type ≠ token_type.TOKEN_ASSIGN then
          Res.exit ERROR_SYNTAX_ANALYSIS
        else
          (parse_expression pe (fetch_next_token s1)).bind fun (expr_type, s2) =>
            if (current_token s2).type ≠ token_type.TOKEN_SEMICOLON then
              Res.exit ERROR_SYNTAX_ANALYSIS
            else if ¬ is_type_compatible var_data.type expr_type then
              Res.exit ERROR_SEMANTIC_TYPE_INCOMPATIBILITY
            else Res.ok (emit (fetch_next_token s2) (gen_pop_operand (some var_data.name)))
  | none =>
    if (current_token s).type ≠ token_type.TOKEN_ASSIGN then Res.exit ERROR_SYNTAX_ANALYSIS
    else
      (parse_expression pe (fetch_next_token s)).bind fun (_, s2) =>
        let s3 := emit s2 (gen_pop_operand none)
        if (current_token s3).type ≠ token_type.TOKEN_SEMICOLON then
          Res.exit ERROR_SYNTAX_ANALYSIS
        else Res.ok (fetch_next_token s3)

/-- The function `parse_return_statement`; a NULL `current_function` crashes where its
`returnType` is read. -/
def parse_return_statement (pe : PState → Res PState (data_type × PState)) (s : PState) :
    Res PState PState :=
  if (current_token s).type ≠ token_type.KW_RETURN then Res.exit ERROR_SYNTAX_ANALYSIS
  else
    let s1 := fetch_next_token s
    if (current_token s1).type = token_type.TOKEN_SEMICOLON then
      match s1.current_function with
      | none => Res.crash
      | some current_function =>
        if current_function.returnType ≠ data_type.void_type then
          Res.exit ERROR_SEMANTIC_MISSING_OR_ABSENT_EXPRESSION_IN_RETURN
        else
          let s2 := emit (fetch_next_token s1) gen_func_end
          Res.ok { s2 with has_return := true }
    else
      match parse_expression pe s1 with
      | Res.ok (expr_type, s2) =>
        if (current_token s2).type ≠ token_type.TOKEN_SEMICOLON then
          Res.exit ERROR_SYNTAX_ANALYSIS
        else
          match s2.current_function with
          | none => Res.crash
          | some current_function =>
            if current_function.returnType = data_type.void_type then
              Res.exit ERROR_SEMANTIC_MISSING_OR_ABSENT_EXPRESSION_IN_RETURN
            else if current_function.returnType ≠ expr_type then
              Res.exit ERROR_SEMANTIC_INCORRECT_FUNCTION_PARAMETERS_OR_RETURN_VALUE
            else
              let s3 := fetch_next_token s2
              Res.ok (emit { s3 with has_return := true } gen_return)
      | Res.fail _ => Res.exit ERROR_SEMANTIC_MISSING_OR_ABSENT_EXPRESSION_IN_RETURN
      | Res.exit code => Res.exit code
      | Res.crash => Res.crash
      | Res.timeout => Res.timeout

/-- The tail shared by every block of `if` / `else` / `while`: after `symtable_enter_scope`
and the binding (if any), `fetch_next_token`, `parse_statements`, the check for `}`. A
failing `parse_statements` leaves the scope (`symtable_exit_scope`) and returns -1. -/
def parse_block_body (stmts : PState → Res PState PState) (s : PState) : Res PState PState :=
  match stmts s with
  | Res.ok s1 =>
    if (current_token s1).type ≠ token_type.TOKEN_CLOSING_BRACKET then
      Res.exit ERROR_SYNTAX_ANALYSIS
    else Res.ok s1
  | Res.fail e => Res.fail { e with symbol_table := symtable_exit_scope e.symbol_table }
  | Res.exit code => Res.exit code
  | Res.crash => Res.crash
  | Res.timeout => Res.timeout

/-- The statements `check_unused_variables_in_scope(...) != 0 -> error_exit(9)` that
precede a regular scope exit. -/
def check_unused (s : PState) : Res PState PState :=
  if check_unused_variables_in_scope s.symbol_table ≠ 0 then
    Res.exit ERROR_SEMANTIC_UNUSED_VARIABLE
  else Res.ok s

/-- The call `symtable_enter_scope(symbol_table)`. -/
def enter_scope (s : PState) : PState :=
  { s with symbol_table := symtable_enter_scope s.symbol_table }

/-- The call `symtable_exit_scope(symbol_table)`. -/
def exit_scope (s : PState) : PState :=
  { s with symbol_table := symtable_exit_scope s.symbol_table }

/-- The `else { ... }` part of `parse_if_statement` and `parse_if_nullable_statement`, from
the check for `else` (after which `gen_else`, if given here, prints) to the end. -/
def parse_else_block (stmts : PState → Res PState PState)
    (gen_else gen_end : PState → Res PState PState) (s : PState) : Res PState PState :=
  if (current_token s).type ≠ token_type.KW_ELSE then Res.exit ERROR_SYNTAX_ANALYSIS
  else
    (gen_else s).bind fun s0 =>
      let s1 := fetch_next_token s0
      if (current_token s1).type ≠ token_type.TOKEN_OPENING_BRACKET then
        Res.exit ERROR_SYNTAX_ANALYSIS
      else
        (parse_block_body stmts (fetch_next_token (enter_scope s1))).bind fun s2 =>
          (check_unused (fetch_next_token s2)).bind fun s3 => gen_end (exit_scope s3)

/-- The type given to the binding of a nullable-unwrap `if` / `while`. -/
def unwrapped_type (cond_type : data_type) : data_type :=
  if cond_type = data_type.null_int_type then data_type.int_type
  else if cond_type = data_type.null_float_type then data_type.float_type
  else if cond_type = data_type.null_string_type then data_type.string_type
  else cond_type

/-- The insertion of the binding `|id|` at the current level, skipped when the condition
has type `null_type` or `null`; a binding already present at this level exits with 5. -/
def insert_binding (id_name : String) (cond_type : data_type) (s : PState) : Res PState PState :=
  if (symtable_find_in_scope s.symbol_table id_name s.symbol_table.scope_level).isSome then
    Res.exit ERROR_SEMANTIC_REDEFINITION
  else if cond_type ≠ data_type.null_type ∧ cond_type ≠ data_type.null then
    let table := symtable_insert_variable s.symbol_table id_name
      { name := id_name, type := unwrapped_type cond_type, isUsed := false }
      s.symbol_table.scope_level false
    Res.ok { s with symbol_table := table }
  else Res.ok s

/-- The function `parse_if_nullable_statement`. -/
def parse_if_nullable_statement (stmts : PState → Res PState PState) (cond_type : data_type)
    (s : PState) : Res PState PState :=
  if (current_token s).type ≠ token_type.TOKEN_VERTICAL_BAR then Res.exit ERROR_SYNTAX_ANALYSIS
  else
    let s1 := fetch_next_token s
    if (current_token s1).type ≠ token_type.TOKEN_ID then Res.exit ERROR_SYNTAX_ANALYSIS
    else
      match (current_token s1).attr_s with
      | none => Res.crash
      | some id_name =>
        let s2 := fetch_next_token (gen_if_nullable_start id_name s1)
        if (current_token s2).type ≠ token_type.TOKEN_VERTICAL_BAR then
          Res.exit ERROR_SYNTAX_ANALYSIS
        else
          let s3 := fetch_next_token s2
          if (current_token s3).type ≠ token_type.TOKEN_OPENING_BRACKET then
            Res.exit ERROR_SYNTAX_ANALYSIS
          else
            (insert_binding id_name cond_type (enter_scope s3)).bind fun s4 =>
              (parse_block_body stmts (fetch_next_token s4)).bind fun s5 =>
                (check_unused (fetch_next_token s5)).bind fun s6 =>
                  parse_else_block stmts gen_if_nullable_else gen_if_nullable_end
                    (exit_scope s6)

/-- The function `parse_if_statement`. -/
def parse_if_statement (pe : PState → Res PState (data_type × PState))
    (stmts : PState → Res PState PState) (s : PState) : Res PState PState :=
  let s1 := fetch_next_token s
  if (current_token s1).type ≠ token_type.TOKEN_OPENING_PARENTHESES then
    Res.exit ERROR_SYNTAX_ANALYSIS
  else
    (parse_expression pe (fetch_next_token s1)).bind fun (cond_type, s2) =>
      if (current_token s2).type ≠ token_type.TOKEN_CLOSING_PARENTHESES then
        Res.exit ERROR_SYNTAX_ANALYSIS
      else
        let s3 := fetch_next_token s2
        if (current_token s3).type = token_type.TOKEN_VERTICAL_BAR then
          parse_if_nullable_statement stmts cond_type s3
        else if cond_type ≠ data_type.bool_type then
          Res.exit ERROR_SEMANTIC_TYPE_INCOMPATIBILITY
        else
          let s4 := gen_if_start s3
          if (current_token s4).type ≠ token_type.TOKEN_OPENING_BRACKET then
            Res.exit ERROR_SYNTAX_ANALYSIS
          else
            (parse_block_body stmts (fetch_next_token (enter_scope s4))).bind fun s5 =>
              (check_unused (fetch_next_token s5)).bind fun s6 =>
                (gen_if_else s6).bind fun s7 =>
                  parse_else_block stmts Res.ok gen_if_end (exit_scope s7)

/-- The function `parse_while_nullable_statement`. -/
def parse_while_nullable_statement (stmts : PState → Res PState PState)
    (cond_type : data_type) (s : PState) : Res PState PState :=
  if (current_token s).type ≠ token_type.TOKEN_VERTICAL_BAR then Res.exit ERROR_SYNTAX_ANALYSIS
  else
    let s1 := fetch_next_token s
    if (current_token s1).type ≠ token_type.TOKEN_ID then Res.exit ERROR_SYNTAX_ANALYSIS
    else
      match (current_token s1).attr_s with
      | none => Res.crash
      | some id_name =>
        (gen_while_nullable_cond id_name s1).bind fun s1g =>
          let s2 := fetch_next_token s1g
          if (current_token s2).type ≠ token_type.TOKEN_VERTICAL_BAR then
            Res.exit ERROR_SYNTAX_ANALYSIS
          else
            let s3 := fetch_next_token s2
            if (current_token s3).type ≠ token_type.TOKEN_OPENING_BRACKET then
              Res.exit ERROR_SYNTAX_ANALYSIS
            else
              (insert_binding id_name cond_type (enter_scope (fetch_next_token s3))).bind
                fun s4 =>
                  (parse_block_body stmts s4).bind fun s5 =>
                    (check_unused (fetch_next_token s5)).bind fun s6 =>
                      (gen_while_nullable_end s6).bind fun s7 => Res.ok (exit_scope s7)

/-- The function `parse_while_statement`. -/
def parse_while_statement (pe : PState → Res PState (data_type × PState))
    (stmts : PState → Res PState PState) (s : PState) : Res PState PState :=
  let s1 := fetch_next_token s
  if (current_token s1).type ≠ token_type.TOKEN_OPENING_PARENTHESES then
    Res.exit ERROR_SYNTAX_ANALYSIS
  else
    (parse_expression pe (fetch_next_token (gen_while_start s1))).bind fun (cond_type, s2) =>
      if (current_token s2).type ≠ token_type.TOKEN_CLOSING_PARENTHESES then
        Res.exit ERROR_SYNTAX_ANALYSIS
      else
        let s3 := fetch_next_token s2
        if (current_token s3).type = token_type.TOKEN_VERTICAL_BAR then
          parse_while_nullable_statement stmts cond_type s3
        else if cond_type ≠ data_type.bool_type then
          Res.exit ERROR_SEMANTIC_TYPE_INCOMPATIBILITY
        else if (current_token s3).type ≠ token_type.TOKEN_OPENING_BRACKET then
          Res.exit ERROR_SYNTAX_ANALYSIS
        else
          (gen_while_cond s3).bind fun s4 =>
            (parse_block_body stmts (fetch_next_token (enter_scope s4))).bind fun s5 =>
              (check_unused s5).bind fun s6 =>
                (gen_while_end (exit_scope s6)).bind fun s7 => Res.ok (fetch_next_token s7)

/-- The function `parse_statement`; `stmts` is `parse_statements` for the nested blocks. -/
def parse_statement (pe : PState → Res PState (data_type × PState)) (fuel : Nat)
    (stmts : PState → Res PState PState) (s : PState) : Res PState PState :=
  match (current_token s).type with
  | token_type.KW_VAR => parse_var_decl pe s
  | token_type.KW_CONST => parse_const_decl pe s
  | token_type.TOKEN_ID =>
    match (current_token s).attr_s with
    | none => Res.exit ERROR_INTERNAL_COMPILER_ERROR
    | some id_name =>
      let s1 := fetch_next_token s
      if (current_token s1).type = token_type.TOKEN_ASSIGN then
        parse_assignment pe (some id_name) s1
      else if (current_token s1).type = token_type.TOKEN_OPENING_PARENTHESES then
        parse_function_call pe fuel id_name s1
      else Res.exit ERROR_SYNTAX_ANALYSIS
  | token_type.TOKEN_UNDERSCORE => parse_assignment pe none (fetch_next_token s)
  | token_type.KW_IF => parse_if_statement pe stmts s
  | token_type.KW_WHILE => parse_while_statement pe stmts s
  | token_type.KW_RETURN => parse_return_statement pe s
  | token_type.TOKEN_CLOSING_BRACKET => Res.ok s
  | _ => Res.exit ERROR_SYNTAX_ANALYSIS

/-- The function `parse_statements`: its `while` loop gets one unit of fuel per iteration,
and the statements of a nested block get the fuel that is left. -/
def parse_statements (pe : PState → Res PState (data_type × PState)) :
    Nat → PState → Res PState PState
  | 0, _ => Res.timeout
  | fuel + 1, s =>
    if (current_token s).type ≠ token_type.TOKEN_CLOSING_BRACKET then
      match parse_statement pe (fuel + 1) (parse_statements pe fuel) s with
      | Res.ok s1 => parse_statements pe fuel s1
      | Res.fail _ => Res.exit ERROR_SYNTAX_ANALYSIS
      | Res.exit code => Res.exit code
      | Res.crash => Res.crash
      | Res.timeout => Res.timeout
    else Res.ok s

/-- The loop `while (current_token->type != TOKEN_OPENING_BRACKET) fetch_next_token()` of
`parse_function_definition`; it does not end when no `{` is left (`none`). -/
def skip_to_opening_bracket (s : PState) : Option PState :=
  match s.tokens.dropWhile (fun t => t.type ≠ token_type.TOKEN_OPENING_BRACKET) with
  | [] => none
  | rest => some { s with tokens := rest }

/-- The function `parse_function_definition` (pass 2). -/
def parse_function_definition (pe : PState → Res PState (data_type × PState)) (fuel : Nat)
    (s : PState) : Res PState PState :=
  if (current_token s).type ≠ token_type.TOKEN_ID then Res.exit ERROR_SYNTAX_ANALYSIS
  else
    match (current_token s).attr_s with
    | none => Res.crash
    | some func_name =>
      match symtable_find s.symbol_table func_name with
      | none => Res.exit ERROR_SEMANTIC_UNDEFINED_FUNCTION_OR_VARIABLE
      | some entry =>
        if entry.type ≠ symbol_type.fn_t then
          Res.exit ERROR_SEMANTIC_UNDEFINED_FUNCTION_OR_VARIABLE
        else
          match entry.funcData with
          | none => Res.crash
          | some func_data =>
            let s1 := fetch_next_token (enter_scope (emit s (gen_func_start func_data.name)))
            if (current_token s1).type ≠ token_type.TOKEN_OPENING_PARENTHESES then
              Res.exit ERROR_SYNTAX_ANALYSIS
            else
              match parse_parameters fuel func_data (fetch_next_token s1) with
              | Res.ok (_, s2) =>
                if (current_token s2).type ≠ token_type.TOKEN_CLOSING_PARENTHESES then
                  Res.exit ERROR_SYNTAX_ANALYSIS
                else
                  match skip_to_opening_bracket s2 with
                  | none => Res.timeout
                  | some s3 =>
                    let s4 : PState :=
                      { fetch_next_token s3 with
                        current_function := some func_data, has_return := false }
                    (parse_statements pe fuel s4).bind fun s5 =>
                      if (current_token s5).type ≠ token_type.TOKEN_CLOSING_BRACKET then
                        Res.exit ERROR_SYNTAX_ANALYSIS
                      else if func_data.returnType ≠ data_type.void_type ∧ ¬ s5.has_return then
                        Res.exit ERROR_SEMANTIC_MISSING_OR_ABSENT_EXPRESSION_IN_RETURN
                      else
                        let s6 :=
                          if func_data.returnType = data_type.void_type ∧ ¬ s5.has_return then
                            emit s5 [Instr.line "POPFRAME" []]
                          else s5
                        let s7 :=
                          if func_data.name = "main" then
                            emit s6 [Instr.line "EXIT" ["int@0"]]
                          else s6
                        (check_unused s7).bind fun s8 =>
                          Res.ok (fetch_next_token (exit_scope s8))
              | Res.fail _ =>
                Res.exit ERROR_SEMANTIC_INCORRECT_FUNCTION_PARAMETERS_OR_RETURN_VALUE
              | Res.exit code => Res.exit code
              | Res.crash => Res.crash
              | Res.timeout => Res.timeout

/-- The function `parse_prologue`: `const ifj = @import("ifj24.zig");`. -/
def parse_prologue (s : PState) : Res PState PState :=
  if (current_token s).type ≠ token_type.KW_CONST then Res.exit ERROR_SYNTAX_ANALYSIS
  else
    let s1 := fetch_next_token s
    if (current_token s1).type ≠ token_type.TOKEN_ID ∨ (current_token s1).attr_s ≠ some "ifj" then
      Res.exit ERROR_SYNTAX_ANALYSIS
    else
      let s2 := fetch_next_token s1
      if (current_token s2).type ≠ token_type.TOKEN_ASSIGN then Res.exit ERROR_SYNTAX_ANALYSIS
      else
        let s3 := fetch_next_token s2
        if (current_token s3).type ≠ token_type.TOKEN_IMPORT then Res.exit ERROR_SYNTAX_ANALYSIS
        else
          let s4 := fetch_next_token s3
          if (current_token s4).type ≠ token_type.TOKEN_OPENING_PARENTHESES then
            Res.exit ERROR_SYNTAX_ANALYSIS
          else
            let s5 := fetch_next_token s4
            if (current_token s5).type ≠ token_type.TOKEN_STRING ∨
                (current_token s5).attr_s ≠ some "ifj24.zig" then
              Res.exit ERROR_SYNTAX_ANALYSIS
            else
              let s6 := fetch_next_token s5
              if (current_token s6).type ≠ token_type.TOKEN_CLOSING_PARENTHESES then
                Res.exit ERROR_SYNTAX_ANALYSIS
              else
                let s7 := fetch_next_token s6
                if (current_token s7).type ≠ token_type.TOKEN_SEMICOLON then
                  Res.exit ERROR_SYNTAX_ANALYSIS
                else Res.ok (fetch_next_token s7)

/-- The first `while (current_token->type == KW_PUB)` loop of `parse_program` (pass 1) with
its local `hasMain`; gives the final `hasMain` and state. The token after `fn` is tested
through `attribute.s`: a NULL pointer exits with 2, a payload that is no string crashes. -/
def parse_program_pass1 : Nat → Bool → PState → Res PState (Bool × PState)
  | 0, _, _ => Res.timeout
  | fuel + 1, hasMain, s =>
    if (current_token s).type = token_type.KW_PUB then
      let s1 := fetch_next_token s
      if (current_token s1).type ≠ token_type.KW_FN then Res.exit ERROR_SYNTAX_ANALYSIS
      else
        let s2 := fetch_next_token s1
        match (current_token s2).attr with
        | token_attribute.none => Res.exit ERROR_SYNTAX_ANALYSIS
        | token_attribute.s name =>
          let hasMain1 : Bool := if name = "main" then true else hasMain
          (parse_function_header fuel s2).bind fun s3 =>
            if (current_token s3).type = token_type.TOKEN_EOF then Res.ok (hasMain1, s3)
            else parse_program_pass1 fuel hasMain1 s3
        | _ => Res.crash
    else Res.ok (hasMain, s)

/-- The second `while (current_token->type == KW_PUB)` loop of `parse_program` (pass 2). -/
def parse_program_pass2 (pe : PState → Res PState (data_type × PState)) :
    Nat → PState → Res PState PState
  | 0, _ => Res.timeout
  | fuel + 1, s =>
    if (current_token s).type = token_type.KW_PUB then
      let s1 := fetch_next_token s
      if (current_token s1).type ≠ token_type.KW_FN then Res.exit ERROR_SYNTAX_ANALYSIS
      else
        (parse_function_definition pe fuel (fetch_next_token s1)).bind fun s2 =>
          if (current_token s2).type = token_type.TOKEN_EOF then Res.ok s2
          else parse_program_pass2 pe fuel s2
    else Res.ok s

/-- The function `parser_init` on the token stream `source` of the input file; the run
is on the heap of `held_reads`. -/
def parser_init (source : List token_t) : PState :=
  { tokens := source, symbol_table := symtable_create TABLE_SIZE, bracket_count := 0,
    main_stack := [], temp_stack := [], is_main_stack := true, out := [],
    current_function := none, has_return := false, first_control := true,
    label_counter := 0, if_stack := [], while_stack := [], freed_reads := held_reads }

/-- The part of `parse_program` up to the test of `hasMain` (pass 1). -/
def parse_program_first (fuel : Nat) (s : PState) : Res PState PState :=
  (parse_prologue (generator_init s)).bind fun s1 =>
    if (current_token s1).type ≠ token_type.KW_PUB then Res.exit ERROR_SYNTAX_ANALYSIS
    else
      (parse_program_pass1 fuel false s1).bind fun (hasMain, s2) =>
        if ¬ hasMain then Res.exit ERROR_SEMANTIC_UNDEFINED_FUNCTION_OR_VARIABLE
        else Res.ok s2

/-- The function `parse_program`; `source` is what `rewind_file` makes the scanner deliver
again. The return value of the second `parse_prologue()` is not looked at. -/
def parse_program (pe : PState → Res PState (data_type × PState)) (fuel : Nat)
    (source : List token_t) (s : PState) : Res PState PState :=
  (parse_program_first fuel s).bind fun s2 =>
    let s3 : PState := { s2 with tokens := source, first_control := false }
    match parse_prologue s3 with
    | Res.ok s4 => parse_program_pass2 pe fuel (emit s4 gen_header)
    | Res.fail e => parse_program_pass2 pe fuel (emit e gen_header)
    | Res.exit code => Res.exit code
    | Res.crash => Res.crash
    | Res.timeout => Res.timeout

/-- The function `main` of `main.c` on the token stream of standard input: the exit code
of the process and the lines printed (`none` when the model crashed or ran out of fuel). -/
def compile (depth fuel : Nat) (source : List token_t) : Option (Nat × List Instr) :=
  match parse_program (parse_expr_rec depth fuel) fuel source (parser_init source) with
  | Res.ok s => some (0, s.out)
  | Res.fail _ => some (ERROR_SYNTAX_ANALYSIS, [])
  | Res.exit code => some (code, [])
  | Res.crash => none
  | Res.timeout => none


/-! ## Running the parser on a token list -/

/-- The parser state at the start of a statement of pass 2: both precedence stacks empty,
nothing printed, no label drawn yet, on the heap of `held_reads`. -/
def init_state (table : symtable_t) (tokens : List token_t) : PState :=
  { tokens := tokens, symbol_table := table, bracket_count := 0, main_stack := [],
    temp_stack := [], is_main_stack := true, out := [], current_function := none,
    has_return := false, first_control := false, label_counter := 0, if_stack := [],
    while_stack := [], freed_reads := held_reads }

/-- What is observable of a run of `parse_expr`: the type it stored in `*ret_type` and the
lines it printed, or how it ended. -/
def observe : Res PState (data_type × PState) → Res Unit (data_type × List Instr)
  | Res.ok (type, s) => Res.ok (type, s.out)
  | Res.fail _ => Res.fail ()
  | Res.exit code => Res.exit code
  | Res.crash => Res.crash
  | Res.timeout => Res.timeout

/-- What is observable of a run of a statement routine: the lines printed, or how it ended. -/
def observe_stmt : Res PState PState → Res Unit (List Instr)
  | Res.ok s => Res.ok s.out
  | Res.fail _ => Res.fail ()
  | Res.exit code => Res.exit code
  | Res.crash => Res.crash
  | Res.timeout => Res.timeout

/-- A token without payload (operator, punctuation, keyword). -/
def tk (type : token_type) : token_t := { type := type, attr := token_attribute.none }
/-- An integer literal token. -/
def tk_int (v : Int) : token_t := { type := token_type.TOKEN_INT, attr := token_attribute.i v }
/-- A float literal token. -/
def tk_float (lexeme : String) : token_t :=
  { type := token_type.TOKEN_FLOAT, attr := token_attribute.f lexeme }
/-- A string literal token. -/
def tk_string (v : String) : token_t :=
  { type := token_type.TOKEN_STRING, attr := token_attribute.s v }
/-- An identifier token. -/
def tk_id (name : String) : token_t :=
  { type := token_type.TOKEN_ID, attr := token_attribute.s name }

/-- The symbol table inside a function body that declared the variables `vars` (name and
type, in this order) at level 1, the table being created as `parser_init` does, with
`TABLE_SIZE` buckets. -/
def table_with_vars (vars : List (String × data_type)) : symtable_t :=
  vars.foldl (fun table v =>
    symtable_insert_variable table v.1 { name := v.1, type := v.2, isUsed := false } 1 false)
    (symtable_create TABLE_SIZE)

/-- Run `parse_expr` on the tokens of an expression followed by its terminator, with fuel
for three loop iterations per token and calls nested three deep. -/
def run_expr (table : symtable_t) (tokens : List token_t) : Res Unit (data_type × List Instr) :=
  observe (parse_expr_rec 3 (3 * tokens.length + 3) (init_state table tokens))

/-- The run of `run_expr` on the heap `freed` instead of `held_reads`. -/
def run_expr_on (freed : List token_t → List StackData → Nat → Bool) (table : symtable_t)
    (tokens : List token_t) : Res Unit (data_type × List Instr) :=
  observe (parse_expr_rec 3 (3 * tokens.length + 3)
    { init_state table tokens with freed_reads := freed })

/-! ## Vocabulary of the specification used in the statements -/

/-- The binary operators of the expression grammar. -/
def is_binary_operator (a : prec_sym_t) : Bool :=
  a ∈ [prec_sym_t.ADD, prec_sym_t.SUB, prec_sym_t.MUL, prec_sym_t.DIV, prec_sym_t.EQ,
       prec_sym_t.NEQ, prec_sym_t.LT, prec_sym_t.GT, prec_sym_t.LE, prec_sym_t.GE,
       prec_sym_t.AND, prec_sym_t.OR]

/-- The equality and relational operators `== != < > <= >=`. -/
def is_comparison (a : prec_sym_t) : Bool :=
  a ∈ [prec_sym_t.EQ, prec_sym_t.NEQ, prec_sym_t.LT, prec_sym_t.GT, prec_sym_t.LE,
       prec_sym_t.GE]

/-- The binding levels the specification names, higher binds tighter:
`* /` > `+ -` > comparisons > `&&` > `||`. -/
def binding_level : prec_sym_t → Nat
  | prec_sym_t.MUL => 5
  | prec_sym_t.DIV => 5
  | prec_sym_t.ADD => 4
  | prec_sym_t.SUB => 4
  | prec_sym_t.EQ => 3
  | prec_sym_t.NEQ => 3
  | prec_sym_t.LT => 3
  | prec_sym_t.GT => 3
  | prec_sym_t.LE => 3
  | prec_sym_t.GE => 3
  | prec_sym_t.AND => 2
  | prec_sym_t.OR => 1
  | _ => 0

/-- The successive argument expressions of a call, as `parse_arguments` meets them: from
state `s`, while `current_token` is not the closing parenthesis, one `parse_expression`
and an optional comma. Gives the types of the arguments and the state at the closing
parenthesis, `none` when an argument expression does not parse or fuel runs out. -/
def argument_types (pe : PState → Res PState (data_type × PState)) :
    Nat → PState → Option (List data_type × PState)
  | 0, _ => none
  | fuel + 1, s =>
    if (current_token s).type ≠ token_type.TOKEN_CLOSING_PARENTHESES then
      match parse_expression pe s with
      | Res.ok (argType, s1) =>
        let next : PState :=
          if (current_token s1).type = token_type.TOKEN_COMMA then fetch_next_token s1 else s1
        match argument_types pe fuel next with
        | some (types, s2) => some (argType :: types, s2)
        | none => none
      | _ => none
    else some ([], s)

/-- The symbol table after pass 1 collected the header of one user function. -/
def table_with_function (func_data : func_data_t) : symtable_t :=
  symtable_insert_function (symtable_create TABLE_SIZE) func_data.name func_data 0

/-! ## Type-level execution of the emitted stack code

The instructions of IFJcode24 that `parse_expr` prints for an expression over literals,
executed on the dynamic types of the values: every instruction checks the types of its
operands, and a wrong operand type (or an empty stack) is the run-time error of the
interpreter, `none` here. Division by zero is not modelled. -/

/-- The dynamic type of an IFJcode24 value. -/
inductive dyn_type where
  | int
  | float
  | bool
  | string
  | nil
  deriving DecidableEq, Repr

/-- The operand stack (top first) and the global variable `GF@temp` (`none` while it is
uninitialised), as dynamic types. -/
structure Machine where
  stack : List dyn_type
  temp : Option dyn_type
  deriving DecidableEq, Repr

/-- One instruction on dynamic types. `ADDS SUBS MULS` take two ints or two floats, `DIVS`
two floats (integer division is `IDIVS`), `ANDS ORS NOTS` bools, `LTS GTS` two operands of
the same type other than nil, `EQS` two operands of the same type or a nil, `INT2FLOATS`
an int. `PUSHS` of a frame variable or of `GF@return`, and `CALL`, are outside the fragment. -/
def exec_instr : Instr → Machine → Option Machine
  | Instr.PUSHS_int _, m => some { m with stack := dyn_type.int :: m.stack }
  | Instr.PUSHS_float _, m => some { m with stack := dyn_type.float :: m.stack }
  | Instr.PUSHS_string _, m => some { m with stack := dyn_type.string :: m.stack }
  | Instr.PUSHS_nil, m => some { m with stack := dyn_type.nil :: m.stack }
  | Instr.PUSHS_GF_temp, m =>
    match m.temp with
    | some t => some { m with stack := t :: m.stack }
    | none => none
  | Instr.POPS_GF_temp, m =>
    match m.stack with
    | t :: rest => some { stack := rest, temp := some t }
    | [] => none
  | Instr.INT2FLOATS, m =>
    match m.stack with
    | dyn_type.int :: rest => some { m with stack := dyn_type.float :: rest }
    | _ => none
  | Instr.ADDS, m | Instr.SUBS, m | Instr.MULS, m =>
    match m.stack with
    | dyn_type.int :: dyn_type.int :: rest => some { m with stack := dyn_type.int :: rest }
    | dyn_type.float :: dyn_type.float :: rest => some { m with stack := dyn_type.float :: rest }
    | _ => none
  | Instr.DIVS, m =>
    match m.stack with
    | dyn_type.float :: dyn_type.float :: rest => some { m with stack := dyn_type.float :: rest }
    | _ => none
  | Instr.ANDS, m | Instr.ORS, m =>
    match m.stack with
    | dyn_type.bool :: dyn_type.bool :: rest => some { m with stack := dyn_type.bool :: rest }
    | _ => none
  | Instr.NOTS, m =>
    match m.stack with
    | dyn_type.bool :: rest => some { m with stack := dyn_type.bool :: rest }
    | _ => none
  | Instr.EQS, m =>
    match m.stack with
    | a :: b :: rest =>
      if a = b ∨ a = dyn_type.nil ∨ b = dyn_type.nil then
        some { m with stack := dyn_type.bool :: rest }
      else none
    | _ => none
  | Instr.LTS, m | Instr.GTS, m =>
    match m.stack with
    | a :: b :: rest =>
      if a = b ∧ a ≠ dyn_type.nil then some { m with stack := dyn_type.bool :: rest } else none
    | _ => none
  | Instr.PUSHS_GF_return, _ => none
  | Instr.PUSHS_LF _, _ => none
  | Instr.CALL _, _ => none
  | Instr.line _ _, _ => none

/-- Run a sequence of instructions, stopping at the first error. -/
def exec : List Instr → Machine → Option Machine
  | [], m => some m
  | i :: rest, m =>
    match exec_instr i m with
    | some m1 => exec rest m1
    | none => none

/-- The empty operand stack, `GF@temp` not yet written. -/
def empty_machine : Machine := { stack := [], temp := none }

/-- The static type that the parser uses for a value of a dynamic type. -/
def static_type : dyn_type → data_type
  | dyn_type.int => data_type.int_type
  | dyn_type.float => data_type.float_type
  | dyn_type.bool => data_type.bool_type
  | dyn_type.string => data_type.string_type
  | dyn_type.nil => data_type.null_type

/-- The types of the non-terminals `E` on a precedence stack, top first. -/
def exp_types (stack : List StackData) : List data_type :=
  (stack.filter (fun data => data.symbol = prec_sym_t.EXP)).map (fun data => data.type)

/-- How the run of a sequence of instructions ends: every instruction executed, or stopped
at an instruction that rejects its operands, with the machine this instruction found. -/
inductive Run where
  | done (m : Machine)
  | stopped (i : Instr) (m : Machine)
  deriving DecidableEq, Repr

/-- Run a sequence of instructions as `exec` does, keeping where the run stops. -/
def exec_until : List Instr → Machine → Run
  | [], m => Run.done m
  | i :: rest, m =>
    match exec_instr i m with
    | some m1 => exec_until rest m1
    | none => Run.stopped i m

/-- The operators for which `reduce` prints an instruction without a test of the operand
types that the instruction needs: `&&`, `||`, `!` (no test at all) and `/` (the test of
`+ - *`, which lets two ints pass). -/
def operator_symbol : token_type → Option prec_sym_t
  | token_type.TOKEN_LOGICAL_AND => some prec_sym_t.AND
  | token_type.TOKEN_LOGICAL_OR => some prec_sym_t.OR
  | token_type.TOKEN_NOT => some prec_sym_t.NOT
  | token_type.TOKEN_DIV => some prec_sym_t.DIV
  | _ => none

/-- The instruction `i`, printed for the operator token `tt`, stops on the machine `m`
because of the operands it finds: `ANDS` / `ORS` (for `&&` / `||`) on two values that are
not both bool, `NOTS` (for `!`) on a value that is no bool, `DIVS` (for `/`) on two ints. -/
def unchecked_stop (tt : token_type) (i : Instr) (m : Machine) : Bool :=
  if (tt = token_type.TOKEN_LOGICAL_AND ∧ i = Instr.ANDS) ∨
      (tt = token_type.TOKEN_LOGICAL_OR ∧ i = Instr.ORS) then
    match m.stack with
    | a :: b :: _ => !(a == dyn_type.bool && b == dyn_type.bool)
    | _ => false
  else if tt = token_type.TOKEN_NOT ∧ i = Instr.NOTS then
    match m.stack with
    | a :: _ => a != dyn_type.bool
    | _ => false
  else if tt = token_type.TOKEN_DIV ∧ i = Instr.DIVS then
    match m.stack with
    | a :: b :: _ => a == dyn_type.int && b == dyn_type.int
    | _ => false
  else false

/-- The token types of an operand that is no literal: an identifier and the names of the
nullable types. -/
def named_operand_tokens : List token_type :=
  [token_type.TOKEN_ID, token_type.TOKEN_INT_NULL, token_type.TOKEN_FLOAT_NULL,
   token_type.TOKEN_STRING_NULL]

/-- An entry of the precedence stack in a run on literals in which the operators `absent`
do not occur: an operand entry is a literal, and the entry is none of these operators. -/
def entry_inv (absent : List token_type) (data : StackData) : Prop :=
  (data.symbol = prec_sym_t.ID → data.is_literal = true) ∧
  ∀ tt ∈ absent, operator_symbol tt ≠ some data.symbol

/-- The invariant of the loop of `parse_expr` on an input of literals, parentheses and
operators other than `absent`: the tokens left and the entries of the active stack are of
this kind, and the run of the lines printed so far, from the empty machine, either has come
to their end with one value per `E` of the stack, in the same order and of the type
recorded in that `E`, or has stopped as `unchecked_stop` says at the instruction of an
operator that is not in `absent`. -/
def run_inv (absent : List token_type) (use_main : Bool) (s : PState) : Prop :=
  (∀ t ∈ s.tokens, t.type ∉ named_operand_tokens ∧ t.type ∉ absent) ∧
  (∀ data ∈ active_stack s use_main, entry_inv absent data) ∧
  match exec_until s.out empty_machine with
  | Run.done m => m.stack.map static_type = exp_types (active_stack s use_main)
  | Run.stopped i m => ∃ tt, tt ∉ absent ∧ unchecked_stop tt i m = true

/-- The tokens of the prologue `const ifj = @import("ifj24.zig");`. -/
def prologue_tokens : List token_t :=
  [tk token_type.KW_CONST, tk_id "ifj", tk token_type.TOKEN_ASSIGN, tk token_type.TOKEN_IMPORT,
   tk token_type.TOKEN_OPENING_PARENTHESES, tk_string "ifj24.zig",
   tk token_type.TOKEN_CLOSING_PARENTHESES, tk token_type.TOKEN_SEMICOLON]

/-- The tokens of `pub fn main() void { body }`. -/
def main_tokens (body : List token_t) : List token_t :=
  [tk token_type.KW_PUB, tk token_type.KW_FN, tk_id "main",
   tk token_type.TOKEN_OPENING_PARENTHESES, tk token_type.TOKEN_CLOSING_PARENTHESES,
   tk token_type.KW_VOID, tk token_type.TOKEN_OPENING_BRACKET] ++ body ++
  [tk token_type.TOKEN_CLOSING_BRACKET]

/-- The exit code of the compiler on a token stream (`none` when the model crashed or ran
out of fuel): calls nested three deep, four units of fuel per token. -/
def exit_code (source : List token_t) : Option Nat :=
  (compile 3 (4 * source.length + 4) source).map Prod.fst

/-! ## The error latch (error_codes.c) -/

/-- The struct `error_t` of `error_codes.h`; a NULL `message` is `none`. -/
structure error_t where
  code : Int
  message : Option String
  line : Int
  column : Int
  deriving DecidableEq, Repr

/-- The initial value `{ERROR_OK, NULL, -1, -1}` of the static `current_error`. -/
def initial_error : error_t := { code := 0, message := none, line := -1, column := -1 }

/-- The function `set_error` as a transition of `current_error` (the call of
`print_error` only writes to stderr). -/
def set_error (current_error : error_t) (code : Int) (message : Option String)
    (line column : Int) : error_t :=
  if current_error.code = 0 then
    { code := code, message := message, line := line, column := column }
  else current_error

/-- The function `get_error`. -/
def get_error (current_error : error_t) : error_t := current_error

/-- The state of `current_error` after a sequence of `set_error` calls, each given by its
four arguments. -/
def run_set_error (current_error : error_t) (calls : List error_t) : error_t :=
  calls.foldl (fun e call => set_error e call.code call.message call.line call.column)
    current_error

/-! ## Sequences of symbol-table operations -/

/-- The table that `symtable_create` has built before it calls `built_in_func`. -/
def empty_table (size : Nat) : symtable_t :=
  { items := fun _ => [], size := size, scope_level := 0 }

/-- One call on a symbol table: an insert (with the level the caller passes), a scope
entry or a scope exit. -/
inductive table_op where
  | insert_function (name : String) (func_data : func_data_t) (scope_level : Int)
  | insert_variable (name : String) (var_data : var_data_t) (scope_level : Int) (isConst : Bool)
  | enter_scope
  | exit_scope

/-- The table after one call. -/
def apply_op (table : symtable_t) : table_op → symtable_t
  | table_op.insert_function name func_data scope_level =>
    symtable_insert_function table name func_data scope_level
  | table_op.insert_variable name var_data scope_level isConst =>
    symtable_insert_variable table name var_data scope_level isConst
  | table_op.enter_scope => symtable_enter_scope table
  | table_op.exit_scope => symtable_exit_scope table

/-- The table after a sequence of calls. -/
def apply_ops (table : symtable_t) (ops : List table_op) : symtable_t :=
  ops.foldl apply_op table

/-- The 13 inserts that `built_in_func` performs. -/
def builtin_ops : List table_op :=
  [ mk_builtin "ifj.readstr" [] data_type.null_string_type,
    mk_builtin "ifj.readi32" [] data_type.null_int_type,
    mk_builtin "ifj.readf64" [] data_type.null_float_type,
    mk_builtin "ifj.write" [data_type.void_type] data_type.void_type,
    mk_builtin "ifj.i2f" [data_type.int_type] data_type.float_type,
    mk_builtin "ifj.f2i" [data_type.float_type] data_type.int_type,
    mk_builtin "ifj.string" [data_type.void_type] data_type.string_type,
    mk_builtin "ifj.length" [data_type.string_type] data_type.int_type,
    mk_builtin "ifj.concat" [data_type.string_type, data_type.string_type] data_type.string_type,
    mk_builtin "ifj.substring" [data_type.string_type, data_type.int_type, data_type.int_type]
      data_type.null_string_type,
    mk_builtin "ifj.strcmp" [data_type.string_type, data_type.string_type] data_type.int_type,
    mk_builtin "ifj.ord" [data_type.string_type, data_type.int_type] data_type.int_type,
    mk_builtin "ifj.chr" [data_type.int_type] data_type.string_type ].map
    (fun f => table_op.insert_function f.name f 0)

/-- Modelled from the spec: the entries that are "still present" after a sequence of table
calls, most recently inserted first. An insert puts its entry in front; a scope exit at
level `l` drops the entries of level `l`. The second component is the current level. -/
def present_entries : List table_op → List symtable_item_t × Int → List symtable_item_t × Int
  | [], st => st
  | table_op.insert_function name func_data scope_level :: ops, (present, level) =>
    present_entries ops
      ({ key := name,
         value := { type := symbol_type.fn_t, funcData := some func_data, varData := none },
         scope_level := scope_level } :: present, level)
  | table_op.insert_variable name var_data scope_level isConst :: ops, (present, level) =>
    present_entries ops
      ({ key := name,
         value := { type := if isConst then symbol_type.const_t else symbol_type.var_t,
                    funcData := none, varData := some var_data },
         scope_level := scope_level } :: present, level)
  | table_op.enter_scope :: ops, (present, level) => present_entries ops (present, level + 1)
  | table_op.exit_scope :: ops, (present, level) =>
    present_entries ops (present.filter (fun item => item.scope_level ≠ level), level - 1)

/-- The invariant linking a table with the list of present entries: on every key the
bucket of the key and the list agree after restriction to that key. -/
def table_agrees (table : symtable_t) (st : List symtable_item_t × Int) : Prop :=
  table.scope_level = st.2 ∧
  ∀ k : String, (table.items (hash_function k)).filter (fun item => item.key == k) =
    st.1.filter (fun item => item.key == k)

/-- Two inserts whose keys `Aa` and `BB` share a bucket, at different levels. -/
def colliding_ops : List table_op :=
  [ table_op.insert_variable "Aa" { name := "Aa", type := data_type.int_type, isUsed := false } 0
      false,
    table_op.enter_scope,
    table_op.insert_variable "BB" { name := "BB", type := data_type.float_type, isUsed := false } 1
      true ]

/-- The item that `symtable_insert_function` allocates. -/
def function_item (name : String) (func_data : func_data_t) (scope_level : Int) :
    symtable_item_t :=
  { key := name,
    value := { type := symbol_type.fn_t, funcData := some func_data, varData := none },
    scope_level := scope_level }

/-- Modelled from the spec: the built-in signature table (name, parameter types in order,
return type); "any non-null" is the `void_type` sentinel. -/
def builtin_signature_table : List (String × List data_type × data_type) :=
  [ ("ifj.readstr", [], data_type.null_string_type),
    ("ifj.readi32", [], data_type.null_int_type),
    ("ifj.readf64", [], data_type.null_float_type),
    ("ifj.write", [data_type.void_type], data_type.void_type),
    ("ifj.i2f", [data_type.int_type], data_type.float_type),
    ("ifj.f2i", [data_type.float_type], data_type.int_type),
    ("ifj.string", [data_type.void_type], data_type.string_type),
    ("ifj.length", [data_type.string_type], data_type.int_type),
    ("ifj.concat", [data_type.string_type, data_type.string_type], data_type.string_type),
    ("ifj.substring", [data_type.string_type, data_type.int_type, data_type.int_type],
      data_type.null_string_type),
    ("ifj.strcmp", [data_type.string_type, data_type.string_type], data_type.int_type),
    ("ifj.ord", [data_type.string_type, data_type.int_type], data_type.int_type),
    ("ifj.chr", [data_type.int_type], data_type.string_type) ]

/-- Modelled from the spec: the function entry at scope 0 that one row of the signature
table describes. -/
def signature_entry (sig : String × List data_type × data_type) : symtable_item_t :=
  function_item sig.1
    { name := sig.1, isDefined := true, paramCount := sig.2.1.length, params := sig.2.1,
      returnType := sig.2.2 } 0

/-- The table of the example of C17: the fresh table, one scope entered, `x` declared at
level 1. -/
def table_with_local : symtable_t :=
  symtable_insert_variable (symtable_enter_scope (symtable_create TABLE_SIZE)) "x"
    { name := "x", type := data_type.int_type, isUsed := false } 1 false

open data_type prec_sym_t token_type

/-- The tokens of `var x: i32 = 1;`. -/
def var_x_tokens : List token_t :=
  [tk token_type.KW_VAR, tk_id "x", tk token_type.TOKEN_TWODOT, tk token_type.KW_INT_TYPE,
   tk token_type.TOKEN_ASSIGN, tk_int 1, tk token_type.TOKEN_SEMICOLON]

/-- The tokens of `_ = x;`, a later reference to `x`. -/
def use_x_tokens : List token_t :=
  [tk token_type.TOKEN_UNDERSCORE, tk token_type.TOKEN_ASSIGN, tk_id "x",
   tk token_type.TOKEN_SEMICOLON]

/-- The tokens of `{ body }`. -/
def block_tokens (body : List token_t) : List token_t :=
  [tk token_type.TOKEN_OPENING_BRACKET] ++ body ++ [tk token_type.TOKEN_CLOSING_BRACKET]

/-- The tokens of `if (1 == 1) { then_body } else { else_body }`. -/
def if_tokens (then_body else_body : List token_t) : List token_t :=
  [tk token_type.KW_IF, tk token_type.TOKEN_OPENING_PARENTHESES, tk_int 1,
   tk token_type.TOKEN_EQ, tk_int 1, tk token_type.TOKEN_CLOSING_PARENTHESES] ++
  block_tokens then_body ++ [tk token_type.KW_ELSE] ++ block_tokens else_body

/-- The tokens of `while (1 == 1) { body }`. -/
def while_tokens (body : List token_t) : List token_t :=
  [tk token_type.KW_WHILE, tk token_type.TOKEN_OPENING_PARENTHESES, tk_int 1,
   tk token_type.TOKEN_EQ, tk_int 1, tk token_type.TOKEN_CLOSING_PARENTHESES] ++
  block_tokens body

/-- The tokens of `var m: ?i32 = null; m = 1;`, a used nullable variable. -/
def nullable_m_tokens : List token_t :=
  [tk token_type.KW_VAR, tk_id "m", tk token_type.TOKEN_TWODOT, tk token_type.TOKEN_INT_NULL,
   tk token_type.TOKEN_ASSIGN, tk token_type.KW_NULL, tk token_type.TOKEN_SEMICOLON,
   tk_id "m", tk token_type.TOKEN_ASSIGN, tk_int 1, tk token_type.TOKEN_SEMICOLON]

/-- The tokens of `_ = v;`, a reference to the binding `v`. -/
def use_v_tokens : List token_t :=
  [tk token_type.TOKEN_UNDERSCORE, tk token_type.TOKEN_ASSIGN, tk_id "v",
   tk token_type.TOKEN_SEMICOLON]

/-- The tokens of `if (m) |v| { _ = v; then_body } else { else_body }`. -/
def if_nullable_tokens (then_body else_body : List token_t) : List token_t :=
  [tk token_type.KW_IF, tk token_type.TOKEN_OPENING_PARENTHESES, tk_id "m",
   tk token_type.TOKEN_CLOSING_PARENTHESES, tk token_type.TOKEN_VERTICAL_BAR, tk_id "v",
   tk token_type.TOKEN_VERTICAL_BAR] ++
  block_tokens (use_v_tokens ++ then_body) ++ [tk token_type.KW_ELSE] ++ block_tokens else_body

/-- The tokens of `while (m) |v| { _ = v; body }`. -/
def while_nullable_tokens (body : List token_t) : List token_t :=
  [tk token_type.KW_WHILE, tk token_type.TOKEN_OPENING_PARENTHESES, tk_id "m",
   tk token_type.TOKEN_CLOSING_PARENTHESES, tk token_type.TOKEN_VERTICAL_BAR, tk_id "v",
   tk token_type.TOKEN_VERTICAL_BAR] ++
  block_tokens (use_v_tokens ++ body)

/-- The program `const ifj = @import("ifj24.zig"); pub fn main() void { body }`. -/
def main_program (body : List token_t) : List token_t :=
  prologue_tokens ++ main_tokens body

open data_type prec_sym_t token_type

/-- The tokens of `keyword name [: annotation] =` followed by `rest`. -/
def decl_tokens (keyword : token_type) (name : String) (annot : Option token_type)
    (rest : List token_t) : List token_t :=
  match annot with
  | none => tk keyword :: tk_id name :: tk token_type.TOKEN_ASSIGN :: rest
  | some type =>
    tk keyword :: tk_id name :: tk token_type.TOKEN_TWODOT :: tk type ::
      tk token_type.TOKEN_ASSIGN :: rest

/-- The state in which an accepted declaration of `name` with type `var_type` returns,
given the state `s6` in which its expression was parsed. -/
def declared (s6 : PState) (name : String) (var_type : data_type) (isConst : Bool) : PState :=
  fetch_next_token
    { emit s6 (gen_pop_operand (some name)) with
      symbol_table := symtable_insert_variable s6.symbol_table name
        { name := name, type := var_type, isUsed := false } s6.symbol_table.scope_level isConst }

/-- The symbol-table entry of `name` in the state a statement parser returned, `none` when
it did not return 0. -/
def entry_after (r : Res PState PState) (name : String) : Option symtable_data_t :=
  match r with
  | Res.ok s => symtable_find s.symbol_table name
  | _ => none

open data_type prec_sym_t token_type

/-- The tokens of `pub fn name(params) ret { body }`; `params` are the tokens between the
parentheses. -/
def fn_tokens (name : String) (params : List token_t) (ret : token_type)
    (body : List token_t) : List token_t :=
  [tk token_type.KW_PUB, tk token_type.KW_FN, tk_id name,
   tk token_type.TOKEN_OPENING_PARENTHESES] ++ params ++
  [tk token_type.TOKEN_CLOSING_PARENTHESES, tk ret, tk token_type.TOKEN_OPENING_BRACKET] ++
  body ++ [tk token_type.TOKEN_CLOSING_BRACKET]

/-- The program made of the prologue, the function `f` and an empty `main`. -/
def program_with_f (params : List token_t) (ret : token_type) (body : List token_t) :
    List token_t :=
  prologue_tokens ++ fn_tokens "f" params ret body ++ main_tokens []

/-- The state in which an accepted `return expr;` returns, given the state `s2` in which
its expression was parsed. -/
def returned (s2 : PState) : PState :=
  emit { fetch_next_token s2 with has_return := true } gen_return

open data_type prec_sym_t token_type

/-- The table holds a function entry `main` with no parameter and return type `void`. -/
def main_registered (table : symtable_t) : Prop :=
  ∃ func_data : func_data_t,
    symtable_find table "main" =
      some { type := symbol_type.fn_t, funcData := some func_data, varData := none } ∧
    func_data.paramCount = 0 ∧ func_data.returnType = data_type.void_type

/-- The state in which pass 1 ends on the program that consists of the prologue and an
empty `main`: all tokens read, `main` entered at level 0 and filled in twice. -/
def pass1_state_of_empty_main : PState :=
  { parser_init [] with
    symbol_table :=
      symtable_set_func_data
        (symtable_set_func_data
          (symtable_insert_function (symtable_create TABLE_SIZE) "main"
            (mk_builtin "main" [] data_type.void_type) 0)
          "main" (mk_builtin "main" [] data_type.void_type))
        "main" (mk_builtin "main" [] data_type.void_type) }

open data_type prec_sym_t token_type

/-- Modelled from the spec: a value on the operand stack of IFJcode24. -/
inductive Value where
  | int (v : Int)
  | float (lexeme : String)
  | string (v : String)
  | nil
  deriving DecidableEq, Repr

/-- Modelled from the spec: the operand stack (top first) and the variables of the local
frame of the IFJcode24 interpreter. -/
structure CallMachine where
  stack : List Value
  frame : List (String × Option Value)
  deriving DecidableEq, Repr

/-- Write `v` to the variable `name` of the frame; `none` when it is not defined. -/
def frame_set (name : String) (v : Value) :
    List (String × Option Value) → Option (List (String × Option Value))
  | [] => none
  | (n, old) :: rest =>
    if n = name then some ((n, some v) :: rest)
    else (frame_set name v rest).map (fun r => (n, old) :: r)

/-- Modelled from the spec: the effect on operand stack and local frame of the lines that
run between the first argument push of a call and the last parameter `POPS` of the callee.
`PUSHS` of a literal pushes it, `PUSHFRAME` starts an empty local frame, `DEFVAR LF@x`
defines `x`, `POPS LF@x` moves the top of the stack into `x`; `CALL` (the jump to the
callee, whose lines follow), `LABEL`, `CREATEFRAME` and the empty line change neither.
Every other line is outside this fragment. -/
def call_step : Instr → CallMachine → Option CallMachine
  | Instr.PUSHS_int v, m => some { m with stack := Value.int v :: m.stack }
  | Instr.PUSHS_float lexeme, m => some { m with stack := Value.float lexeme :: m.stack }
  | Instr.PUSHS_string v, m => some { m with stack := Value.string v :: m.stack }
  | Instr.PUSHS_nil, m => some { m with stack := Value.nil :: m.stack }
  | Instr.CALL _, m => some m
  | Instr.line opcode operands, m =>
    if opcode = "" ∨ opcode = "LABEL" ∨ opcode = "CREATEFRAME" then some m
    else if opcode = "PUSHFRAME" then some { m with frame := [] }
    else if opcode = "DEFVAR" then
      match operands with
      | [var] => some { m with frame := m.frame ++ [(var, none)] }
      | _ => none
    else if opcode = "POPS" then
      match operands, m.stack with
      | [var], v :: rest =>
        (frame_set var v m.frame).map fun frame => { stack := rest, frame := frame }
      | _, _ => none
    else none
  | _, _ => none

/-- Run a straight-line sequence of lines. -/
def run_call : List Instr → CallMachine → Option CallMachine
  | [], m => some m
  | i :: rest, m => (call_step i m).bind (run_call rest)

/-- The lines that `compile` prints after the header and the built-in functions. -/
def user_code (source : List token_t) : List Instr :=
  match compile 3 (4 * source.length + 4) source with
  | some (_, out) => out.drop gen_header.length
  | none => []

/-- The lines of `code` from the line `LABEL label` on. -/
def code_from (label : String) (code : List Instr) : List Instr :=
  code.dropWhile (fun i => i ≠ Instr.line "LABEL" [label])

/-- The program with `pub fn f(x: i32, y: f64) void { _ = x; _ = y; }` and a `main` whose
body is the call `f(1, 2.5);`. -/
def call_f_program : List token_t :=
  prologue_tokens ++
  fn_tokens "f"
    [tk_id "x", tk token_type.TOKEN_TWODOT, tk token_type.KW_INT_TYPE, tk token_type.TOKEN_COMMA,
     tk_id "y", tk token_type.TOKEN_TWODOT, tk token_type.KW_FLOAT_TYPE] token_type.KW_VOID
    [tk token_type.TOKEN_UNDERSCORE, tk token_type.TOKEN_ASSIGN, tk_id "x",
     tk token_type.TOKEN_SEMICOLON,
     tk token_type.TOKEN_UNDERSCORE, tk token_type.TOKEN_ASSIGN, tk_id "y",
     tk token_type.TOKEN_SEMICOLON] ++
  main_tokens
    [tk_id "f", tk token_type.TOKEN_OPENING_PARENTHESES, tk_int 1, tk token_type.TOKEN_COMMA,
     tk_float "2.5", tk token_type.TOKEN_CLOSING_PARENTHESES, tk token_type.TOKEN_SEMICOLON]

/-- The program whose `main` is `const r: i32 = ifj.ord("abc", 1); ifj.write(r);`. -/
def call_ord_program : List token_t :=
  main_program
    (decl_tokens token_type.KW_CONST "r" (some token_type.KW_INT_TYPE)
      [tk_id "ifj.ord", tk token_type.TOKEN_OPENING_PARENTHESES, tk_string "abc",
       tk token_type.TOKEN_COMMA, tk_int 1, tk token_type.TOKEN_CLOSING_PARENTHESES,
       tk token_type.TOKEN_SEMICOLON] ++
     [tk_id "ifj.write", tk token_type.TOKEN_OPENING_PARENTHESES, tk_id "r",
      tk token_type.TOKEN_CLOSING_PARENTHESES, tk token_type.TOKEN_SEMICOLON])

/-- The machine before the first argument is pushed. -/
def call_start : CallMachine := { stack := [], frame := [] }

/-- The program whose `main` is `const r: []u8 = ifj.concat("a", "b"); ifj.write(r);`. -/
def call_concat_program : List token_t :=
  main_program
    (decl_tokens token_type.KW_CONST "r" (some token_type.KW_STRING_TYPE)
      [tk_id "ifj.concat", tk token_type.TOKEN_OPENING_PARENTHESES, tk_string "a",
       tk token_type.TOKEN_COMMA, tk_string "b", tk token_type.TOKEN_CLOSING_PARENTHESES,
       tk token_type.TOKEN_SEMICOLON] ++
     [tk_id "ifj.write", tk token_type.TOKEN_OPENING_PARENTHESES, tk_id "r",
      tk token_type.TOKEN_CLOSING_PARENTHESES, tk token_type.TOKEN_SEMICOLON])

/-! ## Scanner (`scanner.c`) -/

/-- The value that `char c` holds after `c = getc(source)` read the byte `b`: `char` is a
signed 8-bit type on the target (the tests `c == EOF` of the scanner rely on it). -/
def to_char (b : Nat) : Int :=
  if b % 256 < 128 then ((b % 256 : Nat) : Int) else ((b % 256 : Nat) : Int) - 256

/-- The macro `EOF`. -/
def EOF : Int := -1

/-- The statement `c = getc(source)`. The input is the list of the `char` values still to
come; at the end of the input `getc` gives `EOF`, every time it is called. -/
def getc (source : List Int) : Int × List Int :=
  match source with
  | [] => (EOF, [])
  | c :: rest => (c, rest)

/-- The call `ungetc(c, source)`: pushing back `EOF` leaves the stream as it is. -/
def ungetc (c : Int) (source : List Int) : List Int :=
  if c = EOF then source else c :: source

/-- The `char` values of an ASCII text. -/
def ascii (text : String) : List Int := text.toList.map (fun ch => (ch.toNat : Int))

/-- The C string `lexeme->data` as a string of the model. -/
def lexeme_string (lexeme : List Int) : String :=
  String.mk (lexeme.map (fun c => Char.ofNat (c % 256).toNat))

/-- The case labels `'a' ... 'z'`. -/
def is_lower (c : Int) : Bool := 97 ≤ c && c ≤ 122

/-- The case labels `'A' ... 'Z'`. -/
def is_upper (c : Int) : Bool := 65 ≤ c && c ≤ 90

/-- The case labels `'0' ... '9'`. -/
def is_digit (c : Int) : Bool := 48 ≤ c && c ≤ 57

/-- A letter: `'a' ... 'z'` or `'A' ... 'Z'`. -/
def is_letter (c : Int) : Bool := is_lower c || is_upper c

/-- The case labels `'0' ... '9'`, `'a' ... 'f'`, `'A' ... 'F'` (also `isxdigit`). -/
def is_hex (c : Int) : Bool := is_digit c || (97 ≤ c && c ≤ 102) || (65 ≤ c && c ≤ 70)

/-- The function `is_keyword`; `none` is the return value -1. -/
def is_keyword (lexeme : List Int) : Option token_type :=
  if lexeme = ascii "f64" then some token_type.KW_FLOAT_TYPE
  else if lexeme = ascii "else" then some token_type.KW_ELSE
  else if lexeme = ascii "fn" then some token_type.KW_FN
  else if lexeme = ascii "if" then some token_type.KW_IF
  else if lexeme = ascii "i32" then some token_type.KW_INT_TYPE
  else if lexeme = ascii "pub" then some token_type.KW_PUB
  else if lexeme = ascii "return" then some token_type.KW_RETURN
  else if lexeme = ascii "u8" then some token_type.KW_CHAR_TYPE
  else if lexeme = ascii "[]u8" then some token_type.KW_STRING_TYPE
  else if lexeme = ascii "var" then some token_type.KW_VAR
  else if lexeme = ascii "while" then some token_type.KW_WHILE
  else if lexeme = ascii "null" then some token_type.KW_NULL
  else if lexeme = ascii "void" then some token_type.KW_VOID
  else if lexeme = ascii "const" then some token_type.KW_CONST
  else none

/-- The array `builtin_functions`. -/
def builtin_functions : List (List Int) :=
  [ascii "ifj.readstr", ascii "ifj.readi32", ascii "ifj.readf64", ascii "ifj.write",
   ascii "ifj.i2f", ascii "ifj.f2i", ascii "ifj.length", ascii "ifj.string",
   ascii "ifj.concat", ascii "ifj.substring", ascii "ifj.strcmp", ascii "ifj.ord",
   ascii "ifj.chr"]

/-- The function `is_built_in`: `true` is the return value 0. -/
def is_built_in (lexeme : List Int) : Bool := builtin_functions.contains lexeme

/-- The digits of `n` in base 10 as `char` values. -/
def decimal (n : Nat) : List Int := (Nat.toDigits 10 n).map (fun ch => (ch.toNat : Int))

/-- The conversion `%03d` of `printf`: at least three characters, zero padded, the sign
counted in the width. -/
def format_03d (v : Int) : List Int :=
  if 0 ≤ v then
    List.replicate (3 - (decimal v.toNat).length) 48 ++ decimal v.toNat
  else
    45 :: (List.replicate (2 - (decimal (-v).toNat).length) 48 ++ decimal (-v).toNat)

/-- The call `snprintf(encoded, sizeof(encoded), "\\%03d", v)` with `char encoded[5]`: a
backslash and the conversion, cut after four characters. -/
def encode_escape (v : Int) : List Int := (92 :: format_03d v).take 4

/-- The value of a hexadecimal digit (`strtol(hex, NULL, 16)` on one digit). -/
def hex_value (c : Int) : Int :=
  if is_digit c then c - 48
  else if 97 ≤ c ∧ c ≤ 102 then c - 87
  else c - 55

/-- The `for` loop of `process_str` from index `i` on: `rest` is `lexeme->data + i`, `trail`
is `lexeme->length - end`, `new_lex` the string built so far; `none` is the return value
NULL (after `set_error(ERROR_LEXICAL_ANALYSIS, ...)`). -/
def process_str_loop (is_multiline : Bool) (trail : Nat) :
    List Int → List Int → Option (List Int)
  | [], new_lex => some new_lex
  | current :: rest, new_lex =>
    if rest.length + 1 ≤ trail then some new_lex
    else if current = 92 then
      match rest with
      | [] => none
      | next :: rest1 =>
        if next = 110 then process_str_loop is_multiline trail rest1 (new_lex ++ ascii "\\010")
        else if next = 116 then
          process_str_loop is_multiline trail rest1 (new_lex ++ ascii "\\009")
        else if next = 114 then
          process_str_loop is_multiline trail rest1 (new_lex ++ ascii "\\013")
        else if next = 92 then
          process_str_loop is_multiline trail rest1
            (if is_multiline then new_lex else new_lex ++ ascii "\\092")
        else if next = 34 then process_str_loop is_multiline trail rest1 (new_lex ++ [34])
        else if next = 120 then
          match rest1 with
          | h1 :: h2 :: rest2 =>
            if ¬ is_hex h1 ∨ ¬ is_hex h2 then none
            else if 16 * hex_value h1 + hex_value h2 > 255 then none
            else
              process_str_loop is_multiline trail rest2
                (new_lex ++ encode_escape (16 * hex_value h1 + hex_value h2))
          | _ => none
        else none
    else if current ≤ 32 ∨ current = 35 then
      process_str_loop is_multiline trail rest (new_lex ++ encode_escape current)
    else process_str_loop is_multiline trail rest (new_lex ++ [current])

/-- The function `process_str`. -/
def process_str (lexeme : List Int) : Option (List Int) :=
  let is_multiline : Bool :=
    decide (lexeme.length > 1) && decide (lexeme.get? 0 = some 92) &&
      decide (lexeme.get? 1 = some 92)
  if ¬ is_multiline ∧ lexeme.head? = some 34 ∧ lexeme.getLast? = some 34 then
    process_str_loop is_multiline 1 (lexeme.drop 1) []
  else process_str_loop is_multiline 0 lexeme []

/-- The value of `strtol(lexeme->data, NULL, 10)` on a string of digits: the decimal value,
`LONG_MAX` when it is out of the range of `long` (64 bit). -/
def strtol10 (lexeme : List Int) : Int :=
  min (lexeme.foldl (fun acc c => acc * 10 + (c - 48)) 0) (2 ^ 63 - 1)

/-- The conversion `(int)` of a `long` value: reduced modulo `2 ^ 32` into the range of
`int`. -/
def to_int (v : Int) : Int := (v + 2 ^ 31) % 2 ^ 32 - 2 ^ 31

/-- The enum `fsm_state_t` of `scanner.h`. -/
inductive fsm_state_t where
  | STATE_START | STATE_INVALID | STATE_DIV | STATE_COMMENT
  | STATE_INTEGER | STATE_DCM_START | STATE_FLOAT | STATE_EXP_START | STATE_EXP_SIGN
  | STATE_EXP_FLOAT | STATE_AT
  | STATE_STR_START | STATE_STR_ESC | STATE_STR_ESC_X1 | STATE_STR_ESC_X2 | STATE_STR_END
  | STATE_STR_ML_BACKSLASH | STATE_STR_ML_BODY | STATE_STR_ML_NEWLINE_CHECK
  | STATE_STR_ML_SKIP_WHITESPACE
  | STATE_UNDERSCORE | STATE_ID_KW | STATE_ID_IFJ_FUNC | STATE_WHITESPACE
  | STATE_SEPARATOR_WINDOWS | STATE_SEPARATOR
  | STATE_OPENING_BRACKET | STATE_CLOSING_BRACKET | STATE_OPENING_PARENTHESES
  | STATE_CLOSING_PARENTHESES | STATE_OPEN_BRACK_LEFT | STATE_OPEN_BRACK_RIGHT
  | STATE_TWODOT | STATE_COMMA | STATE_SEMICOLON | STATE_MUL | STATE_ADD | STATE_SUB
  | STATE_QUESTION_MARK | STATE_NULL_TYPE
  | STATE_NOT | STATE_NEQ | STATE_ASSIGN | STATE_EQ | STATE_COMP_L | STATE_COMP_G
  | STATE_COMP_LE | STATE_COMP_GE | STATE_LOGIC_AND1 | STATE_LOGIC_AND2
  | STATE_VERTICAL_BAR | STATE_LOGIC_OR2
  deriving DecidableEq, Repr

/-- What one pass through the `switch (state)` of `get_next_token` does: `next` is a
`break` (the loop goes on with this state and lexeme), `done` a `return` with the token
and the input that is left, or with the error code (`Res.fail`). -/
inductive fsm_step_t where
  | next (state : fsm_state_t) (lexeme : List Int)
  | done (r : Res Nat (token_t × List Int))

/-- The statements `*current_token = token_init(type, NULL); return 0;`. -/
def return_token (type : token_type) (source : List Int) : fsm_step_t :=
  fsm_step_t.done (Res.ok (tk type, source))

/-- The statements `set_error(ERROR_LEXICAL_ANALYSIS, ...); return ERROR_LEXICAL_ANALYSIS;`. -/
def return_lexical_error : fsm_step_t := fsm_step_t.done (Res.fail ERROR_LEXICAL_ANALYSIS)

/-- The `default` branch shared by `STATE_ID_KW` and `STATE_WHITESPACE`: push `c` back,
return the keyword or the identifier. -/
def return_id_or_keyword (c : Int) (lexeme : List Int) (source : List Int) : fsm_step_t :=
  match is_keyword lexeme with
  | none =>
    fsm_step_t.done (Res.ok (tk_id (lexeme_string lexeme), ungetc c source))
  | some keyword => return_token keyword (ungetc c source)

/-- The branch that ends a string literal: `process_str` and the `TOKEN_STRING`. -/
def return_string (lexeme : List Int) (source : List Int) : fsm_step_t :=
  match process_str lexeme with
  | none => return_lexical_error
  | some content =>
    fsm_step_t.done (Res.ok (tk_string (lexeme_string content), source))

/-- The `case STATE_ID_KW:` of the `switch (state)`. -/
def case_STATE_ID_KW (c : Int) (lexeme : List Int) (source : List Int) : fsm_step_t :=
  if c = 95 ∨ is_letter c ∨ is_digit c then
    fsm_step_t.next fsm_state_t.STATE_ID_KW (lexeme ++ [c])
  else if c = 32 ∨ c = 9 then fsm_step_t.next fsm_state_t.STATE_WHITESPACE lexeme
  else if c = 46 then fsm_step_t.next fsm_state_t.STATE_ID_IFJ_FUNC (lexeme ++ [c])
  else return_id_or_keyword c lexeme source

/-- The `case STATE_START:` of the `switch (state)`. -/
def case_STATE_START (c : Int) (lexeme : List Int) (source : List Int) : fsm_step_t :=
  if c = 34 then fsm_step_t.next fsm_state_t.STATE_STR_START (lexeme ++ [c])
  else if is_digit c then fsm_step_t.next fsm_state_t.STATE_INTEGER (lexeme ++ [c])
  else if c = 92 then fsm_step_t.next fsm_state_t.STATE_STR_ML_BACKSLASH (lexeme ++ [c])
  else if c = 43 then return_token token_type.TOKEN_ADD source
  else if c = 42 then return_token token_type.TOKEN_MUL source
  else if c = 45 then return_token token_type.TOKEN_SUB source
  else if c = 47 then fsm_step_t.next fsm_state_t.STATE_DIV lexeme
  else if c = 33 then fsm_step_t.next fsm_state_t.STATE_NOT lexeme
  else if c = 63 then fsm_step_t.next fsm_state_t.STATE_QUESTION_MARK lexeme
  else if c = 62 then fsm_step_t.next fsm_state_t.STATE_COMP_G lexeme
  else if c = 60 then fsm_step_t.next fsm_state_t.STATE_COMP_L lexeme
  else if c = 61 then fsm_step_t.next fsm_state_t.STATE_ASSIGN lexeme
  else if c = 38 then fsm_step_t.next fsm_state_t.STATE_LOGIC_AND1 lexeme
  else if c = 124 then fsm_step_t.next fsm_state_t.STATE_VERTICAL_BAR lexeme
  else if c = 123 then return_token token_type.TOKEN_OPENING_BRACKET source
  else if c = 125 then return_token token_type.TOKEN_CLOSING_BRACKET source
  else if c = 40 then return_token token_type.TOKEN_OPENING_PARENTHESES source
  else if c = 41 then return_token token_type.TOKEN_CLOSING_PARENTHESES source
  else if c = 91 then fsm_step_t.next fsm_state_t.STATE_OPEN_BRACK_LEFT (lexeme ++ [c])
  else if c = 93 then fsm_step_t.next fsm_state_t.STATE_OPEN_BRACK_RIGHT lexeme
  else if c = 58 then return_token token_type.TOKEN_TWODOT source
  else if c = 44 then return_token token_type.TOKEN_COMMA source
  else if c = 59 then return_token token_type.TOKEN_SEMICOLON source
  else if c = 95 then fsm_step_t.next fsm_state_t.STATE_UNDERSCORE lexeme
  else if c = 64 then fsm_step_t.next fsm_state_t.STATE_AT (lexeme ++ [c])
  else if is_letter c then fsm_step_t.next fsm_state_t.STATE_ID_KW (lexeme ++ [c])
  else if c = 32 ∨ c = 9 ∨ c = 10 then fsm_step_t.next fsm_state_t.STATE_START lexeme
  else if c = EOF then return_token token_type.TOKEN_EOF source
  else return_lexical_error

/-- The tail of the number states: a letter is an error, everything else is pushed back
and ends the literal. -/
def return_number (c : Int) (token : token_t) (source : List Int) : fsm_step_t :=
  if is_letter c then return_lexical_error
  else fsm_step_t.done (Res.ok (token, ungetc c source))

/-- One pass through the `switch (state)` of `get_next_token` with the character `c` just
read; `source` is the input after `c`. `STATE_UNDERSCORE` has no `break` after its inner
`switch`, so a letter or digit falls through into `case STATE_ID_KW:`. -/
def fsm_step (state : fsm_state_t) (c : Int) (lexeme : List Int) (source : List Int) :
    fsm_step_t :=
  match state with
  | fsm_state_t.STATE_START => case_STATE_START c lexeme source
  | fsm_state_t.STATE_AT =>
    if is_letter c then fsm_step_t.next fsm_state_t.STATE_AT (lexeme ++ [c])
    else if lexeme ≠ ascii "@import" then return_lexical_error
    else return_token token_type.TOKEN_IMPORT (ungetc c source)
  | fsm_state_t.STATE_DIV =>
    if c = 47 then fsm_step_t.next fsm_state_t.STATE_COMMENT lexeme
    else return_token token_type.TOKEN_DIV (ungetc c source)
  | fsm_state_t.STATE_OPEN_BRACK_LEFT =>
    if c = 93 then fsm_step_t.next fsm_state_t.STATE_OPEN_BRACK_RIGHT (lexeme ++ [c])
    else return_token token_type.TOKEN_OPEN_BRACK_LEFT (ungetc c source)
  | fsm_state_t.STATE_OPEN_BRACK_RIGHT =>
    if c = 95 ∨ is_letter c ∨ is_digit c then
      fsm_step_t.next fsm_state_t.STATE_ID_KW (lexeme ++ [c])
    else return_token token_type.TOKEN_OPEN_BRACK_RIGHT (ungetc c source)
  | fsm_state_t.STATE_COMMENT =>
    if c = 10 then fsm_step_t.next fsm_state_t.STATE_START lexeme
    else fsm_step_t.next fsm_state_t.STATE_COMMENT lexeme
  | fsm_state_t.STATE_QUESTION_MARK =>
    if is_letter c ∨ c = 91 then fsm_step_t.next fsm_state_t.STATE_NULL_TYPE (lexeme ++ [c])
    else return_token token_type.TOKEN_QUEST (ungetc c source)
  | fsm_state_t.STATE_NULL_TYPE =>
    if c = 93 ∨ c = 95 ∨ is_letter c ∨ is_digit c then
      fsm_step_t.next fsm_state_t.STATE_NULL_TYPE (lexeme ++ [c])
    else
      match is_keyword lexeme with
      | some token_type.KW_INT_TYPE => return_token token_type.TOKEN_INT_NULL (ungetc c source)
      | some token_type.KW_FLOAT_TYPE =>
        return_token token_type.TOKEN_FLOAT_NULL (ungetc c source)
      | some token_type.KW_STRING_TYPE =>
        return_token token_type.TOKEN_STRING_NULL (ungetc c source)
      | _ => return_lexical_error
  | fsm_state_t.STATE_NOT =>
    if c = 61 then fsm_step_t.next fsm_state_t.STATE_NEQ lexeme
    else return_token token_type.TOKEN_NOT (ungetc c source)
  | fsm_state_t.STATE_NEQ => return_token token_type.TOKEN_NEQ (ungetc c source)
  | fsm_state_t.STATE_ASSIGN =>
    if c = 61 then fsm_step_t.next fsm_state_t.STATE_EQ lexeme
    else return_token token_type.TOKEN_ASSIGN (ungetc c source)
  | fsm_state_t.STATE_EQ => return_token token_type.TOKEN_EQ (ungetc c source)
  | fsm_state_t.STATE_COMP_L =>
    if c = 61 then fsm_step_t.next fsm_state_t.STATE_COMP_LE lexeme
    else return_token token_type.TOKEN_COMP_L (ungetc c source)
  | fsm_state_t.STATE_COMP_LE => return_token token_type.TOKEN_COMP_LE (ungetc c source)
  | fsm_state_t.STATE_COMP_G =>
    if c = 61 then fsm_step_t.next fsm_state_t.STATE_COMP_GE lexeme
    else return_token token_type.TOKEN_COMP_G (ungetc c source)
  | fsm_state_t.STATE_COMP_GE => return_token token_type.TOKEN_COMP_GE (ungetc c source)
  | fsm_state_t.STATE_LOGIC_AND1 =>
    if c = 38 then fsm_step_t.next fsm_state_t.STATE_LOGIC_AND2 lexeme
    else return_lexical_error
  | fsm_state_t.STATE_LOGIC_AND2 => return_token token_type.TOKEN_LOGICAL_AND (ungetc c source)
  | fsm_state_t.STATE_VERTICAL_BAR =>
    if c = 124 then fsm_step_t.next fsm_state_t.STATE_LOGIC_OR2 lexeme
    else return_token token_type.TOKEN_VERTICAL_BAR (ungetc c source)
  | fsm_state_t.STATE_LOGIC_OR2 => return_token token_type.TOKEN_LOGICAL_OR (ungetc c source)
  | fsm_state_t.STATE_UNDERSCORE =>
    if is_letter c ∨ is_digit c then case_STATE_ID_KW c (lexeme ++ [95, c]) source
    else return_token token_type.TOKEN_UNDERSCORE (ungetc c source)
  | fsm_state_t.STATE_ID_KW => case_STATE_ID_KW c lexeme source
  | fsm_state_t.STATE_WHITESPACE =>
    if c = 32 ∨ c = 9 then fsm_step_t.next fsm_state_t.STATE_WHITESPACE lexeme
    else if c = 46 then fsm_step_t.next fsm_state_t.STATE_ID_IFJ_FUNC (lexeme ++ [c])
    else return_id_or_keyword c lexeme source
  | fsm_state_t.STATE_ID_IFJ_FUNC =>
    if is_letter c ∨ is_digit c then
      fsm_step_t.next fsm_state_t.STATE_ID_IFJ_FUNC (lexeme ++ [c])
    else if c = 32 ∨ c = 9 ∨ c = 10 then fsm_step_t.next fsm_state_t.STATE_ID_IFJ_FUNC lexeme
    else if is_built_in lexeme then
      fsm_step_t.done (Res.ok (tk_id (lexeme_string lexeme), ungetc c source))
    else return_lexical_error
  | fsm_state_t.STATE_INTEGER =>
    if is_digit c then
      if lexeme.head? = some 48 then return_lexical_error
      else fsm_step_t.next fsm_state_t.STATE_INTEGER (lexeme ++ [c])
    else if c = 46 then fsm_step_t.next fsm_state_t.STATE_DCM_START (lexeme ++ [c])
    else if c = 101 ∨ c = 69 then fsm_step_t.next fsm_state_t.STATE_EXP_START (lexeme ++ [c])
    else
      return_number c (tk_int (to_int (strtol10 lexeme))) source
  | fsm_state_t.STATE_DCM_START =>
    if is_digit c then fsm_step_t.next fsm_state_t.STATE_FLOAT (lexeme ++ [c])
    else return_lexical_error
  | fsm_state_t.STATE_FLOAT =>
    if is_digit c then fsm_step_t.next fsm_state_t.STATE_FLOAT (lexeme ++ [c])
    else if c = 101 ∨ c = 69 then fsm_step_t.next fsm_state_t.STATE_EXP_START (lexeme ++ [c])
    else
      return_number c (tk_float (lexeme_string lexeme)) source
  | fsm_state_t.STATE_EXP_START =>
    if is_digit c then fsm_step_t.next fsm_state_t.STATE_EXP_FLOAT (lexeme ++ [c])
    else if c = 45 ∨ c = 43 then fsm_step_t.next fsm_state_t.STATE_EXP_SIGN (lexeme ++ [c])
    else return_lexical_error
  | fsm_state_t.STATE_EXP_SIGN =>
    if is_digit c then fsm_step_t.next fsm_state_t.STATE_EXP_FLOAT (lexeme ++ [c])
    else return_lexical_error
  | fsm_state_t.STATE_EXP_FLOAT =>
    if is_digit c then fsm_step_t.next fsm_state_t.STATE_EXP_FLOAT (lexeme ++ [c])
    else
      return_number c (tk_float (lexeme_string lexeme)) source
  | fsm_state_t.STATE_STR_START =>
    if c = 34 then fsm_step_t.next fsm_state_t.STATE_STR_END (lexeme ++ [c])
    else if c = 92 then fsm_step_t.next fsm_state_t.STATE_STR_ESC (lexeme ++ [c])
    else if c = 10 ∨ c = 0 ∨ c = EOF ∨ c = 9 then return_lexical_error
    else fsm_step_t.next fsm_state_t.STATE_STR_START (lexeme ++ [c])
  | fsm_state_t.STATE_STR_END => return_string lexeme (ungetc c source)
  | fsm_state_t.STATE_STR_ESC =>
    if c = 34 ∨ c = 110 ∨ c = 114 ∨ c = 116 ∨ c = 92 then
      fsm_step_t.next fsm_state_t.STATE_STR_START (lexeme ++ [c])
    else if c = 120 then fsm_step_t.next fsm_state_t.STATE_STR_ESC_X1 (lexeme ++ [c])
    else return_lexical_error
  | fsm_state_t.STATE_STR_ESC_X1 =>
    if is_hex c then fsm_step_t.next fsm_state_t.STATE_STR_ESC_X2 (lexeme ++ [c])
    else return_lexical_error
  | fsm_state_t.STATE_STR_ESC_X2 =>
    if is_hex c then fsm_step_t.next fsm_state_t.STATE_STR_START (lexeme ++ [c])
    else return_lexical_error
  | fsm_state_t.STATE_STR_ML_BACKSLASH =>
    if c = 92 then fsm_step_t.next fsm_state_t.STATE_STR_ML_BODY (lexeme ++ [c])
    else return_lexical_error
  | fsm_state_t.STATE_STR_ML_BODY =>
    if c = 10 then fsm_step_t.next fsm_state_t.STATE_STR_ML_NEWLINE_CHECK lexeme
    else if c = EOF then return_string lexeme source
    else fsm_step_t.next fsm_state_t.STATE_STR_ML_BODY (lexeme ++ [c])
  | fsm_state_t.STATE_STR_ML_NEWLINE_CHECK =>
    if c = 9 ∨ c = 32 then fsm_step_t.next fsm_state_t.STATE_STR_ML_SKIP_WHITESPACE lexeme
    else if c = 92 then fsm_step_t.next fsm_state_t.STATE_STR_ML_BACKSLASH (lexeme ++ [10, c])
    else return_string lexeme (ungetc c source)
  | fsm_state_t.STATE_STR_ML_SKIP_WHITESPACE =>
    if c = 9 ∨ c = 32 then fsm_step_t.next fsm_state_t.STATE_STR_ML_SKIP_WHITESPACE lexeme
    else if c = 92 then fsm_step_t.next fsm_state_t.STATE_STR_ML_BACKSLASH (lexeme ++ [10, c])
    else return_string lexeme (ungetc c source)
  | _ => return_lexical_error

/-- The loop `while (1)` of `get_next_token`, one iteration per unit of fuel;
`Res.timeout` only when the fuel ran out. -/
def get_next_token_loop : Nat → fsm_state_t → List Int → List Int →
    Res Nat (token_t × List Int)
  | 0, _, _, _ => Res.timeout
  | fuel + 1, state, lexeme, source =>
    match fsm_step state (getc source).1 lexeme (getc source).2 with
    | fsm_step_t.next state1 lexeme1 => get_next_token_loop fuel state1 lexeme1 (getc source).2
    | fsm_step_t.done r => r

/-- The function `get_next_token`: the token and the input left after it (`Res.ok`), or
the error code it returns (`Res.fail`). -/
def get_next_token (fuel : Nat) (source : List Int) : Res Nat (token_t × List Int) :=
  get_next_token_loop fuel fsm_state_t.STATE_START [] source

/-- A character that continues an identifier: `_`, a letter or a digit. -/
def is_id_char (c : Int) : Bool := c == 95 || is_letter c || is_digit c

/-- A character that the states `STATE_WHITESPACE` and `STATE_ID_IFJ_FUNC` skip. -/
def is_blank (c : Int) : Bool := c == 32 || c == 9 || c == 10

/-- The decimal value of a string of digits. -/
def decimal_value (ds : List Int) : Int := ds.foldl (fun acc d => acc * 10 + (d - 48)) 0

/-- One element of the body of a single-line string literal, as `STATE_STR_START` and the
escape states read it: a character that is stored as it is, a two-character escape
`\c`, or `\x` with two more characters. -/
inductive str_item where
  | plain (c : Int)
  | esc (c : Int)
  | hex (h1 h2 : Int)
  deriving DecidableEq, Repr

/-- The elements that the string states accept: a `char` value other than `"`, `\`, newline,
NUL, `EOF` and tab; one of the escapes `\"`, `\n`, `\r`, `\t`, `\\`; `\x` with two
hexadecimal digits. -/
def str_item.valid : str_item → Bool
  | str_item.plain c =>
    decide (-128 ≤ c) && decide (c ≤ 127) && decide (c ≠ 34) && decide (c ≠ 92) &&
      decide (c ≠ 10) && decide (c ≠ 0) && decide (c ≠ -1) && decide (c ≠ 9)
  | str_item.esc c => decide (c = 34 ∨ c = 110 ∨ c = 114 ∨ c = 116 ∨ c = 92)
  | str_item.hex h1 h2 => is_hex h1 && is_hex h2

/-- The characters of an element in the source text. -/
def str_item.source : str_item → List Int
  | str_item.plain c => [c]
  | str_item.esc c => [92, c]
  | str_item.hex h1 h2 => [92, 120, h1, h2]

/-- What the loop of `process_str` appends to `new_lex` for an element (single-line
literal), branch by branch. -/
def str_item.output : str_item → List Int
  | str_item.plain c => if c ≤ 32 ∨ c = 35 then encode_escape c else [c]
  | str_item.esc c =>
    if c = 110 then ascii "\\010"
    else if c = 116 then ascii "\\009"
    else if c = 114 then ascii "\\013"
    else if c = 92 then ascii "\\092"
    else [34]
  | str_item.hex h1 h2 => encode_escape (16 * hex_value h1 + hex_value h2)

/-- The source text of a body made of the elements `items`. -/
def body_source : List str_item → List Int
  | [] => []
  | item :: items => item.source ++ body_source items

/-- The content that `process_str` builds for a body made of the elements `items`. -/
def body_output : List str_item → List Int
  | [] => []
  | item :: items => item.output ++ body_output items

/-- The lines of `code` from `LABEL label` up to the next empty output line (the one
`gen_func_start` prints before the next function). -/
def function_code (label : String) (code : List Instr) : List Instr :=
  (code_from label code).takeWhile (fun i => i ≠ Instr.line "" [])

/-- The tokens of `n` nested statements `if (1 == 1) { ... } else { }`, the innermost
then-branch empty. -/
def nested_ifs : Nat → List token_t
  | 0 => []
  | n + 1 => if_tokens (nested_ifs n) []

/-- The tokens of `n` nested statements `while (1 == 1) { ... }`. -/
def nested_whiles : Nat → List token_t
  | 0 => []
  | n + 1 => while_tokens (nested_whiles n)

/-- What the generator calls made for `n` nested `if` statements with empty innermost
blocks do to `label_counter` and `if_stack`: `gen_if_start` draws a label and pushes it
(`gen_stack_push`), the inner statements run, `gen_if_else` reads the top and `gen_if_end`
pops it; `none` when `gen_stack_top` finds the stack empty and exits. -/
def nested_if_labels : Nat → Int × List Int → Option (Int × List Int)
  | 0, p => some p
  | n + 1, (counter, stack) =>
    match nested_if_labels n (counter + 1, gen_stack_push stack counter) with
    | none => none
    | some (_, []) => none
    | some (counter1, _ :: rest) => some (counter1, rest)

/-- No item of the table belongs to a scope deeper than the current one. -/
def scopes_closed (table : symtable_t) : Prop :=
  ∀ i item, item ∈ table.items i → item.scope_level ≤ table.scope_level

/-- The state inside `n` open `if` statements: `gen_if_start` has run `n` times since
`generator_init`; what they printed is left out, `tokens` is what is still to be read. -/
def inside_ifs (n : Nat) (tokens : List token_t) : PState :=
  { Nat.iterate gen_if_start n (init_state (symtable_create TABLE_SIZE) tokens) with out := [] }

/-- The state inside `n` open `while` statements. -/
def inside_whiles (n : Nat) (tokens : List token_t) : PState :=
  { Nat.iterate gen_while_start n (init_state (symtable_create TABLE_SIZE) tokens) with
    out := [] }

/-- The statements `body` of a block parsed in state `s` (its `tokens` are replaced by the
body and the closing `}`): the lines printed and the two label stacks afterwards. -/
def run_block (s : PState) (body : List token_t) :
    Res Unit (List Instr × List Int × List Int) :=
  match parse_statements (parse_expr_rec 1 (4 * body.length + 4)) (4 * body.length + 4)
      { s with tokens := body ++ [tk token_type.TOKEN_CLOSING_BRACKET] } with
  | Res.ok s1 => Res.ok (s1.out, s1.if_stack, s1.while_stack)
  | Res.fail _ => Res.fail ()
  | Res.exit code => Res.exit code
  | Res.crash => Res.crash
  | Res.timeout => Res.timeout

/-- The labels `n - 1, ..., 1, 0`, top first. -/
def labels_below (n : Nat) : List Int := (List.range n).reverse.map (fun l => (l : Int))

/-! ## Programs and observations for the claims on the parser as a whole -/

/-- The token types that have a `case` of their own in the `switch` of
`token_to_prec_symb`, in source order; every other type takes the `default` branch. -/
def expression_tokens : List token_type :=
  [token_type.TOKEN_ADD, token_type.TOKEN_SUB, token_type.TOKEN_MUL, token_type.TOKEN_DIV,
   token_type.TOKEN_EQ, token_type.TOKEN_NEQ, token_type.TOKEN_NOT, token_type.TOKEN_COMP_L,
   token_type.TOKEN_COMP_G, token_type.TOKEN_COMP_LE, token_type.TOKEN_COMP_GE,
   token_type.TOKEN_LOGICAL_AND, token_type.TOKEN_LOGICAL_OR,
   token_type.TOKEN_OPENING_PARENTHESES, token_type.TOKEN_CLOSING_PARENTHESES,
   token_type.TOKEN_STRING, token_type.TOKEN_INT, token_type.TOKEN_FLOAT,
   token_type.TOKEN_INT_NULL, token_type.TOKEN_STRING_NULL, token_type.TOKEN_FLOAT_NULL,
   token_type.KW_NULL, token_type.TOKEN_ID, token_type.TOKEN_OPENING_BRACKET,
   token_type.TOKEN_SEMICOLON, token_type.TOKEN_EOL, token_type.TOKEN_COMMA]

/-- The tokens of `var x: i32 = 1` followed by one token of type `last`. -/
def var_x_then (last : token_type) : List token_t :=
  [tk token_type.KW_VAR, tk_id "x", tk token_type.TOKEN_TWODOT, tk token_type.KW_INT_TYPE,
   tk token_type.TOKEN_ASSIGN, tk_int 1, tk last]

/-- The tokens of `name = 1;`. -/
def assign_one (name : String) : List token_t :=
  [tk_id name, tk token_type.TOKEN_ASSIGN, tk_int 1, tk token_type.TOKEN_SEMICOLON]

/-- The run of `parse_program` behind `exit_code`: calls nested three deep, four units of
fuel per token. -/
def run_program (source : List token_t) : Res PState PState :=
  parse_program (parse_expr_rec 3 (4 * source.length + 4)) (4 * source.length + 4) source
    (parser_init source)

/-- How often the line `LABEL label` is printed for `source`. -/
def label_count (label : String) (source : List token_t) : Nat :=
  match compile 3 (4 * source.length + 4) source with
  | some (_, out) => out.count (Instr.line "LABEL" [label])
  | none => 0

/-- The tokens of `callee(args)`. -/
def call_tokens (callee : String) (args : List token_t) : List token_t :=
  [tk_id callee, tk token_type.TOKEN_OPENING_PARENTHESES] ++ args ++
  [tk token_type.TOKEN_CLOSING_PARENTHESES]

/-- The tokens of `pub fn name(a: i32) i32 { return a; }`. -/
def identity_fn (name : String) : List token_t :=
  fn_tokens name [tk_id "a", tk token_type.TOKEN_TWODOT, tk token_type.KW_INT_TYPE]
    token_type.KW_INT_TYPE [tk token_type.KW_RETURN, tk_id "a", tk token_type.TOKEN_SEMICOLON]

/-- The program with the functions `g` and `f` of `identity_fn` and a `main` whose body is
`var x: i32 = 0; x = rhs; _ = x;`. -/
def assign_call_program (rhs : List token_t) : List token_t :=
  prologue_tokens ++ identity_fn "g" ++ identity_fn "f" ++
  main_tokens ([tk token_type.KW_VAR, tk_id "x", tk token_type.TOKEN_TWODOT,
    tk token_type.KW_INT_TYPE, tk token_type.TOKEN_ASSIGN, tk_int 0,
    tk token_type.TOKEN_SEMICOLON, tk_id "x", tk token_type.TOKEN_ASSIGN] ++ rhs ++
   [tk token_type.TOKEN_SEMICOLON, tk token_type.TOKEN_UNDERSCORE, tk token_type.TOKEN_ASSIGN,
    tk_id "x", tk token_type.TOKEN_SEMICOLON])

/-- The program whose `main` is `const s = ifj.string("a");` followed by the statement
`ifj.write(arg);`. -/
def write_program (arg : List token_t) : List token_t :=
  main_program ([tk token_type.KW_CONST, tk_id "s", tk token_type.TOKEN_ASSIGN] ++
    call_tokens "ifj.string" [tk_string "a"] ++ [tk token_type.TOKEN_SEMICOLON] ++
    call_tokens "ifj.write" arg ++ [tk token_type.TOKEN_SEMICOLON])

/-- The state of a second activation of `parse_expr` that is about to read the argument
`1)` of a call: the first activation holds `main_stack`, the second `temp_stack`. -/
def third_activation (main_stack temp_stack : List StackData) : PState :=
  { init_state (symtable_create TABLE_SIZE)
      [tk_int 1, tk token_type.TOKEN_CLOSING_PARENTHESES] with
    main_stack := main_stack, temp_stack := temp_stack, is_main_stack := false }

/-- The tokens of `if (m) |name| { _ = name; } else { }`. -/
def if_binding_tokens (name : String) : List token_t :=
  [tk token_type.KW_IF, tk token_type.TOKEN_OPENING_PARENTHESES, tk_id "m",
   tk token_type.TOKEN_CLOSING_PARENTHESES, tk token_type.TOKEN_VERTICAL_BAR, tk_id name,
   tk token_type.TOKEN_VERTICAL_BAR] ++
  block_tokens [tk token_type.TOKEN_UNDERSCORE, tk token_type.TOKEN_ASSIGN, tk_id name,
    tk token_type.TOKEN_SEMICOLON] ++ [tk token_type.KW_ELSE] ++ block_tokens []

/-- The tokens of `while (m) |name| { _ = name; }`. -/
def while_binding_tokens (name : String) : List token_t :=
  [tk token_type.KW_WHILE, tk token_type.TOKEN_OPENING_PARENTHESES, tk_id "m",
   tk token_type.TOKEN_CLOSING_PARENTHESES, tk token_type.TOKEN_VERTICAL_BAR, tk_id name,
   tk token_type.TOKEN_VERTICAL_BAR] ++
  block_tokens [tk token_type.TOKEN_UNDERSCORE, tk token_type.TOKEN_ASSIGN, tk_id name,
    tk token_type.TOKEN_SEMICOLON]

/-- The program `pub fn f(name: i32) void { _ = name; }` with an empty `main`. -/
def param_program (name : String) : List token_t :=
  program_with_f [tk_id name, tk token_type.TOKEN_TWODOT, tk token_type.KW_INT_TYPE]
    token_type.KW_VOID [tk token_type.TOKEN_UNDERSCORE, tk token_type.TOKEN_ASSIGN, tk_id name,
      tk token_type.TOKEN_SEMICOLON]

/-- The items of the table that carry the key `key`, in chain order. -/
def entries_of (table : symtable_t) (key : String) : List symtable_item_t :=
  (table.items (hash_function key)).filter (fun item => item.key == key)

/-- The symbol table of pass 2 at the point where the parameters of a function have been
entered: after pass 1 of `source`, one scope has been entered and `params` is parsed. -/
def table_after_parameters (source params : List token_t) : Option symtable_t :=
  match parse_program_first (4 * source.length + 4) (parser_init source) with
  | Res.ok s =>
    match parse_parameters 8 (mk_builtin "f" [] data_type.void_type)
        (enter_scope { s with tokens := params, first_control := false }) with
    | Res.ok (_, s1) => some s1.symbol_table
    | _ => none
  | _ => none

/-! ## Running the body of `$ifj_strcmp` -/

/-- Modelled from the spec: a value of a variable of IFJcode24, booleans included. -/
inductive Data where
  | int (v : Int)
  | bool (b : Bool)
  | float (lexeme : String)
  | string (v : String)
  | nil
  deriving DecidableEq, Repr

/-- Modelled from the spec: the part of the interpreter state that the body of a built-in
touches: the operand stack (top first), the global `GF@return` (`none` while it has no
value) and the variables of the local frame. -/
structure BodyMachine where
  stack : List Data
  gf_return : Option Data
  frame : List (String × Option Data)
  deriving DecidableEq, Repr

/-- Modelled from the spec: how a run of a body ends: at `RETURN`, with a run-time error of
the interpreter (52 unknown label, 53 wrong operand types, 54 unknown variable, 56 missing
value), on a line outside the fragment, or out of fuel. -/
inductive BodyEnd where
  | returned (m : BodyMachine)
  | error (code : Nat)
  | unsupported
  | timeout
  deriving DecidableEq, Repr

/-- Modelled from the spec: the value of a symbol operand: a constant, `GF@return` or a
variable of the local frame. -/
def read_symb (m : BodyMachine) (operand : String) : Except Nat Data :=
  if operand = "bool@true" then Except.ok (Data.bool true)
  else if operand = "bool@false" then Except.ok (Data.bool false)
  else if operand = "int@0" then Except.ok (Data.int 0)
  else if operand = "int@1" then Except.ok (Data.int 1)
  else if operand = "int@-1" then Except.ok (Data.int (-1))
  else if operand = "nil@nil" then Except.ok Data.nil
  else if operand = "GF@return" then
    match m.gf_return with
    | some v => Except.ok v
    | none => Except.error 56
  else
    match m.frame.lookup operand with
    | some (some v) => Except.ok v
    | some none => Except.error 56
    | none => Except.error 54

/-- Modelled from the spec: write `v` to the variable `var`. -/
def write_var (m : BodyMachine) (var : String) (v : Data) : Except Nat BodyMachine :=
  if var = "GF@return" then Except.ok { m with gf_return := some v }
  else if (m.frame.lookup var).isSome then
    Except.ok { m with frame := m.frame.map (fun e => if e.1 = var then (var, some v) else e) }
  else Except.error 54

/-- Modelled from the spec: the relation `first < second` of `LT` (and of `GT` with the
operands exchanged): both operands of the same type int, bool or string, strings compared
lexicographically by character code; other pairs are error 53 (floats are outside the fragment). -/
def data_lt : Data → Data → Option (Except Nat Bool)
  | Data.int a, Data.int b => some (Except.ok (decide (a < b)))
  | Data.bool a, Data.bool b => some (Except.ok (!a && b))
  | Data.string a, Data.string b => some (Except.ok (decide (a.toList < b.toList)))
  | Data.float _, Data.float _ => none
  | _, _ => some (Except.error 53)

/-- Modelled from the spec: the test of `JUMPIFEQ`: operands of the same type, or one of
them nil, are compared for equality; other pairs are error 53. -/
def data_eq : Data → Data → Except Nat Bool
  | Data.nil, b => Except.ok (decide (b = Data.nil))
  | a, Data.nil => Except.ok (decide (a = Data.nil))
  | Data.int a, Data.int b => Except.ok (decide (a = b))
  | Data.bool a, Data.bool b => Except.ok (decide (a = b))
  | Data.float a, Data.float b => Except.ok (decide (a = b))
  | Data.string a, Data.string b => Except.ok (decide (a = b))
  | _, _ => Except.error 53

/-- What one line does: go on with the next line, jump to a label, or end the run. -/
inductive BodyStep where
  | next (m : BodyMachine)
  | jump (label : String) (m : BodyMachine)
  | done (r : BodyEnd)

/-- An interpreter error ends the run. -/
def BodyStep.of (r : Except Nat BodyMachine) : BodyStep :=
  match r with
  | Except.ok m => BodyStep.next m
  | Except.error code => BodyStep.done (BodyEnd.error code)

/-- Modelled from the spec: one line of a built-in body. -/
def body_step (m : BodyMachine) : Instr → BodyStep
  | Instr.line opcode operands =>
    if opcode = "" ∨ opcode = "LABEL" ∨ opcode = "CREATEFRAME" then BodyStep.next m
    else if opcode = "PUSHFRAME" ∨ opcode = "POPFRAME" then BodyStep.next { m with frame := [] }
    else if opcode = "RETURN" then BodyStep.done (BodyEnd.returned m)
    else if opcode = "DEFVAR" then
      match operands with
      | [var] => BodyStep.next { m with frame := m.frame ++ [(var, none)] }
      | _ => BodyStep.done BodyEnd.unsupported
    else if opcode = "POPS" then
      match operands, m.stack with
      | [var], v :: rest => BodyStep.of (write_var { m with stack := rest } var v)
      | [_], [] => BodyStep.done (BodyEnd.error 56)
      | _, _ => BodyStep.done BodyEnd.unsupported
    else if opcode = "MOVE" then
      match operands with
      | [var, symb] => BodyStep.of ((read_symb m symb).bind (write_var m var))
      | _ => BodyStep.done BodyEnd.unsupported
    else if opcode = "LT" ∨ opcode = "GT" then
      match operands with
      | [var, symb1, symb2] =>
        match read_symb m symb1, read_symb m symb2 with
        | Except.ok a, Except.ok b =>
          match if opcode = "LT" then data_lt a b else data_lt b a with
          | some r => BodyStep.of (r.bind fun holds => write_var m var (Data.bool holds))
          | none => BodyStep.done BodyEnd.unsupported
        | Except.error code, _ => BodyStep.done (BodyEnd.error code)
        | _, Except.error code => BodyStep.done (BodyEnd.error code)
      | _ => BodyStep.done BodyEnd.unsupported
    else if opcode = "JUMPIFEQ" then
      match operands with
      | [label, symb1, symb2] =>
        match read_symb m symb1, read_symb m symb2 with
        | Except.ok a, Except.ok b =>
          match data_eq a b with
          | Except.ok true => BodyStep.jump label m
          | Except.ok false => BodyStep.next m
          | Except.error code => BodyStep.done (BodyEnd.error code)
        | Except.error code, _ => BodyStep.done (BodyEnd.error code)
        | _, Except.error code => BodyStep.done (BodyEnd.error code)
      | _ => BodyStep.done BodyEnd.unsupported
    else BodyStep.done BodyEnd.unsupported
  | _ => BodyStep.done BodyEnd.unsupported

/-- Run `code` from line `pc`; a jump goes to the line `LABEL label` of `code`. -/
def run_body (code : List Instr) : Nat → Nat → BodyMachine → BodyEnd
  | 0, _, _ => BodyEnd.timeout
  | fuel + 1, pc, m =>
    match code.get? pc with
    | none => BodyEnd.unsupported
    | some i =>
      match body_step m i with
      | BodyStep.next m1 => run_body code fuel (pc + 1) m1
      | BodyStep.jump label m1 =>
        if code.contains (Instr.line "LABEL" [label]) then
          run_body code fuel (code.indexOf (Instr.line "LABEL" [label])) m1
        else BodyEnd.error 52
      | BodyStep.done r => r

/-- The run of the body printed for `$ifj_strcmp`, entered with `GF@return` holding
`gf_return` and with `stack` as operand stack. -/
def run_strcmp (gf_return : Option Data) (stack : List Data) : BodyEnd :=
  run_body (code_from "$ifj_strcmp" gen_builtin_functions) 32 0
    { stack := stack, gf_return := gf_return, frame := [] }

/-- The value of `GF@return` at `RETURN`, or how the run ended otherwise. -/
def strcmp_value (gf_return : Option Data) (param1 param2 : String) : Except BodyEnd Data :=
  match run_strcmp gf_return [Data.string param1, Data.string param2] with
  | BodyEnd.returned m =>
    match m.gf_return with
    | some v => Except.ok v
    | none => Except.error (BodyEnd.returned m)
  | r => Except.error r

/-! ## Dynamic strings (`dstring.c`) -/

/-- The macro `STRING_INIT_SIZE` of `dstring.h`. -/
def STRING_INIT_SIZE : Nat := 8

/-- Outcome of a routine that works on heap blocks: it returned 0 with `a`, it accessed a
byte outside a block, or the fuel of the model ran out. Allocation itself succeeds. -/
inductive Mem (α : Type) where
  | ok (a : α)
  | out_of_bounds
  | timeout
  deriving DecidableEq, Repr

/-- Sequencing: go on after a routine that returned. -/
def Mem.bind {α β : Type} (r : Mem α) (f : α → Mem β) : Mem β :=
  match r with
  | Mem.ok a => f a
  | Mem.out_of_bounds => Mem.out_of_bounds
  | Mem.timeout => Mem.timeout

/-- The struct `dstring_t`: `data` is the block that the pointer `data` points to, one
entry per allocated byte (a C `char`); `length` and `capacity` are `size_t`. -/
structure dstring_t where
  data : List Int
  length : Nat
  capacity : Nat
  deriving DecidableEq, Repr

/-- The block `malloc(n)` returns: `n` bytes of indeterminate content `junk`. -/
def malloc (junk : Int) (n : Nat) : List Int := List.replicate n junk

/-- The block `realloc(block, n)` returns: the old content up to `n` bytes, the bytes that
are new are indeterminate. -/
def realloc (junk : Int) (block : List Int) (n : Nat) : List Int :=
  block.take n ++ List.replicate (n - block.length) junk

/-- The store `block[i] = v`. -/
def store (block : List Int) (i : Nat) (v : Int) : Mem (List Int) :=
  if i < block.length then Mem.ok (block.set i v) else Mem.out_of_bounds

/-- The call `memcpy(block + offset, src, n)`: `n` bytes are read from the start of `src`
and written from `offset` on. -/
def memcpy (block : List Int) (offset : Nat) (src : List Int) (n : Nat) : Mem (List Int) :=
  if n ≤ src.length ∧ offset + n ≤ block.length then
    Mem.ok (block.take offset ++ src.take n ++ block.drop (offset + n))
  else Mem.out_of_bounds

/-- The call `strlen(block)`: the index of the first NUL; a block without NUL is read
beyond its end. -/
def strlen : List Int → Mem Nat
  | [] => Mem.out_of_bounds
  | c :: rest => if c = 0 then Mem.ok 0 else (strlen rest).bind fun n => Mem.ok (n + 1)

/-- The call `strcpy(block, src)`: the bytes of `src` up to and including its first NUL are
written to the start of `block`. -/
def strcpy (block : List Int) (src : List Int) : Mem (List Int) :=
  (strlen src).bind fun n => memcpy block 0 src (n + 1)

/-- The function `dstring_init`. -/
def dstring_init (junk : Int) : Mem dstring_t :=
  (store (malloc junk STRING_INIT_SIZE) 0 0).bind fun data =>
    Mem.ok { data := data, capacity := STRING_INIT_SIZE, length := 0 }

/-- The loop `while (new_capacity < required_size) new_capacity *= 2` of `dstring_extend`,
in `size_t` arithmetic, one iteration per unit of fuel. -/
def extend_capacity : Nat → Nat → Nat → Option Nat
  | 0, _, _ => none
  | fuel + 1, new_capacity, required_size =>
    if new_capacity < required_size then
      extend_capacity fuel (new_capacity * 2 % 2 ^ 64) required_size
    else some new_capacity

/-- The function `dstring_extend`: the block is reallocated with `new_capacity + 1` bytes,
also when the capacity stays what it was. -/
def dstring_extend (junk : Int) (dstring : dstring_t) (required_size : Nat) : Mem dstring_t :=
  match extend_capacity 65 dstring.capacity required_size with
  | none => Mem.timeout
  | some new_capacity =>
    Mem.ok { dstring with
      data := realloc junk dstring.data ((new_capacity + 1) % 2 ^ 64),
      capacity := new_capacity }

/-- The function `dstring_add_char`. -/
def dstring_add_char (junk : Int) (string : dstring_t) (c : Int) : Mem dstring_t :=
  (if (string.length + 1) % 2 ^ 64 ≥ string.capacity then
    dstring_extend junk string ((string.length + 1) % 2 ^ 64)
   else Mem.ok string).bind fun s1 =>
    (store s1.data s1.length c).bind fun data1 =>
      (store data1 ((s1.length + 1) % 2 ^ 64) 0).bind fun data2 =>
        Mem.ok { s1 with data := data2, length := (s1.length + 1) % 2 ^ 64 }

/-- The function `dstring_add_dstring`. -/
def dstring_add_dstring (junk : Int) (dest src : dstring_t) : Mem dstring_t :=
  (if (dest.length + src.length) % 2 ^ 64 ≥ dest.capacity then
    dstring_extend junk dest ((dest.length + src.length) % 2 ^ 64)
   else Mem.ok dest).bind fun d1 =>
    (memcpy d1.data d1.length src.data src.length).bind fun data1 =>
      (store data1 ((d1.length + src.length) % 2 ^ 64) 0).bind fun data2 =>
        Mem.ok { d1 with data := data2, length := (d1.length + src.length) % 2 ^ 64 }

/-- The function `dstring_add_str`; `src` is the block of the character array. -/
def dstring_add_str (junk : Int) (dest : dstring_t) (src : List Int) : Mem dstring_t :=
  (strlen src).bind fun src_length =>
    (if (dest.length + src_length) % 2 ^ 64 ≥ dest.capacity then
      dstring_extend junk dest ((dest.length + src_length) % 2 ^ 64)
     else Mem.ok dest).bind fun d1 =>
      (memcpy d1.data d1.length src ((src_length + 1) % 2 ^ 64)).bind fun data1 =>
        Mem.ok { d1 with data := data1, length := (d1.length + src_length) % 2 ^ 64 }

/-- The function `dstring_assign`. -/
def dstring_assign (junk : Int) (dest src : dstring_t) : Mem dstring_t :=
  (if dest.capacity < src.length then dstring_extend junk dest src.length
   else Mem.ok dest).bind fun d1 =>
    (strcpy d1.data src.data).bind fun data1 =>
      Mem.ok { d1 with data := data1, length := src.length }

/-- The function `dstring_copy` for a `src` that is not NULL. -/
def dstring_copy (junk : Int) (src : dstring_t) : Mem dstring_t :=
  (dstring_init junk).bind fun dest => dstring_assign junk dest src

/-- The dynamic string that `dstring_init` returns: a block of 8 bytes, the first one NUL. -/
def dstring_fresh (junk : Int) : dstring_t :=
  { data := 0 :: List.replicate 7 junk, length := 0, capacity := 8 }

/-- The dynamic string built by `dstring_init` and one `dstring_add_char` per element of
`chars`, as the scanner builds a lexeme. -/
def dstring_of (junk : Int) (chars : List Int) : Mem dstring_t :=
  chars.foldl (fun r c => r.bind fun d => dstring_add_char junk d c) (dstring_init junk)

/-- The characters of a dynamic string: the first `length` bytes of its block. -/
def dstring_t.content (d : dstring_t) : List Int := d.data.take d.length

/-- The state of a dynamic string that the operations rely on: the terminator lies inside
the block and is NUL, the block has `capacity` bytes (never extended) or `capacity + 1`
bytes (extended), and the capacity is not 0. -/
def dstring_wf (d : dstring_t) : Prop :=
  d.length + 1 ≤ d.data.length ∧ d.data[d.length]? = some 0 ∧
  (d.data.length = d.capacity ∨ d.data.length = d.capacity + 1) ∧ 0 < d.capacity

instance (d : dstring_t) : Decidable (dstring_wf d) := by
  unfold dstring_wf
  infer_instance

/-! ## What marks a variable as used -/

/-- An identifier token that carries the name `x`. -/
def mentions (x : String) (t : token_t) : Bool :=
  t.type == token_type.TOKEN_ID && t.attr_s == some x

/-- The chain of `x` holds a variable or constant `x` of level `level` whose `isUsed` is
false: what `check_unused_variables_in_scope` looks for at that level. -/
def unused_at (x : String) (level : Int) (table : symtable_t) : Prop :=
  ∃ item ∈ table.items (hash_function x), item.key = x ∧ item_is_unused level item = true

/-- The tokens still to be read and the symbol table of a parser state. -/
@[reducible] def view (s : PState) : List token_t × symtable_t := (s.tokens, s.symbol_table)

/-- A run from the state viewed as `a` to the state viewed as `b` keeps an unused `x`:
it has read the tokens `consumed`, and, unless one of them or the token it looks at in the
end is an identifier `x`, it is back at the scope level it started from, the table has
the size it had, and an unused `x` of a level up to the starting one is still unused. -/
def Keeps (p : Prop) (x : String) (level : Int) (a b : List token_t × symtable_t) : Prop :=
  ∃ consumed, a.1 = consumed ++ b.1 ∧
    (p → (∀ t ∈ consumed ++ b.1.take 1, mentions x t = false) →
      b.2.scope_level = a.2.scope_level ∧ b.2.size = a.2.size ∧
      (level ≤ a.2.scope_level → unused_at x level a.2 → unused_at x level b.2))

/-- The part of `parse_function_definition` before the call of `parse_statements`: the
entry of the function is looked up, its scope entered, the parameters are parsed and the
tokens up to the opening brace skipped. Gives the callee data and the state in which the
body starts. -/
def function_body_start (fuel : Nat) (s : PState) : Res PState (func_data_t × PState) :=
  if (current_token s).type ≠ token_type.TOKEN_ID then Res.exit ERROR_SYNTAX_ANALYSIS
  else
    match (current_token s).attr_s with
    | none => Res.crash
    | some func_name =>
      match symtable_find s.symbol_table func_name with
      | none => Res.exit ERROR_SEMANTIC_UNDEFINED_FUNCTION_OR_VARIABLE
      | some entry =>
        if entry.type ≠ symbol_type.fn_t then
          Res.exit ERROR_SEMANTIC_UNDEFINED_FUNCTION_OR_VARIABLE
        else
          match entry.funcData with
          | none => Res.crash
          | some func_data =>
            let s1 := fetch_next_token (enter_scope (emit s (gen_func_start func_data.name)))
            if (current_token s1).type ≠ token_type.TOKEN_OPENING_PARENTHESES then
              Res.exit ERROR_SYNTAX_ANALYSIS
            else
              match parse_parameters fuel func_data (fetch_next_token s1) with
              | Res.ok (_, s2) =>
                if (current_token s2).type ≠ token_type.TOKEN_CLOSING_PARENTHESES then
                  Res.exit ERROR_SYNTAX_ANALYSIS
                else
                  match skip_to_opening_bracket s2 with
                  | none => Res.timeout
                  | some s3 =>
                    Res.ok (func_data,
                      { fetch_next_token s3 with
                        current_function := some func_data, has_return := false })
              | Res.fail _ =>
                Res.exit ERROR_SEMANTIC_INCORRECT_FUNCTION_PARAMETERS_OR_RETURN_VALUE
              | Res.exit code => Res.exit code
              | Res.crash => Res.crash
              | Res.timeout => Res.timeout

/-- The part of `parse_function_definition` after `parse_statements` returned 0 in the
state `s5`: the check for `}`, the check for a missing `return`, the lines that end the
function, the check for unused variables, and the exit from the scope. -/
def function_body_end (func_data : func_data_t) (s5 : PState) : Res PState PState :=
  if (current_token s5).type ≠ token_type.TOKEN_CLOSING_BRACKET then
    Res.exit ERROR_SYNTAX_ANALYSIS
  else if func_data.returnType ≠ data_type.void_type ∧ ¬ s5.has_return then
    Res.exit ERROR_SEMANTIC_MISSING_OR_ABSENT_EXPRESSION_IN_RETURN
  else
    let s6 :=
      if func_data.returnType = data_type.void_type ∧ ¬ s5.has_return then
        emit s5 [Instr.line "POPFRAME" []]
      else s5
    let s7 :=
      if func_data.name = "main" then
        emit s6 [Instr.line "EXIT" ["int@0"]]
      else s6
    (check_unused s7).bind fun s8 =>
      Res.ok (fetch_next_token (exit_scope s8))

/-- The tokens of the parameter list of a function definition whose name is the current
token: what stands between the opening parenthesis and the first closing one. -/
def parameter_tokens (s : PState) : List token_t :=
  s.tokens.tail.tail.takeWhile (fun t => t.type ≠ token_type.TOKEN_CLOSING_PARENTHESES)

/-- A run of the parameter routines of pass 2 from `a` to `b`: it has read the tokens
`consumed`, none of them a closing parenthesis, level and size of the table are what they
were, what was unused is still unused, and every identifier among `consumed` is entered
as unused at the current level. -/
def Declared (a b : PState) : Prop :=
  ∃ consumed, a.tokens = consumed ++ b.tokens ∧
    (∀ t ∈ consumed, t.type ≠ token_type.TOKEN_CLOSING_PARENTHESES) ∧
    b.first_control = a.first_control ∧
    b.symbol_table.scope_level = a.symbol_table.scope_level ∧
    b.symbol_table.size = a.symbol_table.size ∧
    (∀ x level, unused_at x level a.symbol_table → unused_at x level b.symbol_table) ∧
    (∀ x, (∃ t ∈ consumed, mentions x t = true) →
      unused_at x a.symbol_table.scope_level b.symbol_table)

/-- The state of pass 2 at the name of `f` in `f(x: i32) void { _ = 1; }`, with `f`
entered in the table as pass 1 leaves it. -/
def unused_x_state : PState :=
  init_state
    (symtable_insert_function (symtable_create TABLE_SIZE) "f"
      (mk_builtin "f" [data_type.int_type] data_type.void_type) 0)
    [tk_id "f", tk token_type.TOKEN_OPENING_PARENTHESES, tk_id "x", tk token_type.TOKEN_TWODOT,
     tk token_type.KW_INT_TYPE, tk token_type.TOKEN_CLOSING_PARENTHESES, tk token_type.KW_VOID,
     tk token_type.TOKEN_OPENING_BRACKET, tk token_type.TOKEN_UNDERSCORE,
     tk token_type.TOKEN_ASSIGN, tk_int 1, tk token_type.TOKEN_SEMICOLON,
     tk token_type.TOKEN_CLOSING_BRACKET]

/-- The state in which the body of `f` starts, from `unused_x_state`. -/
def unused_x_body : PState :=
  match function_body_start 8 unused_x_state with
  | Res.ok (_, s4) => s4
  | _ => unused_x_state

/-- The state in which `parse_statements` returns from the body of `f`. -/
def unused_x_end : PState :=
  match parse_statements (parse_expr_rec 1 8) 8 unused_x_body with
  | Res.ok s5 => s5
  | _ => unused_x_state

/-- The tokens of the parameter list `x1: t1, x2: t2, ...` of the parameters `params`
(name and type word). -/
def param_list_tokens : List (String × token_type) → List token_t
  | [] => []
  | [p] => [tk_id p.1, tk token_type.TOKEN_TWODOT, tk p.2]
  | p :: q :: rest =>
    [tk_id p.1, tk token_type.TOKEN_TWODOT, tk p.2, tk token_type.TOKEN_COMMA] ++
      param_list_tokens (q :: rest)

/-- A top-level function of a source text: its name, its parameters (name and type word),
the word of its return type and the tokens of its body. -/
structure fn_decl where
  name : String
  params : List (String × token_type)
  ret : token_type
  body : List token_t

/-- The tokens of `pub fn name(params) ret { body }`. -/
def fn_decl.tokens (d : fn_decl) : List token_t :=
  fn_tokens d.name (param_list_tokens d.params) d.ret d.body

/-- The type words `i32`, `f64`, `[]u8`, `?i32`, `?f64`, `?[]u8`. -/
def is_type_word (t : token_type) : Bool :=
  t ∈ [token_type.KW_INT_TYPE, token_type.KW_FLOAT_TYPE, token_type.KW_STRING_TYPE,
       token_type.TOKEN_INT_NULL, token_type.TOKEN_FLOAT_NULL, token_type.TOKEN_STRING_NULL]

/-- A function whose header pass 1 reads without a syntax error: every parameter has a
type word, the return type is `void` or a type word, and the body holds no `pub` (pass 1
skips to the next `pub`; the scanner delivers no end-of-file token inside a body). -/
def fn_decl.well_formed (d : fn_decl) : Prop :=
  (∀ p ∈ d.params, is_type_word p.2 = true) ∧
  (d.ret = token_type.KW_VOID ∨ is_type_word d.ret = true) ∧
  ∀ t ∈ d.body, t.type ≠ token_type.KW_PUB ∧ t.type ≠ token_type.TOKEN_EOF

/-- The tokens of the functions `decls`, one after the other. -/
def functions_tokens : List fn_decl → List token_t
  | [] => []
  | d :: decls => d.tokens ++ functions_tokens decls

/-- The tokens of the program made of the prologue and the functions `decls`. -/
def program_of (decls : List fn_decl) : List token_t :=
  prologue_tokens ++ functions_tokens decls

/-- The functions `decls` can stand together in a program that pass 1 reads to its end:
each is well formed, no two have the same name, and none has the name of a built-in. -/
def functions_ok (decls : List fn_decl) : Prop :=
  (∀ d ∈ decls, d.well_formed ∧ symtable_find (symtable_create TABLE_SIZE) d.name = none) ∧
  (decls.map fn_decl.name).Nodup
/-- The tokens of `pub fn main(params) ret`: the header of a function `main` up to the
word of its return type. -/
def main_header_tokens (params : List (String × token_type)) (ret : token_type) :
    List token_t :=
  [tk token_type.KW_PUB, tk token_type.KW_FN, tk_id "main",
   tk token_type.TOKEN_OPENING_PARENTHESES] ++ param_list_tokens params ++
  [tk token_type.TOKEN_CLOSING_PARENTHESES, tk ret]

/-! # Theorems -/

open data_type prec_sym_t token_type fsm_state_t

/-! ## Lemmas on `reduce` for the rule `E -> E op E` -/

theorem reduce_binary_ok (table : symtable_t) (lhs op rhs : StackData) (rest : List StackData)
    (freed_rhs freed_lhs : Bool)
    (hl : lhs.symbol = EXP) (hr : rhs.symbol = EXP) (result_type : data_type)
    (lines : List Instr) (h : check_operation op.symbol lhs rhs = Res.ok (result_type, lines)) :
    reduce_freed table (rhs :: op :: lhs :: rest) freed_rhs freed_lhs =
      Res.ok (exp_data result_type (freed_rhs && freed_lhs) :: rest,
          lines ++ op_lines op.symbol) := by
  simp [reduce_freed, hl, hr, h]

theorem reduce_binary_exit (table : symtable_t) (lhs op rhs : StackData) (rest : List StackData)
    (freed_rhs freed_lhs : Bool)
    (hl : lhs.symbol = EXP) (hr : rhs.symbol = EXP)
    (h : check_operation op.symbol lhs rhs = Res.exit 7 ∨
         check_operation op.symbol lhs rhs = Res.fail ()) :
    reduce_freed table (rhs :: op :: lhs :: rest) freed_rhs freed_lhs = Res.exit 7 := by
  rcases h with h | h <;> simp [reduce_freed, hl, hr, h, ERROR_SEMANTIC_TYPE_INCOMPATIBILITY]

theorem check_operation_arith (op : prec_sym_t) (lhs rhs : StackData)
    (hop : op = ADD ∨ op = SUB ∨ op = MUL ∨ op = DIV) :
    check_operation op lhs rhs =
      check_arithmetic_compatibility lhs.type rhs.type lhs.is_literal rhs.is_literal := by
  rcases hop with rfl | rfl | rfl | rfl <;> simp [check_operation]

theorem check_operation_equality (op : prec_sym_t) (lhs rhs : StackData)
    (hop : op = EQ ∨ op = NEQ) :
    check_operation op lhs rhs =
      check_equality_compatibility lhs.type rhs.type lhs.is_literal rhs.is_literal := by
  rcases hop with rfl | rfl <;> simp [check_operation]

theorem check_operation_relational (op : prec_sym_t) (lhs rhs : StackData)
    (hop : op = prec_sym_t.LT ∨ op = GT ∨ op = prec_sym_t.LE ∨ op = GE) :
    check_operation op lhs rhs =
      check_relational_compatibility lhs.type rhs.type lhs.is_literal rhs.is_literal := by
  rcases hop with rfl | rfl | rfl | rfl <;> simp [check_operation]

/-! ## The reads of `reduce` after `stack_pop` -/

theorem reduce_held (table : symtable_t) (stack : List StackData) :
    reduce table stack = reduce_freed table stack (held_flag stack 0) (held_flag stack 2) := rfl

theorem run_expr_on_held (table : symtable_t) (tokens : List token_t) :
    run_expr_on held_reads table tokens = run_expr table tokens := rfl

set_option maxRecDepth 1000000 in
/-- The flag of an entry made by `E op E` is what the heap gives, and a later reduction
reads it: in `1 + a + 1.5` with `a : i32` the sum `1 + a` is the left operand of a float.
Where the stale reads give true the expression is accepted with type float; where the
freed entries keep their content (the variable `a` is no literal) it ends with exit code 7. -/
theorem freed_reads_decide :
    run_expr_on (fun _ _ _ => true) (table_with_vars [("a", int_type)])
        [tk_int 1, tk TOKEN_ADD, tk_id "a", tk TOKEN_ADD, tk_float "1.5", tk TOKEN_SEMICOLON] =
      Res.ok (float_type, [Instr.PUSHS_int 1, Instr.PUSHS_LF "a", Instr.ADDS,
        Instr.PUSHS_float "1.5", Instr.POPS_GF_temp, Instr.INT2FLOATS, Instr.PUSHS_GF_temp,
        Instr.ADDS]) ∧
    run_expr_on held_reads (table_with_vars [("a", int_type)])
        [tk_int 1, tk TOKEN_ADD, tk_id "a", tk TOKEN_ADD, tk_float "1.5", tk TOKEN_SEMICOLON] =
      Res.exit 7 := by
  refine ⟨by rfl, by rfl⟩

/-! ## C1: arithmetic typing -/

/-- C1. Reducing `E op E` with `op` one of `+ - * /` succeeds exactly in four cases: both
operands int (result int), both float (result float), int literal on the left of a float
(result float, the left operand widened through `GF@temp`), int literal on the right of a
float (result float, widened in place); in every other case the run ends with exit code 7.
The decision reads the flags of the two operands while they are on the stack; it holds
whatever the two reads after the pops give (`freed_rhs`, `freed_lhs`), which only make the
flag of the new entry. `1 + 1.0` is accepted with type float and `a + 1.0` with `a : i32`
exits with 7, on every heap. -/
theorem C1_arithmetic_reduction (table : symtable_t) (lhs op rhs : StackData)
    (rest : List StackData) (freed_rhs freed_lhs : Bool)
    (hl : lhs.symbol = EXP) (hr : rhs.symbol = EXP)
    (hop : op.symbol = ADD ∨ op.symbol = SUB ∨ op.symbol = MUL ∨ op.symbol = DIV) :
    (lhs.type = int_type ∧ rhs.type = int_type →
      reduce_freed table (rhs :: op :: lhs :: rest) freed_rhs freed_lhs =
        Res.ok (exp_data int_type (freed_rhs && freed_lhs) :: rest,
                op_lines op.symbol)) ∧
    (lhs.type = float_type ∧ rhs.type = float_type →
      reduce_freed table (rhs :: op :: lhs :: rest) freed_rhs freed_lhs =
        Res.ok (exp_data float_type (freed_rhs && freed_lhs) :: rest,
                op_lines op.symbol)) ∧
    (lhs.type = int_type ∧ rhs.type = float_type ∧ lhs.is_literal = true →
      reduce_freed table (rhs :: op :: lhs :: rest) freed_rhs freed_lhs =
        Res.ok (exp_data float_type (freed_rhs && freed_lhs) :: rest,
                [Instr.POPS_GF_temp, Instr.INT2FLOATS, Instr.PUSHS_GF_temp] ++
                  op_lines op.symbol)) ∧
    (lhs.type = float_type ∧ rhs.type = int_type ∧ rhs.is_literal = true →
      reduce_freed table (rhs :: op :: lhs :: rest) freed_rhs freed_lhs =
        Res.ok (exp_data float_type (freed_rhs && freed_lhs) :: rest,
                [Instr.INT2FLOATS] ++ op_lines op.symbol)) ∧
    (¬ (lhs.type = int_type ∧ rhs.type = int_type) →
      ¬ (lhs.type = float_type ∧ rhs.type = float_type) →
      ¬ (lhs.type = int_type ∧ rhs.type = float_type ∧ lhs.is_literal = true) →
      ¬ (lhs.type = float_type ∧ rhs.type = int_type ∧ rhs.is_literal = true) →
      reduce_freed table (rhs :: op :: lhs :: rest) freed_rhs freed_lhs = Res.exit 7) ∧
    (∀ freed, run_expr_on freed (table_with_vars [])
        [tk_int 1, tk TOKEN_ADD, tk_float "1.0", tk TOKEN_SEMICOLON] =
      Res.ok (float_type, [Instr.PUSHS_int 1, Instr.PUSHS_float "1.0", Instr.POPS_GF_temp,
        Instr.INT2FLOATS, Instr.PUSHS_GF_temp, Instr.ADDS])) ∧
    (∀ freed, run_expr_on freed (table_with_vars [("a", int_type)])
        [tk_id "a", tk TOKEN_ADD, tk_float "1.0", tk TOKEN_SEMICOLON] = Res.exit 7) := by
  have hc := check_operation_arith op.symbol lhs rhs hop
  refine ⟨?_, ?_, ?_, ?_, ?_, fun _ => by rfl, fun _ => by rfl⟩
  · rintro ⟨h1, h2⟩
    rw [reduce_binary_ok table lhs op rhs rest freed_rhs freed_lhs hl hr int_type []]
    · rfl
    · rw [hc]; simp [check_arithmetic_compatibility, h1, h2]
  · rintro ⟨h1, h2⟩
    rw [reduce_binary_ok table lhs op rhs rest freed_rhs freed_lhs hl hr float_type []]
    · rfl
    · rw [hc]; simp [check_arithmetic_compatibility, h1, h2]
  · rintro ⟨h1, h2, h3⟩
    rw [reduce_binary_ok table lhs op rhs rest freed_rhs freed_lhs hl hr float_type _]
    rw [hc]; simp [check_arithmetic_compatibility, h1, h2, h3]
  · rintro ⟨h1, h2, h3⟩
    rw [reduce_binary_ok table lhs op rhs rest freed_rhs freed_lhs hl hr float_type _]
    rw [hc]; simp [check_arithmetic_compatibility, h1, h2, h3]
  · intro h1 h2 h3 h4
    apply reduce_binary_exit table lhs op rhs rest freed_rhs freed_lhs hl hr
    left
    rw [hc]
    unfold check_arithmetic_compatibility
    simp only [ERROR_SEMANTIC_TYPE_INCOMPATIBILITY]
    split_ifs <;> simp_all

/-- Witness of C1: the stack `$ E(int literal) * E(float literal)` reduces to `$ E(float)`,
here with stale reads that give true and false. -/
theorem C1_arithmetic_reduction_witness :
    reduce_freed (table_with_vars [])
        [exp_data float_type true,
         { symbol := MUL, type := void_type, is_literal := false, token := some (tk TOKEN_MUL) },
         exp_data int_type true, dollar_data] true false =
      Res.ok ([exp_data float_type false, dollar_data],
        [Instr.POPS_GF_temp, Instr.INT2FLOATS, Instr.PUSHS_GF_temp, Instr.MULS]) :=
  (C1_arithmetic_reduction (table_with_vars []) (exp_data int_type true)
    { symbol := MUL, type := void_type, is_literal := false, token := some (tk TOKEN_MUL) }
    (exp_data float_type true) [dollar_data] true false rfl rfl
    (Or.inr (Or.inr (Or.inl rfl)))).2.2.1 ⟨rfl, rfl, rfl⟩

/-! ## C2: `is_type_compatible` -/

/-- C2. `is_type_compatible declared value` is true exactly when the two types are equal,
or `declared` is a nullable type and `value` is its base type or the literal-null type.
It is not symmetric (`?i32` accepts `i32`, `i32` does not accept `?i32`) and int and float
are incompatible in both directions. -/
theorem C2_is_type_compatible (declared value : data_type) :
    (is_type_compatible declared value = true ↔
      declared = value ∨
      (declared = null_int_type ∧ (value = int_type ∨ value = null_type)) ∨
      (declared = null_float_type ∧ (value = float_type ∨ value = null_type)) ∨
      (declared = null_string_type ∧ (value = string_type ∨ value = null_type))) ∧
    is_type_compatible null_int_type int_type = true ∧
    is_type_compatible int_type null_int_type = false ∧
    is_type_compatible int_type float_type = false ∧
    is_type_compatible float_type int_type = false := by
  refine ⟨?_, by decide, by decide, by decide, by decide⟩
  cases declared <;> cases value <;> simp [is_type_compatible]

/-! ## C3: equality operators -/

/-- C3 as stated fails: `a == 1.0` with `a : i32` is accepted with type bool (the int
variable is widened), it does not end with exit code 7. -/
theorem C3_int_variable_equals_float_literal_accepted :
    run_expr (table_with_vars [("a", int_type)])
        [tk_id "a", tk TOKEN_EQ, tk_float "1.0", tk TOKEN_SEMICOLON] =
      Res.ok (bool_type, [Instr.PUSHS_LF "a", Instr.PUSHS_float "1.0", Instr.POPS_GF_temp,
        Instr.INT2FLOATS, Instr.PUSHS_GF_temp, Instr.EQS]) ∧
    run_expr (table_with_vars [("a", int_type)])
        [tk_id "a", tk TOKEN_EQ, tk_float "1.0", tk TOKEN_SEMICOLON] ≠ Res.exit 7 := by
  constructor
  · rfl
  · decide

theorem check_equality_result_bool (l r : data_type) (ll rl : Bool) (ty : data_type)
    (lines : List Instr)
    (h : check_equality_compatibility l r ll rl = Res.ok (ty, lines)) : ty = bool_type := by
  unfold check_equality_compatibility at h
  split_ifs at h <;> simp_all

/-- C3 amended. For `==` and `!=` a mixed int/float operand pair is accepted exactly when
at least one of the two operands (of either type) is a literal, the int operand being
widened; it ends with exit code 7 only when neither operand is a literal. The decision
reads the flags of the two operands while they are on the stack and holds whatever the two
reads after the pops give (`freed_rhs`, `freed_lhs`). So `1 == x` with `x : f64` and
`a == 1.0` with `a : i32` are accepted and `a != x` exits with 7, on every heap. Every
accepted `==` / `!=` reduction has result type bool. -/
theorem C3_equality_reduction (table : symtable_t) (lhs op rhs : StackData)
    (rest : List StackData) (freed_rhs freed_lhs : Bool)
    (hl : lhs.symbol = EXP) (hr : rhs.symbol = EXP)
    (hop : op.symbol = EQ ∨ op.symbol = NEQ) :
    (lhs.type = int_type ∧ rhs.type = float_type ∧
        (lhs.is_literal = true ∨ rhs.is_literal = true) →
      reduce_freed table (rhs :: op :: lhs :: rest) freed_rhs freed_lhs =
        Res.ok (exp_data bool_type (freed_rhs && freed_lhs) :: rest,
                [Instr.POPS_GF_temp, Instr.INT2FLOATS, Instr.PUSHS_GF_temp] ++
                  op_lines op.symbol)) ∧
    (lhs.type = float_type ∧ rhs.type = int_type ∧
        (lhs.is_literal = true ∨ rhs.is_literal = true) →
      reduce_freed table (rhs :: op :: lhs :: rest) freed_rhs freed_lhs =
        Res.ok (exp_data bool_type (freed_rhs && freed_lhs) :: rest,
                [Instr.INT2FLOATS] ++ op_lines op.symbol)) ∧
    (((lhs.type = int_type ∧ rhs.type = float_type) ∨
        (lhs.type = float_type ∧ rhs.type = int_type)) ∧
        lhs.is_literal = false ∧ rhs.is_literal = false →
      reduce_freed table (rhs :: op :: lhs :: rest) freed_rhs freed_lhs = Res.exit 7) ∧
    (∀ stack lines,
      reduce_freed table (rhs :: op :: lhs :: rest) freed_rhs freed_lhs =
        Res.ok (stack, lines) →
      ∃ flag, stack = exp_data bool_type flag :: rest) ∧
    (∀ freed, run_expr_on freed (table_with_vars [("x", float_type)])
        [tk_int 1, tk TOKEN_EQ, tk_id "x", tk TOKEN_SEMICOLON] =
      Res.ok (bool_type, [Instr.PUSHS_int 1, Instr.PUSHS_LF "x", Instr.POPS_GF_temp,
        Instr.INT2FLOATS, Instr.PUSHS_GF_temp, Instr.EQS])) ∧
    (∀ freed, run_expr_on freed (table_with_vars [("a", int_type)])
        [tk_id "a", tk TOKEN_EQ, tk_float "1.0", tk TOKEN_SEMICOLON] =
      Res.ok (bool_type, [Instr.PUSHS_LF "a", Instr.PUSHS_float "1.0", Instr.POPS_GF_temp,
        Instr.INT2FLOATS, Instr.PUSHS_GF_temp, Instr.EQS])) ∧
    (∀ freed, run_expr_on freed (table_with_vars [("a", int_type), ("x", float_type)])
        [tk_id "a", tk TOKEN_NEQ, tk_id "x", tk TOKEN_SEMICOLON] = Res.exit 7) := by
  have hc := check_operation_equality op.symbol lhs rhs hop
  refine ⟨?_, ?_, ?_, ?_, fun _ => by rfl, fun _ => by rfl, fun _ => by rfl⟩
  · rintro ⟨h1, h2, h3⟩
    rw [reduce_binary_ok table lhs op rhs rest freed_rhs freed_lhs hl hr bool_type _]
    rw [hc]; simp [check_equality_compatibility, h1, h2, h3]
  · rintro ⟨h1, h2, h3⟩
    rw [reduce_binary_ok table lhs op rhs rest freed_rhs freed_lhs hl hr bool_type _]
    rw [hc]; simp [check_equality_compatibility, h1, h2, h3.symm]
  · rintro ⟨h1, h2, h3⟩
    apply reduce_binary_exit table lhs op rhs rest freed_rhs freed_lhs hl hr
    left
    rw [hc]
    rcases h1 with ⟨h1, h4⟩ | ⟨h1, h4⟩ <;>
      simp [check_equality_compatibility, h1, h2, h3, h4, ERROR_SEMANTIC_TYPE_INCOMPATIBILITY]
  · intro stack lines h
    cases hco : check_operation op.symbol lhs rhs with
    | ok a =>
      obtain ⟨ty, ls⟩ := a
      rw [reduce_binary_ok table lhs op rhs rest freed_rhs freed_lhs hl hr ty ls hco] at h
      have hty : ty = bool_type := by
        rw [hc] at hco
        exact check_equality_result_bool _ _ _ _ _ _ hco
      simp only [Res.ok.injEq, Prod.mk.injEq] at h
      exact ⟨freed_rhs && freed_lhs, by rw [← h.1, hty]⟩
    | fail e => simp [reduce_freed, hl, hr, hco] at h
    | exit c => simp [reduce_freed, hl, hr, hco] at h
    | crash => simp [reduce_freed, hl, hr, hco] at h
    | timeout => simp [reduce_freed, hl, hr, hco] at h

/-- Witness of C3 amended: `$ E(int variable) == E(float literal)` reduces to `$ E(bool)`,
here with stale reads that give true. -/
theorem C3_equality_reduction_witness :
    reduce_freed (table_with_vars [])
        [exp_data float_type true,
         { symbol := EQ, type := void_type, is_literal := false, token := some (tk TOKEN_EQ) },
         exp_data int_type false, dollar_data] true true =
      Res.ok ([exp_data bool_type true, dollar_data],
        [Instr.POPS_GF_temp, Instr.INT2FLOATS, Instr.PUSHS_GF_temp, Instr.EQS]) :=
  (C3_equality_reduction (table_with_vars []) (exp_data int_type false)
    { symbol := EQ, type := void_type, is_literal := false, token := some (tk TOKEN_EQ) }
    (exp_data float_type true) [dollar_data] true true rfl rfl (Or.inl rfl)).1
    ⟨rfl, rfl, Or.inr rfl⟩

/-! ## C4: relational operators -/

/-- C4 at its failing inputs. With variables `x : f64` and `i : i32`, `x < i` is accepted
with type bool (the int variable is widened by `INT2FLOATS`), and `1 < 1.5` ends with exit
code 7: for a mixed pair `check_relational_compatibility` tests that the float operand is
not a literal, whatever the int operand is. -/
theorem C4_relational_mixed_observed :
    run_expr (table_with_vars [("x", float_type), ("i", int_type)])
        [tk_id "x", tk TOKEN_COMP_L, tk_id "i", tk TOKEN_SEMICOLON] =
      Res.ok (bool_type, [Instr.PUSHS_LF "x", Instr.PUSHS_LF "i", Instr.INT2FLOATS,
        Instr.LTS]) ∧
    run_expr (table_with_vars [])
        [tk_int 1, tk TOKEN_COMP_L, tk_float "1.5", tk TOKEN_SEMICOLON] = Res.exit 7 ∧
    (∀ lhs_is_literal rhs_is_literal : Bool,
      check_relational_compatibility float_type int_type lhs_is_literal rhs_is_literal =
        if lhs_is_literal = true then Res.exit 7 else Res.ok (bool_type, [Instr.INT2FLOATS])) ∧
    (∀ lhs_is_literal rhs_is_literal : Bool,
      check_relational_compatibility int_type float_type lhs_is_literal rhs_is_literal =
        if rhs_is_literal = true then Res.exit 7
        else Res.ok (bool_type, [Instr.POPS_GF_temp, Instr.INT2FLOATS, Instr.PUSHS_GF_temp])) := by
  refine ⟨by rfl, by rfl, ?_, ?_⟩ <;> intro a b <;> cases a <;> cases b <;> rfl

/-! ## C5: parentheses -/

/-- C5 at its failing inputs. Reducing `( E )` keeps the type of the inner `E` but builds
the is-literal flag from the two parenthesis entries, which are never literal: the result
is not literal whatever the inner flag was. Hence `(1) + 1.0` and `(1 + 2) * 1.5` end with
exit code 7 instead of being widened. -/
theorem C5_parenthesised_literal_observed :
    (∀ (table : symtable_t) (type : data_type) (is_literal : Bool) (rest : List StackData),
      reduce table
        ({ symbol := RPAR, type := void_type, is_literal := false,
           token := some (tk TOKEN_CLOSING_PARENTHESES) } ::
         exp_data type is_literal ::
         { symbol := LPAR, type := void_type, is_literal := false,
           token := some (tk TOKEN_OPENING_PARENTHESES) } :: rest) =
        Res.ok (exp_data type false :: rest, [])) ∧
    run_expr (table_with_vars [])
        [tk TOKEN_OPENING_PARENTHESES, tk_int 1, tk TOKEN_CLOSING_PARENTHESES, tk TOKEN_ADD,
         tk_float "1.0", tk TOKEN_SEMICOLON] = Res.exit 7 ∧
    run_expr (table_with_vars [])
        [tk TOKEN_OPENING_PARENTHESES, tk_int 1, tk TOKEN_ADD, tk_int 2,
         tk TOKEN_CLOSING_PARENTHESES, tk TOKEN_MUL, tk_float "1.5", tk TOKEN_SEMICOLON] =
      Res.exit 7 := by
  refine ⟨?_, by rfl, by rfl⟩
  intro table type is_literal rest
  simp [reduce, reduce_freed, held_flag, exp_data]

/-! ## C6: binary operators in the precedence table -/

/-- C6. For a binary operator `a` on top of the stack and an incoming binary operator `b`,
`prec_table[a][b]` is undefined when both are equality/relational operators, otherwise
reduce when the level of `a` is at least that of `b` and shift when it is lower. Hence
`a - b - c` is reduced as `(a - b) - c`, `a + b * c` as `a + (b * c)` and `a < b < c` is
rejected with exit code 2. -/
theorem C6_precedence_table (a b : prec_sym_t)
    (ha : is_binary_operator a = true) (hb : is_binary_operator b = true) :
    (is_comparison a = true ∧ is_comparison b = true → prec_action a b = act_undef) ∧
    (¬ (is_comparison a = true ∧ is_comparison b = true) →
      binding_level a ≥ binding_level b → prec_action a b = act_reduce) ∧
    (¬ (is_comparison a = true ∧ is_comparison b = true) →
      binding_level a < binding_level b → prec_action a b = act_shift) ∧
    run_expr (table_with_vars [("a", int_type), ("b", int_type), ("c", int_type)])
        [tk_id "a", tk TOKEN_SUB, tk_id "b", tk TOKEN_SUB, tk_id "c", tk TOKEN_SEMICOLON] =
      Res.ok (int_type, [Instr.PUSHS_LF "a", Instr.PUSHS_LF "b", Instr.SUBS,
        Instr.PUSHS_LF "c", Instr.SUBS]) ∧
    run_expr (table_with_vars [("a", int_type), ("b", int_type), ("c", int_type)])
        [tk_id "a", tk TOKEN_ADD, tk_id "b", tk TOKEN_MUL, tk_id "c", tk TOKEN_SEMICOLON] =
      Res.ok (int_type, [Instr.PUSHS_LF "a", Instr.PUSHS_LF "b", Instr.PUSHS_LF "c",
        Instr.MULS, Instr.ADDS]) ∧
    run_expr (table_with_vars [("a", int_type), ("b", int_type), ("c", int_type)])
        [tk_id "a", tk TOKEN_COMP_L, tk_id "b", tk TOKEN_COMP_L, tk_id "c",
         tk TOKEN_SEMICOLON] = Res.exit 2 := by
  refine ⟨?_, ?_, ?_, by rfl, by rfl, by rfl⟩ <;>
    cases a <;> cases b <;> revert ha hb <;> decide

/-- Witness of C6: `+` on the stack and `*` incoming gives shift. -/
theorem C6_precedence_table_witness : prec_action ADD MUL = act_shift :=
  (C6_precedence_table ADD MUL (by decide) (by decide)).2.2.1 (by decide) (by decide)

/-! ## C7: unary `!` -/

/-- C7 as stated fails: with `!` on top of the stack the action for an incoming `+` is
reduce, not shift, and `!a + b` is not parsed as `!(a + b)`: it ends with exit code 7
although `!(a + b)` is accepted. -/
theorem C7_not_reduces_before_arithmetic :
    prec_action NOT ADD = act_reduce ∧ prec_action NOT ADD ≠ act_shift ∧
    run_expr (table_with_vars [("a", int_type), ("b", int_type)])
        [tk TOKEN_NOT, tk_id "a", tk TOKEN_ADD, tk_id "b", tk TOKEN_SEMICOLON] = Res.exit 7 ∧
    run_expr (table_with_vars [("a", int_type), ("b", int_type)])
        [tk TOKEN_NOT, tk TOKEN_OPENING_PARENTHESES, tk_id "a", tk TOKEN_ADD, tk_id "b",
         tk TOKEN_CLOSING_PARENTHESES, tk TOKEN_SEMICOLON] =
      Res.ok (bool_type, [Instr.PUSHS_LF "a", Instr.PUSHS_LF "b", Instr.ADDS, Instr.NOTS]) := by
  refine ⟨by decide, by decide, by rfl, by rfl⟩

/-- C7 amended. With `!` as the top terminal the table action is reduce for every incoming
binary operator, the arithmetic ones included (and shift only for `(` and an operand), so
`!` binds tighter than every binary operator: `! E` is reduced to a bool `E` before the
operator is shifted, and `!a + b` is parsed as `(!a) + b`, which ends with exit code 7. -/
theorem C7_not_row (b : prec_sym_t) (hb : is_binary_operator b = true) :
    prec_action NOT b = act_reduce ∧
    prec_action NOT LPAR = act_shift ∧ prec_action NOT ID = act_shift ∧
    (∀ (table : symtable_t) (operand : StackData) (not_op below : StackData)
        (rest : List StackData), operand.symbol = EXP → not_op.symbol = NOT →
        below.symbol ≠ EXP →
      reduce table (operand :: not_op :: below :: rest) =
        Res.ok (exp_data bool_type (operand.is_literal && below.is_literal) :: below :: rest,
          [Instr.NOTS])) ∧
    run_expr (table_with_vars [("a", int_type), ("b", int_type)])
        [tk TOKEN_NOT, tk_id "a", tk TOKEN_ADD, tk_id "b", tk TOKEN_SEMICOLON] = Res.exit 7 := by
  refine ⟨?_, by decide, by decide, ?_, by rfl⟩
  · cases b <;> revert hb <;> decide
  · intro table operand not_op below rest h1 h2 h3
    simp [reduce, reduce_freed, held_flag, h1, h2, h3]

/-- Witness of C7 amended: `!` on the stack and `*` incoming gives reduce. -/
theorem C7_not_row_witness : prec_action NOT MUL = act_reduce :=
  (C7_not_row MUL (by decide)).1

/-! ## C8: the emitted stack code -/

/-- C8 as stated fails: `1 && 2` is accepted with type bool, and the emitted sequence
`PUSHS int@1`, `PUSHS int@2`, `ANDS` applies `ANDS` to two ints: its run stops with an
operand-type error and leaves no bool on the stack. -/
theorem C8_logical_operands_unchecked :
    run_expr (table_with_vars [])
        [tk_int 1, tk TOKEN_LOGICAL_AND, tk_int 2, tk TOKEN_SEMICOLON] =
      Res.ok (bool_type, [Instr.PUSHS_int 1, Instr.PUSHS_int 2, Instr.ANDS]) ∧
    exec [Instr.PUSHS_int 1, Instr.PUSHS_int 2, Instr.ANDS] empty_machine = none ∧
    exec_until [Instr.PUSHS_int 1, Instr.PUSHS_int 2, Instr.ANDS] empty_machine =
      Run.stopped Instr.ANDS { stack := [dyn_type.int, dyn_type.int], temp := none } := by
  refine ⟨by rfl, by rfl, by rfl⟩

theorem exp_types_cons_exp (d : StackData) (st : List StackData) (h : d.symbol = EXP) :
    exp_types (d :: st) = d.type :: exp_types st := by
  simp [exp_types, List.filter_cons, h]

theorem exp_types_cons_ne (d : StackData) (st : List StackData) (h : d.symbol ≠ EXP) :
    exp_types (d :: st) = exp_types st := by
  simp [exp_types, List.filter_cons, h]

theorem check_operation_ok_ne_exp (op : prec_sym_t) (lhs rhs : StackData) (r : data_type × List Instr)
    (h : check_operation op lhs rhs = Res.ok r) : op ≠ EXP := by
  rintro rfl
  simp [check_operation] at h

theorem active_set_active (s : PState) (u : Bool) (st : List StackData) :
    active_stack (set_active_stack s u st) u = st := by
  cases u <;> simp [active_stack, set_active_stack]

theorem correct_exp_end_true (stack : List StackData) (h : correct_exp_end stack = some true) :
    ∃ top next, stack = [top, next] ∧ top.symbol = EXP ∧ next.symbol = DOLLAR := by
  unfold correct_exp_end at h
  split at h
  · simp at h
  · split at h <;> simp at h
  · rename_i top next rest
    simp only [Option.some.injEq, decide_eq_true_eq] at h
    exact ⟨top, next, by rw [h.2.2], h.1, h.2.1⟩

theorem exec_until_append (a b : List Instr) (m : Machine) :
    exec_until (a ++ b) m =
      match exec_until a m with
      | Run.done m1 => exec_until b m1
      | Run.stopped i m1 => Run.stopped i m1 := by
  induction a generalizing m with
  | nil => rfl
  | cons i rest ih =>
    simp only [List.cons_append, exec_until]
    cases exec_instr i m with
    | none => rfl
    | some m1 => exact ih m1

theorem exec_until_done (l : List Instr) (m m1 : Machine) :
    exec_until l m = Run.done m1 ↔ exec l m = some m1 := by
  induction l generalizing m with
  | nil => simp [exec_until, exec]
  | cons i rest ih =>
    simp only [exec_until, exec]
    cases exec_instr i m with
    | none => simp
    | some m2 => exact ih m2

theorem operator_symbol_ne_exp (tt : token_type) : operator_symbol tt ≠ some EXP := by
  cases tt <;> simp [operator_symbol]

set_option maxHeartbeats 4000000 in
theorem check_operation_runs (op : prec_sym_t) (lhs rhs : StackData) (l r : dyn_type)
    (hl : static_type l = lhs.type) (hr : static_type r = rhs.type)
    (rt : data_type) (lines : List Instr)
    (h : check_operation op lhs rhs = Res.ok (rt, lines))
    (rest : List dyn_type) (temp : Option dyn_type) :
    match exec_until (lines ++ op_lines op) { stack := r :: l :: rest, temp := temp } with
    | Run.done m1 => ∃ v, m1.stack = v :: rest ∧ static_type v = rt
    | Run.stopped i m1 => ∃ tt, operator_symbol tt = some op ∧ unchecked_stop tt i m1 = true := by
  obtain ⟨ls, lt, ll, ltok⟩ := lhs
  obtain ⟨rs, rty, rl, rtok⟩ := rhs
  simp only at hl hr
  subst hl hr
  cases op <;> simp only [check_operation, reduceCtorEq, or_self, or_false, false_or, if_false,
    if_true, true_or, or_true] at h <;>
  cases l <;> cases r <;> cases ll <;> cases rl <;>
  simp [check_arithmetic_compatibility, check_equality_compatibility,
    check_relational_compatibility, static_type] at h <;>
  (obtain ⟨rfl, rfl⟩ := h) <;>
  first
    | exact ⟨_, rfl, rfl⟩
    | exact ⟨TOKEN_DIV, rfl, rfl⟩
    | exact ⟨TOKEN_LOGICAL_AND, rfl, rfl⟩
    | exact ⟨TOKEN_LOGICAL_OR, rfl, rfl⟩

theorem operator_symbol_cases (tt : token_type) (sym : prec_sym_t)
    (h : operator_symbol tt = some sym) :
    (tt = TOKEN_LOGICAL_AND ∧ sym = AND) ∨ (tt = TOKEN_LOGICAL_OR ∧ sym = OR) ∨
    (tt = TOKEN_NOT ∧ sym = NOT) ∨ (tt = TOKEN_DIV ∧ sym = DIV) := by
  cases tt <;> simp [operator_symbol] at h <;> simp [h.symm]

theorem unchecked_stop_cases (tt : token_type) (i : Instr) (m : Machine)
    (h : unchecked_stop tt i m = true) :
    tt = TOKEN_LOGICAL_AND ∨ tt = TOKEN_LOGICAL_OR ∨ tt = TOKEN_NOT ∨ tt = TOKEN_DIV := by
  unfold unchecked_stop at h
  split_ifs at h with h1 h2 h3
  · rcases h1 with h1 | h1
    · exact Or.inl h1.1
    · exact Or.inr (Or.inl h1.1)
  · exact Or.inr (Or.inr (Or.inl h2.1))
  · exact Or.inr (Or.inr (Or.inr h3.1))

theorem nots_runs (v : dyn_type) (rest : List dyn_type) (temp : Option dyn_type) :
    match exec_until [Instr.NOTS] { stack := v :: rest, temp := temp } with
    | Run.done m1 => m1.stack = dyn_type.bool :: rest
    | Run.stopped i m1 => unchecked_stop TOKEN_NOT i m1 = true := by
  cases v <;> rfl

theorem reduce_id_runs (table : symtable_t) (top : StackData) (below stack1 : List StackData)
    (lines : List Instr) (hlit : top.is_literal = true)
    (h : reduce_id table top below = Res.ok (stack1, lines))
    (m : Machine) (hm : m.stack.map static_type = exp_types below) :
    (∃ e, stack1 = e :: below ∧ e.symbol = EXP) ∧
    ∃ m1, exec_until lines m = Run.done m1 ∧
      m1.stack.map static_type = exp_types stack1 := by
  unfold reduce_id at h
  rw [if_pos hlit] at h
  split at h
  · simp at h
  · split at h
    · simp only [Res.ok.injEq, Prod.mk.injEq] at h
      obtain ⟨rfl, rfl⟩ := h
      refine ⟨⟨_, rfl, rfl⟩, _, rfl, ?_⟩
      simp_all [exp_types_cons_exp, exp_data, static_type]
    · simp only [Res.ok.injEq, Prod.mk.injEq] at h
      obtain ⟨rfl, rfl⟩ := h
      refine ⟨⟨_, rfl, rfl⟩, _, rfl, ?_⟩
      simp_all [exp_types_cons_exp, exp_data, static_type]
    · split at h
      · simp at h
      · simp only [Res.ok.injEq, Prod.mk.injEq] at h
        obtain ⟨rfl, rfl⟩ := h
        refine ⟨⟨_, rfl, rfl⟩, _, rfl, ?_⟩
        simp_all [exp_types_cons_exp, exp_data, static_type]
    · simp only [Res.ok.injEq, Prod.mk.injEq] at h
      obtain ⟨rfl, rfl⟩ := h
      refine ⟨⟨_, rfl, rfl⟩, _, rfl, ?_⟩
      simp_all [exp_types_cons_exp, exp_data, static_type]
    · simp at h

theorem reduce_id_shape (table : symtable_t) (top : StackData) (below stack1 : List StackData)
    (lines : List Instr) (h : reduce_id table top below = Res.ok (stack1, lines)) :
    ∃ e, stack1 = e :: below ∧ e.symbol = EXP := by
  unfold reduce_id at h
  repeat' split at h
  all_goals first | (cases h; done) | skip
  all_goals (cases h; exact ⟨_, rfl, rfl⟩)

theorem reduce_shape (table : symtable_t) (stack stack1 : List StackData)
    (freed_rhs freed_lhs : Bool) (lines : List Instr)
    (h : reduce_freed table stack freed_rhs freed_lhs = Res.ok (stack1, lines)) :
    ∃ e n, stack1 = e :: stack.drop n ∧ e.symbol = EXP := by
  unfold reduce_freed at h
  repeat' split at h
  all_goals first | (cases h; done) | skip
  all_goals first
    | (simp only [Res.ok.injEq, Prod.mk.injEq] at h; obtain ⟨rfl, rfl⟩ := h;
       exact ⟨_, 3, rfl, rfl⟩)
    | (simp only [Res.ok.injEq, Prod.mk.injEq] at h; obtain ⟨rfl, rfl⟩ := h;
       exact ⟨_, 2, rfl, rfl⟩)
    | (have h0 := reduce_id_shape _ _ _ _ _ h; exact ⟨h0.choose, 1, h0.choose_spec⟩)

theorem reduce_runs (table : symtable_t) (stack stack1 : List StackData)
    (freed_rhs freed_lhs : Bool) (lines : List Instr)
    (hid : ∀ d ∈ stack, d.symbol = ID → d.is_literal = true)
    (h : reduce_freed table stack freed_rhs freed_lhs = Res.ok (stack1, lines))
    (m : Machine) (hm : m.stack.map static_type = exp_types stack) :
    (∃ e n, stack1 = e :: stack.drop n ∧ e.symbol = EXP) ∧
    match exec_until lines m with
    | Run.done m1 => m1.stack.map static_type = exp_types stack1
    | Run.stopped i m1 =>
      ∃ tt, ∃ d ∈ stack, operator_symbol tt = some d.symbol ∧ unchecked_stop tt i m1 = true := by
  obtain ⟨mstack, temp⟩ := m
  simp only at hm
  cases stack with
  | nil => simp [reduce_freed] at h
  | cons top below =>
    unfold reduce_freed at h
    by_cases hidt : top.symbol = ID
    · simp only [hidt, if_true] at h
      have hne : top.symbol ≠ EXP := by rw [hidt]; decide
      rw [exp_types_cons_ne _ _ hne] at hm
      obtain ⟨⟨e, he1, he2⟩, m1, hm1, hm2⟩ :=
        reduce_id_runs table top below stack1 lines (hid top (by simp) hidt) h
          { stack := mstack, temp := temp } hm
      refine ⟨⟨e, 1, he1, he2⟩, ?_⟩
      rw [hm1]
      exact hm2
    · simp only [hidt, if_false] at h
      cases below with
      | nil => simp at h
      | cons inner below2 =>
        cases below2 with
        | nil =>
          simp only [List.get?_cons_zero, List.get?_cons_succ, List.get?_nil] at h
          split at h
          · rename_i hcond
            split at h
            · simp at h
            · simp only [Res.ok.injEq, Prod.mk.injEq] at h
              obtain ⟨rfl, rfl⟩ := h
              refine ⟨⟨_, 2, rfl, rfl⟩, ?_⟩
              have hin : inner.symbol ≠ EXP := by rw [hcond.1]; decide
              rw [exp_types_cons_exp _ _ hcond.2, exp_types_cons_ne _ _ hin] at hm
              cases mstack with
              | nil => simp at hm
              | cons v rest =>
                have hn := nots_runs v rest temp
                simp only [List.map_cons, List.cons.injEq] at hm
                split
                · rename_i m1 heq
                  rw [heq] at hn
                  simp only at hn
                  rw [hn]
                  simp [exp_types_cons_exp, exp_data, static_type, hm.2, exp_types]
                · rename_i i m1 heq
                  rw [heq] at hn
                  exact ⟨TOKEN_NOT, inner, by simp, by rw [hcond.1]; rfl, hn⟩
          · simp at h
        | cons lhs rest =>
          simp only [List.get?_cons_zero, List.get?_cons_succ] at h
          split at h
          · rename_i hpar
            simp only [Res.ok.injEq, Prod.mk.injEq] at h
            obtain ⟨rfl, rfl⟩ := h
            refine ⟨⟨_, 3, rfl, rfl⟩, ?_⟩
            simp only [exec_until]
            have h1 : top.symbol ≠ EXP := by rw [hpar.1]; decide
            have h3 : lhs.symbol ≠ EXP := by rw [hpar.2.2]; decide
            rw [exp_types_cons_ne _ _ h1, exp_types_cons_exp _ _ hpar.2.1,
              exp_types_cons_ne _ _ h3] at hm
            simp only [List.drop_succ_cons, List.drop_zero]
            rw [exp_types_cons_exp _ _ (by rfl)]
            exact hm
          · split at h
            · rename_i hbin
              cases hco : check_operation inner.symbol lhs top with
              | ok r =>
                obtain ⟨rt, lines1⟩ := r
                rw [hco] at h
                simp only [Res.ok.injEq, Prod.mk.injEq] at h
                obtain ⟨rfl, rfl⟩ := h
                refine ⟨⟨_, 3, rfl, rfl⟩, ?_⟩
                have hop : inner.symbol ≠ EXP := check_operation_ok_ne_exp _ _ _ _ hco
                rw [exp_types_cons_exp _ _ hbin.2, exp_types_cons_ne _ _ hop,
                  exp_types_cons_exp _ _ hbin.1] at hm
                cases mstack with
                | nil => simp at hm
                | cons r mrest =>
                  cases mrest with
                  | nil => simp at hm
                  | cons l mrest2 =>
                    simp only [List.map_cons, List.cons.injEq] at hm
                    have hc := check_operation_runs inner.symbol lhs top l r
                      hm.2.1 hm.1 rt lines1 hco mrest2 temp
                    split
                    · rename_i m1 heq
                      rw [heq] at hc
                      obtain ⟨v, hv, hvt⟩ := hc
                      rw [hv]
                      simp only [List.drop_succ_cons, List.drop_zero, List.map_cons]
                      rw [exp_types_cons_exp _ _ (by rfl), hvt, hm.2.2]
                      rfl
                    · rename_i i m1 heq
                      rw [heq] at hc
                      obtain ⟨tt, htt, hst⟩ := hc
                      exact ⟨tt, inner, by simp, htt, hst⟩
              | fail e => rw [hco] at h; simp at h
              | exit c => rw [hco] at h; simp at h
              | crash => rw [hco] at h; simp at h
              | timeout => rw [hco] at h; simp at h
            · rename_i hbin
              split at h
              · rename_i hnot
                simp only [Res.ok.injEq, Prod.mk.injEq] at h
                obtain ⟨rfl, rfl⟩ := h
                refine ⟨⟨_, 2, rfl, rfl⟩, ?_⟩
                have hin : inner.symbol ≠ EXP := by rw [hnot.1]; decide
                have hl : lhs.symbol ≠ EXP := fun hc => hbin ⟨hc, hnot.2⟩
                rw [exp_types_cons_exp _ _ hnot.2, exp_types_cons_ne _ _ hin,
                  exp_types_cons_ne _ _ hl] at hm
                cases mstack with
                | nil => simp at hm
                | cons v mrest =>
                  have hn := nots_runs v mrest temp
                  simp only [List.map_cons, List.cons.injEq] at hm
                  split
                  · rename_i m1 heq
                    rw [heq] at hn
                    simp only at hn
                    rw [hn]
                    simp only [List.drop_succ_cons, List.drop_zero, List.map_cons]
                    rw [exp_types_cons_exp _ _ (by rfl), exp_types_cons_ne _ _ hl, hm.2]
                    rfl
                  · rename_i i m1 heq
                    rw [heq] at hn
                    exact ⟨TOKEN_NOT, inner, by simp, by rw [hnot.1]; rfl, hn⟩
              · simp at h

theorem token_to_prec_symb_plain (call : PState → Res PState (data_type × PState))
    (s s1 : PState) (data : StackData)
    (hid : (current_token s).type ∉ named_operand_tokens)
    (h : token_to_prec_symb call s = Res.ok (data, s1)) :
    data.symbol ≠ EXP ∧ (data.symbol = ID → data.is_literal = true) ∧
    (∀ tt, operator_symbol tt = some data.symbol → tt = (current_token s).type) ∧
    s1.out = s.out ∧ s1.main_stack = s.main_stack ∧
      s1.temp_stack = s.temp_stack ∧ s1.tokens = s.tokens := by
  unfold token_to_prec_symb at h
  cases htt : (current_token s).type <;> simp only [htt] at h hid <;>
    first
    | (exfalso; revert hid; decide)
    | (simp only [Res.ok.injEq, Prod.mk.injEq, reduceCtorEq] at h
       try (obtain ⟨rfl, rfl⟩ := h
            refine ⟨by simp, by simp, ?_, by simp⟩
            intro tt ht
            rcases operator_symbol_cases tt _ ht with ⟨h1, h2⟩ | ⟨h1, h2⟩ | ⟨h1, h2⟩ | ⟨h1, h2⟩ <;>
              first | exact h1 | (exfalso; revert h2; simp)))

theorem current_token_plain (absent : List token_type) (tokens : List token_t)
    (sym : prec_sym_t)
    (h : ∀ t ∈ tokens, t.type ∉ named_operand_tokens ∧ t.type ∉ absent) :
    (tokens.headD { type := TOKEN_EOF, attr := token_attribute.none }).type ∉
        named_operand_tokens ∧
    ∀ tt ∈ absent, operator_symbol tt = some sym →
      tt ≠ (tokens.headD { type := TOKEN_EOF, attr := token_attribute.none }).type := by
  cases tokens with
  | nil =>
    refine ⟨by decide, ?_⟩
    intro tt _ ht hc
    simp only [List.headD_nil] at hc
    rw [hc] at ht
    simp [operator_symbol] at ht
  | cons a rest =>
    simp only [List.headD_cons]
    refine ⟨(h a (by simp)).1, ?_⟩
    intro tt hmem _ hc
    rw [hc] at hmem
    exact (h a (by simp)).2 hmem

theorem parse_expr_step_runs (call : PState → Res PState (data_type × PState))
    (absent : List token_type) (u : Bool)
    (cd : StackData) (cs : prec_sym_t) (s : PState) (data : StackData) (symbol : prec_sym_t)
    (s1 : PState) (hcd : cd.symbol ≠ EXP ∧ entry_inv absent cd) (hinv : run_inv absent u s)
    (h : parse_expr_step call u cd cs s = Res.ok (data, symbol, s1)) :
    (data.symbol ≠ EXP ∧ entry_inv absent data) ∧ run_inv absent u s1 := by
  obtain ⟨htok, hstack, hrun⟩ := hinv
  unfold parse_expr_step at h
  split at h
  · simp at h
  · dsimp only at h
    split at h
    · -- shift
      split at h
      · rename_i d2 s2 htk
        simp only [Res.ok.injEq, Prod.mk.injEq] at h
        obtain ⟨rfl, -, rfl⟩ := h
        have htail : (fetch_next_token (set_active_stack s u
            (shift_data cd :: active_stack s u))).tokens = s.tokens.tail := by
          cases u <;> simp [fetch_next_token, set_active_stack]
        have htok1 : ∀ t ∈ s.tokens.tail, t.type ∉ named_operand_tokens ∧ t.type ∉ absent :=
          fun t ht => htok t (List.mem_of_mem_tail ht)
        have hcur := fun sym => current_token_plain absent s.tokens.tail sym htok1
        have hcur1 : (current_token (fetch_next_token (set_active_stack s u
            (shift_data cd :: active_stack s u)))).type ∉ named_operand_tokens := by
          unfold current_token
          rw [htail]
          exact (hcur EXP).1
        obtain ⟨h1, h1a, h1b, h2, h3, h4, h5⟩ := token_to_prec_symb_plain call _ _ _ hcur1 htk
        have hout : s2.out = s.out := by
          rw [h2]; cases u <;> simp [fetch_next_token, set_active_stack]
        have hact : active_stack s2 u = shift_data cd :: active_stack s u := by
          cases u <;> simp [active_stack, h3, h4, fetch_next_token, set_active_stack]
        refine ⟨⟨h1, h1a, ?_⟩, ?_, ?_, ?_⟩
        · intro tt hmem hc
          have := h1b tt hc
          unfold current_token at this
          rw [htail] at this
          exact (hcur d2.symbol).2 tt hmem hc this
        · intro t ht
          rw [h5, htail] at ht
          exact htok1 t ht
        · intro d hd
          rw [hact] at hd
          rcases List.mem_cons.mp hd with hd | hd
          · rw [hd]
            exact hcd.2
          · exact hstack d hd
        · rw [hout, hact, exp_types_cons_ne _ _ (by simpa [shift_data] using hcd.1)]
          exact hrun
      · simp at h
      · simp at h
      · simp at h
      · simp at h
    · split at h
      · -- reduce
        split at h
        · rename_i stack lines hred
          simp only [Res.ok.injEq, Prod.mk.injEq] at h
          obtain ⟨rfl, -, rfl⟩ := h
          have htk : (emit (set_active_stack s u stack) lines).tokens = s.tokens := by
            cases u <;> simp [emit, set_active_stack]
          have hout : (emit (set_active_stack s u stack) lines).out = s.out ++ lines := by
            cases u <;> simp [emit, set_active_stack]
          have hact : active_stack (emit (set_active_stack s u stack) lines) u = stack := by
            cases u <;> simp [emit, set_active_stack, active_stack]
          have hshape : ∀ m0 : Machine,
              m0.stack.map static_type = exp_types (active_stack s u) →
              (∃ e n, stack = e :: (active_stack s u).drop n ∧ e.symbol = EXP) ∧
              match exec_until lines m0 with
              | Run.done m1 => m1.stack.map static_type = exp_types stack
              | Run.stopped i m1 =>
                ∃ tt, ∃ d ∈ active_stack s u, operator_symbol tt = some d.symbol ∧
                  unchecked_stop tt i m1 = true :=
            fun m0 hm0 => reduce_runs s.symbol_table _ stack _ _ lines
              (fun d hd => (hstack d hd).1) hred m0 hm0
          refine ⟨hcd, ?_, ?_, ?_⟩
          · intro t ht
            rw [htk] at ht
            exact htok t ht
          · -- the entries of the new stack
            intro d hd
            rw [hact] at hd
            have hex := reduce_shape s.symbol_table _ stack _ _ lines hred
            obtain ⟨e, n, hst, he⟩ := hex
            rw [hst] at hd
            rcases List.mem_cons.mp hd with hd | hd
            · rw [hd]
              refine ⟨fun hc => ?_, fun tt _ hc => ?_⟩
              · rw [he] at hc; cases hc
              · rw [he] at hc
                exact operator_symbol_ne_exp tt hc
            · exact hstack d (List.mem_of_mem_drop hd)
          · rw [hout, hact, exec_until_append]
            cases hex0 : exec_until s.out empty_machine with
            | done m0 =>
              rw [hex0] at hrun
              dsimp only
              have := (hshape m0 hrun).2
              split
              · rename_i m1 heq
                rw [heq] at this
                exact this
              · rename_i i m1 heq
                rw [heq] at this
                obtain ⟨tt, d, hd, htt, hst⟩ := this
                refine ⟨tt, fun hmem => ?_, hst⟩
                exact (hstack d hd).2 tt hmem htt
            | stopped i m0 =>
              rw [hex0] at hrun
              exact hrun
        · simp at h
        · simp at h
        · simp at h
        · simp at h
      · simp at h

theorem parse_expr_finish_runs (absent : List token_type) (u : Bool) (s s1 : PState)
    (ty : data_type)
    (hinv : run_inv absent u s) (hend : correct_exp_end (active_stack s u) = some true)
    (h : parse_expr_finish u s = Res.ok (ty, s1)) :
    match exec_until s1.out empty_machine with
    | Run.done m => m.stack.map static_type = [ty]
    | Run.stopped i m => ∃ tt, tt ∉ absent ∧ unchecked_stop tt i m = true := by
  obtain ⟨top, next, hst, htop, hnext⟩ := correct_exp_end_true _ hend
  obtain ⟨-, -, hrun⟩ := hinv
  unfold parse_expr_finish at h
  split at h
  · simp at h
  · rw [hst] at h
    simp only [Res.ok.injEq, Prod.mk.injEq] at h
    obtain ⟨rfl, rfl⟩ := h
    have hout : ({ (if ¬ s.is_main_stack = true then { s with temp_stack := [] }
        else { s with main_stack := [] }) with is_main_stack := true } : PState).out =
        s.out := by
      split <;> rfl
    rw [hout]
    rw [hst, exp_types_cons_exp _ _ htop,
      exp_types_cons_ne _ _ (by rw [hnext]; decide)] at hrun
    simpa [exp_types] using hrun

theorem parse_expr_loop_runs (call : PState → Res PState (data_type × PState))
    (absent : List token_type) :
    ∀ (fuel : Nat) (u : Bool) (cd : StackData) (cs : prec_sym_t) (s s1 : PState)
      (ty : data_type), cd.symbol ≠ EXP ∧ entry_inv absent cd → run_inv absent u s →
      parse_expr_loop call fuel u cd cs s = Res.ok (ty, s1) →
      match exec_until s1.out empty_machine with
      | Run.done m => m.stack.map static_type = [ty]
      | Run.stopped i m => ∃ tt, tt ∉ absent ∧ unchecked_stop tt i m = true := by
  intro fuel
  induction fuel with
  | zero => intro u cd cs s s1 ty _ _ h; simp [parse_expr_loop] at h
  | succ fuel ih =>
    intro u cd cs s s1 ty hcd hinv h
    unfold parse_expr_loop at h
    cases hstep : parse_expr_step call u cd cs s with
    | ok r =>
      obtain ⟨data, symbol, s2⟩ := r
      rw [hstep] at h
      obtain ⟨hd, hinv2⟩ :=
        parse_expr_step_runs call absent u cd cs s data symbol s2 hcd hinv hstep
      dsimp only at h
      generalize (if s2.bracket_count < 0 then DOLLAR else symbol) = symbol1 at h
      by_cases hsym : symbol1 = DOLLAR
      · rw [if_pos hsym] at h
        cases hend : correct_exp_end (active_stack s2 u) with
        | none => rw [hend] at h; simp at h
        | some b =>
          rw [hend] at h
          cases b with
          | true => exact parse_expr_finish_runs absent u s2 s1 ty hinv2 hend h
          | false => exact ih u data _ s2 s1 ty hd hinv2 h
      · rw [if_neg hsym] at h
        exact ih u data _ s2 s1 ty hd hinv2 h
    | fail e => rw [hstep] at h; simp at h
    | exit c => rw [hstep] at h; simp at h
    | crash => rw [hstep] at h; simp at h
    | timeout => rw [hstep] at h; simp at h

theorem parse_expr_runs (call : PState → Res PState (data_type × PState))
    (absent : List token_type) (fuel : Nat) (s s1 : PState) (ty : data_type)
    (hout : s.out = [])
    (hlit : ∀ t ∈ s.tokens, t.type ∉ named_operand_tokens ∧ t.type ∉ absent)
    (hacc : parse_expr call fuel s = Res.ok (ty, s1)) :
    match exec_until s1.out empty_machine with
    | Run.done m => m.stack.map static_type = [ty]
    | Run.stopped i m => ∃ tt, tt ∉ absent ∧ unchecked_stop tt i m = true := by
  unfold parse_expr at hacc
  dsimp only at hacc
  split at hacc
  · rename_i data s3 htok
    have htk : (set_active_stack
        (if s.main_stack.isEmpty = true then
          { s with bracket_count := 0, is_main_stack := true, main_stack := [] }
        else { s with bracket_count := 0, is_main_stack := false, temp_stack := [] })
        s.main_stack.isEmpty
        (dollar_data :: active_stack
          (if s.main_stack.isEmpty = true then
            { s with bracket_count := 0, is_main_stack := true, main_stack := [] }
          else { s with bracket_count := 0, is_main_stack := false, temp_stack := [] })
          s.main_stack.isEmpty)).tokens = s.tokens := by
      cases s.main_stack.isEmpty <;> simp [set_active_stack]
    have hcur := fun sym => current_token_plain absent s.tokens sym hlit
    have hcur1 : (current_token (set_active_stack
        (if s.main_stack.isEmpty = true then
          { s with bracket_count := 0, is_main_stack := true, main_stack := [] }
        else { s with bracket_count := 0, is_main_stack := false, temp_stack := [] })
        s.main_stack.isEmpty
        (dollar_data :: active_stack
          (if s.main_stack.isEmpty = true then
            { s with bracket_count := 0, is_main_stack := true, main_stack := [] }
          else { s with bracket_count := 0, is_main_stack := false, temp_stack := [] })
          s.main_stack.isEmpty))).type ∉ named_operand_tokens := by
      unfold current_token
      rw [htk]
      exact (hcur EXP).1
    obtain ⟨h1, h1a, h1b, h2, h3, h4, h5⟩ := token_to_prec_symb_plain call _ _ _ hcur1 htok
    have hact : active_stack s3 s.main_stack.isEmpty = [dollar_data] := by
      cases hb : s.main_stack.isEmpty <;>
        simp [active_stack, h3, h4, hb, set_active_stack]
    refine parse_expr_loop_runs call absent fuel _ data _ s3 s1 ty ⟨h1, h1a, ?_⟩ ⟨?_, ?_, ?_⟩ hacc
    · intro tt hmem hc
      have := h1b tt hc
      unfold current_token at this
      rw [htk] at this
      exact (hcur data.symbol).2 tt hmem hc this
    · intro t ht
      rw [h5, htk] at ht
      exact hlit t ht
    · intro d hd
      rw [hact] at hd
      rw [List.mem_singleton.mp hd]
      refine ⟨fun hc => (by cases hc), fun tt _ hc => ?_⟩
      rcases operator_symbol_cases tt _ hc with ⟨_, h2⟩ | ⟨_, h2⟩ | ⟨_, h2⟩ | ⟨_, h2⟩ <;>
        cases h2
    · have ho : s3.out = [] := by
        rw [h2, ← hout]
        cases s.main_stack.isEmpty <;> simp [set_active_stack]
      rw [ho, hact]
      rfl
  · simp at hacc
  · simp at hacc
  · simp at hacc
  · simp at hacc

/-- C8 amended. For every input of int, float, string and null literals, parentheses and
operators that `parse_expr` accepts, the run of the emitted instruction sequence on an
empty operand stack either comes to the end of the sequence, and then leaves exactly one
value on the stack, whose dynamic type is the type that `parse_expr` returns, or stops at
an instruction whose operands `reduce` did not check: `ANDS`, `ORS` or `NOTS` on a value
that is no bool, or `DIVS` on two ints. Without `&&`, `||` and `!` in the input the run
can stop at `DIVS` only, and without `/` as well it always comes to the end. -/
theorem C8_emitted_code_type (call : PState → Res PState (data_type × PState)) (fuel : Nat)
    (s s1 : PState) (ty : data_type)
    (hout : s.out = []) (hlit : ∀ t ∈ s.tokens, t.type ∉ named_operand_tokens)
    (hacc : parse_expr call fuel s = Res.ok (ty, s1)) :
    (match exec_until s1.out empty_machine with
      | Run.done m => m.stack.map static_type = [ty]
      | Run.stopped i m => ∃ tt, unchecked_stop tt i m = true) ∧
    ((∀ t ∈ s.tokens, t.type ∉ [TOKEN_LOGICAL_AND, TOKEN_LOGICAL_OR, TOKEN_NOT]) →
      match exec_until s1.out empty_machine with
      | Run.done m => m.stack.map static_type = [ty]
      | Run.stopped i m => unchecked_stop TOKEN_DIV i m = true) ∧
    ((∀ t ∈ s.tokens,
        t.type ∉ [TOKEN_LOGICAL_AND, TOKEN_LOGICAL_OR, TOKEN_NOT, TOKEN_DIV]) →
      ∃ m, exec s1.out empty_machine = some m ∧ m.stack.map static_type = [ty]) := by
  refine ⟨?_, ?_, ?_⟩
  · have h := parse_expr_runs call [] fuel s s1 ty hout
      (fun t ht => ⟨hlit t ht, by simp⟩) hacc
    split
    · rename_i m heq
      rw [heq] at h
      exact h
    · rename_i i m heq
      rw [heq] at h
      obtain ⟨tt, -, htt⟩ := h
      exact ⟨tt, htt⟩
  · intro habs
    have h := parse_expr_runs call [TOKEN_LOGICAL_AND, TOKEN_LOGICAL_OR, TOKEN_NOT] fuel s s1 ty
      hout (fun t ht => ⟨hlit t ht, habs t ht⟩) hacc
    split
    · rename_i m heq
      rw [heq] at h
      exact h
    · rename_i i m heq
      rw [heq] at h
      obtain ⟨tt, hmem, htt⟩ := h
      rcases unchecked_stop_cases tt i m htt with h1 | h1 | h1 | h1
      · rw [h1] at hmem; simp at hmem
      · rw [h1] at hmem; simp at hmem
      · rw [h1] at hmem; simp at hmem
      · rw [h1] at htt; exact htt
  · intro habs
    have h := parse_expr_runs call
      [TOKEN_LOGICAL_AND, TOKEN_LOGICAL_OR, TOKEN_NOT, TOKEN_DIV] fuel s s1 ty
      hout (fun t ht => ⟨hlit t ht, habs t ht⟩) hacc
    cases heq : exec_until s1.out empty_machine with
    | done m =>
      rw [heq] at h
      exact ⟨m, (exec_until_done _ _ _).mp heq, h⟩
    | stopped i m =>
      rw [heq] at h
      obtain ⟨tt, hmem, htt⟩ := h
      rcases unchecked_stop_cases tt i m htt with h1 | h1 | h1 | h1 <;>
        (rw [h1] at hmem; simp at hmem)

/-- Witness of C8 amended: `1.5 * (2 + 1.0)` is accepted with type float, it has none of
`&&`, `||`, `!` and `/`, and its code leaves one float on the stack. -/
theorem C8_emitted_code_type_witness :
    ∃ m, exec [Instr.PUSHS_float "1.5", Instr.PUSHS_int 2, Instr.PUSHS_float "1.0",
        Instr.POPS_GF_temp, Instr.INT2FLOATS, Instr.PUSHS_GF_temp, Instr.ADDS, Instr.MULS]
        empty_machine = some m ∧
      m.stack.map static_type = [float_type] :=
  (C8_emitted_code_type (parse_function_call_expr (parse_expr_rec 0 30) 30) 30
    (init_state (table_with_vars [])
      [tk_float "1.5", tk TOKEN_MUL, tk TOKEN_OPENING_PARENTHESES, tk_int 2, tk TOKEN_ADD,
       tk_float "1.0", tk TOKEN_CLOSING_PARENTHESES, tk TOKEN_SEMICOLON])
    { init_state (table_with_vars []) [tk TOKEN_SEMICOLON] with
      out := [Instr.PUSHS_float "1.5", Instr.PUSHS_int 2, Instr.PUSHS_float "1.0",
        Instr.POPS_GF_temp, Instr.INT2FLOATS, Instr.PUSHS_GF_temp, Instr.ADDS, Instr.MULS] }
    float_type rfl (by decide) (by rfl)).2.2 (by decide)

/-- The quotient of two ints: `6 / 3` is accepted with type int, and the line printed for
`/` is `DIVS` whatever the operands are; on two ints the run stops there. -/
theorem int_division_prints_divs :
    run_expr (table_with_vars []) [tk_int 6, tk TOKEN_DIV, tk_int 3, tk TOKEN_SEMICOLON] =
      Res.ok (int_type, [Instr.PUSHS_int 6, Instr.PUSHS_int 3, Instr.DIVS]) ∧
    exec_until [Instr.PUSHS_int 6, Instr.PUSHS_int 3, Instr.DIVS] empty_machine =
      Run.stopped Instr.DIVS { stack := [dyn_type.int, dyn_type.int], temp := none } := by
  refine ⟨by rfl, by rfl⟩

/-! ## C9: argument checking -/

theorem parse_arguments_loop_strict (pe : PState → Res PState (data_type × PState))
    (func_data : func_data_t)
    (hname : func_data.name ≠ "ifj.write" ∧ func_data.name ≠ "ifj.string")
    (hwf : func_data.paramCount = func_data.params.length) :
    ∀ (fuel argIndex : Nat) (s : PState) (types : List data_type) (s1 : PState),
      argIndex ≤ func_data.params.length →
      argument_types pe fuel s = some (types, s1) →
      parse_arguments_loop pe func_data fuel argIndex s =
        if types = func_data.params.drop argIndex then Res.ok s1 else Res.exit 4 := by
  intro fuel
  induction fuel with
  | zero => intro argIndex s types s1 _ h; simp [argument_types] at h
  | succ fuel ih =>
    intro argIndex s types s1 hle h
    unfold argument_types at h
    unfold parse_arguments_loop
    by_cases hc : (current_token s).type ≠ TOKEN_CLOSING_PARENTHESES
    · rw [if_pos hc] at h
      rw [if_pos hc]
      cases hpe : parse_expression pe s with
      | ok r =>
        obtain ⟨argType, s2⟩ := r
        rw [hpe] at h
        simp only at h
        cases hrec : argument_types pe fuel
            (if (current_token s2).type = TOKEN_COMMA then fetch_next_token s2 else s2) with
        | none => rw [hrec] at h; simp at h
        | some r2 =>
          obtain ⟨types2, s3⟩ := r2
          rw [hrec] at h
          simp only [Option.some.injEq, Prod.mk.injEq] at h
          obtain ⟨rfl, rfl⟩ := h
          by_cases hge : argIndex ≥ func_data.paramCount
          · rw [if_pos hge]
            have : func_data.params.drop argIndex = [] := by
              apply List.drop_eq_nil_of_le; omega
            rw [this, if_neg (List.cons_ne_nil _ _)]
            rfl
          · rw [if_neg hge]
            have hlt : argIndex < func_data.params.length := by omega
            have hdrop : func_data.params.drop argIndex =
                func_data.params.get ⟨argIndex, hlt⟩ :: func_data.params.drop (argIndex + 1) := by
              rw [List.drop_eq_getElem_cons hlt]; rfl
            have hget : func_data.params.get? argIndex =
                some (func_data.params.get ⟨argIndex, hlt⟩) := by
              simp [List.getElem?_eq_getElem hlt]
            have hn : ¬ (func_data.name = "ifj.write" ∨ func_data.name = "ifj.string") := by
              rintro (h | h)
              · exact hname.1 h
              · exact hname.2 h
            dsimp only
            rw [if_neg hn, hget, hdrop]
            dsimp only
            by_cases hty : argType = func_data.params.get ⟨argIndex, hlt⟩
            · have := ih (argIndex + 1) _ types2 s3 (by omega) hrec
              rw [if_neg (by simpa using hty), this]
              simp only [hty, List.cons.injEq, true_and]
            · rw [if_pos (by simpa using hty)]
              rw [if_neg (by intro hcons; exact hty (List.cons.inj hcons).1)]
              rfl
      | fail e => rw [hpe] at h; simp at h
      | exit c => rw [hpe] at h; simp at h
      | crash => rw [hpe] at h; simp at h
      | timeout => rw [hpe] at h; simp at h
    · rw [if_neg hc] at h
      rw [if_neg hc]
      simp only [Option.some.injEq, Prod.mk.injEq] at h
      obtain ⟨rfl, rfl⟩ := h
      by_cases he : argIndex = func_data.paramCount
      · have : func_data.params.drop argIndex = [] := by
          apply List.drop_eq_nil_of_le; omega
        rw [if_neg (by simpa using he), this, if_pos rfl]
      · have hlt : argIndex < func_data.params.length := by omega
        have : [] ≠ func_data.params.drop argIndex := by
          intro hnil
          have := List.drop_eq_nil_iff.mp hnil.symm
          omega
        rw [if_pos he, if_neg this]
        rfl

/-- C9. For a callee other than `ifj.write` and `ifj.string` whose argument expressions
parse with types `types`, `parse_arguments` succeeds exactly when `types` equals the
declared parameter vector (same length, same type at every position, by strict equality)
and ends with exit code 4 otherwise: `ifj.concat("a", "b")` is accepted, one argument too
many or too few, an int literal for an `f64` parameter and an `i32` for a `?i32` parameter
all exit with 4, in a call statement as in a call inside an expression. -/
theorem C9_parse_arguments_strict (pe : PState → Res PState (data_type × PState))
    (fuel : Nat) (func_data : func_data_t) (s s1 : PState) (types : List data_type)
    (hname : func_data.name ≠ "ifj.write" ∧ func_data.name ≠ "ifj.string")
    (hwf : func_data.paramCount = func_data.params.length)
    (hargs : argument_types pe fuel s = some (types, s1)) :
    (types = func_data.params → parse_arguments pe fuel func_data s = Res.ok s1) ∧
    (types ≠ func_data.params → parse_arguments pe fuel func_data s = Res.exit 4) ∧
    (types = func_data.params ↔
      types.length = func_data.paramCount ∧ ∀ i, types.get? i = func_data.params.get? i) ∧
    run_expr (table_with_vars [])
        [tk_id "ifj.concat", tk TOKEN_OPENING_PARENTHESES, tk_string "a", tk TOKEN_COMMA,
         tk_string "b", tk TOKEN_CLOSING_PARENTHESES, tk TOKEN_SEMICOLON] =
      Res.ok (string_type, [Instr.PUSHS_string "a", Instr.PUSHS_string "b",
        Instr.CALL "$ifj_concat", Instr.PUSHS_GF_return]) ∧
    run_expr (table_with_vars [])
        [tk_id "ifj.concat", tk TOKEN_OPENING_PARENTHESES, tk_string "a",
         tk TOKEN_CLOSING_PARENTHESES, tk TOKEN_SEMICOLON] = Res.exit 4 ∧
    run_expr (table_with_vars [])
        [tk_id "ifj.length", tk TOKEN_OPENING_PARENTHESES, tk_string "a", tk TOKEN_COMMA,
         tk_string "b", tk TOKEN_CLOSING_PARENTHESES, tk TOKEN_SEMICOLON] = Res.exit 4 ∧
    run_expr (table_with_vars [])
        [tk_id "ifj.f2i", tk TOKEN_OPENING_PARENTHESES, tk_int 1,
         tk TOKEN_CLOSING_PARENTHESES, tk TOKEN_SEMICOLON] = Res.exit 4 ∧
    observe_stmt (parse_function_call (parse_expr_rec 2 20) 20 "g"
        (init_state
          (table_with_function
            { name := "g", isDefined := true, paramCount := 1, params := [null_int_type],
              returnType := void_type })
          [tk TOKEN_OPENING_PARENTHESES, tk_int 1, tk TOKEN_CLOSING_PARENTHESES,
           tk TOKEN_SEMICOLON])) = Res.exit 4 := by
  have h := parse_arguments_loop_strict pe func_data hname hwf fuel 0 s types s1
    (Nat.zero_le _) hargs
  rw [List.drop_zero] at h
  refine ⟨?_, ?_, ?_, by rfl, by rfl, by rfl, by rfl, by rfl⟩
  · intro he
    unfold parse_arguments
    rw [h, if_pos he]
  · intro hne
    unfold parse_arguments
    rw [h, if_neg hne]
  · constructor
    · intro he
      subst he
      exact ⟨hwf.symm, fun _ => rfl⟩
    · intro he
      exact List.ext_get? he.2

/-- Witness of C9: the two string arguments of `ifj.concat("a", "b")`. -/
theorem C9_parse_arguments_strict_witness :
    observe_stmt (parse_arguments (parse_expr_rec 2 20) 20
      (mk_builtin "ifj.concat" [string_type, string_type] string_type)
      (init_state (table_with_vars [])
        [tk_string "a", tk TOKEN_COMMA, tk_string "b", tk TOKEN_CLOSING_PARENTHESES,
         tk TOKEN_SEMICOLON])) =
      Res.ok [Instr.PUSHS_string "a", Instr.PUSHS_string "b"] := by
  rw [(C9_parse_arguments_strict (parse_expr_rec 2 20) 20
    (mk_builtin "ifj.concat" [string_type, string_type] string_type)
    (init_state (table_with_vars [])
      [tk_string "a", tk TOKEN_COMMA, tk_string "b", tk TOKEN_CLOSING_PARENTHESES,
       tk TOKEN_SEMICOLON])
    { init_state (table_with_vars []) [tk TOKEN_CLOSING_PARENTHESES, tk TOKEN_SEMICOLON] with
      out := [Instr.PUSHS_string "a", Instr.PUSHS_string "b"], bracket_count := -1 }
    [string_type, string_type] (by decide) rfl (by rfl)).1 rfl]
  rfl

/-! ## C10: the argument of `ifj.write` and `ifj.string` -/

/-- C10 as stated fails: `ifj.write(null);` and `ifj.string(null)` are accepted, the
argument of literal-null type is not rejected with exit code 4. -/
theorem C10_write_null_accepted :
    observe_stmt (parse_function_call (parse_expr_rec 2 20) 20 "ifj.write"
        (init_state (table_with_vars [])
          [tk TOKEN_OPENING_PARENTHESES, tk KW_NULL, tk TOKEN_CLOSING_PARENTHESES,
           tk TOKEN_SEMICOLON])) =
      Res.ok [Instr.PUSHS_nil, Instr.CALL "$ifj_write"] ∧
    run_expr (table_with_vars [])
        [tk_id "ifj.string", tk TOKEN_OPENING_PARENTHESES, tk KW_NULL,
         tk TOKEN_CLOSING_PARENTHESES, tk TOKEN_SEMICOLON] =
      Res.ok (string_type, [Instr.PUSHS_nil, Instr.CALL "$ifj_string",
        Instr.PUSHS_GF_return]) := by
  refine ⟨by rfl, by rfl⟩

theorem argument_types_nil (pe : PState → Res PState (data_type × PState)) (fuel : Nat)
    (s s1 : PState) (h : argument_types pe fuel s = some ([], s1)) :
    (current_token s).type = TOKEN_CLOSING_PARENTHESES ∧ s1 = s ∧ 0 < fuel := by
  cases fuel with
  | zero => simp [argument_types] at h
  | succ fuel =>
    unfold argument_types at h
    by_cases hc : (current_token s).type ≠ TOKEN_CLOSING_PARENTHESES
    · rw [if_pos hc] at h
      cases hpe : parse_expression pe s with
      | ok r =>
        rw [hpe] at h
        dsimp only at h
        cases hrec : argument_types pe fuel
            (if (current_token r.2).type = TOKEN_COMMA then fetch_next_token r.2 else r.2) with
        | none => rw [hrec] at h; simp at h
        | some r2 => rw [hrec] at h; simp at h
      | fail e => rw [hpe] at h; simp at h
      | exit c => rw [hpe] at h; simp at h
      | crash => rw [hpe] at h; simp at h
      | timeout => rw [hpe] at h; simp at h
    · rw [if_neg hc] at h
      simp only [Option.some.injEq, Prod.mk.injEq, true_and] at h
      exact ⟨by simpa using hc, h.symm, Nat.succ_pos _⟩


/-- C10 amended. The single argument of `ifj.write` and of `ifj.string` is accepted for
every argument type other than the internal sentinel `null` (the value `parse_expr` stores
when it fails), the literal-null type `null_type` included; only the sentinel is rejected
with exit code 4. -/
theorem C10_write_string_argument (pe : PState → Res PState (data_type × PState))
    (fuel : Nat) (func_data : func_data_t) (s s1 : PState) (argType : data_type)
    (hname : func_data.name = "ifj.write" ∨ func_data.name = "ifj.string")
    (hcount : func_data.paramCount = 1)
    (hargs : argument_types pe fuel s = some ([argType], s1)) :
    (argType ≠ data_type.null → parse_arguments pe fuel func_data s = Res.ok s1) ∧
    (argType = data_type.null → parse_arguments pe fuel func_data s = Res.exit 4) := by
  cases fuel with
  | zero => simp [argument_types] at hargs
  | succ fuel =>
    unfold argument_types at hargs
    by_cases hc : (current_token s).type ≠ TOKEN_CLOSING_PARENTHESES
    · rw [if_pos hc] at hargs
      cases hpe : parse_expression pe s with
      | ok r =>
        obtain ⟨t, s2⟩ := r
        rw [hpe] at hargs
        dsimp only at hargs
        cases hrec : argument_types pe fuel
            (if (current_token s2).type = TOKEN_COMMA then fetch_next_token s2 else s2) with
        | none => rw [hrec] at hargs; simp at hargs
        | some r2 =>
          obtain ⟨types2, s3⟩ := r2
          rw [hrec] at hargs
          simp only [Option.some.injEq, Prod.mk.injEq, List.cons.injEq] at hargs
          obtain ⟨⟨rfl, rfl⟩, rfl⟩ := hargs
          obtain ⟨hclose, rfl, hpos⟩ := argument_types_nil pe fuel _ _ hrec
          obtain ⟨fuel, rfl⟩ := Nat.exists_eq_succ_of_ne_zero (Nat.pos_iff_ne_zero.mp hpos)
          unfold parse_arguments parse_arguments_loop
          rw [if_pos hc, if_neg (by omega), hpe]
          dsimp only
          rw [if_pos hname]
          constructor
          · intro hne
            rw [if_neg hne]
            unfold parse_arguments_loop
            rw [if_neg (by simpa using hclose), if_neg (by simp [hcount])]
          · intro he
            rw [if_pos he]
            rfl
      | fail e => rw [hpe] at hargs; simp at hargs
      | exit c => rw [hpe] at hargs; simp at hargs
      | crash => rw [hpe] at hargs; simp at hargs
      | timeout => rw [hpe] at hargs; simp at hargs
    · rw [if_neg hc] at hargs
      simp at hargs


/-- Witness of C10 amended: the argument `null` of `ifj.write(null)`. -/
theorem C10_write_string_argument_witness :
    observe_stmt (parse_arguments (parse_expr_rec 2 20) 20
      (mk_builtin "ifj.write" [void_type] void_type)
      (init_state (table_with_vars [])
        [tk KW_NULL, tk TOKEN_CLOSING_PARENTHESES, tk TOKEN_SEMICOLON])) =
      Res.ok [Instr.PUSHS_nil] := by
  rw [(C10_write_string_argument (parse_expr_rec 2 20) 20
    (mk_builtin "ifj.write" [void_type] void_type)
    (init_state (table_with_vars [])
      [tk KW_NULL, tk TOKEN_CLOSING_PARENTHESES, tk TOKEN_SEMICOLON])
    { init_state (table_with_vars []) [tk TOKEN_CLOSING_PARENTHESES, tk TOKEN_SEMICOLON] with
      out := [Instr.PUSHS_nil], bracket_count := -1 }
    null_type (Or.inl rfl) rfl (by rfl)).1 (by decide)]
  rfl

/-! ## The error latch (error_codes.c) -/

theorem run_set_error_latched (e : error_t) (h : e.code ≠ 0) (calls : List error_t) :
    run_set_error e calls = e := by
  induction calls with
  | nil => rfl
  | cons c rest ih =>
    simp only [run_set_error, List.foldl_cons, set_error, if_neg h] at ih ⊢
    exact ih

/-- C20: after any sequence of `set_error` calls from the initial state, `get_error`
returns the four fields of the first call whose code is non-zero, its code is 0 when no
call has a non-zero code, and once the stored code is non-zero no later call changes any
field. -/
theorem C20_error_latch (calls : List error_t) :
    (∀ first, calls.find? (fun call => call.code ≠ 0) = some first →
      get_error (run_set_error initial_error calls) = first) ∧
    (calls.find? (fun call => call.code ≠ 0) = none →
      (get_error (run_set_error initial_error calls)).code = 0) ∧
    (∀ (before after : List error_t),
      (run_set_error initial_error before).code ≠ 0 →
      run_set_error initial_error (before ++ after) = run_set_error initial_error before) := by
  have key : ∀ (e0 : error_t), e0.code = 0 → ∀ calls : List error_t,
      (∀ first, calls.find? (fun call => call.code ≠ 0) = some first →
        run_set_error e0 calls = first) ∧
      (calls.find? (fun call => call.code ≠ 0) = none → (run_set_error e0 calls).code = 0) := by
    intro e0 he0 calls
    induction calls generalizing e0 with
    | nil => exact ⟨fun first h => by simp at h, fun _ => he0⟩
    | cons c rest ih =>
      by_cases hc : c.code = 0
      · have hstep : set_error e0 c.code c.message c.line c.column = c := by
          simp [set_error, he0]
        have := ih c hc
        simp only [run_set_error, List.foldl_cons] at this ⊢
        rw [hstep]
        simp only [List.find?_cons, hc, ne_eq, not_true_eq_false, decide_False] at this ⊢
        exact this
      · have hstep : set_error e0 c.code c.message c.line c.column = c := by
          simp [set_error, he0]
        refine ⟨?_, ?_⟩
        · intro first h
          simp only [List.find?_cons, ne_eq, hc, not_false_eq_true, decide_True,
            Option.some.injEq] at h
          subst h
          have := run_set_error_latched c hc rest
          simpa [run_set_error, hstep] using this
        · intro h
          simp [List.find?_cons, hc] at h
  refine ⟨(key initial_error rfl calls).1, (key initial_error rfl calls).2, ?_⟩
  intro before after h
  have : run_set_error initial_error (before ++ after) =
      run_set_error (run_set_error initial_error before) after := by
    simp [run_set_error, List.foldl_append]
  rw [this]
  exact run_set_error_latched _ h after

/-! ## The symbol table (symtable.c) -/

theorem hash_function_lt (key : String) : hash_function key < TABLE_SIZE := by
  unfold hash_function
  exact Nat.mod_lt _ (by decide)

theorem symtable_create_eq_ops (size : Nat) :
    symtable_create size = apply_ops (empty_table size) builtin_ops := rfl

theorem bucket_prepend_agrees (table : symtable_t) (present : List symtable_item_t)
    (level : Int) (item : symtable_item_t) (h : table_agrees table (present, level)) :
    table_agrees (bucket_prepend table (hash_function item.key) item) (item :: present, level) := by
  refine ⟨h.1, ?_⟩
  intro k
  have hk := h.2 k
  simp only at hk
  by_cases hkey : item.key = k
  · subst hkey
    simp only [bucket_prepend, if_true, List.filter_cons, beq_self_eq_true, hk]
  · have hne : (item.key == k) = false := by simpa using hkey
    by_cases hh : hash_function k = hash_function item.key
    · simp only [bucket_prepend, hh, if_true, List.filter_cons, hne]
      rw [← hh]; simpa using hk
    · simp only [bucket_prepend, if_neg hh, List.filter_cons, hne]
      simpa using hk

theorem apply_op_agrees (size : Nat) (hsize : TABLE_SIZE ≤ size) (op : table_op)
    (ops : List table_op) (table : symtable_t) (st : List symtable_item_t × Int)
    (hs : table.size = size) (h : table_agrees table st) :
    ∃ st1, present_entries (op :: ops) st = present_entries ops st1 ∧
      (apply_op table op).size = size ∧ table_agrees (apply_op table op) st1 := by
  obtain ⟨present, level⟩ := st
  cases op with
  | insert_function name func_data scope_level =>
    exact ⟨_, rfl, hs, bucket_prepend_agrees table present level
      { key := name,
        value := { type := symbol_type.fn_t, funcData := some func_data, varData := none },
        scope_level := scope_level } h⟩
  | insert_variable name var_data scope_level isConst =>
    exact ⟨_, rfl, hs, bucket_prepend_agrees table present level
      { key := name,
        value := { type := if isConst then symbol_type.const_t else symbol_type.var_t,
                   funcData := none, varData := some var_data },
        scope_level := scope_level } h⟩
  | enter_scope =>
    refine ⟨_, rfl, hs, ?_, h.2⟩
    simp only [apply_op, symtable_enter_scope]
    rw [h.1]
  | exit_scope =>
    refine ⟨_, rfl, hs, ?_, ?_⟩
    · simp only [apply_op, symtable_exit_scope]
      rw [h.1]
    · intro k
      have hk := h.2 k
      have hlt : hash_function k < table.size := by
        rw [hs]; exact lt_of_lt_of_le (hash_function_lt k) hsize
      have hl : table.scope_level = level := h.1
      simp only [apply_op, symtable_exit_scope, if_pos hlt, hl] at hk ⊢
      rw [List.filter_filter, List.filter_filter]
      have e1 : ∀ l : List symtable_item_t,
          l.filter (fun a => (a.key == k) && !(a.scope_level == level)) =
          (l.filter (fun a => a.key == k)).filter (fun a => !(a.scope_level == level)) := by
        intro l; rw [List.filter_filter]; congr 1; funext a; exact Bool.and_comm _ _
      have e2 : ∀ l : List symtable_item_t,
          l.filter (fun a => (a.key == k) && decide (a.scope_level ≠ level)) =
          (l.filter (fun a => a.key == k)).filter (fun a => !(a.scope_level == level)) := by
        intro l; rw [List.filter_filter]; congr 1; funext a
        by_cases ha : a.scope_level = level <;> simp [ha]
      rw [e1, e2, hk]

theorem apply_ops_agrees (size : Nat) (hsize : TABLE_SIZE ≤ size) (ops : List table_op) :
    ∀ (table : symtable_t) (st : List symtable_item_t × Int), table.size = size →
      table_agrees table st → table_agrees (apply_ops table ops) (present_entries ops st) := by
  induction ops with
  | nil => intro table st _ h; exact h
  | cons op ops ih =>
    intro table st hs h
    obtain ⟨st1, e, hs1, h1⟩ := apply_op_agrees size hsize op ops table st hs h
    rw [e]
    exact ih _ _ hs1 h1

theorem find_filter_key (l : List symtable_item_t) (k : String) :
    l.find? (fun item => item.key == k) =
      (l.filter (fun item => item.key == k)).head? := by
  induction l with
  | nil => rfl
  | cons a l ih =>
    by_cases h : (a.key == k) = true
    · simp [List.find?_cons, List.filter_cons, h]
    · simp only [List.find?_cons, List.filter_cons, h]
      exact ih

/-- C18: in every table reached from the empty table of a size of at least `TABLE_SIZE`
by inserts, scope entries and scope exits, `symtable_find k` returns the data of the
most recently inserted entry with key `k` among those still present, whatever its level
and whatever other keys share its bucket, and returns NULL exactly when no present entry
has key `k`. -/
theorem C18_find_most_recent (size : Nat) (hsize : TABLE_SIZE ≤ size) (ops : List table_op)
    (k : String) :
    symtable_find (apply_ops (empty_table size) ops) k =
      (((present_entries ops ([], 0)).1.find? (fun item => item.key == k)).map
        (fun item => item.value)) ∧
    (symtable_find (apply_ops (empty_table size) ops) k = none ↔
      ∀ item ∈ (present_entries ops ([], 0)).1, item.key ≠ k) := by
  have h := apply_ops_agrees size hsize ops (empty_table size) ([], 0) rfl
    ⟨rfl, fun _ => rfl⟩
  have hk := h.2 k
  have e : symtable_find (apply_ops (empty_table size) ops) k =
      (((present_entries ops ([], 0)).1.find? (fun item => item.key == k)).map
        (fun item => item.value)) := by
    unfold symtable_find
    rw [find_filter_key, find_filter_key, hk]
  refine ⟨e, ?_⟩
  rw [e]
  simp [List.find?_eq_none]

theorem C18_find_most_recent_witness :
    TABLE_SIZE ≤ TABLE_SIZE ∧ hash_function "Aa" = hash_function "BB" ∧
    (symtable_find (apply_ops (empty_table TABLE_SIZE) colliding_ops) "Aa" =
      (((present_entries colliding_ops ([], 0)).1.find? (fun item => item.key == "Aa")).map
        (fun item => item.value)) ∧
    (symtable_find (apply_ops (empty_table TABLE_SIZE) colliding_ops) "Aa" = none ↔
      ∀ item ∈ (present_entries colliding_ops ([], 0)).1, item.key ≠ "Aa")) :=
  ⟨le_refl _, by decide, C18_find_most_recent TABLE_SIZE (le_refl _) colliding_ops "Aa"⟩

theorem mem_bucket_prepend (table : symtable_t) (index : Nat) (item a : symtable_item_t)
    (i : Nat) :
    a ∈ (bucket_prepend table index item).items i ↔ (i = index ∧ a = item) ∨ a ∈ table.items i := by
  unfold bucket_prepend
  by_cases h : i = index
  · simp [h]
  · simp [h]

theorem insert_functions_items (fs : List (String × func_data_t)) :
    ∀ (table : symtable_t) (i : Nat),
      ((fs.foldl (fun t f => symtable_insert_function t f.1 f.2 0) table).items i) =
        ((fs.reverse.map (fun f => function_item f.1 f.2 0)).filter
          (fun item => hash_function item.key == i)) ++ table.items i := by
  induction fs with
  | nil => intro table i; rfl
  | cons f fs ih =>
    intro table i
    rw [List.foldl_cons, ih]
    simp only [List.reverse_cons, List.map_append, List.filter_append, List.map_cons,
      List.map_nil, List.append_assoc]
    congr 1
    simp only [symtable_insert_function, bucket_prepend, function_item, List.filter_cons,
      List.filter_nil]
    by_cases h : i = hash_function f.1
    · simp [h]
    · have : ¬ hash_function f.1 = i := fun e => h e.symm
      simp [h, this]

theorem symtable_create_items (size : Nat) (i : Nat) :
    (symtable_create size).items i =
      (builtin_signature_table.reverse.map signature_entry).filter
        (fun item => hash_function item.key == i) := by
  have h := insert_functions_items
    (builtin_signature_table.map (fun sig =>
      (sig.1, ({ name := sig.1, isDefined := true, paramCount := sig.2.1.length,
                 params := sig.2.1, returnType := sig.2.2 } : func_data_t))))
    { items := fun _ => [], size := size, scope_level := 0 } i
  rw [List.append_nil] at h
  exact h

theorem symtable_create_find (size : Nat) (key : String) :
    symtable_find (symtable_create size) key = symtable_find (symtable_create 0) key ∧
    ∀ level, symtable_find_in_scope (symtable_create size) key level =
      symtable_find_in_scope (symtable_create 0) key level :=
  ⟨rfl, fun _ => rfl⟩

/-- C19: in the table that `symtable_create size` returns, for a size of at least
`TABLE_SIZE`, each of the 13 rows of the built-in signature table lies in a bucket of the
array and is found, by `symtable_find` and by `symtable_find_in_scope` at level 0, as a
function entry with that parameter count, those parameter types in order and that return
type; every item of every bucket is the entry of one of the 13 rows, and no bucket holds an
item twice. -/
theorem C19_builtin_table (size : Nat) (hsize : TABLE_SIZE ≤ size) :
    builtin_signature_table.length = 13 ∧
    (symtable_create size).scope_level = 0 ∧
    (∀ sig ∈ builtin_signature_table,
      hash_function sig.1 < (symtable_create size).size ∧
      symtable_find_in_scope (symtable_create size) sig.1 0 =
        some { type := symbol_type.fn_t,
               funcData := some { name := sig.1, isDefined := true,
                                  paramCount := sig.2.1.length, params := sig.2.1,
                                  returnType := sig.2.2 },
               varData := none } ∧
      symtable_find (symtable_create size) sig.1 = symtable_find_in_scope (symtable_create size) sig.1 0) ∧
    (∀ i item, item ∈ (symtable_create size).items i →
      ∃ sig ∈ builtin_signature_table, item = signature_entry sig ∧ hash_function sig.1 = i) ∧
    (∀ i, ((symtable_create size).items i).Nodup) := by
  refine ⟨rfl, rfl, ?_, ?_, ?_⟩
  · intro sig hsig
    refine ⟨lt_of_lt_of_le (hash_function_lt _) hsize, ?_⟩
    rw [(symtable_create_find size sig.1).1, (symtable_create_find size sig.1).2 0]
    revert sig
    decide
  · intro i item h
    rw [symtable_create_items] at h
    obtain ⟨hmem, hhash⟩ := List.mem_filter.mp h
    obtain ⟨sig, hsig, e⟩ := List.mem_map.mp hmem
    refine ⟨sig, List.mem_reverse.mp hsig, e.symm, ?_⟩
    subst e
    simpa using hhash
  · intro i
    rw [symtable_create_items]
    exact List.Nodup.filter _ (by decide)

theorem C19_builtin_table_witness :
    TABLE_SIZE ≤ TABLE_SIZE ∧
    symtable_find_in_scope (symtable_create TABLE_SIZE) "ifj.substring" 0 =
      some { type := symbol_type.fn_t,
             funcData := some { name := "ifj.substring", isDefined := true, paramCount := 3,
                                params := [data_type.string_type, data_type.int_type,
                                           data_type.int_type],
                                returnType := data_type.null_string_type },
             varData := none } :=
  ⟨le_refl _, ((C19_builtin_table TABLE_SIZE (le_refl _)).2.2.1
    ("ifj.substring", [data_type.string_type, data_type.int_type, data_type.int_type],
      data_type.null_string_type) (by decide)).2.1⟩

theorem exit_scope_items (table : symtable_t) (i : Nat) (h : i < table.size) :
    (symtable_exit_scope table).items i =
      (table.items i).filter (fun item => !(item.scope_level == table.scope_level)) := by
  simp only [symtable_exit_scope, if_pos h]

/-- C17: `symtable_exit_scope` on a table of at least `TABLE_SIZE` buckets leaves in each
bucket no entry of the current level, keeps every entry of another level with its
multiplicity, keeps each bucket a subsequence of what it was, keeps the size and
decrements the level; afterwards `symtable_find_in_scope` at the exited level finds
nothing, `symtable_find` returns only data of entries of other levels, and when the exited
level is at least 1 each entry found at scope 0 before is found at scope 0 after; in the
example `table_with_local` all 13 built-ins are still found and the local `x` is not. -/
theorem C17_exit_scope (table : symtable_t) (hsize : TABLE_SIZE ≤ table.size) :
    (∀ i, i < table.size → ∀ item ∈ (symtable_exit_scope table).items i,
      item.scope_level ≠ table.scope_level) ∧
    (∀ i item, item.scope_level ≠ table.scope_level →
      ((symtable_exit_scope table).items i).count item = (table.items i).count item) ∧
    (∀ i, ((symtable_exit_scope table).items i).Sublist (table.items i)) ∧
    (symtable_exit_scope table).size = table.size ∧
    (symtable_exit_scope table).scope_level = table.scope_level - 1 ∧
    (∀ k, symtable_find_in_scope (symtable_exit_scope table) k table.scope_level = none) ∧
    (∀ k v, symtable_find (symtable_exit_scope table) k = some v →
      ∃ item ∈ table.items (hash_function k),
        item.key = k ∧ item.value = v ∧ item.scope_level ≠ table.scope_level) ∧
    (1 ≤ table.scope_level → ∀ k v, symtable_find_in_scope table k 0 = some v →
      symtable_find_in_scope (symtable_exit_scope table) k 0 = some v ∧
      (symtable_find (symtable_exit_scope table) k).isSome = true) ∧
    (∀ sig ∈ builtin_signature_table,
      symtable_find (symtable_exit_scope table_with_local) sig.1 =
        some (signature_entry sig).value) ∧
    symtable_find table_with_local "x" ≠ none ∧
    symtable_find (symtable_exit_scope table_with_local) "x" = none := by
  have hlt : ∀ k, hash_function k < table.size := fun k =>
    lt_of_lt_of_le (hash_function_lt k) hsize
  refine ⟨?_, ?_, ?_, rfl, rfl, ?_, ?_, ?_, by decide, by decide, by decide⟩
  · intro i hi item hmem
    rw [exit_scope_items table i hi] at hmem
    have := (List.mem_filter.mp hmem).2
    simpa using this
  · intro i item hne
    by_cases hi : i < table.size
    · rw [exit_scope_items table i hi, List.count_filter]
      simpa using hne
    · simp only [symtable_exit_scope, if_neg hi]
  · intro i
    by_cases hi : i < table.size
    · rw [exit_scope_items table i hi]
      exact List.filter_sublist _
    · simp only [symtable_exit_scope, if_neg hi]
      exact List.Sublist.refl _
  · intro k
    unfold symtable_find_in_scope
    rw [exit_scope_items table _ (hlt k), List.find?_filter]
    simp only [Option.map_eq_none', List.find?_eq_none]
    intro item _
    by_cases h : item.scope_level = table.scope_level <;> simp [h]
  · intro k v h
    unfold symtable_find at h
    rw [exit_scope_items table _ (hlt k)] at h
    obtain ⟨item, hfind, hv⟩ := Option.map_eq_some'.mp h
    have hmem := List.mem_of_find?_eq_some hfind
    have hkey := List.find?_some hfind
    obtain ⟨hm, hp⟩ := List.mem_filter.mp hmem
    exact ⟨item, hm, by simpa using hkey, hv, by simpa using hp⟩
  · intro hlevel k v h
    have hfind : symtable_find_in_scope (symtable_exit_scope table) k 0 = some v := by
      unfold symtable_find_in_scope at h ⊢
      rw [exit_scope_items table _ (hlt k), List.find?_filter]
      rw [← h]
      congr 2
      funext item
      by_cases h0 : item.scope_level = 0
      · have : ¬ (0 : Int) = table.scope_level := by omega
        by_cases hk : item.key = k <;> simp [h0, this, hk]
      · simp [h0]
    refine ⟨hfind, ?_⟩
    unfold symtable_find_in_scope at hfind
    unfold symtable_find
    obtain ⟨item, hf, _⟩ := Option.map_eq_some'.mp hfind
    have hmem := List.mem_of_find?_eq_some hf
    have hp := List.find?_some hf
    have hkey : (item.key == k) = true := by
      simp only [Bool.and_eq_true] at hp
      exact hp.1
    rw [Option.isSome_map', List.find?_isSome]
    exact ⟨item, hmem, hkey⟩

theorem C17_exit_scope_witness :
    TABLE_SIZE ≤ table_with_local.size ∧
    symtable_find_in_scope (symtable_exit_scope table_with_local) "x"
      table_with_local.scope_level = none :=
  ⟨le_refl _, (C17_exit_scope table_with_local (le_refl _)).2.2.2.2.2.1 "x"⟩

theorem any_range_iff (n : Nat) (p : Nat → Bool) :
    (List.range n).any p = true ↔ ∃ i, i < n ∧ p i = true := by
  simp [List.any_eq_true]

theorem item_is_unused_iff (level : Int) (item : symtable_item_t) :
    item_is_unused level item = true ↔
      item.scope_level = level ∧
      (item.value.type = symbol_type.var_t ∨ item.value.type = symbol_type.const_t) ∧
      ∃ v, item.value.varData = some v ∧ v.isUsed = false := by
  unfold item_is_unused
  cases hv : item.value.varData with
  | none => simp
  | some v => simp [and_assoc]

set_option maxRecDepth 1000000 in
/-- C16: `check_unused_variables_in_scope` returns 9 exactly when some bucket of the table
holds a variable or constant entry of the current level whose `isUsed` flag is false, and 0
otherwise; a body `var x: i32 = 1;` without a later reference to `x` exits with code 9 as
the body of a function, of an `if` branch, of an `else` branch, of a `while`, and of their
nullable-unwrap forms, while the same body followed by `_ = x;` compiles. -/
theorem C16_unused_check (table : symtable_t) :
    (check_unused_variables_in_scope table = 9 ↔
      ∃ i, i < table.size ∧ ∃ item ∈ table.items i,
        item.scope_level = table.scope_level ∧
        (item.value.type = symbol_type.var_t ∨ item.value.type = symbol_type.const_t) ∧
        ∃ v, item.value.varData = some v ∧ v.isUsed = false) ∧
    (check_unused_variables_in_scope table ≠ 9 → check_unused_variables_in_scope table = 0) ∧
    exit_code (main_program var_x_tokens) = some 9 ∧
    exit_code (main_program (var_x_tokens ++ use_x_tokens)) = some 0 ∧
    exit_code (main_program (if_tokens var_x_tokens [])) = some 9 ∧
    exit_code (main_program (if_tokens (var_x_tokens ++ use_x_tokens) [])) = some 0 ∧
    exit_code (main_program (if_tokens [] var_x_tokens)) = some 9 ∧
    exit_code (main_program (if_tokens [] (var_x_tokens ++ use_x_tokens))) = some 0 ∧
    exit_code (main_program (while_tokens var_x_tokens)) = some 9 ∧
    exit_code (main_program (while_tokens (var_x_tokens ++ use_x_tokens))) = some 0 ∧
    exit_code (main_program (nullable_m_tokens ++ if_nullable_tokens var_x_tokens [])) =
      some 9 ∧
    exit_code (main_program
      (nullable_m_tokens ++ if_nullable_tokens (var_x_tokens ++ use_x_tokens) [])) = some 0 ∧
    exit_code (main_program (nullable_m_tokens ++ if_nullable_tokens [] var_x_tokens)) =
      some 9 ∧
    exit_code (main_program
      (nullable_m_tokens ++ if_nullable_tokens [] (var_x_tokens ++ use_x_tokens))) = some 0 ∧
    exit_code (main_program (nullable_m_tokens ++ while_nullable_tokens var_x_tokens)) =
      some 9 ∧
    exit_code (main_program
      (nullable_m_tokens ++ while_nullable_tokens (var_x_tokens ++ use_x_tokens))) = some 0 := by
  refine ⟨?_, ?_, by rfl, by rfl, by rfl, by rfl, by rfl, by rfl, by rfl, by rfl, by rfl,
    by rfl, by rfl, by rfl, by rfl, by rfl⟩
  · unfold check_unused_variables_in_scope ERROR_SEMANTIC_UNUSED_VARIABLE
    constructor
    · intro h
      split at h
      · rename_i hany
        obtain ⟨i, hi, hp⟩ := (any_range_iff _ _).mp hany
        obtain ⟨item, hmem, hu⟩ := List.any_eq_true.mp hp
        exact ⟨i, hi, item, hmem, (item_is_unused_iff _ _).mp hu⟩
      · exact absurd h (by decide)
    · rintro ⟨i, hi, item, hmem, hu⟩
      have hany : (List.range table.size).any
          (fun i => (table.items i).any (item_is_unused table.scope_level)) = true :=
        (any_range_iff _ _).mpr
          ⟨i, hi, List.any_eq_true.mpr ⟨item, hmem, (item_is_unused_iff _ _).mpr hu⟩⟩
      rw [if_pos hany]
  · intro h
    unfold check_unused_variables_in_scope ERROR_SEMANTIC_UNUSED_VARIABLE at h ⊢
    split
    · rename_i hany
      rw [if_pos hany] at h
      exact absurd rfl h
    · rfl

/-! ## Declarations, assignments and `return` (parser.c) -/

theorem symtable_find_insert_variable (table : symtable_t) (name : String)
    (var_data : var_data_t) (scope_level : Int) (isConst : Bool) :
    symtable_find (symtable_insert_variable table name var_data scope_level isConst) name =
      some { type := if isConst then symbol_type.const_t else symbol_type.var_t,
             funcData := none, varData := some var_data } := by
  simp [symtable_find, symtable_insert_variable, bucket_prepend]

theorem parse_decl_inferred (pe : PState → Res PState (data_type × PState))
    (keyword : token_type) (isConst : Bool) (s0 : PState) (name : String)
    (rest : List token_t) (expr_type : data_type) (s6 : PState)
    (hfresh : symtable_find s0.symbol_table name = none)
    (hexpr : parse_expression pe (emit { s0 with tokens := rest } (gen_defvar name)) =
      Res.ok (expr_type, s6))
    (hsemi : (current_token s6).type = TOKEN_SEMICOLON)
    (hnull : expr_type ≠ data_type.null) :
    parse_decl pe keyword isConst { s0 with tokens := decl_tokens keyword name none rest } =
      if expr_type = null_type then Res.exit ERROR_SEMANTIC_TYPE_INFERENCE_FAILURE
      else Res.ok (declared s6 name expr_type isConst) := by
  have hsemi2 : ((emit s6 (gen_pop_operand (some name))).tokens.headD
      { type := TOKEN_EOF, attr := token_attribute.none }).type = TOKEN_SEMICOLON := hsemi
  unfold parse_decl
  simp only [decl_tokens, current_token, fetch_next_token, List.headD_cons, List.tail_cons, tk,
    tk_id, token_t.attr_s, ne_eq, not_true_eq_false, if_false, hfresh, Option.isSome_none,
    Bool.false_eq_true, reduceCtorEq, Res.bind]
  rw [hexpr]
  simp only [hnull, if_false, false_or, and_true, hsemi2, not_true_eq_false]
  by_cases h8 : expr_type = null_type
  · rw [if_pos h8, if_pos h8]
  · rw [if_neg h8, if_neg h8]
    rfl

theorem parse_type_eq (s : PState) :
    parse_type s = (type_of_token (current_token s).type).isSome := by
  unfold parse_type
  generalize (current_token s).type = t
  cases t <;> rfl

theorem parse_decl_annotated (pe : PState → Res PState (data_type × PState))
    (keyword : token_type) (isConst : Bool) (s0 : PState) (name : String)
    (rest : List token_t) (expr_type : data_type) (s6 : PState)
    (annot : token_type) (type : data_type)
    (htype : type_of_token annot = some type)
    (hfresh : symtable_find s0.symbol_table name = none)
    (hexpr : parse_expression pe (emit { s0 with tokens := rest } (gen_defvar name)) =
      Res.ok (expr_type, s6))
    (hsemi : (current_token s6).type = TOKEN_SEMICOLON) :
    parse_decl pe keyword isConst
        { s0 with tokens := decl_tokens keyword name (some annot) rest } =
      if is_type_compatible type expr_type then Res.ok (declared s6 name type isConst)
      else Res.exit ERROR_SEMANTIC_TYPE_INCOMPATIBILITY := by
  have hsemi2 : ((emit s6 (gen_pop_operand (some name))).tokens.headD
      { type := TOKEN_EOF, attr := token_attribute.none }).type = TOKEN_SEMICOLON := hsemi
  unfold parse_decl
  simp only [decl_tokens, current_token, fetch_next_token, List.headD_cons, List.tail_cons, tk,
    tk_id, token_t.attr_s, ne_eq, not_true_eq_false, if_false, hfresh, Option.isSome_none,
    Bool.false_eq_true, reduceCtorEq, Res.bind, if_true]
  simp only [parse_type_eq, current_token, List.headD_cons, htype, Option.isSome_some, if_true,
    List.tail_cons, not_true_eq_false, if_false]
  rw [hexpr]
  simp only [reduceCtorEq, and_false, if_false, hsemi2, not_true_eq_false]
  by_cases hc : is_type_compatible type expr_type = true
  · have hne : expr_type ≠ null := by
      intro e
      rw [e] at hc
      cases type <;> simp [is_type_compatible, type_of_token] at hc
      all_goals (cases annot <;> simp [type_of_token] at htype)
    simp only [hc, if_true, hne, if_false]
    rfl
  · simp only [hc, if_false]
    split <;> rfl

set_option maxRecDepth 1000000 in
/-- C12: for `var id [: T] = expr;` and `const id [: T] = expr;` with a fresh `id`, an
expression that parses with type `expr_type` and a following `;`: without annotation the
declaration exits with 8 when `expr_type` is the literal-null type and otherwise gives the
symbol the type of the expression; with annotation `T` it is accepted exactly when
`is_type_compatible T expr_type` holds, the symbol then having type `T`, and exits with 7
otherwise. `var x: ?i32 = null;` gives `x` the type `?i32`, `var b: f64 = a;` with
`a: i32` exits with 7, `var x = null;` and `const x = null;` exit with 8. -/
theorem C12_declaration (pe : PState → Res PState (data_type × PState)) (s0 : PState)
    (name : String) (rest : List token_t) (expr_type : data_type) (s6 : PState)
    (hfresh : symtable_find s0.symbol_table name = none)
    (hexpr : parse_expression pe (emit { s0 with tokens := rest } (gen_defvar name)) =
      Res.ok (expr_type, s6))
    (hsemi : (current_token s6).type = TOKEN_SEMICOLON) :
    (expr_type ≠ data_type.null →
      parse_var_decl pe { s0 with tokens := decl_tokens KW_VAR name none rest } =
        (if expr_type = null_type then Res.exit 8
         else Res.ok (declared s6 name expr_type false)) ∧
      parse_const_decl pe { s0 with tokens := decl_tokens KW_CONST name none rest } =
        (if expr_type = null_type then Res.exit 8
         else Res.ok (declared s6 name expr_type true))) ∧
    (∀ annot type, type_of_token annot = some type →
      parse_var_decl pe { s0 with tokens := decl_tokens KW_VAR name (some annot) rest } =
        (if is_type_compatible type expr_type then Res.ok (declared s6 name type false)
         else Res.exit 7) ∧
      parse_const_decl pe
          { s0 with tokens := decl_tokens KW_CONST name (some annot) rest } =
        (if is_type_compatible type expr_type then Res.ok (declared s6 name type true)
         else Res.exit 7)) ∧
    (∀ var_type isConst,
      symtable_find (declared s6 name var_type isConst).symbol_table name =
        some { type := if isConst then symbol_type.const_t else symbol_type.var_t,
               funcData := none,
               varData := some { name := name, type := var_type, isUsed := false } }) ∧
    entry_after (parse_var_decl (parse_expr_rec 2 20)
        (init_state (symtable_create TABLE_SIZE)
          (decl_tokens KW_VAR "x" (some TOKEN_INT_NULL) [tk KW_NULL, tk TOKEN_SEMICOLON]))) "x" =
      some { type := symbol_type.var_t, funcData := none,
             varData := some { name := "x", type := null_int_type, isUsed := false } } ∧
    exit_code (main_program
      (decl_tokens KW_VAR "a" (some KW_INT_TYPE) [tk_int 1, tk TOKEN_SEMICOLON] ++
       decl_tokens KW_VAR "b" (some KW_FLOAT_TYPE) [tk_id "a", tk TOKEN_SEMICOLON])) = some 7 ∧
    exit_code (main_program
      (decl_tokens KW_VAR "x" none [tk KW_NULL, tk TOKEN_SEMICOLON])) = some 8 ∧
    exit_code (main_program
      (decl_tokens KW_CONST "x" none [tk KW_NULL, tk TOKEN_SEMICOLON])) = some 8 := by
  refine ⟨?_, ?_, ?_, by rfl, by rfl, by rfl, by rfl⟩
  · intro hnull
    exact ⟨parse_decl_inferred pe KW_VAR false s0 name rest expr_type s6 hfresh hexpr hsemi hnull,
      parse_decl_inferred pe KW_CONST true s0 name rest expr_type s6 hfresh hexpr hsemi hnull⟩
  · intro annot type htype
    exact ⟨parse_decl_annotated pe KW_VAR false s0 name rest expr_type s6 annot type htype
        hfresh hexpr hsemi,
      parse_decl_annotated pe KW_CONST true s0 name rest expr_type s6 annot type htype
        hfresh hexpr hsemi⟩
  · intro var_type isConst
    exact symtable_find_insert_variable _ _ _ _ _

set_option maxRecDepth 1000000 in
/-- Witness of C12: `var x: ?i32 = 1;` in the fresh table is accepted, `x` is declared with
the annotated type `?i32`. -/
theorem C12_declaration_witness :
    parse_var_decl (parse_expr_rec 2 20)
      (init_state (symtable_create TABLE_SIZE)
        (decl_tokens KW_VAR "x" (some TOKEN_INT_NULL) [tk_int 1, tk TOKEN_SEMICOLON])) =
      Res.ok (declared
        { init_state (symtable_create TABLE_SIZE) [tk TOKEN_SEMICOLON] with
          out := [Instr.line "DEFVAR" ["LF@x"], Instr.PUSHS_int 1] } "x" null_int_type false) :=
  ((C12_declaration (parse_expr_rec 2 20) (init_state (symtable_create TABLE_SIZE) []) "x"
    [tk_int 1, tk TOKEN_SEMICOLON] int_type
    { init_state (symtable_create TABLE_SIZE) [tk TOKEN_SEMICOLON] with
      out := [Instr.line "DEFVAR" ["LF@x"], Instr.PUSHS_int 1] }
    (by decide) (by rfl) (by rfl)).2.1 TOKEN_INT_NULL null_int_type rfl).1

theorem parse_return_void (pe : PState → Res PState (data_type × PState)) (s0 : PState)
    (rest : List token_t) (func_data : func_data_t)
    (hcf : s0.current_function = some func_data) :
    parse_return_statement pe
        { s0 with tokens := tk KW_RETURN :: tk TOKEN_SEMICOLON :: rest } =
      if func_data.returnType = void_type then
        Res.ok { emit { s0 with tokens := rest } gen_func_end with has_return := true }
      else Res.exit 6 := by
  unfold parse_return_statement
  simp only [current_token, fetch_next_token, List.headD_cons, List.tail_cons, tk, ne_eq,
    not_true_eq_false, if_false, if_true, hcf]
  by_cases hv : func_data.returnType = void_type
  · simp only [hv, not_true_eq_false, if_false, if_true]
  · simp only [hv, not_false_eq_true, if_true, if_false]
    rfl

theorem parse_return_value (pe : PState → Res PState (data_type × PState)) (s0 : PState)
    (rest : List token_t) (func_data : func_data_t) (expr_type : data_type) (s2 : PState)
    (hrest : (current_token { s0 with tokens := rest }).type ≠ TOKEN_SEMICOLON)
    (hexpr : parse_expression pe { s0 with tokens := rest } = Res.ok (expr_type, s2))
    (hsemi : (current_token s2).type = TOKEN_SEMICOLON)
    (hcf : s2.current_function = some func_data) :
    parse_return_statement pe { s0 with tokens := tk KW_RETURN :: rest } =
      if func_data.returnType = void_type then Res.exit 6
      else if func_data.returnType = expr_type then Res.ok (returned s2)
      else Res.exit 4 := by
  unfold parse_return_statement
  simp only [fetch_next_token, List.tail_cons]
  have h1 : (current_token { s0 with tokens := tk KW_RETURN :: rest }).type = KW_RETURN := rfl
  rw [if_neg (by rw [h1]; exact fun h => h rfl), if_neg hrest, hexpr]
  simp only [hsemi, ne_eq, not_true_eq_false, if_false, hcf]
  by_cases hv : func_data.returnType = void_type
  · rw [if_pos hv, if_pos hv]; rfl
  · rw [if_neg hv, if_neg hv]
    by_cases he : func_data.returnType = expr_type
    · simp only [he, not_true_eq_false, if_false, if_true, returned, fetch_next_token, hcf]
    · simp only [he, not_false_eq_true, if_true, if_false]
      rfl

set_option maxRecDepth 1000000 in
/-- C13: in a function of return type `void`, `return;` is accepted and `return expr;`
(with an expression that parses and a following `;`) exits with 6; in a function of a
non-void return type `R`, `return;` exits with 6 and `return expr;` is accepted when the
type of the expression is `R` and exits with 4 for every other type; an `i32` value, the
literal `null` and an `i32` literal returned from functions declared `?i32`, `?i32` and
`f64` exit with 4. -/
theorem C13_return (pe : PState → Res PState (data_type × PState)) (s0 : PState)
    (rest : List token_t) (func_data : func_data_t)
    (hcf : s0.current_function = some func_data) :
    parse_return_statement pe
        { s0 with tokens := tk KW_RETURN :: tk TOKEN_SEMICOLON :: rest } =
      (if func_data.returnType = void_type then
        Res.ok { emit { s0 with tokens := rest } gen_func_end with has_return := true }
       else Res.exit 6) ∧
    (∀ expr_type s2,
      (current_token { s0 with tokens := rest }).type ≠ TOKEN_SEMICOLON →
      parse_expression pe { s0 with tokens := rest } = Res.ok (expr_type, s2) →
      (current_token s2).type = TOKEN_SEMICOLON →
      s2.current_function = some func_data →
      parse_return_statement pe { s0 with tokens := tk KW_RETURN :: rest } =
        (if func_data.returnType = void_type then Res.exit 6
         else if func_data.returnType = expr_type then Res.ok (returned s2)
         else Res.exit 4)) ∧
    exit_code (main_program [tk KW_RETURN, tk TOKEN_SEMICOLON]) = some 0 ∧
    exit_code (main_program [tk KW_RETURN, tk_int 1, tk TOKEN_SEMICOLON]) = some 6 ∧
    exit_code (program_with_f [] KW_VOID [tk KW_RETURN, tk_int 1, tk TOKEN_SEMICOLON]) =
      some 6 ∧
    exit_code (program_with_f [] KW_INT_TYPE [tk KW_RETURN, tk TOKEN_SEMICOLON]) = some 6 ∧
    exit_code (program_with_f [] KW_INT_TYPE [tk KW_RETURN, tk_int 1, tk TOKEN_SEMICOLON]) =
      some 0 ∧
    exit_code (program_with_f [] TOKEN_INT_NULL [tk KW_RETURN, tk_int 1, tk TOKEN_SEMICOLON]) =
      some 4 ∧
    exit_code (program_with_f [] TOKEN_INT_NULL [tk KW_RETURN, tk KW_NULL, tk TOKEN_SEMICOLON]) =
      some 4 ∧
    exit_code (program_with_f [] KW_FLOAT_TYPE [tk KW_RETURN, tk_int 1, tk TOKEN_SEMICOLON]) =
      some 4 ∧
    exit_code (program_with_f [tk_id "p", tk TOKEN_TWODOT, tk TOKEN_INT_NULL] TOKEN_INT_NULL
      [tk KW_RETURN, tk_id "p", tk TOKEN_SEMICOLON]) = some 0 := by
  refine ⟨parse_return_void pe s0 rest func_data hcf, ?_, by rfl, by rfl, by rfl, by rfl,
    by rfl, by rfl, by rfl, by rfl, by rfl⟩
  intro expr_type s2 hrest hexpr hsemi hcf2
  exact parse_return_value pe s0 rest func_data expr_type s2 hrest hexpr hsemi hcf2

/-- Witness of C13: `return;` in a function declared `i32` exits with 6. -/
theorem C13_return_witness :
    parse_return_statement (parse_expr_rec 2 20)
        { init_state (symtable_create TABLE_SIZE) [tk KW_RETURN, tk TOKEN_SEMICOLON] with
          current_function := some (mk_builtin "f" [] int_type) } = Res.exit 6 :=
  (C13_return (parse_expr_rec 2 20)
    { init_state (symtable_create TABLE_SIZE) [] with
      current_function := some (mk_builtin "f" [] int_type) } []
    (mk_builtin "f" [] int_type) rfl).1

theorem parse_parameter_pass2 (func_data func_data1 : func_data_t) (s s1 : PState)
    (hfc : s.first_control = false) (h : parse_parameter func_data s = Res.ok (func_data1, s1)) :
    ∃ name type, (current_token s).attr_s = some name ∧
      symtable_find s1.symbol_table name =
        some { type := symbol_type.const_t, funcData := none,
               varData := some { name := name, type := type, isUsed := false } } := by
  have hfc2 : (fetch_next_token (fetch_next_token s)).first_control = false := hfc
  unfold parse_parameter at h
  dsimp only at h
  simp only [hfc, hfc2, Bool.false_eq_true, if_false] at h
  repeat' (split at h)
  all_goals (first | (cases h; done) | skip)
  rename_i _ name hattr _ _ _ _ type _
  injection h with h
  injection h with h1 h2
  refine ⟨name, type, hattr, ?_⟩
  rw [← h2]
  exact symtable_find_insert_variable _ _ _ _ _

set_option maxRecDepth 1000000 in
/-- C14: `parse_assignment` on a target that is not in the symbol table exits with 3, and
on a target whose entry is a constant exits with 5, whatever the expression parser and
whatever tokens follow; the entry made by a `const` declaration and the entry made for a
function parameter in pass 2 are constants. Assignments to a `const`, to a parameter and to
an undeclared name exit with 5, 5 and 3, also when the right-hand side names an undefined
variable or is no expression. -/
theorem C14_assignment (pe : PState → Res PState (data_type × PState)) (s : PState)
    (name : String) :
    (symtable_find s.symbol_table name = none →
      parse_assignment pe (some name) s = Res.exit 3) ∧
    (∀ entry var_data, symtable_find s.symbol_table name = some entry →
      entry.varData = some var_data → entry.type = symbol_type.const_t →
      parse_assignment pe (some name) s = Res.exit 5) ∧
    (∀ var_type, symtable_find (declared s name var_type true).symbol_table name =
      some { type := symbol_type.const_t, funcData := none,
             varData := some { name := name, type := var_type, isUsed := false } }) ∧
    (∀ func_data func_data1 s1, s.first_control = false →
      parse_parameter func_data s = Res.ok (func_data1, s1) →
      ∃ param type, (current_token s).attr_s = some param ∧
        symtable_find s1.symbol_table param =
          some { type := symbol_type.const_t, funcData := none,
                 varData := some { name := param, type := type, isUsed := false } }) ∧
    exit_code (main_program
      (decl_tokens KW_CONST "c" (some KW_INT_TYPE) [tk_int 1, tk TOKEN_SEMICOLON] ++
       [tk_id "c", tk TOKEN_ASSIGN, tk_int 2, tk TOKEN_SEMICOLON])) = some 5 ∧
    exit_code (main_program
      (decl_tokens KW_CONST "c" (some KW_INT_TYPE) [tk_int 1, tk TOKEN_SEMICOLON] ++
       [tk_id "c", tk TOKEN_ASSIGN, tk_id "undefined", tk TOKEN_SEMICOLON])) = some 5 ∧
    exit_code (main_program
      (decl_tokens KW_CONST "c" (some KW_INT_TYPE) [tk_int 1, tk TOKEN_SEMICOLON] ++
       [tk_id "c", tk TOKEN_ASSIGN, tk TOKEN_ADD, tk TOKEN_SEMICOLON])) = some 5 ∧
    exit_code (program_with_f [tk_id "p", tk TOKEN_TWODOT, tk KW_INT_TYPE] KW_VOID
      [tk_id "p", tk TOKEN_ASSIGN, tk_int 2, tk TOKEN_SEMICOLON]) = some 5 ∧
    exit_code (main_program [tk_id "y", tk TOKEN_ASSIGN, tk_int 2, tk TOKEN_SEMICOLON]) =
      some 3 ∧
    exit_code (main_program [tk_id "y", tk TOKEN_ASSIGN, tk TOKEN_ADD, tk TOKEN_SEMICOLON]) =
      some 3 ∧
    exit_code (main_program
      (decl_tokens KW_VAR "c" (some KW_INT_TYPE) [tk_int 1, tk TOKEN_SEMICOLON] ++
       [tk_id "c", tk TOKEN_ASSIGN, tk_int 2, tk TOKEN_SEMICOLON])) = some 0 := by
  refine ⟨?_, ?_, ?_, ?_, by rfl, by rfl, by rfl, by rfl, by rfl, by rfl, by rfl⟩
  · intro h
    unfold parse_assignment
    simp only [h]
    rfl
  · intro entry var_data h hvd hconst
    unfold parse_assignment
    simp only [h, hvd, hconst, if_true]
    rfl
  · intro var_type
    exact symtable_find_insert_variable _ _ _ _ _
  · intro func_data func_data1 s1 hfc h
    exact parse_parameter_pass2 func_data func_data1 s s1 hfc h

/-- Witness of C14: in the fresh table the target `y` is unknown, the assignment exits with
3 before any token of the right-hand side is read. -/
theorem C14_assignment_witness :
    parse_assignment (parse_expr_rec 2 20) (some "y")
      (init_state (symtable_create TABLE_SIZE) [tk TOKEN_ASSIGN, tk TOKEN_ADD]) = Res.exit 3 :=
  (C14_assignment (parse_expr_rec 2 20)
    (init_state (symtable_create TABLE_SIZE) [tk TOKEN_ASSIGN, tk TOKEN_ADD]) "y").1 (by decide)

/-! ## Pass 1 (parser.c) -/

theorem parse_prologue_first_control (s s1 : PState) (h : parse_prologue s = Res.ok s1) :
    s1.first_control = s.first_control := by
  unfold parse_prologue at h
  dsimp only at h
  split_ifs at h
  injection h with h
  rw [← h]
  rfl

theorem symtable_find_insert_function (table : symtable_t) (name : String)
    (func_data : func_data_t) (scope_level : Int) (k : String) :
    symtable_find (symtable_insert_function table name func_data scope_level) k =
      if k = name then
        some { type := symbol_type.fn_t, funcData := some func_data, varData := none }
      else symtable_find table k := by
  unfold symtable_find symtable_insert_function bucket_prepend
  by_cases hk : k = name
  · subst hk
    simp
  · have hne : ¬ name = k := fun e => hk e.symm
    by_cases hh : hash_function k = hash_function name
    · simp [hh, hk, hne, List.find?_cons]
    · simp [hh, hk]

theorem find_chain_set_func_data (key : String) (func_data : func_data_t)
    (l : List symtable_item_t) (k : String) :
    ((chain_set_func_data key func_data l).find? (fun item => item.key == k)).map
        (fun item => item.value) =
      if k = key then
        ((l.find? (fun item => item.key == k)).map (fun item => item.value)).map
          (fun v => { v with funcData := some func_data })
      else (l.find? (fun item => item.key == k)).map (fun item => item.value) := by
  induction l with
  | nil => simp [chain_set_func_data]
  | cons a l ih =>
    unfold chain_set_func_data
    by_cases ha : a.key = key
    · by_cases hk : k = key
      · simp [ha, hk, List.find?_cons]
      · have : ¬ key = k := fun e => hk e.symm
        simp [ha, hk, this, List.find?_cons]
    · by_cases hak : a.key = k
      · have : ¬ k = key := fun e => ha (hak.trans e)
        simp [ha, hak, this, List.find?_cons]
      · simp only [beq_iff_eq, ha, if_false, List.find?_cons, hak]
        have e1 : (a.key == k) = false := by simpa using hak
        simp only [e1]
        exact ih

theorem symtable_find_set_func_data (table : symtable_t) (key : String)
    (func_data : func_data_t) (k : String) :
    symtable_find (symtable_set_func_data table key func_data) k =
      if k = key then
        (symtable_find table k).map (fun v => { v with funcData := some func_data })
      else symtable_find table k := by
  unfold symtable_find symtable_set_func_data
  by_cases hh : hash_function k = hash_function key
  · simp only [hh, if_true]
    have := find_chain_set_func_data key func_data (table.items (hash_function key)) k
    simpa [hh] using this
  · have hk : ¬ k = key := fun e => hh (by rw [e])
    simp only [if_neg hh, if_neg hk]

theorem parse_parameter_pass1 (func_data func_data1 : func_data_t) (s s1 : PState)
    (hfc : s.first_control = true) (h : parse_parameter func_data s = Res.ok (func_data1, s1)) :
    s1.symbol_table = s.symbol_table ∧ s1.first_control = true ∧
      func_data1.paramCount = func_data.paramCount + 1 := by
  have hfc2 : (fetch_next_token (fetch_next_token s)).first_control = true := hfc
  unfold parse_parameter at h
  dsimp only at h
  simp only [hfc, hfc2, not_true_eq_false, false_and, if_false, if_true] at h
  repeat' (split at h)
  all_goals (first | (cases h; done) | skip)
  injection h with h
  injection h with h1 h2
  rw [← h1, ← h2]
  exact ⟨rfl, hfc, rfl⟩

theorem parse_parameters_loop_pass1 (fuel : Nat) :
    ∀ (func_data func_data1 : func_data_t) (s s1 : PState), s.first_control = true →
      parse_parameters_loop fuel func_data s = Res.ok (func_data1, s1) →
      s1.symbol_table = s.symbol_table ∧ s1.first_control = true ∧
        func_data.paramCount < func_data1.paramCount := by
  induction fuel with
  | zero => intro _ _ _ _ _ h; cases h
  | succ fuel ih =>
    intro func_data func_data1 s s1 hfc h
    unfold parse_parameters_loop at h
    cases hp : parse_parameter func_data s with
    | ok r =>
      obtain ⟨fd, sp⟩ := r
      obtain ⟨ht, hf, hc⟩ := parse_parameter_pass1 func_data fd s sp hfc hp
      rw [hp] at h
      simp only [Res.bind] at h
      split_ifs at h
      · obtain ⟨ht2, hf2, hc2⟩ := ih fd func_data1 (fetch_next_token sp) s1 hf h
        exact ⟨ht2.trans ht, hf2, by omega⟩
      · injection h with h
        injection h with h1 h2
        rw [← h1, ← h2]
        exact ⟨ht, hf, by omega⟩
      · injection h with h
        injection h with h1 h2
        rw [← h1, ← h2]
        exact ⟨ht, hf, by omega⟩
    | fail e => rw [hp] at h; cases h
    | exit c => rw [hp] at h; cases h
    | crash => rw [hp] at h; cases h
    | timeout => rw [hp] at h; cases h

theorem parse_parameters_pass1 (fuel : Nat) (func_data func_data1 : func_data_t)
    (s s1 : PState) (hfc : s.first_control = true)
    (h : parse_parameters fuel func_data s = Res.ok (func_data1, s1)) :
    s1.symbol_table = s.symbol_table ∧ s1.first_control = true := by
  unfold parse_parameters at h
  dsimp only at h
  split_ifs at h
  · injection h with h
    injection h with h1 h2
    rw [← h2]
    exact ⟨rfl, hfc⟩
  · obtain ⟨ht, hf, _⟩ := parse_parameters_loop_pass1 fuel _ func_data1 s s1 hfc h
    exact ⟨ht, hf⟩

theorem parse_return_type_ok (func_data func_data1 : func_data_t) (s s1 : PState)
    (h : parse_return_type func_data s = Res.ok (func_data1, s1)) :
    s1.symbol_table = s.symbol_table ∧ s1.first_control = s.first_control ∧
      func_data1.paramCount = func_data.paramCount := by
  unfold parse_return_type at h
  split_ifs at h
  · injection h with h
    injection h with h1 h2
    rw [← h1, ← h2]
    exact ⟨rfl, rfl, rfl⟩
  · split at h
    · cases h
    · injection h with h
      injection h with h1 h2
      rw [← h1, ← h2]
      exact ⟨rfl, rfl, rfl⟩

theorem parse_function_header_pass1 (fuel : Nat) (s s1 : PState)
    (hfc : s.first_control = true) (h : parse_function_header fuel s = Res.ok s1) :
    s1.first_control = true ∧
    ∃ name, (current_token s).attr_s = some name ∧
      (name = "main" → main_registered s1.symbol_table) ∧
      (∀ k, k ≠ name → symtable_find s1.symbol_table k = symtable_find s.symbol_table k) := by
  unfold parse_function_header at h
  split_ifs at h
  cases hattr : (current_token s).attr_s with
  | none => rw [hattr] at h; cases h
  | some name =>
    rw [hattr] at h
    dsimp only at h
    split_ifs at h
    split at h
    · rename_i fd1 s2 hp
      obtain ⟨ht2, hf2⟩ := parse_parameters_pass1 fuel _ fd1 _ s2 (by exact hfc) hp
      have ht2a : s2.symbol_table = symtable_insert_function s.symbol_table name
          ⟨name, true, 0, [], data_type.void_type⟩ s.symbol_table.scope_level := ht2
      split_ifs at h with hc1 hc2
      split at h
      · rename_i fd2 s4 hr
        obtain ⟨ht4, hf4, hpc⟩ := parse_return_type_ok fd1 fd2 _ s4 hr
        have ht4a : s4.symbol_table = symtable_set_func_data s2.symbol_table name fd1 := ht4
        have hf4a : s4.first_control = true := hf4.trans hf2
        split_ifs at h with hc3 hc4
        injection h with h
        have htab : s1.symbol_table =
            symtable_set_func_data (symtable_set_func_data (symtable_insert_function
              s.symbol_table name ⟨name, true, 0, [], data_type.void_type⟩
              s.symbol_table.scope_level) name fd1) name fd2 := by
          rw [← h, ← ht2a, ← ht4a]
          rfl
        refine ⟨?_, name, rfl, ?_, ?_⟩
        · rw [← h]
          exact hf4a
        · intro hmain
          refine ⟨fd2, ?_, ?_, ?_⟩
          · rw [htab, symtable_find_set_func_data, symtable_find_set_func_data,
              symtable_find_insert_function]
            simp [hmain]
          · have : ¬ fd1.paramCount > 0 := by
              intro hgt
              exact hc2 ⟨by simpa using hmain, hgt⟩
            omega
          · by_contra hne
            exact hc3 ⟨by simpa using hmain, hne⟩
        · intro k hk
          rw [htab, symtable_find_set_func_data, symtable_find_set_func_data,
            symtable_find_insert_function]
          simp [hk]
      all_goals cases h
    all_goals cases h

theorem parse_program_pass1_main (fuel : Nat) :
    ∀ (hasMain hasMain1 : Bool) (s s1 : PState), s.first_control = true →
      (hasMain = true → main_registered s.symbol_table) →
      parse_program_pass1 fuel hasMain s = Res.ok (hasMain1, s1) →
      (hasMain1 = true → main_registered s1.symbol_table) := by
  induction fuel with
  | zero => intro _ _ _ _ _ _ h; cases h
  | succ fuel ih =>
    intro hasMain hasMain1 s s1 hfc hinv h
    unfold parse_program_pass1 at h
    dsimp only at h
    split_ifs at h with hpub hfn
    · split at h
      · cases h
      · rename_i name hattr
        have hattr_s : (current_token (fetch_next_token (fetch_next_token s))).attr_s =
            some name := by
          unfold token_t.attr_s
          rw [hattr]
        cases hh : parse_function_header fuel (fetch_next_token (fetch_next_token s)) with
        | ok s3 =>
          obtain ⟨hf3, name1, hn1, hmain, hother⟩ :=
            parse_function_header_pass1 fuel _ s3 (by exact hfc) hh
          have hname : name1 = name := by
            rw [hattr_s] at hn1
            exact (Option.some.inj hn1).symm
          subst hname
          have hinv3 : (if name1 = "main" then true else hasMain) = true →
              main_registered s3.symbol_table := by
            intro hm
            by_cases hnm : name1 = "main"
            · exact hmain hnm
            · rw [if_neg hnm] at hm
              obtain ⟨fd, hfind, h1, h2⟩ := hinv hm
              refine ⟨fd, ?_, h1, h2⟩
              rw [hother "main" (fun e => hnm e.symm)]
              exact hfind
          rw [hh] at h
          simp only [Res.bind] at h
          generalize (if name1 = "main" then true else hasMain) = hasMain2 at h hinv3
          split_ifs at h
          · injection h with h
            injection h with h1 h2
            rw [← h1, ← h2]
            exact hinv3
          · exact ih _ hasMain1 s3 s1 hf3 hinv3 h
        | fail e => rw [hh] at h; cases h
        | exit c => rw [hh] at h; cases h
        | crash => rw [hh] at h; cases h
        | timeout => rw [hh] at h; cases h
      · cases h
    · injection h with h
      injection h with h1 h2
      rw [← h1, ← h2]
      exact hinv

theorem parse_parameter_wf (fd : func_data_t) (s : PState) (x : String) (t : token_type)
    (rest : List token_t) (ht : is_type_word t = true)
    (htok : s.tokens = tk_id x :: tk TOKEN_TWODOT :: tk t :: rest)
    (hfc : s.first_control = true) :
    ∃ fd1 s1, parse_parameter fd s = Res.ok (fd1, s1) ∧ s1.tokens = rest := by
  unfold parse_parameter
  simp only [is_type_word, List.mem_cons, List.mem_singleton, decide_eq_true_eq,
    List.not_mem_nil, or_false] at ht
  rcases ht with rfl | rfl | rfl | rfl | rfl | rfl <;>
    simp [current_token, fetch_next_token, htok, tk_id, tk, token_t.attr_s, hfc, parse_type,
      type_of_token] <;>
    exact ⟨_, _, ⟨rfl, rfl⟩, rfl⟩

theorem parse_parameters_loop_wf (params : List (String × token_type)) :
    ∀ (fuel : Nat) (fd : func_data_t) (s : PState) (rest : List token_t),
      params ≠ [] → (∀ p ∈ params, is_type_word p.2 = true) → params.length ≤ fuel →
      s.tokens = param_list_tokens params ++ tk TOKEN_CLOSING_PARENTHESES :: rest →
      s.first_control = true →
      ∃ fd1 s1, parse_parameters_loop fuel fd s = Res.ok (fd1, s1) ∧
        s1.tokens = tk TOKEN_CLOSING_PARENTHESES :: rest := by
  induction params with
  | nil => intro _ _ _ _ h; exact absurd rfl h
  | cons p ps ih =>
    intro fuel fd s rest _ hty hfuel htok hfc
    obtain ⟨fuel, rfl⟩ : ∃ k, fuel = k + 1 := ⟨fuel - 1, by simp at hfuel; omega⟩
    cases ps with
    | nil =>
      obtain ⟨fd1, s1, h1, h2⟩ := parse_parameter_wf fd s p.1 p.2
        (tk TOKEN_CLOSING_PARENTHESES :: rest) (hty p (by simp)) (by simpa [param_list_tokens] using htok) hfc
      refine ⟨fd1, s1, ?_, h2⟩
      unfold parse_parameters_loop
      rw [h1]
      simp [Res.bind, current_token, h2, tk]
    | cons q qs =>
      obtain ⟨fd1, s1, h1, h2⟩ := parse_parameter_wf fd s p.1 p.2
        (tk TOKEN_COMMA :: (param_list_tokens (q :: qs) ++ tk TOKEN_CLOSING_PARENTHESES :: rest))
        (hty p (by simp)) (by simpa [param_list_tokens] using htok) hfc
      have hfc1 : s1.first_control = true := (parse_parameter_pass1 fd fd1 s s1 hfc h1).2.1
      obtain ⟨fd2, s2, h3, h4⟩ := ih fuel fd1 (fetch_next_token s1) rest (by simp)
        (fun r hr => hty r (by simp [hr])) (by simp at hfuel ⊢; omega)
        (by simp [fetch_next_token, h2]) hfc1
      refine ⟨fd2, s2, ?_, h4⟩
      unfold parse_parameters_loop
      rw [h1]
      have hq : (current_token (fetch_next_token s1)).type = TOKEN_ID := by
        cases qs <;> simp [current_token, fetch_next_token, h2, param_list_tokens, tk_id]
      simp only [Res.bind]
      rw [if_pos (by simp [current_token, h2, tk])]
      simp only [hq, ne_eq, not_true_eq_false, if_false, reduceCtorEq, not_false_eq_true,
        if_true]
      exact h3

theorem parse_parameters_wf (params : List (String × token_type)) (fuel : Nat)
    (fd : func_data_t) (s : PState) (rest : List token_t)
    (hty : ∀ p ∈ params, is_type_word p.2 = true) (hfuel : params.length ≤ fuel)
    (htok : s.tokens = param_list_tokens params ++ tk TOKEN_CLOSING_PARENTHESES :: rest)
    (hfc : s.first_control = true) :
    ∃ fd1 s1, parse_parameters fuel fd s = Res.ok (fd1, s1) ∧
      s1.tokens = tk TOKEN_CLOSING_PARENTHESES :: rest ∧
      (fd1.paramCount = 0 ↔ params = []) := by
  unfold parse_parameters
  cases params with
  | nil =>
    have htok1 : s.tokens = tk TOKEN_CLOSING_PARENTHESES :: rest := by
      simpa [param_list_tokens] using htok
    refine ⟨{ fd with paramCount := 0, params := [] }, s, ?_, htok1, ?_⟩
    · dsimp only
      rw [if_pos (by simp [current_token, htok1, tk]), if_pos hfc]
    · simp
  | cons p ps =>
    obtain ⟨fd1, s1, h1, h2⟩ := parse_parameters_loop_wf (p :: ps) fuel
      (if s.first_control = true then { fd with paramCount := 0, params := [] } else fd)
      s rest (by simp) hty hfuel htok hfc
    refine ⟨fd1, s1, ?_, h2, ?_⟩
    · rw [if_neg]
      · exact h1
      · cases ps <;> simp [current_token, htok, param_list_tokens, tk_id]
    · have := (parse_parameters_loop_pass1 fuel _ fd1 s s1 hfc h1).2.2
      simp only [reduceCtorEq, iff_false]
      omega

theorem parse_return_type_wf (fd : func_data_t) (s : PState) (ret : token_type)
    (rest : List token_t) (hret : ret = KW_VOID ∨ is_type_word ret = true)
    (htok : s.tokens = tk ret :: rest) :
    ∃ fd1 s1, parse_return_type fd s = Res.ok (fd1, s1) ∧ s1.tokens = rest ∧
      (fd1.returnType = void_type ↔ ret = KW_VOID) := by
  unfold parse_return_type
  simp only [is_type_word, List.mem_cons, List.mem_singleton, decide_eq_true_eq,
    List.not_mem_nil, or_false] at hret
  rcases hret with rfl | rfl | rfl | rfl | rfl | rfl | rfl <;>
    simp [current_token, fetch_next_token, htok, tk, parse_type, type_of_token] <;>
    exact ⟨_, _, ⟨rfl, rfl⟩, rfl, by simp⟩

theorem skip_to_pub_tokens (s : PState) (skipped rest : List token_t)
    (htok : s.tokens = skipped ++ rest)
    (hsk : ∀ t ∈ skipped, t.type ≠ KW_PUB ∧ t.type ≠ TOKEN_EOF)
    (hrest : rest.dropWhile (fun t => t.type ≠ KW_PUB ∧ t.type ≠ TOKEN_EOF) = rest) :
    (skip_to_pub s).tokens = rest := by
  unfold skip_to_pub
  dsimp only
  rw [htok]
  clear htok
  induction skipped with
  | nil => simpa using hrest
  | cons a l ih =>
    rw [List.cons_append, List.dropWhile_cons_of_pos]
    · exact ih (fun t ht => hsk t (by simp [ht]))
    · simpa using hsk a (by simp)

theorem parse_function_header_key (name : String) (params : List (String × token_type))
    (ret : token_type) (fuel : Nat) (s : PState) (cont : List token_t)
    (hty : ∀ p ∈ params, is_type_word p.2 = true)
    (hret : ret = KW_VOID ∨ is_type_word ret = true) (hfuel : params.length ≤ fuel)
    (htok : s.tokens = tk_id name :: tk TOKEN_OPENING_PARENTHESES ::
      (param_list_tokens params ++ tk TOKEN_CLOSING_PARENTHESES :: tk ret :: cont))
    (hfc : s.first_control = true) (hfresh : symtable_find s.symbol_table name = none) :
    ∃ s5 : PState, s5.tokens = cont ∧
      parse_function_header fuel s =
        if name = "main" ∧ (params ≠ [] ∨ ret ≠ KW_VOID) then Res.exit 4
        else if (current_token s5).type ≠ TOKEN_OPENING_BRACKET then Res.exit 2
        else Res.ok (skip_to_pub s5) := by
  have hcur : current_token s = tk_id name := by simp [current_token, htok]
  obtain ⟨fd1, s2, hpp, hs2, hcnt⟩ := parse_parameters_wf params fuel
    ({ name := name, isDefined := true, paramCount := 0, params := [],
       returnType := void_type } : func_data_t)
    (fetch_next_token (fetch_next_token { s with symbol_table :=
      (symtable_insert_function s.symbol_table name
        ({ name := name, isDefined := true, paramCount := 0, params := [],
           returnType := void_type } : func_data_t) s.symbol_table.scope_level) }))
    (tk ret :: cont)
    hty hfuel (by simp [fetch_next_token, htok]) hfc
  obtain ⟨fd2, s4, hrt, hs4, hvoid⟩ := parse_return_type_wf fd1
    (fetch_next_token { s2 with
      symbol_table := symtable_set_func_data s2.symbol_table name fd1 })
    ret cont hret (by simp [fetch_next_token, hs2])
  have hpos : fd1.paramCount > 0 ↔ params ≠ [] := by
    constructor
    · intro h he
      have := hcnt.mpr he
      omega
    · intro h
      have : ¬ fd1.paramCount = 0 := fun he => h (hcnt.mp he)
      omega
  refine ⟨{ s4 with symbol_table := symtable_set_func_data s4.symbol_table name fd2 }, hs4, ?_⟩
  unfold parse_function_header
  rw [hcur]
  simp only [tk_id, token_t.attr_s, ne_eq, not_true_eq_false, if_false]
  rw [hfresh]
  simp only [Option.isSome_none, Bool.false_eq_true, if_false]
  rw [if_neg (by simp [current_token, fetch_next_token, htok, tk])]
  rw [hpp]
  dsimp only
  rw [if_neg (by simp [current_token, hs2, tk])]
  by_cases h1 : name = "main" ∧ fd1.paramCount > 0
  · rw [if_pos (by simpa using h1), if_pos ⟨h1.1, Or.inl (hpos.mp h1.2)⟩]
    rfl
  · rw [if_neg (by simpa using h1)]
    rw [hrt]
    dsimp only
    by_cases h2 : name = "main" ∧ fd2.returnType ≠ void_type
    · rw [if_pos (by simpa using h2), if_pos ⟨h2.1, Or.inr (fun hv => h2.2 (hvoid.mpr hv))⟩]
      rfl
    · rw [if_neg (by simpa using h2)]
      have hnot : ¬ (name = "main" ∧ (params ≠ [] ∨ ret ≠ KW_VOID)) := by
        rintro ⟨hm, hx | hx⟩
        · exact h1 ⟨hm, hpos.mpr hx⟩
        · exact h2 ⟨hm, fun hv => hx (hvoid.mp hv)⟩
      rw [if_neg hnot]
      rfl

theorem parse_function_header_wf (d : fn_decl) (fuel : Nat) (s : PState)
    (rest : List token_t) (hwf : d.well_formed) (hfuel : d.params.length ≤ fuel)
    (htok : s.tokens = tk_id d.name :: tk TOKEN_OPENING_PARENTHESES ::
      (param_list_tokens d.params ++ tk TOKEN_CLOSING_PARENTHESES :: tk d.ret ::
        ([tk TOKEN_OPENING_BRACKET] ++ d.body ++ [tk TOKEN_CLOSING_BRACKET] ++ rest)))
    (hfc : s.first_control = true) (hfresh : symtable_find s.symbol_table d.name = none)
    (hmain : d.name ≠ "main")
    (hrest : rest.dropWhile (fun t => t.type ≠ KW_PUB ∧ t.type ≠ TOKEN_EOF) = rest) :
    ∃ s1, parse_function_header fuel s = Res.ok s1 ∧ s1.tokens = rest := by
  obtain ⟨hty, hret, hbody⟩ := hwf
  obtain ⟨s5, hs5, key⟩ := parse_function_header_key d.name d.params d.ret fuel s _
    hty hret hfuel htok hfc hfresh
  rw [key, if_neg (fun h => hmain h.1), if_neg (by simp [current_token, hs5, tk])]
  refine ⟨_, rfl, ?_⟩
  apply skip_to_pub_tokens _ ([tk TOKEN_OPENING_BRACKET] ++ d.body ++ [tk TOKEN_CLOSING_BRACKET])
    rest
  · simp [hs5]
  · intro t ht
    simp only [List.mem_append, List.mem_singleton] at ht
    rcases ht with (ht | ht) | ht
    · rw [ht]; simp [tk]
    · exact hbody t ht
    · rw [ht]; simp [tk]
  · exact hrest

theorem functions_tokens_head (d : fn_decl) (decls : List fn_decl) (tail : List token_t) :
    ∃ rest, functions_tokens (d :: decls) ++ tail = tk KW_PUB :: rest := by
  simp [functions_tokens, fn_decl.tokens, fn_tokens]

theorem skip_stable_of_pub (tail : List token_t)
    (h : tail = [] ∨ ∃ t rest, tail = t :: rest ∧ t.type = KW_PUB) :
    tail.dropWhile (fun t => t.type ≠ KW_PUB ∧ t.type ≠ TOKEN_EOF) = tail := by
  rcases h with rfl | ⟨t, rest, rfl, ht⟩
  · rfl
  · rw [List.dropWhile_cons_of_neg]
    simp [ht]

theorem parse_program_pass1_functions (decls : List fn_decl) :
    ∀ (fuel : Nat) (hasMain : Bool) (s : PState) (tail : List token_t),
      (∀ d ∈ decls, d.well_formed ∧ d.name ≠ "main" ∧ d.params.length ≤ fuel ∧
        symtable_find s.symbol_table d.name = none) →
      (decls.map fn_decl.name).Nodup →
      s.tokens = functions_tokens decls ++ tail →
      (tail = [] ∨ ∃ t rest, tail = t :: rest ∧ t.type = KW_PUB) →
      s.first_control = true →
      ∃ s1, s1.tokens = tail ∧ s1.first_control = true ∧
        (∀ k, k ∉ decls.map fn_decl.name →
          symtable_find s1.symbol_table k = symtable_find s.symbol_table k) ∧
        (decls ≠ [] ∧ tail = [] →
          parse_program_pass1 (fuel + decls.length) hasMain s = Res.ok (hasMain, s1)) ∧
        (¬ (decls ≠ [] ∧ tail = []) →
          parse_program_pass1 (fuel + decls.length) hasMain s =
            parse_program_pass1 fuel hasMain s1) := by
  induction decls with
  | nil =>
    intro fuel hasMain s tail _ _ htok _ hfc
    have htok1 : s.tokens = tail := by simpa [functions_tokens] using htok
    exact ⟨s, htok1, hfc, fun _ _ => rfl, fun h => absurd rfl h.1, fun _ => rfl⟩
  | cons d ds ih =>
    intro fuel hasMain s tail hall hnd htok htail hfc
    obtain ⟨hwf, hmain, hlen, hfresh⟩ := hall d (by simp)
    have hstable : (functions_tokens ds ++ tail).dropWhile
        (fun t => t.type ≠ KW_PUB ∧ t.type ≠ TOKEN_EOF) = functions_tokens ds ++ tail := by
      apply skip_stable_of_pub
      cases ds with
      | nil => simpa [functions_tokens] using htail
      | cons d1 ds1 =>
        right
        obtain ⟨rest, hr⟩ := functions_tokens_head d1 ds1 tail
        exact ⟨_, rest, hr, rfl⟩
    have htok2 : (fetch_next_token (fetch_next_token s)).tokens =
        tk_id d.name :: tk TOKEN_OPENING_PARENTHESES ::
          (param_list_tokens d.params ++ tk TOKEN_CLOSING_PARENTHESES :: tk d.ret ::
            ([tk TOKEN_OPENING_BRACKET] ++ d.body ++ [tk TOKEN_CLOSING_BRACKET] ++
              (functions_tokens ds ++ tail))) := by
      simp [fetch_next_token, htok, functions_tokens, fn_decl.tokens, fn_tokens]
    obtain ⟨s3, hh, hs3⟩ := parse_function_header_wf d (fuel + ds.length)
      (fetch_next_token (fetch_next_token s)) (functions_tokens ds ++ tail) hwf (by omega)
      htok2 hfc hfresh hmain hstable
    obtain ⟨hfc3, name1, hn1, -, hother⟩ :=
      parse_function_header_pass1 (fuel + ds.length) _ s3 (by exact hfc) hh
    have hname : name1 = d.name := by
      have : (current_token (fetch_next_token (fetch_next_token s))).attr_s = some d.name := by
        simp [current_token, htok2, tk_id, token_t.attr_s]
      rw [this] at hn1
      exact (Option.some.inj hn1).symm
    subst hname
    have hother' : ∀ k, k ≠ d.name →
        symtable_find s3.symbol_table k = symtable_find s.symbol_table k := hother
    have hnd' : d.name ∉ ds.map fn_decl.name ∧ (ds.map fn_decl.name).Nodup :=
      List.nodup_cons.mp hnd
    obtain ⟨s1, h1, h2, h3, h4, h5⟩ := ih fuel hasMain s3 tail
      (fun e he => by
        obtain ⟨a, b, c, f⟩ := hall e (by simp [he])
        refine ⟨a, b, c, ?_⟩
        rw [hother' e.name (fun hc => hnd'.1 (hc ▸ List.mem_map_of_mem _ he))]
        exact f)
      hnd'.2 hs3 htail hfc3
    have hstep : parse_program_pass1 (fuel + (d :: ds).length) hasMain s =
        if (current_token s3).type = TOKEN_EOF then Res.ok (hasMain, s3)
        else parse_program_pass1 (fuel + ds.length) hasMain s3 := by
      show parse_program_pass1 (fuel + ds.length + 1) hasMain s = _
      conv_lhs => unfold parse_program_pass1
      rw [if_pos (by simp [current_token, htok, functions_tokens, fn_decl.tokens, fn_tokens, tk])]
      dsimp only
      rw [if_neg (by simp [current_token, fetch_next_token, htok, functions_tokens,
        fn_decl.tokens, fn_tokens, tk])]
      have hattr : (current_token (fetch_next_token (fetch_next_token s))).attr =
          token_attribute.s d.name := by
        simp [current_token, htok2, tk_id]
      rw [hattr]
      dsimp only
      rw [hh]
      simp only [Res.bind, if_neg hmain]
    cases ds with
    | nil =>
      simp only [functions_tokens, List.nil_append] at hs3
      rcases htail with rfl | ⟨t, rest, rfl, ht⟩
      · refine ⟨s3, hs3, hfc3, ?_, ?_, ?_⟩
        · intro k hk
          exact hother' k (by simpa using hk)
        · intro _
          rw [hstep, if_pos (by simp [current_token, hs3])]
        · intro hc
          exact absurd ⟨by simp, rfl⟩ hc
      · refine ⟨s3, hs3, hfc3, ?_, ?_, ?_⟩
        · intro k hk
          exact hother' k (by simpa using hk)
        · rintro ⟨-, hc⟩
          cases hc
        · intro _
          rw [hstep, if_neg (by simp [current_token, hs3, ht])]
          rfl
    | cons d1 ds1 =>
      have hne : ¬ (current_token s3).type = TOKEN_EOF := by
        obtain ⟨rest, hr⟩ := functions_tokens_head d1 ds1 tail
        simp [current_token, hs3, hr, tk]
      refine ⟨s1, h1, h2, ?_, ?_, ?_⟩
      · intro k hk
        simp only [List.map_cons, List.mem_cons, not_or] at hk
        rw [h3 k (by simpa using hk.2), hother' k hk.1]
      · rintro ⟨-, ht⟩
        rw [hstep, if_neg hne]
        exact h4 ⟨by simp, ht⟩
      · intro hc
        rw [hstep, if_neg hne]
        exact h5 (fun h => hc ⟨by simp, h.2⟩)

theorem parse_prologue_tokens (s : PState) (rest : List token_t)
    (htok : s.tokens = prologue_tokens ++ rest) :
    ∃ s1, parse_prologue s = Res.ok s1 ∧ s1.tokens = rest ∧
      s1.symbol_table = s.symbol_table ∧ s1.first_control = s.first_control := by
  unfold parse_prologue
  simp [current_token, fetch_next_token, htok, prologue_tokens, tk, tk_id, tk_string,
    token_t.attr_s]

theorem pass1_start (source rest : List token_t) (h : source = prologue_tokens ++ rest) :
    ∃ s1, parse_prologue (generator_init (parser_init source)) = Res.ok s1 ∧
      s1.tokens = rest ∧ s1.symbol_table = symtable_create TABLE_SIZE ∧
      s1.first_control = true := by
  obtain ⟨s1, h1, h2, h3, h4⟩ := parse_prologue_tokens (generator_init (parser_init source))
    rest (by rw [h]; rfl)
  exact ⟨s1, h1, h2, h3, h4⟩

theorem no_main_exit (pe : PState → Res PState (data_type × PState)) (decls : List fn_decl)
    (fuel : Nat) (hne : decls ≠ []) (hok : functions_ok decls)
    (hmain : ∀ d ∈ decls, d.name ≠ "main")
    (hfuel : ∀ d ∈ decls, decls.length + d.params.length ≤ fuel) :
    parse_program pe fuel (program_of decls) (parser_init (program_of decls)) = Res.exit 3 := by
  obtain ⟨s1, h1, h2, h3, h4⟩ := pass1_start (program_of decls) (functions_tokens decls) rfl
  obtain ⟨d0, hd0⟩ := List.exists_mem_of_ne_nil decls hne
  obtain ⟨k, rfl⟩ : ∃ k, fuel = k + decls.length :=
    ⟨fuel - decls.length, by have := hfuel d0 hd0; omega⟩
  obtain ⟨s2, -, -, -, h5, -⟩ := parse_program_pass1_functions decls k false s1 []
    (fun d hd => ⟨(hok.1 d hd).1, hmain d hd, by have := hfuel d hd; omega,
      by rw [h3]; exact (hok.1 d hd).2⟩)
    hok.2 (by simpa using h2) (Or.inl rfl) h4
  have hpub : (current_token s1).type = KW_PUB := by
    cases decls with
    | nil => exact absurd rfl hne
    | cons d ds =>
      obtain ⟨rest, hr⟩ := functions_tokens_head d ds []
      simp only [List.append_nil] at hr
      simp [current_token, h2, hr, tk]
  unfold parse_program parse_program_first
  rw [h1]
  simp only [Res.bind]
  rw [if_neg (by simp [hpub]), h5 ⟨hne, rfl⟩]
  rfl

theorem main_signature_exit (pe : PState → Res PState (data_type × PState))
    (decls : List fn_decl) (params : List (String × token_type)) (ret : token_type)
    (cont : List token_t) (fuel : Nat) (hok : functions_ok decls)
    (hmain : ∀ d ∈ decls, d.name ≠ "main")
    (hty : ∀ p ∈ params, is_type_word p.2 = true)
    (hret : ret = KW_VOID ∨ is_type_word ret = true)
    (hbad : params ≠ [] ∨ ret ≠ KW_VOID)
    (hfuel : ∀ d ∈ decls, decls.length + d.params.length < fuel)
    (hfuel1 : decls.length + params.length < fuel) :
    parse_program pe fuel (program_of decls ++ main_header_tokens params ret ++ cont)
      (parser_init (program_of decls ++ main_header_tokens params ret ++ cont)) =
      Res.exit 4 := by
  obtain ⟨s1, h1, h2, h3, h4⟩ := pass1_start
    (program_of decls ++ main_header_tokens params ret ++ cont)
    (functions_tokens decls ++ (main_header_tokens params ret ++ cont))
    (by simp [program_of])
  obtain ⟨k, rfl⟩ : ∃ k, fuel = k + 1 + decls.length :=
    ⟨fuel - 1 - decls.length, by omega⟩
  obtain ⟨s2, hs2, hfc2, hfind, -, h5⟩ := parse_program_pass1_functions decls (k + 1) false s1
    (main_header_tokens params ret ++ cont)
    (fun d hd => ⟨(hok.1 d hd).1, hmain d hd, by have := hfuel d hd; omega,
      by rw [h3]; exact (hok.1 d hd).2⟩)
    hok.2 h2 (Or.inr ⟨_, _, rfl, rfl⟩) h4
  have hfresh : symtable_find s2.symbol_table "main" = none := by
    rw [hfind "main" (fun hc => by
      obtain ⟨d, hd, hn⟩ := List.mem_map.mp hc
      exact hmain d hd hn), h3]
    decide
  have htok2 : (fetch_next_token (fetch_next_token s2)).tokens =
      tk_id "main" :: tk TOKEN_OPENING_PARENTHESES ::
        (param_list_tokens params ++ tk TOKEN_CLOSING_PARENTHESES :: tk ret :: cont) := by
    simp [fetch_next_token, hs2, main_header_tokens]
  obtain ⟨s5, -, key⟩ := parse_function_header_key "main" params ret k
    (fetch_next_token (fetch_next_token s2)) cont hty hret (by omega) htok2 hfc2 hfresh
  rw [if_pos ⟨rfl, hbad⟩] at key
  have hstep : parse_program_pass1 (k + 1) false s2 = Res.exit 4 := by
    conv_lhs => unfold parse_program_pass1
    rw [if_pos (by simp [current_token, hs2, main_header_tokens, tk])]
    dsimp only
    rw [if_neg (by simp [current_token, fetch_next_token, hs2, main_header_tokens, tk])]
    have hattr : (current_token (fetch_next_token (fetch_next_token s2))).attr =
        token_attribute.s "main" := by
      simp [current_token, htok2, tk_id]
    rw [hattr]
    dsimp only
    rw [key]
    rfl
  have hpub : (current_token s1).type = KW_PUB := by
    cases decls with
    | nil => simp [current_token, h2, functions_tokens, main_header_tokens, tk]
    | cons d ds =>
      obtain ⟨rest, hr⟩ := functions_tokens_head d ds (main_header_tokens params ret ++ cont)
      simp [current_token, h2, hr, tk]
  unfold parse_program parse_program_first
  rw [h1]
  simp only [Res.bind]
  rw [if_neg (by simp [hpub]),
    h5 (fun h => by simp [main_header_tokens] at h), hstep]

theorem exit_code_of_exit (source : List token_t) (c : Nat)
    (h : parse_program (parse_expr_rec 3 (4 * source.length + 4)) (4 * source.length + 4) source
      (parser_init source) = Res.exit c) : exit_code source = some c := by
  unfold exit_code compile
  rw [h]
  rfl

theorem param_list_tokens_length (params : List (String × token_type)) :
    params.length ≤ (param_list_tokens params).length := by
  induction params with
  | nil => simp
  | cons p ps ih =>
    cases ps with
    | nil => simp [param_list_tokens]
    | cons q qs =>
      simp only [param_list_tokens, List.length_append, List.length_cons, List.length_nil]
        at ih ⊢
      omega

theorem functions_tokens_length (decls : List fn_decl) :
    decls.length ≤ (functions_tokens decls).length ∧
    ∀ d ∈ decls, decls.length + d.params.length ≤ (functions_tokens decls).length := by
  induction decls with
  | nil => simp [functions_tokens]
  | cons e es ih =>
    have he := param_list_tokens_length e.params
    have hlen : (functions_tokens (e :: es)).length =
        8 + (param_list_tokens e.params).length + e.body.length +
          (functions_tokens es).length := by
      simp [functions_tokens, fn_decl.tokens, fn_tokens]
      omega
    refine ⟨?_, ?_⟩
    · rw [hlen]
      simp only [List.length_cons]
      omega
    · intro d hd
      rw [hlen]
      simp only [List.length_cons]
      rcases List.mem_cons.mp hd with h | h
      · rw [h]
        omega
      · have := ih.2 d h
        omega

set_option maxRecDepth 1000000 in
/-- C15 as stated fails: an error that pass 1 meets earlier comes first. The program with
the functions `f` and `f` has no `main` and ends with exit code 5, not 3; the program that
is the prologue alone has no function at all and ends with 2; and with `f`, `f` and a
`main(p: i32)` the exit code is 5, not 4. -/
theorem C15_earlier_error_comes_first :
    exit_code (prologue_tokens ++ fn_tokens "f" [] KW_VOID [] ++ fn_tokens "f" [] KW_VOID []) =
      some 5 ∧
    exit_code prologue_tokens = some 2 ∧
    exit_code (prologue_tokens ++ fn_tokens "f" [] KW_VOID [] ++ fn_tokens "f" [] KW_VOID [] ++
      fn_tokens "main" [tk_id "p", tk TOKEN_TWODOT, tk KW_INT_TYPE] KW_VOID
        [tk TOKEN_UNDERSCORE, tk TOKEN_ASSIGN, tk_id "p", tk TOKEN_SEMICOLON]) = some 5 := by
  refine ⟨by rfl, by rfl, by rfl⟩

set_option maxRecDepth 1000000 in
/-- C15 amended: when pass 1 of `parse_program` succeeds, the symbol table holds a function
entry `main` with zero parameters and return type `void`. A program made of the prologue
and one or more well-formed functions with different names, none of them a built-in name
and none `main`, ends with exit code 3. A program in which such functions (or none) are
followed by the header of a `main` that has a parameter, or a return type other than
`void`, ends with exit code 4, whatever follows the header. So a program whose only
function is `f`, and one with `f` and `g`, exit with 3; a `main` with one parameter and a
`main` with return type `i32` exit with 4; with `f` and a proper `main` the program
compiles. -/
theorem C15_main_required (fuel : Nat) (source : List token_t) (s1 : PState)
    (h : parse_program_first fuel (parser_init source) = Res.ok s1) :
    (∃ func_data : func_data_t,
      symtable_find s1.symbol_table "main" =
        some { type := symbol_type.fn_t, funcData := some func_data, varData := none } ∧
      func_data.paramCount = 0 ∧ func_data.returnType = void_type) ∧
    (∀ decls : List fn_decl, decls ≠ [] → functions_ok decls →
      (∀ d ∈ decls, d.name ≠ "main") → exit_code (program_of decls) = some 3) ∧
    (∀ (decls : List fn_decl) (params : List (String × token_type)) (ret : token_type)
        (cont : List token_t), functions_ok decls → (∀ d ∈ decls, d.name ≠ "main") →
      (∀ p ∈ params, is_type_word p.2 = true) → (ret = KW_VOID ∨ is_type_word ret = true) →
      (params ≠ [] ∨ ret ≠ KW_VOID) →
      exit_code (program_of decls ++ main_header_tokens params ret ++ cont) = some 4) ∧
    exit_code (prologue_tokens ++ fn_tokens "f" [] KW_VOID []) = some 3 ∧
    exit_code (prologue_tokens ++ fn_tokens "f" [] KW_VOID [] ++ fn_tokens "g" [] KW_VOID []) =
      some 3 ∧
    exit_code (prologue_tokens ++
      fn_tokens "main" [tk_id "p", tk TOKEN_TWODOT, tk KW_INT_TYPE] KW_VOID
        [tk TOKEN_UNDERSCORE, tk TOKEN_ASSIGN, tk_id "p", tk TOKEN_SEMICOLON]) = some 4 ∧
    exit_code (prologue_tokens ++
      fn_tokens "main" [] KW_INT_TYPE [tk KW_RETURN, tk_int 1, tk TOKEN_SEMICOLON]) = some 4 ∧
    exit_code (prologue_tokens ++ fn_tokens "f" [] KW_VOID [] ++ fn_tokens "main" [] KW_VOID []) =
      some 0 := by
  refine ⟨?_, ?_, ?_, by rfl, by rfl, by rfl, by rfl, by rfl⟩
  · unfold parse_program_first at h
    cases hp : parse_prologue (generator_init (parser_init source)) with
    | ok s0 =>
      have hfc0 : s0.first_control = true :=
        (parse_prologue_first_control _ _ hp).trans rfl
      rw [hp] at h
      simp only [Res.bind] at h
      split_ifs at h
      cases h1 : parse_program_pass1 fuel false s0 with
      | ok r =>
        obtain ⟨hasMain, s2⟩ := r
        rw [h1] at h
        dsimp only at h
        split_ifs at h with hm
        injection h with h
        subst h
        exact parse_program_pass1_main fuel false hasMain s0 s2 hfc0 (fun e => by cases e) h1
          (by simpa using hm)
      | fail e => rw [h1] at h; cases h
      | exit c => rw [h1] at h; cases h
      | crash => rw [h1] at h; cases h
      | timeout => rw [h1] at h; cases h
    | fail e => rw [hp] at h; cases h
    | exit c => rw [hp] at h; cases h
    | crash => rw [hp] at h; cases h
    | timeout => rw [hp] at h; cases h
  · intro decls hne hok hmain
    apply exit_code_of_exit
    apply no_main_exit _ decls _ hne hok hmain
    intro d hd
    have := (functions_tokens_length decls).2 d hd
    simp only [program_of, List.length_append]
    omega
  · intro decls params ret cont hok hmain hty hret hbad
    apply exit_code_of_exit
    have hl := functions_tokens_length decls
    have hp := param_list_tokens_length params
    apply main_signature_exit _ decls params ret cont _ hok hmain hty hret hbad
    · intro d hd
      have := hl.2 d hd
      simp only [program_of, List.length_append]
      omega
    · simp only [program_of, main_header_tokens, List.length_append, List.length_cons,
        List.length_nil]
      omega

set_option maxRecDepth 1000000 in
/-- Witness of C15: pass 1 on the prologue followed by an empty `main`. -/
theorem C15_main_required_witness :
    ∃ func_data : func_data_t,
      symtable_find pass1_state_of_empty_main.symbol_table "main" =
        some { type := symbol_type.fn_t, funcData := some func_data, varData := none } ∧
      func_data.paramCount = 0 ∧ func_data.returnType = void_type :=
  (C15_main_required 10 (main_program []) pass1_state_of_empty_main (by rfl)).1

/-! ## Argument order at a call (parser.c, generator.c) -/

set_option maxRecDepth 1000000 in
/-- C11 fails: the arguments of a call are pushed from left to right, so the value on top
of the operand stack at `CALL` is the last argument and the first `POPS` of the callee
receives it. For `f(1, 2.5)` with `f(x: i32, y: f64)` the parameter `x` receives `2.5` and
`y` receives `1`; for `ifj.concat("a", "b")` the built-in pops `"b"` into `param1`; for
`ifj.ord("abc", 1)` it pops `1` into `param1`, the variable its own `TYPE` test expects to
hold the string. -/
theorem C11_last_argument_on_top :
    exit_code call_f_program = some 0 ∧
    (code_from "$main" (user_code call_f_program)).take 6 =
      [Instr.line "LABEL" ["$main"], Instr.line "CREATEFRAME" [], Instr.line "PUSHFRAME" [],
       Instr.PUSHS_int 1, Instr.PUSHS_float "2.5", Instr.CALL "$f"] ∧
    (code_from "$f" (user_code call_f_program)).take 7 =
      [Instr.line "LABEL" ["$f"], Instr.line "CREATEFRAME" [], Instr.line "PUSHFRAME" [],
       Instr.line "DEFVAR" ["LF@x"], Instr.line "POPS" ["LF@x"],
       Instr.line "DEFVAR" ["LF@y"], Instr.line "POPS" ["LF@y"]] ∧
    run_call ((code_from "$main" (user_code call_f_program)).take 6) call_start =
      some { stack := [Value.float "2.5", Value.int 1], frame := [] } ∧
    run_call ((code_from "$main" (user_code call_f_program)).take 6 ++
        (code_from "$f" (user_code call_f_program)).take 7) call_start =
      some { stack := [],
             frame := [("LF@x", some (Value.float "2.5")), ("LF@y", some (Value.int 1))] } ∧
    exit_code call_concat_program = some 0 ∧
    ((code_from "$main" (user_code call_concat_program)).drop 4).take 3 =
      [Instr.PUSHS_string "a", Instr.PUSHS_string "b", Instr.CALL "$ifj_concat"] ∧
    run_call (((code_from "$main" (user_code call_concat_program)).drop 4).take 3 ++
        (code_from "$ifj_concat" gen_header).take 7) call_start =
      some { stack := [],
             frame := [("LF@param1", some (Value.string "b")),
                       ("LF@param2", some (Value.string "a"))] } ∧
    exit_code call_ord_program = some 0 ∧
    ((code_from "$main" (user_code call_ord_program)).drop 4).take 3 =
      [Instr.PUSHS_string "abc", Instr.PUSHS_int 1, Instr.CALL "$ifj_ord"] ∧
    (code_from "$ifj_ord" gen_header).take 12 =
      [Instr.line "LABEL" ["$ifj_ord"], Instr.line "CREATEFRAME" [], Instr.line "PUSHFRAME" [],
       Instr.line "DEFVAR" ["LF@param1"], Instr.line "DEFVAR" ["LF@param2"],
       Instr.line "DEFVAR" ["LF@length"], Instr.line "DEFVAR" ["LF@char"],
       Instr.line "DEFVAR" ["LF@result"], Instr.line "DEFVAR" ["LF@type_check"],
       Instr.line "POPS" ["LF@param1"], Instr.line "POPS" ["LF@param2"],
       Instr.line "TYPE" ["LF@type_check", "LF@param1"]] ∧
    run_call (((code_from "$main" (user_code call_ord_program)).drop 4).take 3 ++
        (code_from "$ifj_ord" gen_header).take 11) call_start =
      some { stack := [],
             frame := [("LF@param1", some (Value.int 1)),
                       ("LF@param2", some (Value.string "abc")), ("LF@length", none),
                       ("LF@char", none), ("LF@result", none), ("LF@type_check", none)] } := by
  refine ⟨by rfl, by rfl, by rfl, by rfl, by rfl, by rfl, by rfl, by rfl, by rfl, by rfl,
    by rfl, by rfl⟩

/-! ## Scanner (scanner.c) -/

theorem loop_cons (fuel : Nat) (state : fsm_state_t) (lexeme : List Int) (c : Int)
    (rest : List Int) :
    get_next_token_loop (fuel + 1) state lexeme (c :: rest) =
      match fsm_step state c lexeme rest with
      | fsm_step_t.next state1 lexeme1 => get_next_token_loop fuel state1 lexeme1 rest
      | fsm_step_t.done r => r := rfl

theorem loop_nil (fuel : Nat) (state : fsm_state_t) (lexeme : List Int) :
    get_next_token_loop (fuel + 1) state lexeme [] =
      match fsm_step state EOF lexeme [] with
      | fsm_step_t.next state1 lexeme1 => get_next_token_loop fuel state1 lexeme1 []
      | fsm_step_t.done r => r := rfl

theorem comment_never_ends (fuel : Nat) :
    ∀ (lexeme body : List Int), (∀ c ∈ body, c ≠ 10) →
      get_next_token_loop fuel STATE_COMMENT lexeme body = Res.timeout := by
  induction fuel with
  | zero => intro _ _ _; rfl
  | succ fuel ih =>
    intro lexeme body h
    cases body with
    | nil =>
      rw [loop_nil]
      have : fsm_step STATE_COMMENT EOF lexeme [] = fsm_step_t.next STATE_COMMENT lexeme := by
        simp [fsm_step, EOF]
      rw [this]
      exact ih lexeme [] (by simp)
    | cons c rest =>
      rw [loop_cons]
      have hc : c ≠ 10 := h c (by simp)
      have : fsm_step STATE_COMMENT c lexeme rest = fsm_step_t.next STATE_COMMENT lexeme := by
        simp [fsm_step, hc]
      rw [this]
      exact ih lexeme rest (fun x hx => h x (by simp [hx]))

theorem blank_skipped (ws : List Int) (h : ∀ c ∈ ws, is_blank c = true) :
    ∀ (fuel : Nat) (tail : List Int),
      get_next_token_loop (fuel + ws.length) STATE_START [] (ws ++ tail) =
        get_next_token_loop fuel STATE_START [] tail := by
  induction ws with
  | nil => intro fuel tail; rfl
  | cons c ws ih =>
    intro fuel tail
    have hc : is_blank c = true := h c (by simp)
    have hstep : ∀ rest, fsm_step STATE_START c [] rest = fsm_step_t.next STATE_START [] := by
      intro rest
      simp only [is_blank, Bool.or_eq_true, beq_iff_eq] at hc
      rcases hc with (hc | hc) | hc <;> subst hc <;> rfl
    rw [List.length_cons, ← Nat.add_assoc, List.cons_append, loop_cons, hstep]
    exact ih (fun x hx => h x (by simp [hx])) fuel tail

theorem blank_then_comment (ws : List Int) (h : ∀ c ∈ ws, is_blank c = true)
    (body : List Int) (hbody : ∀ c ∈ body, c ≠ 10) :
    ∀ fuel : Nat,
      get_next_token_loop fuel STATE_START [] (ws ++ 47 :: 47 :: body) = Res.timeout := by
  induction ws with
  | nil =>
    intro fuel
    match fuel with
    | 0 => rfl
    | 1 => rfl
    | fuel + 2 =>
      rw [List.nil_append, loop_cons]
      have h1 : fsm_step STATE_START 47 [] (47 :: body) = fsm_step_t.next STATE_DIV [] := rfl
      rw [h1]
      dsimp only
      rw [loop_cons]
      have h2 : fsm_step STATE_DIV 47 [] body = fsm_step_t.next STATE_COMMENT [] := rfl
      rw [h2]
      exact comment_never_ends fuel [] body hbody
  | cons c ws ih =>
    intro fuel
    match fuel with
    | 0 => rfl
    | fuel + 1 =>
      have hc : is_blank c = true := h c (by simp)
      have hstep : ∀ rest, fsm_step STATE_START c [] rest = fsm_step_t.next STATE_START [] := by
        intro rest
        simp only [is_blank, Bool.or_eq_true, beq_iff_eq] at hc
        rcases hc with (hc | hc) | hc <;> subst hc <;> rfl
      rw [List.cons_append, loop_cons, hstep]
      exact ih (fun x hx => h x (by simp [hx])) fuel

/-- C27 fails: on an input that ends in a `//` comment without a final newline the loop of
`get_next_token` never returns, whatever follows the `//` up to the end of the input and
however many blanks come before: the model runs out of fuel for
every amount of fuel. With the closing newline the comment is skipped and the EOF token is
returned, as it is on blanks alone. -/
theorem C27_comment_at_end_never_returns (fuel : Nat) (ws body : List Int) :
    get_next_token fuel
        (ws.filter is_blank ++ 47 :: 47 :: body.filter (fun c => c ≠ 10)) = Res.timeout ∧
    get_next_token 10 (ascii "// c") = Res.timeout ∧
    get_next_token 100 (ascii "  // c") = Res.timeout ∧
    get_next_token 10 (ascii "// c\n") = Res.ok (tk TOKEN_EOF, []) ∧
    get_next_token ((ws.filter is_blank).length + 1 + fuel) (ws.filter is_blank) =
      Res.ok (tk TOKEN_EOF, []) := by
  refine ⟨?_, by rfl, by rfl, by rfl, ?_⟩
  · exact blank_then_comment (ws.filter is_blank) (fun c hc => (List.mem_filter.mp hc).2)
      (body.filter (fun c => c ≠ 10)) (fun c hc => by simpa using (List.mem_filter.mp hc).2) fuel
  · unfold get_next_token
    have := blank_skipped (ws.filter is_blank) (fun c hc => (List.mem_filter.mp hc).2)
      (fuel + 1) []
    rw [List.append_nil] at this
    rw [show (ws.filter is_blank).length + 1 + fuel = fuel + 1 + (ws.filter is_blank).length by
      omega, this]
    rfl

theorem id_kw_loop (w : List Int) (hw : ∀ c ∈ w, is_id_char c = true) :
    ∀ (fuel : Nat) (lexeme tail : List Int),
      get_next_token_loop (fuel + w.length) STATE_ID_KW lexeme (w ++ tail) =
        get_next_token_loop fuel STATE_ID_KW (lexeme ++ w) tail := by
  induction w with
  | nil => intro fuel lexeme tail; simp
  | cons c w ih =>
    intro fuel lexeme tail
    have hc : is_id_char c = true := hw c (by simp)
    have hstep : fsm_step STATE_ID_KW c lexeme (w ++ tail) =
        fsm_step_t.next STATE_ID_KW (lexeme ++ [c]) := by
      simp only [is_id_char, Bool.or_eq_true, beq_iff_eq] at hc
      simp only [fsm_step, case_STATE_ID_KW]
      rw [if_pos (by tauto)]
    rw [List.length_cons, ← Nat.add_assoc, List.cons_append, loop_cons, hstep]
    dsimp only
    rw [ih (fun x hx => hw x (by simp [hx])) fuel (lexeme ++ [c]) tail, List.append_assoc]
    rfl

theorem is_keyword_head (lexeme : List Int) (h : is_keyword lexeme ≠ none) :
    lexeme.head? ≠ some 95 := by
  intro hh
  apply h
  cases lexeme with
  | nil => cases hh
  | cons a l =>
    have ha : a = 95 := by simpa using hh
    subst ha
    have e1 : ascii "f64" = [102, 54, 52] := by rfl
    have e2 : ascii "else" = [101, 108, 115, 101] := by rfl
    have e3 : ascii "fn" = [102, 110] := by rfl
    have e4 : ascii "if" = [105, 102] := by rfl
    have e5 : ascii "i32" = [105, 51, 50] := by rfl
    have e6 : ascii "pub" = [112, 117, 98] := by rfl
    have e7 : ascii "return" = [114, 101, 116, 117, 114, 110] := by rfl
    have e8 : ascii "u8" = [117, 56] := by rfl
    have e9 : ascii "[]u8" = [91, 93, 117, 56] := by rfl
    have e10 : ascii "var" = [118, 97, 114] := by rfl
    have e11 : ascii "while" = [119, 104, 105, 108, 101] := by rfl
    have e12 : ascii "null" = [110, 117, 108, 108] := by rfl
    have e13 : ascii "void" = [118, 111, 105, 100] := by rfl
    have e14 : ascii "const" = [99, 111, 110, 115, 116] := by rfl
    unfold is_keyword
    rw [e1, e2, e3, e4, e5, e6, e7, e8, e9, e10, e11, e12, e13, e14]
    simp

theorem underscore_identifier (c : Int) (w : List Int) (d : Int) (tail : List Int) (fuel : Nat)
    (hc : is_letter c = true ∨ is_digit c = true) (hw : ∀ x ∈ w, is_id_char x = true)
    (hd : is_id_char d = false ∧ d ≠ 32 ∧ d ≠ 9 ∧ d ≠ 46) :
    get_next_token (fuel + w.length + 3) (95 :: c :: w ++ d :: tail) =
      Res.ok (tk_id (lexeme_string (95 :: c :: c :: w)), ungetc d tail) := by
  unfold get_next_token
  rw [show fuel + w.length + 3 = (fuel + w.length + 2) + 1 by omega, List.cons_append, loop_cons]
  have h1 : fsm_step STATE_START 95 [] (c :: w ++ d :: tail) =
      fsm_step_t.next STATE_UNDERSCORE [] := rfl
  rw [h1]
  dsimp only
  rw [show fuel + w.length + 2 = (fuel + w.length + 1) + 1 by omega, List.cons_append, loop_cons]
  have h2 : fsm_step STATE_UNDERSCORE c [] (w ++ d :: tail) =
      fsm_step_t.next STATE_ID_KW [95, c, c] := by
    simp only [fsm_step, case_STATE_ID_KW]
    rw [if_pos (by tauto), if_pos (by tauto)]
    rfl
  rw [h2]
  dsimp only
  rw [show fuel + w.length + 1 = (fuel + 1) + w.length by omega, id_kw_loop w hw, loop_cons]
  have hd1 : ¬ (d = 95 ∨ is_letter d = true ∨ is_digit d = true) := by
    have := hd.1
    simp only [is_id_char, Bool.or_eq_false_iff, beq_eq_false_iff_ne, ne_eq] at this
    rintro (h | h | h)
    · exact this.1.1 h
    · rw [this.1.2] at h; cases h
    · rw [this.2] at h; cases h
  have hkw : is_keyword ([95, c, c] ++ w) = none := by
    by_contra hk
    exact is_keyword_head _ hk rfl
  have h3 : fsm_step STATE_ID_KW d ([95, c, c] ++ w) tail =
      fsm_step_t.done (Res.ok (tk_id (lexeme_string (95 :: c :: c :: w)), ungetc d tail)) := by
    simp only [fsm_step, case_STATE_ID_KW]
    rw [if_neg hd1, if_neg (by tauto), if_neg hd.2.2.2]
    unfold return_id_or_keyword
    rw [hkw]
    rfl
  rw [h3]

set_option maxRecDepth 100000 in
/-- C21 fails for identifiers that begin with `_`: the scanner returns `_aa` for `_a`,
`_ttmp1` for `_tmp1`, and for `__x` the underscore token followed by the identifier `_xx`;
the character after the underscore is stored twice. A lone `_` gives the underscore token
and `abc`, `a_1` give themselves. -/
theorem C21_underscore_identifier_observed :
    get_next_token 10 (ascii "_a;") = Res.ok (tk_id "_aa", ascii ";") ∧
    get_next_token 10 (ascii "_tmp1=") = Res.ok (tk_id "_ttmp1", ascii "=") ∧
    get_next_token 10 (ascii "__x)") = Res.ok (tk TOKEN_UNDERSCORE, ascii "_x)") ∧
    get_next_token 10 (ascii "_x)") = Res.ok (tk_id "_xx", ascii ")") ∧
    get_next_token 10 (ascii "_;") = Res.ok (tk TOKEN_UNDERSCORE, ascii ";") ∧
    get_next_token 10 (ascii "abc;") = Res.ok (tk_id "abc", ascii ";") ∧
    get_next_token 10 (ascii "a_1)") = Res.ok (tk_id "a_1", ascii ")") := by
  refine ⟨by rfl, by rfl, by rfl, by rfl, by rfl, by rfl, by rfl⟩

theorem integer_loop (ds : List Int) (hds : ∀ d ∈ ds, is_digit d = true) :
    ∀ (fuel : Nat) (lexeme tail : List Int), lexeme ≠ [] → lexeme.head? ≠ some 48 →
      get_next_token_loop (fuel + ds.length) STATE_INTEGER lexeme (ds ++ tail) =
        get_next_token_loop fuel STATE_INTEGER (lexeme ++ ds) tail := by
  induction ds with
  | nil => intro fuel lexeme tail _ _; simp
  | cons d ds ih =>
    intro fuel lexeme tail hne hhead
    have hd : is_digit d = true := hds d (by simp)
    have hstep : fsm_step STATE_INTEGER d lexeme (ds ++ tail) =
        fsm_step_t.next STATE_INTEGER (lexeme ++ [d]) := by
      simp only [fsm_step]
      rw [if_pos hd, if_neg hhead]
    rw [List.length_cons, ← Nat.add_assoc, List.cons_append, loop_cons, hstep]
    dsimp only
    have hhead1 : (lexeme ++ [d]).head? ≠ some 48 := by
      cases lexeme with
      | nil => exact absurd rfl hne
      | cons a l => simpa using hhead
    rw [ih (fun x hx => hds x (by simp [hx])) fuel (lexeme ++ [d]) tail (by simp) hhead1,
      List.append_assoc]
    rfl

theorem decimal_value_nonneg (ds : List Int) (hds : ∀ d ∈ ds, is_digit d = true) :
    0 ≤ decimal_value ds := by
  have key : ∀ (l : List Int) (acc : Int), (∀ d ∈ l, is_digit d = true) → 0 ≤ acc →
      0 ≤ l.foldl (fun acc d => acc * 10 + (d - 48)) acc := by
    intro l
    induction l with
    | nil => intro acc _ h; exact h
    | cons d l ih =>
      intro acc hl hacc
      have hd := hl d (by simp)
      simp only [is_digit, Bool.and_eq_true, decide_eq_true_eq] at hd
      apply ih _ (fun x hx => hl x (by simp [hx]))
      show 0 ≤ acc * 10 + (d - 48)
      omega
  exact key ds 0 hds (le_refl _)

/-- C22: a maximal digit sequence `d0 ds`, followed by a character `c` (`EOF` at the end of
the input) that is no digit. If the sequence is `0` or does not start with `0`, and `c` is
no `.`, `e`, `E` or letter, `get_next_token` returns an INT token with the value
`(int)strtol(...)`, which is the decimal value of the sequence when that is below `2 ^ 31`,
and leaves `c` in the input; if `c` is a letter other than `e` and `E` it returns the
lexical error 1. If the sequence starts with `0` and goes on, it returns the lexical
error 1. -/
theorem C22_integer_literal (d0 : Int) (ds tail : List Int) (fuel : Nat)
    (hd0 : is_digit d0 = true) (hds : ∀ d ∈ ds, is_digit d = true)
    (hmax : is_digit (getc tail).1 = false) (hfuel : ds.length + 2 ≤ fuel) :
    ((d0 ≠ 48 ∨ ds = []) → (getc tail).1 ≠ 46 → (getc tail).1 ≠ 101 → (getc tail).1 ≠ 69 →
      is_letter (getc tail).1 = false →
      get_next_token fuel (d0 :: ds ++ tail) =
        Res.ok (tk_int (to_int (strtol10 (d0 :: ds))),
          ungetc (getc tail).1 (getc tail).2)) ∧
    (decimal_value (d0 :: ds) < 2 ^ 31 →
      to_int (strtol10 (d0 :: ds)) = decimal_value (d0 :: ds)) ∧
    ((d0 ≠ 48 ∨ ds = []) → is_letter (getc tail).1 = true → (getc tail).1 ≠ 101 →
      (getc tail).1 ≠ 69 → get_next_token fuel (d0 :: ds ++ tail) = Res.fail 1) ∧
    (d0 = 48 → ds ≠ [] → get_next_token fuel (d0 :: ds ++ tail) = Res.fail 1) := by
  obtain ⟨k, hk⟩ := Nat.exists_eq_add_of_le hfuel
  have hstart : ∀ rest, fsm_step STATE_START d0 [] rest = fsm_step_t.next STATE_INTEGER [d0] := by
    intro rest
    have h34 : d0 ≠ 34 := by
      simp only [is_digit, Bool.and_eq_true, decide_eq_true_eq] at hd0; omega
    simp only [fsm_step, case_STATE_START]
    rw [if_neg h34, if_pos hd0]
    rfl
  -- the state after the whole sequence, when it is well formed
  have hrun : (d0 ≠ 48 ∨ ds = []) →
      get_next_token fuel (d0 :: ds ++ tail) =
        get_next_token_loop (k + 1) STATE_INTEGER (d0 :: ds) tail := by
    intro hwf
    unfold get_next_token
    rw [hk, show ds.length + 2 + k = (k + 1 + ds.length) + 1 by omega, List.cons_append,
      loop_cons, hstart]
    dsimp only
    rcases hwf with hwf | hwf
    · rw [integer_loop ds hds (k + 1) [d0] tail (by simp) (by simpa using hwf)]
      rfl
    · subst hwf
      rfl
  have hfinal : ∀ lexeme : List Int,
      get_next_token_loop (k + 1) STATE_INTEGER lexeme tail =
        match fsm_step STATE_INTEGER (getc tail).1 lexeme (getc tail).2 with
        | fsm_step_t.next state1 lexeme1 => get_next_token_loop k state1 lexeme1 (getc tail).2
        | fsm_step_t.done r => r := fun _ => rfl
  refine ⟨?_, ?_, ?_, ?_⟩
  · intro hwf h46 h101 h69 hlet
    rw [hrun hwf, hfinal]
    simp only [fsm_step]
    rw [if_neg (by rw [hmax]; simp), if_neg h46, if_neg (by tauto)]
    unfold return_number
    rw [if_neg (by rw [hlet]; simp)]
  · intro hlt
    have h0 := decimal_value_nonneg (d0 :: ds)
      (fun d hd => by
        rcases List.mem_cons.mp hd with h | h
        · rw [h]; exact hd0
        · exact hds d h)
    unfold strtol10 to_int
    have : min (decimal_value (d0 :: ds)) (2 ^ 63 - 1) = decimal_value (d0 :: ds) :=
      min_eq_left (by omega)
    show (min (decimal_value (d0 :: ds)) (2 ^ 63 - 1) + 2 ^ 31) % 2 ^ 32 - 2 ^ 31 = _
    rw [this]
    omega
  · intro hwf hlet h101 h69
    rw [hrun hwf, hfinal]
    simp only [fsm_step]
    rw [if_neg (by rw [hmax]; simp)]
    have h46 : (getc tail).1 ≠ 46 := by
      intro h
      rw [h] at hlet
      exact absurd hlet (by decide)
    rw [if_neg h46, if_neg (by tauto)]
    unfold return_number
    rw [if_pos hlet]
    rfl
  · intro h48 hne
    cases ds with
    | nil => exact absurd rfl hne
    | cons d ds1 =>
      have hd : is_digit d = true := hds d (by simp)
      unfold get_next_token
      rw [hk, show (d :: ds1).length + 2 + k = (ds1.length + 1 + k + 1) + 1 by
        simp only [List.length_cons]; omega, List.cons_append, loop_cons, hstart]
      dsimp only
      rw [List.cons_append, loop_cons]
      simp only [fsm_step]
      rw [if_pos hd, if_pos (by rw [h48]; rfl)]
      rfl

set_option maxRecDepth 100000 in
/-- Witness of C22: `2147483647;` gives the INT token with the value 2147483647. -/
theorem C22_integer_literal_witness :
    get_next_token 20 (ascii "2147483647;") =
      Res.ok (tk_int (to_int (strtol10 (ascii "2147483647"))), ascii ";") ∧
    to_int (strtol10 (ascii "2147483647")) = decimal_value (ascii "2147483647") ∧
    decimal_value (ascii "2147483647") = 2147483647 :=
  ⟨(C22_integer_literal 50 (ascii "147483647") (ascii ";") 20 (by decide) (by decide)
      (by decide) (by decide)).1 (by decide) (by decide) (by decide) (by decide) (by decide),
   (C22_integer_literal 50 (ascii "147483647") (ascii ";") 20 (by decide) (by decide)
      (by decide) (by decide)).2.1 (by decide), by decide⟩

theorem whitespace_loop (sp : List Int) (hsp : ∀ c ∈ sp, c = 32 ∨ c = 9) :
    ∀ (fuel : Nat) (lexeme tail : List Int),
      get_next_token_loop (fuel + sp.length) STATE_WHITESPACE lexeme (sp ++ tail) =
        get_next_token_loop fuel STATE_WHITESPACE lexeme tail := by
  induction sp with
  | nil => intro fuel lexeme tail; rfl
  | cons c sp ih =>
    intro fuel lexeme tail
    have hc := hsp c (by simp)
    have hstep : fsm_step STATE_WHITESPACE c lexeme (sp ++ tail) =
        fsm_step_t.next STATE_WHITESPACE lexeme := by
      simp only [fsm_step]
      rw [if_pos hc]
    rw [List.length_cons, ← Nat.add_assoc, List.cons_append, loop_cons, hstep]
    exact ih (fun x hx => hsp x (by simp [hx])) fuel lexeme tail

theorem ifj_func_loop (body : List Int)
    (hbody : ∀ c ∈ body, is_letter c = true ∨ is_digit c = true ∨ is_blank c = true) :
    ∀ (fuel : Nat) (lexeme tail : List Int),
      get_next_token_loop (fuel + body.length) STATE_ID_IFJ_FUNC lexeme (body ++ tail) =
        get_next_token_loop fuel STATE_ID_IFJ_FUNC
          (lexeme ++ body.filter (fun c => !is_blank c)) tail := by
  induction body with
  | nil => intro fuel lexeme tail; simp
  | cons c body ih =>
    intro fuel lexeme tail
    have hc := hbody c (by simp)
    rw [List.length_cons, ← Nat.add_assoc, List.cons_append, loop_cons]
    by_cases hal : is_letter c = true ∨ is_digit c = true
    · have hnb : is_blank c = false := by
        simp only [is_blank, is_letter, is_lower, is_upper, is_digit, Bool.or_eq_true,
          Bool.and_eq_true, decide_eq_true_eq] at hal ⊢
        simp only [Bool.or_eq_false_iff, beq_eq_false_iff_ne, ne_eq]
        omega
      have hstep : fsm_step STATE_ID_IFJ_FUNC c lexeme (body ++ tail) =
          fsm_step_t.next STATE_ID_IFJ_FUNC (lexeme ++ [c]) := by
        simp only [fsm_step]
        rw [if_pos hal]
      rw [hstep]
      dsimp only
      rw [ih (fun x hx => hbody x (by simp [hx])) fuel (lexeme ++ [c]) tail,
        List.filter_cons, hnb, List.append_assoc]
      rfl
    · have hb : is_blank c = true := by tauto
      have hb2 : c = 32 ∨ c = 9 ∨ c = 10 := by
        simp only [is_blank, Bool.or_eq_true, beq_iff_eq] at hb
        tauto
      have hstep : fsm_step STATE_ID_IFJ_FUNC c lexeme (body ++ tail) =
          fsm_step_t.next STATE_ID_IFJ_FUNC lexeme := by
        simp only [fsm_step]
        rw [if_neg hal, if_pos hb2]
      rw [hstep]
      dsimp only
      rw [ih (fun x hx => hbody x (by simp [hx])) fuel lexeme tail, List.filter_cons, hb]
      rfl

set_option maxRecDepth 100000 in
/-- C26 as stated fails: `ifj.wri te(` and `ifj . write(` are not rejected, both give the
identifier `ifj.write`, as does a name broken by a newline. -/
theorem C26_broken_name_accepted :
    get_next_token 20 (ascii "ifj.wri te(") = Res.ok (tk_id "ifj.write", ascii "(") ∧
    get_next_token 20 (ascii "ifj . write(") = Res.ok (tk_id "ifj.write", ascii "(") ∧
    get_next_token 20 (ascii "ifj.\n  write(") = Res.ok (tk_id "ifj.write", ascii "(") := by
  refine ⟨by rfl, by rfl, by rfl⟩

set_option maxRecDepth 100000 in
/-- C26, amended: a letter `c0` and identifier characters `w`, then spaces and tabs `sp`, a
dot, and a run `body` of letters, digits, spaces, tabs and newlines that ends before a
character `c` of another kind (`EOF` at the end of the input). `get_next_token` returns
the identifier whose name is `c0 w . body` without the blanks of `body` when that name is
one of the 13 entries of `builtin_functions`, and the lexical error 1 otherwise; `ifj.foo`,
`a.b` and `foo.write` are rejected, `ifj.write` is accepted. -/
theorem C26_dotted_identifier (c0 : Int) (w sp body tail : List Int) (fuel : Nat)
    (hc0 : is_letter c0 = true) (hw : ∀ c ∈ w, is_id_char c = true)
    (hsp : ∀ c ∈ sp, c = 32 ∨ c = 9)
    (hbody : ∀ c ∈ body, is_letter c = true ∨ is_digit c = true ∨ is_blank c = true)
    (hend : is_letter (getc tail).1 = false ∧ is_digit (getc tail).1 = false ∧
      is_blank (getc tail).1 = false)
    (hfuel : w.length + sp.length + body.length + 3 ≤ fuel) :
    get_next_token fuel (c0 :: w ++ sp ++ 46 :: body ++ tail) =
      (if is_built_in (c0 :: w ++ 46 :: body.filter (fun c => !is_blank c)) then
        Res.ok (tk_id (lexeme_string (c0 :: w ++ 46 :: body.filter (fun c => !is_blank c))),
          ungetc (getc tail).1 (getc tail).2)
       else Res.fail 1) ∧
    get_next_token 20 (ascii "ifj.write(") = Res.ok (tk_id "ifj.write", ascii "(") ∧
    get_next_token 20 (ascii "ifj.foo(") = Res.fail 1 ∧
    get_next_token 20 (ascii "a.b;") = Res.fail 1 ∧
    get_next_token 20 (ascii "foo.write(") = Res.fail 1 := by
  refine ⟨?_, by rfl, by rfl, by rfl, by rfl⟩
  obtain ⟨k, hk⟩ := Nat.exists_eq_add_of_le hfuel
  have hstart : ∀ rest, fsm_step STATE_START c0 [] rest = fsm_step_t.next STATE_ID_KW [c0] := by
    intro rest
    have hl := hc0
    simp only [is_letter, is_lower, is_upper, Bool.or_eq_true, Bool.and_eq_true,
      decide_eq_true_eq] at hl
    have hnd : ¬ is_digit c0 = true := by
      simp only [is_digit, Bool.and_eq_true, decide_eq_true_eq]; omega
    simp only [fsm_step, case_STATE_START]
    rw [if_neg (by omega), if_neg hnd]
    repeat rw [if_neg (by omega)]
    rw [if_pos hc0]
    rfl
  -- from the first letter to the state after the dot
  have hdot : get_next_token fuel (c0 :: w ++ sp ++ 46 :: body ++ tail) =
      get_next_token_loop (k + 1 + body.length) STATE_ID_IFJ_FUNC (c0 :: w ++ [46])
        (body ++ tail) := by
    unfold get_next_token
    rw [hk, show w.length + sp.length + body.length + 3 + k =
        ((k + 1 + body.length + 1 + sp.length) + w.length) + 1 by omega]
    rw [show c0 :: w ++ sp ++ 46 :: body ++ tail = c0 :: (w ++ (sp ++ 46 :: (body ++ tail))) by
      simp]
    rw [loop_cons, hstart]
    dsimp only
    rw [id_kw_loop w hw]
    cases sp with
    | nil =>
      rw [List.nil_append, List.length_nil, Nat.add_zero, loop_cons]
      have : fsm_step STATE_ID_KW 46 ([c0] ++ w) (body ++ tail) =
          fsm_step_t.next STATE_ID_IFJ_FUNC ([c0] ++ w ++ [46]) := rfl
      rw [this]
      rfl
    | cons b sp1 =>
      have hb := hsp b (by simp)
      rw [show (b :: sp1 ++ 46 :: (body ++ tail)) = b :: (sp1 ++ 46 :: (body ++ tail)) from rfl,
        List.length_cons,
        show k + 1 + body.length + 1 + (sp1.length + 1) =
          (k + 1 + body.length + 1 + sp1.length) + 1 by omega, loop_cons]
      have h1 : fsm_step STATE_ID_KW b ([c0] ++ w) (sp1 ++ 46 :: (body ++ tail)) =
          fsm_step_t.next STATE_WHITESPACE ([c0] ++ w) := by
        simp only [fsm_step, case_STATE_ID_KW]
        rw [if_neg (by rcases hb with h | h <;> subst h <;> decide), if_pos hb]
      rw [h1]
      dsimp only
      rw [whitespace_loop sp1 (fun x hx => hsp x (by simp [hx])), loop_cons]
      have : fsm_step STATE_WHITESPACE 46 ([c0] ++ w) (body ++ tail) =
          fsm_step_t.next STATE_ID_IFJ_FUNC ([c0] ++ w ++ [46]) := rfl
      rw [this]
      rfl
  rw [hdot, ifj_func_loop body hbody]
  have hfinal : ∀ lexeme : List Int,
      get_next_token_loop (k + 1) STATE_ID_IFJ_FUNC lexeme tail =
        match fsm_step STATE_ID_IFJ_FUNC (getc tail).1 lexeme (getc tail).2 with
        | fsm_step_t.next state1 lexeme1 => get_next_token_loop k state1 lexeme1 (getc tail).2
        | fsm_step_t.done r => r := fun _ => rfl
  rw [hfinal]
  have hb2 : ¬ ((getc tail).1 = 32 ∨ (getc tail).1 = 9 ∨ (getc tail).1 = 10) := by
    have := hend.2.2
    simp only [is_blank, Bool.or_eq_false_iff, beq_eq_false_iff_ne, ne_eq] at this
    tauto
  simp only [fsm_step]
  rw [if_neg (by rw [hend.1, hend.2.1]; simp), if_neg hb2]
  have hlex : c0 :: w ++ [46] ++ body.filter (fun c => !is_blank c) =
      c0 :: w ++ 46 :: body.filter (fun c => !is_blank c) := by simp
  rw [hlex]
  by_cases hbi : is_built_in (c0 :: w ++ 46 :: body.filter (fun c => !is_blank c)) = true
  · rw [if_pos hbi, if_pos hbi]
  · rw [if_neg hbi, if_neg hbi]
    rfl

set_option maxRecDepth 100000 in
/-- Witness of C26: `ifj . rea dstr(`. -/
theorem C26_dotted_identifier_witness :
    get_next_token 30 (ascii "ifj . rea dstr(") = Res.ok (tk_id "ifj.readstr", ascii "(") :=
  (C26_dotted_identifier 105 (ascii "fj") (ascii " ") (ascii " rea dstr") (ascii "(") 30
    (by decide) (by decide) (by decide) (by decide) (by decide) (by decide)).1

theorem str_start_loop (items : List str_item) (hv : ∀ item ∈ items, item.valid = true) :
    ∀ (fuel : Nat) (lexeme tail : List Int),
      get_next_token_loop (fuel + (body_source items).length) STATE_STR_START lexeme
          (body_source items ++ tail) =
        get_next_token_loop fuel STATE_STR_START (lexeme ++ body_source items) tail := by
  induction items with
  | nil => intro fuel lexeme tail; simp [body_source]
  | cons item items ih =>
    intro fuel lexeme tail
    have hitem : item.valid = true := hv item (by simp)
    have ih1 := ih (fun x hx => hv x (by simp [hx]))
    cases item with
    | plain c =>
      simp only [str_item.valid, Bool.and_eq_true, decide_eq_true_eq] at hitem
      have hstep : ∀ rest, fsm_step STATE_STR_START c lexeme rest =
          fsm_step_t.next STATE_STR_START (lexeme ++ [c]) := by
        intro rest
        simp only [fsm_step, EOF]
        rw [if_neg (by tauto), if_neg (by tauto), if_neg (by tauto)]
      simp only [body_source, str_item.source, List.cons_append, List.nil_append,
        List.length_cons]
      rw [← Nat.add_assoc, loop_cons, hstep]
      dsimp only
      rw [ih1, List.append_assoc]
      rfl
    | esc c =>
      simp only [str_item.valid, decide_eq_true_eq] at hitem
      have h1 : ∀ rest, fsm_step STATE_STR_START 92 lexeme rest =
          fsm_step_t.next STATE_STR_ESC (lexeme ++ [92]) := fun _ => rfl
      have h2 : ∀ rest, fsm_step STATE_STR_ESC c (lexeme ++ [92]) rest =
          fsm_step_t.next STATE_STR_START (lexeme ++ [92] ++ [c]) := by
        intro rest
        simp only [fsm_step]
        rw [if_pos hitem]
      simp only [body_source, str_item.source, List.cons_append, List.nil_append,
        List.length_cons]
      rw [show fuel + ((body_source items).length + 1 + 1) =
        (fuel + (body_source items).length + 1) + 1 by omega, loop_cons, h1]
      dsimp only
      rw [loop_cons, h2]
      dsimp only
      rw [ih1]
      simp
    | hex a b =>
      simp only [str_item.valid, Bool.and_eq_true] at hitem
      have h1 : ∀ rest, fsm_step STATE_STR_START 92 lexeme rest =
          fsm_step_t.next STATE_STR_ESC (lexeme ++ [92]) := fun _ => rfl
      have h2 : ∀ rest, fsm_step STATE_STR_ESC 120 (lexeme ++ [92]) rest =
          fsm_step_t.next STATE_STR_ESC_X1 (lexeme ++ [92] ++ [120]) := fun _ => rfl
      have h3 : ∀ rest, fsm_step STATE_STR_ESC_X1 a (lexeme ++ [92] ++ [120]) rest =
          fsm_step_t.next STATE_STR_ESC_X2 (lexeme ++ [92] ++ [120] ++ [a]) := by
        intro rest
        simp only [fsm_step]
        rw [if_pos hitem.1]
      have h4 : ∀ rest, fsm_step STATE_STR_ESC_X2 b (lexeme ++ [92] ++ [120] ++ [a]) rest =
          fsm_step_t.next STATE_STR_START (lexeme ++ [92] ++ [120] ++ [a] ++ [b]) := by
        intro rest
        simp only [fsm_step]
        rw [if_pos hitem.2]
      simp only [body_source, str_item.source, List.cons_append, List.nil_append,
        List.length_cons]
      rw [show fuel + ((body_source items).length + 1 + 1 + 1 + 1) =
        (fuel + (body_source items).length + 1 + 1 + 1) + 1 by omega, loop_cons, h1]
      dsimp only
      rw [loop_cons, h2]
      dsimp only
      rw [loop_cons, h3]
      dsimp only
      rw [loop_cons, h4]
      dsimp only
      rw [ih1]
      simp

theorem hex_value_range (h : Int) (hh : is_hex h = true) : 0 ≤ hex_value h ∧ hex_value h ≤ 15 := by
  simp only [is_hex, is_digit, Bool.or_eq_true, Bool.and_eq_true, decide_eq_true_eq] at hh
  unfold hex_value
  simp only [is_digit, Bool.and_eq_true, decide_eq_true_eq]
  split_ifs <;> omega

theorem process_str_loop_items (items : List str_item)
    (hv : ∀ item ∈ items, item.valid = true) :
    ∀ new_lex : List Int,
      process_str_loop false 1 (body_source items ++ [34]) new_lex =
        some (new_lex ++ body_output items) := by
  induction items with
  | nil => intro new_lex; simp [body_source, body_output, process_str_loop]
  | cons item items ih =>
    intro new_lex
    have hitem : item.valid = true := hv item (by simp)
    have ih1 := ih (fun x hx => hv x (by simp [hx]))
    have hlen : ∀ l : List Int, ¬ ((l ++ [34]).length + 1 ≤ 1) := by
      intro l; simp
    cases item with
    | plain c =>
      simp only [str_item.valid, Bool.and_eq_true, decide_eq_true_eq] at hitem
      simp only [body_source, body_output, str_item.source, str_item.output, List.cons_append,
        List.nil_append]
      unfold process_str_loop
      rw [if_neg (hlen _), if_neg (by tauto)]
      by_cases hc : c ≤ 32 ∨ c = 35
      · rw [if_pos hc, if_pos hc, ih1, List.append_assoc]
      · rw [if_neg hc, if_neg hc, ih1, List.append_assoc]
    | esc c =>
      simp only [str_item.valid, decide_eq_true_eq] at hitem
      simp only [body_source, body_output, str_item.source, str_item.output, List.cons_append,
        List.nil_append]
      unfold process_str_loop
      have hlen2 : ¬ ((c :: (body_source items ++ [34])).length + 1 ≤ 1) := by simp
      rw [if_neg hlen2, if_pos rfl]
      dsimp only
      by_cases h1 : c = 110
      · rw [if_pos h1, if_pos h1, ih1, List.append_assoc]
      · rw [if_neg h1, if_neg h1]
        by_cases h2 : c = 116
        · rw [if_pos h2, if_pos h2, ih1, List.append_assoc]
        · rw [if_neg h2, if_neg h2]
          by_cases h3 : c = 114
          · rw [if_pos h3, if_pos h3, ih1, List.append_assoc]
          · rw [if_neg h3, if_neg h3]
            by_cases h4 : c = 92
            · rw [if_pos h4, if_pos h4, ih1]
              simp
            · rw [if_neg h4, if_neg h4, if_pos (by tauto), ih1, List.append_assoc]
    | hex a b =>
      simp only [str_item.valid, Bool.and_eq_true] at hitem
      obtain ⟨ha0, ha1⟩ := hex_value_range a hitem.1
      obtain ⟨hb0, hb1⟩ := hex_value_range b hitem.2
      simp only [body_source, body_output, str_item.source, str_item.output, List.cons_append,
        List.nil_append]
      unfold process_str_loop
      have hlen2 : ¬ ((120 :: a :: b :: (body_source items ++ [34])).length + 1 ≤ 1) := by simp
      rw [if_neg hlen2, if_pos rfl]
      dsimp only
      rw [if_neg (by decide), if_neg (by decide), if_neg (by decide), if_neg (by decide),
        if_neg (by decide), if_pos rfl]
      rw [if_neg (by rw [hitem.1, hitem.2]; simp), if_neg (by omega), ih1, List.append_assoc]

theorem process_str_items (items : List str_item) (hv : ∀ item ∈ items, item.valid = true) :
    process_str (34 :: body_source items ++ [34]) = some (body_output items) := by
  unfold process_str
  have h1 : (34 :: body_source items ++ [34]).get? 0 = some 34 := rfl
  have h2 : (34 :: body_source items ++ [34]).head? = some 34 := rfl
  have h3 : (34 :: (body_source items ++ [34])).getLast? = some 34 := by
    rw [show (34 :: (body_source items ++ [34])) = (34 :: body_source items) ++ [34] from rfl,
      List.getLast?_append]
    rfl
  simp only [h1, h2, List.cons_append, List.drop_succ_cons, List.drop_zero]
  have := process_str_loop_items items hv []
  simpa [h3] using this

theorem scan_string (items : List str_item) (hv : ∀ item ∈ items, item.valid = true)
    (tail : List Int) (fuel : Nat) (hfuel : (body_source items).length + 3 ≤ fuel) :
    get_next_token fuel (34 :: body_source items ++ 34 :: tail) =
      Res.ok (tk_string (lexeme_string (body_output items)),
        ungetc (getc tail).1 (getc tail).2) := by
  obtain ⟨k, hk⟩ := Nat.exists_eq_add_of_le hfuel
  unfold get_next_token
  rw [hk, show (body_source items).length + 3 + k =
    ((k + 2) + (body_source items).length) + 1 by omega, List.cons_append, loop_cons]
  have h1 : ∀ rest, fsm_step STATE_START 34 [] rest = fsm_step_t.next STATE_STR_START [34] :=
    fun _ => rfl
  rw [h1]
  dsimp only
  rw [str_start_loop items hv, loop_cons]
  have h2 : ∀ rest, fsm_step STATE_STR_START 34 ([34] ++ body_source items) rest =
      fsm_step_t.next STATE_STR_END ([34] ++ body_source items ++ [34]) := fun _ => rfl
  rw [h2]
  dsimp only
  have hfinal : get_next_token_loop (k + 1) STATE_STR_END ([34] ++ body_source items ++ [34])
      tail = match fsm_step STATE_STR_END (getc tail).1 ([34] ++ body_source items ++ [34])
        (getc tail).2 with
      | fsm_step_t.next state1 lexeme1 => get_next_token_loop k state1 lexeme1 (getc tail).2
      | fsm_step_t.done r => r := rfl
  rw [hfinal]
  simp only [fsm_step, return_string]
  have := process_str_items items hv
  rw [show [34] ++ body_source items ++ [34] = 34 :: body_source items ++ [34] from rfl, this]

set_option maxRecDepth 1000000 in
theorem encode_escape_fin (n : Fin 256) :
    encode_escape (n.val : Int) =
      [92, 48 + (n.val : Int) / 100, 48 + (n.val : Int) / 10 % 10, 48 + (n.val : Int) % 10] := by
  revert n
  decide

theorem encode_escape_byte (v : Int) (h0 : 0 ≤ v) (h1 : v ≤ 255) :
    encode_escape v = [92, 48 + v / 100, 48 + v / 10 % 10, 48 + v % 10] := by
  have := encode_escape_fin ⟨v.toNat, by omega⟩
  have hv : ((v.toNat : Nat) : Int) = v := Int.toNat_of_nonneg h0
  simp only [hv] at this
  exact this

theorem body_source_append (a b : List str_item) :
    body_source (a ++ b) = body_source a ++ body_source b := by
  induction a with
  | nil => rfl
  | cons x a ih => simp [body_source, ih]

theorem body_output_append (a b : List str_item) :
    body_output (a ++ b) = body_output a ++ body_output b := by
  induction a with
  | nil => rfl
  | cons x a ih => simp [body_output, ih]

set_option maxRecDepth 100000 in
/-- C23: in a single-line string literal whose body is `pre`, then `\x` and what follows.
When two hexadecimal digits `h1 h2` follow (and then a body `post` and the closing quote),
the literal is accepted and its content is the content of `pre`, a backslash with the three
zero-padded decimal digits of the value of `h1 h2`, and the content of `post`; when the
character after `\x` is no hexadecimal digit, or the one after that is none, the lexical
error 1 is returned. `\x41` gives `\065`, `\xFF` gives `\255`, `\xG0` and `\x1"` are
rejected. -/
theorem C23_hex_escape (pre post : List str_item) (h1 h2 : Int) (tail : List Int) (fuel : Nat)
    (hpre : ∀ item ∈ pre, item.valid = true) (hpost : ∀ item ∈ post, item.valid = true)
    (hfuel : (body_source pre).length + (body_source post).length + 7 ≤ fuel) :
    (is_hex h1 = true → is_hex h2 = true →
      get_next_token fuel
          (34 :: body_source pre ++ 92 :: 120 :: h1 :: h2 :: body_source post ++ 34 :: tail) =
        Res.ok (tk_string (lexeme_string
          (body_output pre ++
            [92, 48 + (16 * hex_value h1 + hex_value h2) / 100,
             48 + (16 * hex_value h1 + hex_value h2) / 10 % 10,
             48 + (16 * hex_value h1 + hex_value h2) % 10] ++ body_output post)),
          ungetc (getc tail).1 (getc tail).2) ∧
      0 ≤ 16 * hex_value h1 + hex_value h2 ∧ 16 * hex_value h1 + hex_value h2 ≤ 255) ∧
    (is_hex (getc tail).1 = false →
      get_next_token fuel (34 :: body_source pre ++ 92 :: 120 :: tail) = Res.fail 1) ∧
    (is_hex h1 = true → is_hex (getc tail).1 = false →
      get_next_token fuel (34 :: body_source pre ++ 92 :: 120 :: h1 :: tail) = Res.fail 1) ∧
    get_next_token 10 (ascii "\"\\x41\";") = Res.ok (tk_string "\\065", ascii ";") ∧
    get_next_token 10 (ascii "\"\\xFF\";") = Res.ok (tk_string "\\255", ascii ";") ∧
    get_next_token 10 (ascii "\"\\xG0\";") = Res.fail 1 ∧
    get_next_token 10 (ascii "\"\\x1\";") = Res.fail 1 := by
  obtain ⟨k, hk⟩ := Nat.exists_eq_add_of_le hfuel
  -- the scan up to the state after `\x`
  have hx : ∀ rest : List Int,
      get_next_token fuel (34 :: body_source pre ++ 92 :: 120 :: rest) =
        get_next_token_loop ((body_source post).length + 4 + k) STATE_STR_ESC_X1
          ([34] ++ body_source pre ++ [92] ++ [120]) rest := by
    intro rest
    unfold get_next_token
    rw [hk, show (body_source pre).length + (body_source post).length + 7 + k =
      (((body_source post).length + 6 + k) + (body_source pre).length) + 1 by omega,
      List.cons_append, loop_cons]
    have e1 : ∀ r, fsm_step STATE_START 34 [] r = fsm_step_t.next STATE_STR_START [34] :=
      fun _ => rfl
    rw [e1]
    dsimp only
    rw [str_start_loop pre hpre, show (body_source post).length + 6 + k =
      ((body_source post).length + 5 + k) + 1 by omega, loop_cons]
    have e2 : ∀ r, fsm_step STATE_STR_START 92 ([34] ++ body_source pre) r =
        fsm_step_t.next STATE_STR_ESC ([34] ++ body_source pre ++ [92]) := fun _ => rfl
    rw [e2]
    dsimp only
    rw [show (body_source post).length + 5 + k =
      ((body_source post).length + 4 + k) + 1 by omega, loop_cons]
    have e3 : ∀ r, fsm_step STATE_STR_ESC 120 ([34] ++ body_source pre ++ [92]) r =
        fsm_step_t.next STATE_STR_ESC_X1 ([34] ++ body_source pre ++ [92] ++ [120]) :=
      fun _ => rfl
    rw [e3]
  have hstep : ∀ (n : Nat) (state : fsm_state_t) (lexeme : List Int),
      get_next_token_loop (n + 1) state lexeme tail =
        match fsm_step state (getc tail).1 lexeme (getc tail).2 with
        | fsm_step_t.next state1 lexeme1 => get_next_token_loop n state1 lexeme1 (getc tail).2
        | fsm_step_t.done r => r := fun _ _ _ => rfl
  refine ⟨?_, ?_, ?_, by rfl, by rfl, by rfl, by rfl⟩
  · intro hh1 hh2
    obtain ⟨a0, a1⟩ := hex_value_range h1 hh1
    obtain ⟨b0, b1⟩ := hex_value_range h2 hh2
    refine ⟨?_, by omega, by omega⟩
    have hv : ∀ item ∈ pre ++ str_item.hex h1 h2 :: post, item.valid = true := by
      intro item hitem
      rcases List.mem_append.mp hitem with h | h
      · exact hpre item h
      · rcases List.mem_cons.mp h with h | h
        · rw [h]; simp [str_item.valid, hh1, hh2]
        · exact hpost item h
    have hs := scan_string (pre ++ str_item.hex h1 h2 :: post) hv tail fuel
      (by simp only [body_source_append, body_source, str_item.source, List.length_append,
            List.length_cons, List.length_nil]; omega)
    simp only [body_source_append, body_output_append, body_source, body_output,
      str_item.source, str_item.output] at hs
    rw [encode_escape_byte _ (by omega) (by omega)] at hs
    simpa using hs
  · intro hnh
    rw [hx tail, show (body_source post).length + 4 + k =
      ((body_source post).length + 3 + k) + 1 by omega, hstep]
    simp only [fsm_step]
    rw [if_neg (by rw [hnh]; simp)]
    rfl
  · intro hh1 hnh
    rw [hx (h1 :: tail), show (body_source post).length + 4 + k =
      ((body_source post).length + 2 + k + 1) + 1 by omega, loop_cons]
    simp only [fsm_step]
    rw [if_pos hh1]
    dsimp only
    rw [hstep]
    simp only [fsm_step]
    rw [if_neg (by rw [hnh]; simp)]
    rfl

set_option maxRecDepth 100000 in
/-- Witness of C23: `"a\x4Ab"` has the content `a\074b`. -/
theorem C23_hex_escape_witness :
    get_next_token 20 (ascii "\"a\\x4Ab\";") =
      Res.ok (tk_string (lexeme_string (ascii "a\\074b")), ascii ";") :=
  ((C23_hex_escape [str_item.plain 97] [str_item.plain 98] 52 65 (ascii ";") 20
    (by decide) (by decide) (by decide)).1 (by decide) (by decide)).1

set_option maxRecDepth 1000000 in
/-- C24 fails for body bytes from 0x80 on: `char` is signed, so such a byte is negative,
passes the test `current <= 32` and is printed with `%03d` into a buffer of five bytes.
The two bytes of `é` (0xC3 0xA9) give the content `\-61\-87`, the byte 0x80 gives `\-12`,
and every byte 0x80 .. 0xFE gives a backslash followed by `-`. Bytes below 0x80 are
treated as stated: `a b#c` gives `a\032b\035c` and the escapes `\n \t \r \\` give
`\010\009\013\092`. -/
theorem C24_high_bytes_observed :
    get_next_token 10 [34, to_char 0xC3, to_char 0xA9, 34, 59] =
      Res.ok (tk_string "\\-61\\-87", [59]) ∧
    get_next_token 10 [34, to_char 0x80, 34, 59] = Res.ok (tk_string "\\-12", [59]) ∧
    (∀ n : Fin 127,
      get_next_token 10 [34, to_char (128 + n.val), 34, 59] =
        Res.ok (tk_string (lexeme_string (encode_escape ((n.val : Int) - 128))), [59]) ∧
      (encode_escape ((n.val : Int) - 128)).take 2 = [92, 45]) ∧
    get_next_token 20 (ascii "\"a b#c\";") = Res.ok (tk_string "a\\032b\\035c", ascii ";") ∧
    get_next_token 20 (ascii "\"\\n\\t\\r\\\\\";") =
      Res.ok (tk_string "\\010\\009\\013\\092", ascii ";") := by
  refine ⟨by rfl, by rfl, by decide, by rfl, by rfl⟩

set_option maxRecDepth 1000000 in
/-- C28 fails for void functions: the code of a function is `LABEL $f`, `CREATEFRAME`,
`PUSHFRAME`, its body and, after a `return`, `POPFRAME`, `RETURN`; but a void function
whose body has no `return` ends with `POPFRAME` alone and runs on into the code of the
next function, and when the only `return;` is nested in an `if` or `while` block nothing at
all is printed at the end of the function, so the path that skips the block ends after
`LABEL $if_end_0` (`LABEL $while_end_0`) with neither `POPFRAME` nor `RETURN`. All three
programs compile with exit code 0. -/
theorem C28_epilogue_missing :
    user_code (program_with_f [] KW_VOID []) =
      [Instr.line "" [], Instr.line "LABEL" ["$f"], Instr.line "CREATEFRAME" [],
       Instr.line "PUSHFRAME" [], Instr.line "POPFRAME" [],
       Instr.line "" [], Instr.line "LABEL" ["$main"], Instr.line "CREATEFRAME" [],
       Instr.line "PUSHFRAME" [], Instr.line "POPFRAME" [], Instr.line "EXIT" ["int@0"]] ∧
    exit_code (program_with_f [] KW_VOID []) = some 0 ∧
    function_code "$f"
        (user_code (program_with_f [] KW_VOID
          (if_tokens [tk KW_RETURN, tk TOKEN_SEMICOLON] []))) =
      [Instr.line "LABEL" ["$f"], Instr.line "CREATEFRAME" [], Instr.line "PUSHFRAME" [],
       Instr.PUSHS_int 1, Instr.PUSHS_int 1, Instr.EQS,
       Instr.line "DEFVAR" ["LF@if_cond_0"], Instr.line "POPS" ["LF@if_cond_0"],
       Instr.line "JUMPIFEQ" ["$if_else_0", "LF@if_cond_0", "bool@false"],
       Instr.line "POPFRAME" [], Instr.line "RETURN" [],
       Instr.line "JUMP" ["$if_end_0"], Instr.line "LABEL" ["$if_else_0"],
       Instr.line "LABEL" ["$if_end_0"]] ∧
    exit_code (program_with_f [] KW_VOID
      (if_tokens [tk KW_RETURN, tk TOKEN_SEMICOLON] [])) = some 0 ∧
    function_code "$f"
        (user_code (program_with_f [] KW_VOID
          (while_tokens [tk KW_RETURN, tk TOKEN_SEMICOLON]))) =
      [Instr.line "LABEL" ["$f"], Instr.line "CREATEFRAME" [], Instr.line "PUSHFRAME" [],
       Instr.line "DEFVAR" ["LF@while_cond_0"], Instr.line "LABEL" ["$while_start_0"],
       Instr.PUSHS_int 1, Instr.PUSHS_int 1, Instr.EQS,
       Instr.line "POPS" ["LF@while_cond_0"],
       Instr.line "JUMPIFEQ" ["$while_end_0", "LF@while_cond_0", "bool@false"],
       Instr.line "POPFRAME" [], Instr.line "RETURN" [],
       Instr.line "JUMP" ["$while_start_0"], Instr.line "LABEL" ["$while_end_0"]] ∧
    exit_code (program_with_f [] KW_VOID
      (while_tokens [tk KW_RETURN, tk TOKEN_SEMICOLON])) = some 0 ∧
    function_code "$f" (user_code (program_with_f [] KW_VOID [tk KW_RETURN, tk TOKEN_SEMICOLON])) =
      [Instr.line "LABEL" ["$f"], Instr.line "CREATEFRAME" [], Instr.line "PUSHFRAME" [],
       Instr.line "POPFRAME" [], Instr.line "RETURN" []] ∧
    function_code "$f"
        (user_code (program_with_f [] KW_INT_TYPE [tk KW_RETURN, tk_int 1, tk TOKEN_SEMICOLON])) =
      [Instr.line "LABEL" ["$f"], Instr.line "CREATEFRAME" [], Instr.line "PUSHFRAME" [],
       Instr.PUSHS_int 1, Instr.line "POPS" ["GF@return"],
       Instr.line "POPFRAME" [], Instr.line "RETURN" []] := by
  refine ⟨by rfl, by rfl, by rfl, by rfl, by rfl, by rfl, by rfl, by rfl⟩

/-! ## Labels of nested blocks (generator.c, stack.c) -/

theorem nested_ifs_succ_append (n : Nat) (tail : List token_t) :
    nested_ifs (n + 1) ++ tail =
      tk KW_IF :: tk TOKEN_OPENING_PARENTHESES :: tk_int 1 :: tk TOKEN_EQ :: tk_int 1 ::
        tk TOKEN_CLOSING_PARENTHESES :: tk TOKEN_OPENING_BRACKET ::
        (nested_ifs n ++ tk TOKEN_CLOSING_BRACKET :: tk KW_ELSE :: tk TOKEN_OPENING_BRACKET ::
          tk TOKEN_CLOSING_BRACKET :: tail) := by
  simp [nested_ifs, if_tokens, block_tokens]

theorem scopes_closed_enter (table : symtable_t) (h : scopes_closed table) :
    scopes_closed (symtable_enter_scope table) := by
  intro i item hi
  have := h i item hi
  show item.scope_level ≤ table.scope_level + 1
  omega

theorem check_unused_enter (table : symtable_t) (h : scopes_closed table) :
    check_unused_variables_in_scope (symtable_enter_scope table) = 0 := by
  unfold check_unused_variables_in_scope
  rw [if_neg]
  intro hany
  obtain ⟨i, -, hi⟩ := (any_range_iff _ _).mp hany
  obtain ⟨item, hmem, hu⟩ := List.any_eq_true.mp hi
  have h1 := ((item_is_unused_iff _ _).mp hu).1
  have h2 := h i item hmem
  have h3 : item.scope_level = table.scope_level + 1 := h1
  omega

theorem exit_enter_scope (table : symtable_t) (h : scopes_closed table) :
    symtable_exit_scope (symtable_enter_scope table) = table := by
  obtain ⟨items, size, level⟩ := table
  unfold symtable_exit_scope symtable_enter_scope
  simp only [symtable_t.mk.injEq, add_sub_cancel_right, and_true]
  funext i
  split
  · rw [List.filter_eq_self]
    intro item hmem
    have := h i item hmem
    simp only at this
    simp only [Bool.not_eq_true', beq_eq_false_iff_ne, ne_eq]
    omega
  · rfl

theorem scopes_closed_create (size : Nat) : scopes_closed (symtable_create size) := by
  intro i item hmem
  rw [symtable_create_items] at hmem
  obtain ⟨hm, -⟩ := List.mem_filter.mp hmem
  obtain ⟨sig, -, rfl⟩ := List.mem_map.mp hm
  exact le_refl _

theorem nested_if_labels_fits (n : Nat) :
    ∀ (counter : Int) (stack : List Int), stack.length + n ≤ STACK_MAX - 1 →
      nested_if_labels n (counter, stack) = some (counter + n, stack) := by
  induction n with
  | zero => intro counter stack _; simp [nested_if_labels]
  | succ n ih =>
    intro counter stack h
    have hpush : gen_stack_push stack counter = counter :: stack := by
      unfold gen_stack_push
      rw [if_neg]
      omega
    unfold nested_if_labels
    rw [hpush, ih (counter + 1) (counter :: stack) (by simp only [List.length_cons]; omega)]
    simp only [Nat.cast_add, Nat.cast_one, Option.some.injEq, Prod.mk.injEq, and_true]
    omega

set_option maxRecDepth 1000000 in
theorem nested_if_labels_overflow : nested_if_labels 256 (0, []) = none := by
  rfl

theorem check_unused_ok (s : PState) (h : check_unused_variables_in_scope s.symbol_table = 0) :
    check_unused s = Res.ok s := by
  unfold check_unused
  rw [if_neg]
  rw [h]
  exact fun hh => hh rfl

theorem nested_ifs_run (depth efuel : Nat) :
    ∀ (n fuel : Nat) (s : PState) (rest : List token_t) (counter : Int) (stack : List Int),
      s.tokens = nested_ifs n ++ tk TOKEN_CLOSING_BRACKET :: rest →
      s.main_stack = [] → scopes_closed s.symbol_table →
      s.label_counter = counter → s.if_stack = stack →
      match nested_if_labels n (counter, stack) with
      | none =>
        parse_statements (parse_expr_rec (depth + 1) (efuel + 8)) (fuel + n + 1) s =
          Res.exit EXIT_FAILURE
      | some (counter1, stack1) =>
        ∃ s1, parse_statements (parse_expr_rec (depth + 1) (efuel + 8)) (fuel + n + 1) s =
            Res.ok s1 ∧
          s1.tokens = tk TOKEN_CLOSING_BRACKET :: rest ∧ s1.main_stack = [] ∧
          s1.symbol_table = s.symbol_table ∧ s1.label_counter = counter1 ∧
          s1.if_stack = stack1 := by
  intro n
  induction n with
  | zero =>
    intro fuel s rest counter stack htok hms hcl hc hst
    obtain ⟨tokens, table, bc, ms, ts, ims, out, cf, hr, fc, lc, ifs, ws, fr⟩ := s
    dsimp only at htok hms hcl hc hst
    subst htok
    subst hms
    subst hc
    subst hst
    exact ⟨_, rfl, rfl, rfl, rfl, rfl, rfl⟩
  | succ n ih =>
    intro fuel s rest counter stack htok hms hcl hc hst
    rw [nested_ifs_succ_append] at htok
    obtain ⟨tokens, table, bc, ms, ts, ims, out, cf, hr, fc, lc, ifs, ws, fr⟩ := s
    dsimp only at htok hms hcl hc hst
    subst htok
    subst hms
    subst hc
    subst hst
    have key1 : ∀ r, parse_statements (parse_expr_rec (depth + 1) (efuel + 8)) (fuel + n + 1)
        (fetch_next_token (enter_scope (gen_if_start (fetch_next_token
        { tokens := tk TOKEN_CLOSING_PARENTHESES :: tk TOKEN_OPENING_BRACKET ::
            (nested_ifs n ++ tk TOKEN_CLOSING_BRACKET :: tk KW_ELSE ::
              tk TOKEN_OPENING_BRACKET :: tk TOKEN_CLOSING_BRACKET ::
              tk TOKEN_CLOSING_BRACKET :: rest),
          symbol_table := table, bracket_count := -1, main_stack := [], temp_stack := ts,
          is_main_stack := true,
          out := out ++ [Instr.PUSHS_int 1] ++ [Instr.PUSHS_int 1] ++ ([] ++ [Instr.EQS]),
          current_function := cf, has_return := hr, first_control := fc,
          label_counter := lc, if_stack := ifs, while_stack := ws, freed_reads := fr })))) = r →
        parse_statements (parse_expr_rec (depth + 1) (efuel + 8)) (fuel + (n + 1) + 1)
        { tokens := tk KW_IF :: tk TOKEN_OPENING_PARENTHESES :: tk_int 1 :: tk TOKEN_EQ ::
            tk_int 1 :: tk TOKEN_CLOSING_PARENTHESES :: tk TOKEN_OPENING_BRACKET ::
            (nested_ifs n ++ tk TOKEN_CLOSING_BRACKET :: tk KW_ELSE ::
              tk TOKEN_OPENING_BRACKET :: tk TOKEN_CLOSING_BRACKET ::
              tk TOKEN_CLOSING_BRACKET :: rest),
          symbol_table := table, bracket_count := bc, main_stack := [], temp_stack := ts,
          is_main_stack := ims, out := out, current_function := cf, has_return := hr,
          first_control := fc, label_counter := lc, if_stack := ifs, while_stack := ws,
          freed_reads := fr } =
        (match ((parse_block_body (fun _ => r)
        (fetch_next_token (enter_scope (gen_if_start (fetch_next_token
        { tokens := tk TOKEN_CLOSING_PARENTHESES :: tk TOKEN_OPENING_BRACKET ::
            (nested_ifs n ++ tk TOKEN_CLOSING_BRACKET :: tk KW_ELSE ::
              tk TOKEN_OPENING_BRACKET :: tk TOKEN_CLOSING_BRACKET ::
              tk TOKEN_CLOSING_BRACKET :: rest),
          symbol_table := table, bracket_count := -1, main_stack := [], temp_stack := ts,
          is_main_stack := true,
          out := out ++ [Instr.PUSHS_int 1] ++ [Instr.PUSHS_int 1] ++ ([] ++ [Instr.EQS]),
          current_function := cf, has_return := hr, first_control := fc,
          label_counter := lc, if_stack := ifs, while_stack := ws, freed_reads := fr }))))).bind fun s5 =>
            (check_unused (fetch_next_token s5)).bind fun s6 =>
              (gen_if_else s6).bind fun s7 =>
                parse_else_block (parse_statements (parse_expr_rec (depth + 1) (efuel + 8)) (fuel + n + 1)) Res.ok gen_if_end
                  (exit_scope s7)) with
         | Res.ok s1 => parse_statements (parse_expr_rec (depth + 1) (efuel + 8)) (fuel + n + 1) s1
         | Res.fail _ => Res.exit ERROR_SYNTAX_ANALYSIS
         | Res.exit code => Res.exit code
         | Res.crash => Res.crash
         | Res.timeout => Res.timeout) := by
      intro r hr
      subst hr
      rfl
    have ihA := ih fuel
      (fetch_next_token (enter_scope (gen_if_start (fetch_next_token
        { tokens := tk TOKEN_CLOSING_PARENTHESES :: tk TOKEN_OPENING_BRACKET ::
            (nested_ifs n ++ tk TOKEN_CLOSING_BRACKET :: tk KW_ELSE ::
              tk TOKEN_OPENING_BRACKET :: tk TOKEN_CLOSING_BRACKET ::
              tk TOKEN_CLOSING_BRACKET :: rest),
          symbol_table := table, bracket_count := -1, main_stack := [], temp_stack := ts,
          is_main_stack := true,
          out := out ++ [Instr.PUSHS_int 1] ++ [Instr.PUSHS_int 1] ++ ([] ++ [Instr.EQS]),
          current_function := cf, has_return := hr, first_control := fc,
          label_counter := lc, if_stack := ifs, while_stack := ws, freed_reads := fr }))))
      (tk KW_ELSE :: tk TOKEN_OPENING_BRACKET :: tk TOKEN_CLOSING_BRACKET ::
        tk TOKEN_CLOSING_BRACKET :: rest) (lc + 1) (gen_stack_push ifs lc)
      rfl rfl (scopes_closed_enter _ hcl) rfl rfl
    cases hlab : nested_if_labels n (lc + 1, gen_stack_push ifs lc) with
    | none =>
      rw [hlab] at ihA
      dsimp only at ihA
      simp only [nested_if_labels, hlab]
      rw [key1 _ ihA]
      rfl
    | some p =>
      obtain ⟨c1, st1⟩ := p
      rw [hlab] at ihA
      dsimp only at ihA
      obtain ⟨s5, h5, ht5, hm5, htab5, hc5, hst5⟩ := ihA
      obtain ⟨tokens5, table5, bc5, ms5, ts5, ims5, out5, cf5, hr5, fc5, lc5, ifs5, ws5, fr5⟩ := s5
      dsimp only at ht5 hm5 htab5 hc5 hst5
      subst ht5
      subst hm5
      subst hc5
      subst hst5
      have htab5a : table5 = symtable_enter_scope table := htab5
      subst htab5a
      have hchk := check_unused_enter table hcl
      have hchk8 : check_unused_variables_in_scope
          (symtable_enter_scope (symtable_exit_scope (symtable_enter_scope table))) = 0 := by
        rw [exit_enter_scope table hcl]
        exact hchk
      cases ifs5 with
      | nil =>
        simp only [nested_if_labels, hlab]
        rw [key1 _ h5]
        show (match (check_unused (fetch_next_token
        { tokens := tk TOKEN_CLOSING_BRACKET :: tk KW_ELSE :: tk TOKEN_OPENING_BRACKET ::
            tk TOKEN_CLOSING_BRACKET :: tk TOKEN_CLOSING_BRACKET :: rest,
          symbol_table := symtable_enter_scope table, bracket_count := bc5, main_stack := [],
          temp_stack := ts5, is_main_stack := ims5, out := out5, current_function := cf5,
          has_return := hr5, first_control := fc5, label_counter := lc5, if_stack := [],
          while_stack := ws5, freed_reads := fr5 })).bind (fun s6 =>
              (gen_if_else s6).bind fun s7 =>
                parse_else_block (parse_statements (parse_expr_rec (depth + 1) (efuel + 8)) (fuel + n + 1)) Res.ok gen_if_end
                  (exit_scope s7)) with
         | Res.ok s1 => parse_statements (parse_expr_rec (depth + 1) (efuel + 8)) (fuel + n + 1) s1
         | Res.fail _ => Res.exit ERROR_SYNTAX_ANALYSIS
         | Res.exit code => Res.exit code
         | Res.crash => Res.crash
         | Res.timeout => Res.timeout) = Res.exit EXIT_FAILURE
        rw [check_unused_ok _ hchk]
        rfl
      | cons top r =>
        simp only [nested_if_labels, hlab]
        rw [key1 _ h5]
        apply Exists.intro
        refine ⟨?_, ?_, ?_, ?_, ?_, ?_⟩
        · show (match (check_unused (fetch_next_token
        { tokens := tk TOKEN_CLOSING_BRACKET :: tk KW_ELSE :: tk TOKEN_OPENING_BRACKET ::
            tk TOKEN_CLOSING_BRACKET :: tk TOKEN_CLOSING_BRACKET :: rest,
          symbol_table := symtable_enter_scope table, bracket_count := bc5, main_stack := [],
          temp_stack := ts5, is_main_stack := ims5, out := out5, current_function := cf5,
          has_return := hr5, first_control := fc5, label_counter := lc5, if_stack := top :: r,
          while_stack := ws5, freed_reads := fr5 })).bind (fun s6 =>
              (gen_if_else s6).bind fun s7 =>
                parse_else_block (parse_statements (parse_expr_rec (depth + 1) (efuel + 8)) (fuel + n + 1)) Res.ok gen_if_end
                  (exit_scope s7)) with
         | Res.ok s1 => parse_statements (parse_expr_rec (depth + 1) (efuel + 8)) (fuel + n + 1) s1
         | Res.fail _ => Res.exit ERROR_SYNTAX_ANALYSIS
         | Res.exit code => Res.exit code
         | Res.crash => Res.crash
         | Res.timeout => Res.timeout) = _
          rw [check_unused_ok _ hchk]
          show (match (check_unused (fetch_next_token (fetch_next_token (enter_scope
            (fetch_next_token (exit_scope (emit (fetch_next_token
        { tokens := tk TOKEN_CLOSING_BRACKET :: tk KW_ELSE :: tk TOKEN_OPENING_BRACKET ::
            tk TOKEN_CLOSING_BRACKET :: tk TOKEN_CLOSING_BRACKET :: rest,
          symbol_table := symtable_enter_scope table, bracket_count := bc5, main_stack := [],
          temp_stack := ts5, is_main_stack := ims5, out := out5, current_function := cf5,
          has_return := hr5, first_control := fc5, label_counter := lc5, if_stack := top :: r,
          while_stack := ws5, freed_reads := fr5 })
            [Instr.line "JUMP" [numbered "$if_end_" top],
             Instr.line "LABEL" [numbered "$if_else_" top]]))))))).bind (fun s3 =>
               gen_if_end (exit_scope s3)) with
         | Res.ok s1 => parse_statements (parse_expr_rec (depth + 1) (efuel + 8)) (fuel + n + 1) s1
         | Res.fail _ => Res.exit ERROR_SYNTAX_ANALYSIS
         | Res.exit code => Res.exit code
         | Res.crash => Res.crash
         | Res.timeout => Res.timeout) = _
          rw [check_unused_ok _ hchk8]
          rfl
        · rfl
        · rfl
        · show symtable_exit_scope (symtable_enter_scope
            (symtable_exit_scope (symtable_enter_scope table))) = table
          rw [exit_enter_scope table hcl, exit_enter_scope table hcl]
        · rfl
        · rfl

set_option maxRecDepth 1000000 in
/-- C29 fails beyond 255 open constructs: the label stacks hold `STACK_MAX - 1 = 255`
entries and `gen_stack_push` drops what does not fit. Up to 255 nested `if` statements
are parsed with one label each and the stack is empty again afterwards; with 256 the
statements end the process with `EXIT_FAILURE` (the pop of the outermost `if` finds the
stack empty). Inside 255 open `if` statements a further `if` draws label 255, which is not
pushed, so its `else` and end lines carry the label 254 of the enclosing statement, and
that label is popped; the same holds for `while`. Two nested statements at the top level
get the labels 0 and 1, each with its own end label. -/
theorem C29_label_stack_overflow (n : Fin 256) (depth efuel fuel : Nat) :
    (∃ s1, parse_statements (parse_expr_rec (depth + 1) (efuel + 8)) (fuel + n + 1)
        (init_state (symtable_create TABLE_SIZE)
          (nested_ifs n ++ [tk TOKEN_CLOSING_BRACKET])) = Res.ok s1 ∧
      s1.label_counter = (n : Nat) ∧ s1.if_stack = []) ∧
    parse_statements (parse_expr_rec (depth + 1) (efuel + 8)) (fuel + 256 + 1)
      (init_state (symtable_create TABLE_SIZE)
        (nested_ifs 256 ++ [tk TOKEN_CLOSING_BRACKET])) = Res.exit EXIT_FAILURE ∧
    (inside_ifs 255 []).if_stack = labels_below 255 ∧
    (gen_if_start (inside_ifs 255 [])).if_stack = labels_below 255 ∧
    (gen_if_start (inside_ifs 255 [])).label_counter = 256 ∧
    run_block (inside_ifs 255 []) (nested_ifs 1) =
      Res.ok ([Instr.PUSHS_int 1, Instr.PUSHS_int 1, Instr.EQS,
        Instr.line "DEFVAR" ["LF@if_cond_255"], Instr.line "POPS" ["LF@if_cond_255"],
        Instr.line "JUMPIFEQ" ["$if_else_255", "LF@if_cond_255", "bool@false"],
        Instr.line "JUMP" ["$if_end_254"], Instr.line "LABEL" ["$if_else_254"],
        Instr.line "LABEL" ["$if_end_254"]], labels_below 254, []) ∧
    run_block (inside_whiles 255 []) (nested_whiles 1) =
      Res.ok ([Instr.line "DEFVAR" ["LF@while_cond_255"],
        Instr.line "LABEL" ["$while_start_255"],
        Instr.PUSHS_int 1, Instr.PUSHS_int 1, Instr.EQS,
        Instr.line "POPS" ["LF@while_cond_254"],
        Instr.line "JUMPIFEQ" ["$while_end_254", "LF@while_cond_254", "bool@false"],
        Instr.line "JUMP" ["$while_start_254"], Instr.line "LABEL" ["$while_end_254"]],
        [], labels_below 254) ∧
    run_block (inside_ifs 0 []) (nested_ifs 2) =
      Res.ok ([Instr.PUSHS_int 1, Instr.PUSHS_int 1, Instr.EQS,
        Instr.line "DEFVAR" ["LF@if_cond_0"], Instr.line "POPS" ["LF@if_cond_0"],
        Instr.line "JUMPIFEQ" ["$if_else_0", "LF@if_cond_0", "bool@false"],
        Instr.PUSHS_int 1, Instr.PUSHS_int 1, Instr.EQS,
        Instr.line "DEFVAR" ["LF@if_cond_1"], Instr.line "POPS" ["LF@if_cond_1"],
        Instr.line "JUMPIFEQ" ["$if_else_1", "LF@if_cond_1", "bool@false"],
        Instr.line "JUMP" ["$if_end_1"], Instr.line "LABEL" ["$if_else_1"],
        Instr.line "LABEL" ["$if_end_1"],
        Instr.line "JUMP" ["$if_end_0"], Instr.line "LABEL" ["$if_else_0"],
        Instr.line "LABEL" ["$if_end_0"]], [], []) := by
  refine ⟨?_, ?_, by rfl, by rfl, by rfl, by rfl, by rfl, by rfl⟩
  · have h := nested_ifs_run depth efuel n fuel
      (init_state (symtable_create TABLE_SIZE) (nested_ifs n ++ [tk TOKEN_CLOSING_BRACKET]))
      [] 0 [] rfl rfl (scopes_closed_create _) rfl rfl
    rw [nested_if_labels_fits n 0 [] (by
      have := n.isLt
      simp only [List.length_nil, STACK_MAX]
      omega)] at h
    obtain ⟨s1, h1, -, -, -, h5, h6⟩ := h
    exact ⟨s1, h1, by rw [h5]; simp, h6⟩
  · have h := nested_ifs_run depth efuel 256 fuel
      (init_state (symtable_create TABLE_SIZE) (nested_ifs 256 ++ [tk TOKEN_CLOSING_BRACKET]))
      [] 0 [] rfl rfl (scopes_closed_create _) rfl rfl
    rw [nested_if_labels_overflow] at h
    exact h

/-! ## The printed lines only grow (parser.c, pars_expr.c, generator.c) -/

set_option linter.unusedTactic false
set_option linter.unreachableTactic false

theorem prefix_step {α : Type} {a b c : List α} (h2 : b <+: c) (h1 : a <+: b) : a <+: c :=
  h1.trans h2

theorem prefix_app {α : Type} {a c : List α} (l : List α) (h : a <+: c) : a <+: c ++ l :=
  h.trans (List.prefix_append c l)

@[simp] theorem fetch_next_token_out (s : PState) : (fetch_next_token s).out = s.out := rfl

@[simp] theorem emit_out (s : PState) (lines : List Instr) :
    (emit s lines).out = s.out ++ lines := rfl

@[simp] theorem enter_scope_out (s : PState) : (enter_scope s).out = s.out := rfl

@[simp] theorem exit_scope_out (s : PState) : (exit_scope s).out = s.out := rfl

@[simp] theorem set_active_stack_out (s : PState) (u : Bool) (stack : List StackData) :
    (set_active_stack s u stack).out = s.out := by
  unfold set_active_stack; split <;> rfl

theorem token_to_prec_symb_out {call : PState → Res PState (data_type × PState)}
    (hcall : ∀ s t s1, call s = Res.ok (t, s1) → s.out <+: s1.out)
    {s s1 : PState} {d : StackData}
    (h : token_to_prec_symb call s = Res.ok (d, s1)) : s.out <+: s1.out := by
  unfold token_to_prec_symb at h
  dsimp only at h
  repeat' split at h
  all_goals first | (cases h; done) | skip
  all_goals (simp only [Res.ok.injEq, Prod.mk.injEq] at h; obtain ⟨-, rfl⟩ := h)
  all_goals first | exact List.prefix_refl _ | skip
  all_goals
    have h1 := hcall _ _ _ (by assumption)
    first | exact h1 | (split at h1 <;> exact h1)

theorem parse_expr_step_out {call : PState → Res PState (data_type × PState)}
    (hcall : ∀ s t s1, call s = Res.ok (t, s1) → s.out <+: s1.out)
    {u : Bool} {cd : StackData} {cs : prec_sym_t} {s s1 : PState} {d : StackData}
    {sym : prec_sym_t} (h : parse_expr_step call u cd cs s = Res.ok (d, sym, s1)) :
    s.out <+: s1.out := by
  unfold parse_expr_step at h
  dsimp only at h
  repeat' split at h
  all_goals first | (cases h; done) | skip
  all_goals (simp only [Res.ok.injEq, Prod.mk.injEq] at h; obtain ⟨-, -, rfl⟩ := h)
  · have h1 := token_to_prec_symb_out hcall (by assumption)
    simpa using h1
  · simp

theorem parse_expr_finish_out {u : Bool} {s s1 : PState} {t : data_type}
    (h : parse_expr_finish u s = Res.ok (t, s1)) : s.out <+: s1.out := by
  unfold parse_expr_finish at h
  repeat' split at h
  all_goals first | (cases h; done) | skip
  all_goals (simp only [Res.ok.injEq, Prod.mk.injEq] at h; obtain ⟨-, rfl⟩ := h)
  all_goals first | exact List.prefix_refl _ | (dsimp only; split <;> exact List.prefix_refl _)

theorem parse_expr_loop_out {call : PState → Res PState (data_type × PState)}
    (hcall : ∀ s t s1, call s = Res.ok (t, s1) → s.out <+: s1.out) :
    ∀ (fuel : Nat) (u : Bool) (cd : StackData) (cs : prec_sym_t) (s s1 : PState)
      (t : data_type), parse_expr_loop call fuel u cd cs s = Res.ok (t, s1) →
      s.out <+: s1.out := by
  intro fuel
  induction fuel with
  | zero => intro u cd cs s s1 t h; simp [parse_expr_loop] at h
  | succ fuel ih =>
    intro u cd cs s s1 t h
    unfold parse_expr_loop at h
    split at h
    all_goals first | (cases h; done) | skip
    have h1 := parse_expr_step_out hcall (by assumption)
    dsimp only at h
    repeat' split at h
    all_goals first | (cases h; done) | skip
    all_goals first
      | exact prefix_step (parse_expr_finish_out h) h1
      | exact prefix_step (ih _ _ _ _ _ _ h) h1

theorem parse_expr_out {call : PState → Res PState (data_type × PState)}
    (hcall : ∀ s t s1, call s = Res.ok (t, s1) → s.out <+: s1.out)
    {fuel : Nat} {s s1 : PState} {t : data_type}
    (h : parse_expr call fuel s = Res.ok (t, s1)) : s.out <+: s1.out := by
  unfold parse_expr at h
  dsimp only at h
  split at h
  all_goals first | (cases h; done) | skip
  have h1 := token_to_prec_symb_out hcall (by assumption)
  have h2 := parse_expr_loop_out hcall _ _ _ _ _ _ _ h
  refine prefix_step h2 (prefix_step h1 ?_)
  rw [set_active_stack_out]
  split <;> exact List.prefix_refl _

theorem parse_expression_out {pe : PState → Res PState (data_type × PState)}
    (hpe : ∀ s t s1, pe s = Res.ok (t, s1) → s.out <+: s1.out)
    {s s1 : PState} {t : data_type}
    (h : parse_expression pe s = Res.ok (t, s1)) : s.out <+: s1.out := by
  unfold parse_expression at h
  dsimp only at h
  repeat' split at h
  all_goals first | (cases h; done) | skip
  all_goals (simp only [Res.ok.injEq] at h; subst h; exact hpe _ _ _ (by assumption))

theorem parse_arguments_loop_out {pe : PState → Res PState (data_type × PState)}
    (hpe : ∀ s t s1, pe s = Res.ok (t, s1) → s.out <+: s1.out) (func_data : func_data_t) :
    ∀ (fuel argIndex : Nat) (s s1 : PState),
      parse_arguments_loop pe func_data fuel argIndex s = Res.ok s1 → s.out <+: s1.out := by
  intro fuel
  induction fuel with
  | zero => intro argIndex s s1 h; simp [parse_arguments_loop] at h
  | succ fuel ih =>
    intro argIndex s s1 h
    unfold parse_arguments_loop at h
    dsimp only at h
    repeat' split at h
    all_goals first | (cases h; done) | skip
    all_goals first
      | (simp only [Res.ok.injEq] at h; subst h; exact List.prefix_refl _)
      | (have h1 := parse_expression_out hpe (by assumption)
         have h2 := ih _ _ _ h
         refine prefix_step h2 (prefix_step ?_ h1)
         first | exact List.prefix_refl _ | (split <;> exact List.prefix_refl _))

theorem parse_function_call_expr_out {pe : PState → Res PState (data_type × PState)}
    (hpe : ∀ s t s1, pe s = Res.ok (t, s1) → s.out <+: s1.out)
    {fuel : Nat} {s s1 : PState} {t : data_type}
    (h : parse_function_call_expr pe fuel s = Res.ok (t, s1)) : s.out <+: s1.out := by
  unfold parse_function_call_expr parse_arguments at h
  dsimp only at h
  repeat' split at h
  all_goals first | (cases h; done) | skip
  all_goals (simp only [Res.ok.injEq, Prod.mk.injEq] at h; obtain ⟨-, rfl⟩ := h)
  have h1 := parse_arguments_loop_out hpe _ _ _ _ _ (by assumption)
  exact prefix_app _ h1

theorem parse_expr_rec_out (fuel : Nat) :
    ∀ (depth : Nat) (s : PState) (t : data_type) (s1 : PState),
      parse_expr_rec depth fuel s = Res.ok (t, s1) → s.out <+: s1.out := by
  intro depth
  induction depth with
  | zero => intro s t s1 h; simp [parse_expr_rec] at h
  | succ depth ih =>
    intro s t s1 h
    unfold parse_expr_rec at h
    exact parse_expr_out (fun s t s1 h1 => parse_function_call_expr_out ih h1) h

theorem parse_function_call_out {pe : PState → Res PState (data_type × PState)}
    (hpe : ∀ s t s1, pe s = Res.ok (t, s1) → s.out <+: s1.out)
    {fuel : Nat} {id_name : String} {s s1 : PState}
    (h : parse_function_call pe fuel id_name s = Res.ok s1) : s.out <+: s1.out := by
  unfold parse_function_call parse_arguments at h
  dsimp only at h
  repeat' split at h
  all_goals first | (cases h; done) | skip
  all_goals (simp only [Res.ok.injEq] at h; subst h)
  have h1 := parse_arguments_loop_out hpe _ _ _ _ _ (by assumption)
  exact prefix_app _ h1

theorem parse_decl_out {pe : PState → Res PState (data_type × PState)}
    (hpe : ∀ s t s1, pe s = Res.ok (t, s1) → s.out <+: s1.out)
    {keyword : token_type} {isConst : Bool} {s s1 : PState}
    (h : parse_decl pe keyword isConst s = Res.ok s1) : s.out <+: s1.out := by
  unfold parse_decl at h
  dsimp only at h
  repeat' split at h
  all_goals first | (cases h; done) | skip
  all_goals try simp only [Res.bind] at h
  all_goals repeat' split at h
  all_goals first | (cases h; done) | skip
  all_goals (simp only [Res.ok.injEq] at h; subst h)
  all_goals have h1 := parse_expression_out hpe (by assumption)
  all_goals exact prefix_app _ (prefix_step h1 (prefix_app _ (List.prefix_refl _)))

theorem parse_assignment_out {pe : PState → Res PState (data_type × PState)}
    (hpe : ∀ s t s1, pe s = Res.ok (t, s1) → s.out <+: s1.out)
    {id_name : Option String} {s s1 : PState}
    (h : parse_assignment pe id_name s = Res.ok s1) : s.out <+: s1.out := by
  unfold parse_assignment at h
  dsimp only at h
  repeat' split at h
  all_goals first | (cases h; done) | skip
  all_goals try simp only [Res.bind] at h
  all_goals repeat' split at h
  all_goals first | (cases h; done) | skip
  all_goals (simp only [Res.ok.injEq] at h; subst h)
  all_goals have h1 := parse_expression_out hpe (by assumption)
  all_goals exact prefix_app _ h1

theorem parse_return_statement_out {pe : PState → Res PState (data_type × PState)}
    (hpe : ∀ s t s1, pe s = Res.ok (t, s1) → s.out <+: s1.out) {s s1 : PState}
    (h : parse_return_statement pe s = Res.ok s1) : s.out <+: s1.out := by
  unfold parse_return_statement at h
  dsimp only at h
  repeat' split at h
  all_goals first | (cases h; done) | skip
  all_goals (simp only [Res.ok.injEq] at h; subst h)
  · exact List.prefix_append _ _
  · have h1 := parse_expression_out hpe (by assumption)
    exact prefix_app _ h1

theorem parse_block_body_out {stmts : PState → Res PState PState}
    (hst : ∀ s s1, stmts s = Res.ok s1 → s.out <+: s1.out) {s s1 : PState}
    (h : parse_block_body stmts s = Res.ok s1) : s.out <+: s1.out := by
  unfold parse_block_body at h
  repeat' split at h
  all_goals first | (cases h; done) | skip
  simp only [Res.ok.injEq] at h
  subst h
  exact hst _ _ (by assumption)

theorem check_unused_out {s s1 : PState} (h : check_unused s = Res.ok s1) : s1 = s := by
  unfold check_unused at h
  split at h
  · cases h
  · simp only [Res.ok.injEq] at h
    exact h.symm

theorem gen_if_start_out (s : PState) : s.out <+: (gen_if_start s).out :=
  List.prefix_append _ _

theorem gen_if_nullable_start_out (name : String) (s : PState) :
    s.out <+: (gen_if_nullable_start name s).out :=
  List.prefix_append _ _

theorem gen_while_start_out (s : PState) : s.out <+: (gen_while_start s).out :=
  List.prefix_append _ _

theorem gen_if_else_out {s s1 : PState} (h : gen_if_else s = Res.ok s1) :
    s.out <+: s1.out := by
  unfold gen_if_else at h
  split at h
  · cases h
  · simp only [Res.ok.injEq] at h
    subst h
    exact List.prefix_append _ _

theorem gen_if_end_out {s s1 : PState} (h : gen_if_end s = Res.ok s1) :
    s.out <+: s1.out := by
  unfold gen_if_end at h
  split at h
  · cases h
  · simp only [Res.ok.injEq] at h
    subst h
    exact List.prefix_append _ _

theorem gen_if_nullable_else_out {s s1 : PState} (h : gen_if_nullable_else s = Res.ok s1) :
    s.out <+: s1.out := by
  unfold gen_if_nullable_else at h
  split at h
  · cases h
  · simp only [Res.ok.injEq] at h
    subst h
    exact List.prefix_append _ _

theorem gen_if_nullable_end_out {s s1 : PState} (h : gen_if_nullable_end s = Res.ok s1) :
    s.out <+: s1.out := by
  unfold gen_if_nullable_end at h
  split at h
  · cases h
  · simp only [Res.ok.injEq] at h
    subst h
    exact List.prefix_append _ _

theorem gen_while_cond_out {s s1 : PState} (h : gen_while_cond s = Res.ok s1) :
    s.out <+: s1.out := by
  unfold gen_while_cond at h
  split at h
  · cases h
  · simp only [Res.ok.injEq] at h
    subst h
    exact List.prefix_append _ _

theorem gen_while_end_out {s s1 : PState} (h : gen_while_end s = Res.ok s1) :
    s.out <+: s1.out := by
  unfold gen_while_end at h
  split at h
  · cases h
  · simp only [Res.ok.injEq] at h
    subst h
    exact List.prefix_append _ _

theorem gen_while_nullable_cond_out {name : String} {s s1 : PState}
    (h : gen_while_nullable_cond name s = Res.ok s1) : s.out <+: s1.out := by
  unfold gen_while_nullable_cond at h
  split at h
  · cases h
  · simp only [Res.ok.injEq] at h
    subst h
    exact List.prefix_append _ _

theorem gen_while_nullable_end_out {s s1 : PState} (h : gen_while_nullable_end s = Res.ok s1) :
    s.out <+: s1.out := by
  unfold gen_while_nullable_end at h
  split at h
  · cases h
  · simp only [Res.ok.injEq] at h
    subst h
    exact List.prefix_append _ _

theorem insert_binding_out {id_name : String} {cond_type : data_type} {s s1 : PState}
    (h : insert_binding id_name cond_type s = Res.ok s1) : s1.out = s.out := by
  unfold insert_binding at h
  repeat' split at h
  all_goals first | (cases h; done) | skip
  all_goals (simp only [Res.ok.injEq] at h; subst h; rfl)

theorem parse_else_block_out {stmts : PState → Res PState PState}
    (hst : ∀ s s1, stmts s = Res.ok s1 → s.out <+: s1.out)
    {gen_else gen_end : PState → Res PState PState}
    (hge : ∀ s s1, gen_else s = Res.ok s1 → s.out <+: s1.out)
    (hgd : ∀ s s1, gen_end s = Res.ok s1 → s.out <+: s1.out) {s s1 : PState}
    (h : parse_else_block stmts gen_else gen_end s = Res.ok s1) : s.out <+: s1.out := by
  unfold parse_else_block at h
  dsimp only at h
  repeat' split at h
  all_goals first | (cases h; done) | skip
  all_goals try simp only [Res.bind] at h
  all_goals repeat' split at h
  all_goals first | (cases h; done) | skip
  have h1 := hge _ _ (by assumption)
  have h2 := parse_block_body_out hst (by assumption)
  have h3 := check_unused_out (by assumption)
  have h4 := hgd _ _ h
  subst h3
  exact prefix_step h4 (prefix_step h2 h1)

theorem parse_if_nullable_statement_out {stmts : PState → Res PState PState}
    (hst : ∀ s s1, stmts s = Res.ok s1 → s.out <+: s1.out) {cond_type : data_type}
    {s s1 : PState} (h : parse_if_nullable_statement stmts cond_type s = Res.ok s1) :
    s.out <+: s1.out := by
  unfold parse_if_nullable_statement at h
  dsimp only at h
  repeat' split at h
  all_goals first | (cases h; done) | skip
  all_goals try simp only [Res.bind] at h
  all_goals repeat' split at h
  all_goals first | (cases h; done) | skip
  have h1 := insert_binding_out (by assumption)
  have h2 := parse_block_body_out hst (by assumption)
  have h3 := check_unused_out (by assumption)
  have h4 := parse_else_block_out hst (fun _ _ => gen_if_nullable_else_out)
    (fun _ _ => gen_if_nullable_end_out) h
  subst h3
  simp only [fetch_next_token_out, exit_scope_out, enter_scope_out, h1] at h2 h4
  exact prefix_step h4 (prefix_step h2 (gen_if_nullable_start_out _ _))

theorem parse_if_statement_out {pe : PState → Res PState (data_type × PState)}
    (hpe : ∀ s t s1, pe s = Res.ok (t, s1) → s.out <+: s1.out)
    {stmts : PState → Res PState PState}
    (hst : ∀ s s1, stmts s = Res.ok s1 → s.out <+: s1.out)
    {s s1 : PState} (h : parse_if_statement pe stmts s = Res.ok s1) :
    s.out <+: s1.out := by
  unfold parse_if_statement at h
  dsimp only at h
  repeat' split at h
  all_goals first | (cases h; done) | skip
  all_goals try simp only [Res.bind] at h
  all_goals repeat' split at h
  all_goals first | (cases h; done) | skip
  · have h1 := parse_expression_out hpe (by assumption)
    have h2 := parse_if_nullable_statement_out hst h
    exact prefix_step h2 h1
  · have h1 := parse_expression_out hpe (by assumption)
    have h2 := parse_block_body_out hst (by assumption)
    have h3 := check_unused_out (by assumption)
    have h4 := gen_if_else_out (by assumption)
    have h5 := parse_else_block_out hst (fun _ _ hh => by
      simp only [Res.ok.injEq] at hh; subst hh; exact List.prefix_refl _)
      (fun _ _ => gen_if_end_out) h
    subst h3
    simp only [fetch_next_token_out, exit_scope_out, enter_scope_out] at h1 h2 h4 h5
    exact prefix_step h5 (prefix_step h4 (prefix_step h2
      (prefix_step (gen_if_start_out _) h1)))

theorem parse_while_nullable_statement_out {stmts : PState → Res PState PState}
    (hst : ∀ s s1, stmts s = Res.ok s1 → s.out <+: s1.out) {cond_type : data_type}
    {s s1 : PState} (h : parse_while_nullable_statement stmts cond_type s = Res.ok s1) :
    s.out <+: s1.out := by
  unfold parse_while_nullable_statement at h
  dsimp only at h
  repeat' split at h
  all_goals first | (cases h; done) | skip
  all_goals try simp only [Res.bind] at h
  all_goals repeat' split at h
  all_goals first | (cases h; done) | skip
  have h0 := gen_while_nullable_cond_out (by assumption)
  have h1 := insert_binding_out (by assumption)
  have h2 := parse_block_body_out hst (by assumption)
  have h3 := check_unused_out (by assumption)
  have h4 := gen_while_nullable_end_out (by assumption)
  simp only [Res.ok.injEq] at h
  subst h
  subst h3
  simp only [fetch_next_token_out, exit_scope_out, enter_scope_out, h1] at h0 h2 h4 ⊢
  exact prefix_step h4 (prefix_step h2 h0)

theorem parse_while_statement_out {pe : PState → Res PState (data_type × PState)}
    (hpe : ∀ s t s1, pe s = Res.ok (t, s1) → s.out <+: s1.out)
    {stmts : PState → Res PState PState}
    (hst : ∀ s s1, stmts s = Res.ok s1 → s.out <+: s1.out)
    {s s1 : PState} (h : parse_while_statement pe stmts s = Res.ok s1) :
    s.out <+: s1.out := by
  unfold parse_while_statement at h
  dsimp only at h
  repeat' split at h
  all_goals first | (cases h; done) | skip
  all_goals try simp only [Res.bind] at h
  all_goals repeat' split at h
  all_goals first | (cases h; done) | skip
  · have h1 := parse_expression_out hpe (by assumption)
    have h2 := parse_while_nullable_statement_out hst h
    simp only [fetch_next_token_out] at h1 h2
    exact prefix_step h2 (prefix_step h1 (gen_while_start_out _))
  · have h1 := parse_expression_out hpe (by assumption)
    have h2 := gen_while_cond_out (by assumption)
    have h3 := parse_block_body_out hst (by assumption)
    have h4 := check_unused_out (by assumption)
    have h5 := gen_while_end_out (by assumption)
    simp only [Res.ok.injEq] at h
    subst h
    subst h4
    simp only [fetch_next_token_out, exit_scope_out, enter_scope_out] at h1 h2 h3 h5 ⊢
    exact prefix_step h5 (prefix_step h3 (prefix_step h2
      (prefix_step h1 (gen_while_start_out _))))

theorem parse_statement_out {pe : PState → Res PState (data_type × PState)}
    (hpe : ∀ s t s1, pe s = Res.ok (t, s1) → s.out <+: s1.out) {fuel : Nat}
    {stmts : PState → Res PState PState}
    (hst : ∀ s s1, stmts s = Res.ok s1 → s.out <+: s1.out)
    {s s1 : PState} (h : parse_statement pe fuel stmts s = Res.ok s1) :
    s.out <+: s1.out := by
  unfold parse_statement parse_var_decl parse_const_decl at h
  dsimp only at h
  repeat' split at h
  all_goals first | (cases h; done) | skip
  · exact parse_decl_out hpe h
  · exact parse_decl_out hpe h
  · have h1 := parse_assignment_out hpe h
    exact h1
  · have h1 := parse_function_call_out hpe h
    exact h1
  · have h1 := parse_assignment_out hpe h
    exact h1
  · exact parse_if_statement_out hpe hst h
  · exact parse_while_statement_out hpe hst h
  · exact parse_return_statement_out hpe h
  · simp only [Res.ok.injEq] at h
    subst h
    exact List.prefix_refl _

theorem parse_statements_out {pe : PState → Res PState (data_type × PState)}
    (hpe : ∀ s t s1, pe s = Res.ok (t, s1) → s.out <+: s1.out) :
    ∀ (fuel : Nat) (s s1 : PState), parse_statements pe fuel s = Res.ok s1 →
      s.out <+: s1.out := by
  intro fuel
  induction fuel with
  | zero => intro s s1 h; simp [parse_statements] at h
  | succ fuel ih =>
    intro s s1 h
    unfold parse_statements at h
    repeat' split at h
    all_goals first | (cases h; done) | skip
    · have h1 := parse_statement_out hpe ih (by assumption)
      exact prefix_step (ih _ _ h) h1
    · simp only [Res.ok.injEq] at h
      subst h
      exact List.prefix_refl _

theorem parse_parameter_out {func_data func_data1 : func_data_t} {s s1 : PState}
    (h : parse_parameter func_data s = Res.ok (func_data1, s1)) : s.out <+: s1.out := by
  unfold parse_parameter at h
  dsimp only at h
  repeat' split at h
  all_goals first | (cases h; done) | skip
  all_goals (simp only [Res.ok.injEq, Prod.mk.injEq] at h; obtain ⟨-, rfl⟩ := h)
  · exact List.prefix_refl _
  · exact List.prefix_append _ _

theorem parse_parameters_loop_out (fuel : Nat) :
    ∀ (func_data func_data1 : func_data_t) (s s1 : PState),
      parse_parameters_loop fuel func_data s = Res.ok (func_data1, s1) →
      s.out <+: s1.out := by
  induction fuel with
  | zero => intro _ _ _ _ h; cases h
  | succ fuel ih =>
    intro func_data func_data1 s s1 h
    unfold parse_parameters_loop at h
    simp only [Res.bind] at h
    repeat' split at h
    all_goals first | (cases h; done) | skip
    all_goals have h1 := parse_parameter_out (by assumption)
    · have h2 := ih _ _ _ _ h
      exact prefix_step h2 h1
    · simp only [Res.ok.injEq, Prod.mk.injEq] at h
      obtain ⟨-, rfl⟩ := h
      exact h1
    · simp only [Res.ok.injEq, Prod.mk.injEq] at h
      obtain ⟨-, rfl⟩ := h
      exact h1

theorem parse_parameters_out {fuel : Nat} {func_data func_data1 : func_data_t} {s s1 : PState}
    (h : parse_parameters fuel func_data s = Res.ok (func_data1, s1)) : s.out <+: s1.out := by
  unfold parse_parameters at h
  dsimp only at h
  split at h
  · simp only [Res.ok.injEq, Prod.mk.injEq] at h
    obtain ⟨-, rfl⟩ := h
    exact List.prefix_refl _
  · exact parse_parameters_loop_out _ _ _ _ _ h

theorem skip_to_opening_bracket_out {s s1 : PState}
    (h : skip_to_opening_bracket s = some s1) : s1.out = s.out := by
  unfold skip_to_opening_bracket at h
  split at h
  · cases h
  · simp only [Option.some.injEq] at h
    subst h
    rfl

theorem parse_function_definition_out {pe : PState → Res PState (data_type × PState)}
    (hpe : ∀ s t s1, pe s = Res.ok (t, s1) → s.out <+: s1.out) {fuel : Nat}
    {s s1 : PState} (h : parse_function_definition pe fuel s = Res.ok s1) :
    s.out <+: s1.out := by
  unfold parse_function_definition at h
  dsimp only at h
  repeat' split at h
  all_goals first | (cases h; done) | skip
  all_goals try simp only [Res.bind] at h
  all_goals repeat' split at h
  all_goals first | (cases h; done) | skip
  all_goals
    have h1 := parse_parameters_out (by assumption)
    have h2 := skip_to_opening_bracket_out (by assumption)
    have h3 := parse_statements_out hpe _ _ _ (by assumption)
    have h4 := check_unused_out (by assumption)
    simp only [Res.ok.injEq] at h
    subst h
    subst h4
    simp only [fetch_next_token_out, exit_scope_out, enter_scope_out, emit_out, h2] at h1 h3 ⊢
    have h5 := prefix_step h3 (prefix_step h1 (List.prefix_append _ _))
    repeat' split
    all_goals first
      | exact h5
      | exact prefix_app _ h5
      | exact prefix_app _ (prefix_app _ h5)

theorem parse_program_pass2_out {pe : PState → Res PState (data_type × PState)}
    (hpe : ∀ s t s1, pe s = Res.ok (t, s1) → s.out <+: s1.out) :
    ∀ (fuel : Nat) (s s1 : PState), parse_program_pass2 pe fuel s = Res.ok s1 →
      s.out <+: s1.out := by
  intro fuel
  induction fuel with
  | zero => intro s s1 h; simp [parse_program_pass2] at h
  | succ fuel ih =>
    intro s s1 h
    unfold parse_program_pass2 at h
    dsimp only at h
    repeat' split at h
    all_goals first | (cases h; done) | skip
    all_goals try simp only [Res.bind] at h
    all_goals repeat' split at h
    all_goals first | (cases h; done) | skip
    · have h1 := parse_function_definition_out hpe (by assumption)
      simp only [Res.ok.injEq] at h
      subst h
      exact h1
    · have h1 := parse_function_definition_out hpe (by assumption)
      exact prefix_step (ih _ _ h) h1
    · simp only [Res.ok.injEq] at h
      subst h
      exact List.prefix_refl _

/-! ## No routine ends the process with code 0 -/

theorem check_arithmetic_compatibility_exit {a b : data_type} {x y : Bool} {c : Nat}
    (h : check_arithmetic_compatibility a b x y = Res.exit c) : c ≠ 0 := by
  unfold check_arithmetic_compatibility at h
  try dsimp only at h
  repeat' split at h
  all_goals first | (cases h; done) | skip
  all_goals try simp only [Res.bind] at h
  all_goals repeat' split at h
  all_goals first | (cases h; done) | skip
  all_goals first
    | (cases h; decide)

theorem check_equality_compatibility_exit {a b : data_type} {x y : Bool} {c : Nat}
    (h : check_equality_compatibility a b x y = Res.exit c) : c ≠ 0 := by
  unfold check_equality_compatibility at h
  try dsimp only at h
  repeat' split at h
  all_goals first | (cases h; done) | skip
  all_goals try simp only [Res.bind] at h
  all_goals repeat' split at h
  all_goals first | (cases h; done) | skip
  all_goals first
    | (cases h; decide)

theorem check_relational_compatibility_exit {a b : data_type} {x y : Bool} {c : Nat}
    (h : check_relational_compatibility a b x y = Res.exit c) : c ≠ 0 := by
  unfold check_relational_compatibility at h
  try dsimp only at h
  repeat' split at h
  all_goals first | (cases h; done) | skip
  all_goals try simp only [Res.bind] at h
  all_goals repeat' split at h
  all_goals first | (cases h; done) | skip
  all_goals first
    | (cases h; decide)

theorem check_operation_exit {op : prec_sym_t} {lhs rhs : StackData} {c : Nat}
    (h : check_operation op lhs rhs = Res.exit c) : c ≠ 0 := by
  unfold check_operation at h
  try dsimp only at h
  repeat' split at h
  all_goals first | (cases h; done) | skip
  all_goals try simp only [Res.bind] at h
  all_goals repeat' split at h
  all_goals first | (cases h; done) | skip
  all_goals first
    | (cases h; decide)
    | (cases h; first | exact check_arithmetic_compatibility_exit (by assumption) | exact check_equality_compatibility_exit (by assumption) | exact check_relational_compatibility_exit (by assumption))
    | exact check_arithmetic_compatibility_exit h | exact check_equality_compatibility_exit h | exact check_relational_compatibility_exit h

theorem reduce_id_exit {table : symtable_t} {top : StackData} {rest : List StackData} {c : Nat}
    (h : reduce_id table top rest = Res.exit c) : c ≠ 0 := by
  unfold reduce_id at h
  try dsimp only at h
  repeat' split at h
  all_goals first | (cases h; done) | skip
  all_goals try simp only [Res.bind] at h
  all_goals repeat' split at h
  all_goals first | (cases h; done) | skip
  all_goals first
    | (cases h; decide)

theorem reduce_exit {table : symtable_t} {stack : List StackData} {freed_rhs freed_lhs : Bool}
    {c : Nat} (h : reduce_freed table stack freed_rhs freed_lhs = Res.exit c) : c ≠ 0 := by
  unfold reduce_freed at h
  try dsimp only at h
  repeat' split at h
  all_goals first | (cases h; done) | skip
  all_goals try simp only [Res.bind] at h
  all_goals repeat' split at h
  all_goals first | (cases h; done) | skip
  all_goals first
    | (cases h; decide)
    | (cases h; first | exact reduce_id_exit (by assumption) | exact check_operation_exit (by assumption))
    | exact reduce_id_exit h | exact check_operation_exit h

theorem token_to_prec_symb_exit {call : PState → Res PState (data_type × PState)}
    (hcall : ∀ s c, call s = Res.exit c → c ≠ 0) {s : PState} {c : Nat}
    (h : token_to_prec_symb call s = Res.exit c) : c ≠ 0 := by
  unfold token_to_prec_symb at h
  try dsimp only at h
  repeat' split at h
  all_goals first | (cases h; done) | skip
  all_goals try simp only [Res.bind] at h
  all_goals repeat' split at h
  all_goals first | (cases h; done) | skip
  all_goals first
    | (cases h; decide)
    | (cases h; first | exact hcall _ _ (by assumption))
    | exact hcall _ _ h

theorem parse_expr_step_exit {call : PState → Res PState (data_type × PState)}
    (hcall : ∀ s c, call s = Res.exit c → c ≠ 0) {u : Bool} {cd : StackData} {cs : prec_sym_t} {s : PState} {c : Nat}
    (h : parse_expr_step call u cd cs s = Res.exit c) : c ≠ 0 := by
  unfold parse_expr_step at h
  try dsimp only at h
  repeat' split at h
  all_goals first | (cases h; done) | skip
  all_goals try simp only [Res.bind] at h
  all_goals repeat' split at h
  all_goals first | (cases h; done) | skip
  all_goals first
    | (cases h; decide)
    | (cases h; first | exact token_to_prec_symb_exit hcall (by assumption) | exact reduce_exit (by assumption))
    | exact token_to_prec_symb_exit hcall h | exact reduce_exit h

theorem parse_expr_finish_exit {u : Bool} {s : PState} {c : Nat}
    (h : parse_expr_finish u s = Res.exit c) : c ≠ 0 := by
  unfold parse_expr_finish at h
  try dsimp only at h
  repeat' split at h
  all_goals first | (cases h; done) | skip
  all_goals try simp only [Res.bind] at h
  all_goals repeat' split at h
  all_goals first | (cases h; done) | skip
  all_goals first
    | (cases h; decide)

theorem parse_expr_loop_exit {call : PState → Res PState (data_type × PState)}
    (hcall : ∀ s c, call s = Res.exit c → c ≠ 0) :
    ∀ (fuel : Nat) (u : Bool) (cd : StackData) (cs : prec_sym_t) (s : PState) (c : Nat),
      parse_expr_loop call fuel u cd cs s = Res.exit c → c ≠ 0 := by
  intro fuel
  induction fuel with
  | zero => intros; simp_all [parse_expr_loop]
  | succ fuel ih =>
    intros
    rename_i h
    unfold parse_expr_loop at h
    try dsimp only at h
    repeat' split at h
    all_goals first | (cases h; done) | skip
    all_goals try simp only [Res.bind] at h
    all_goals repeat' split at h
    all_goals first | (cases h; done) | skip
    all_goals first
      | (cases h; decide)
      | (cases h; first | exact parse_expr_step_exit hcall (by assumption) | exact parse_expr_finish_exit (by assumption))
      | exact parse_expr_step_exit hcall h | exact parse_expr_finish_exit h | exact ih _ _ h | exact ih _ _ _ h | exact ih _ _ _ _ h | exact ih _ _ _ _ _ h | exact ih _ _ _ _ _ _ h | exact ih _ _ _ _ _ _ _ h

theorem parse_expr_exit {call : PState → Res PState (data_type × PState)}
    (hcall : ∀ s c, call s = Res.exit c → c ≠ 0) {fuel : Nat} {s : PState} {c : Nat}
    (h : parse_expr call fuel s = Res.exit c) : c ≠ 0 := by
  unfold parse_expr at h
  try dsimp only at h
  repeat' split at h
  all_goals first | (cases h; done) | skip
  all_goals try simp only [Res.bind] at h
  all_goals repeat' split at h
  all_goals first | (cases h; done) | skip
  all_goals first
    | (cases h; decide)
    | (cases h; first | exact token_to_prec_symb_exit hcall (by assumption) | exact parse_expr_loop_exit hcall _ _ _ _ _ _ (by assumption))
    | exact token_to_prec_symb_exit hcall h | exact parse_expr_loop_exit hcall _ _ _ _ _ _ h

theorem parse_expression_exit {pe : PState → Res PState (data_type × PState)}
    (hpe : ∀ s c, pe s = Res.exit c → c ≠ 0) {s : PState} {c : Nat}
    (h : parse_expression pe s = Res.exit c) : c ≠ 0 := by
  unfold parse_expression at h
  try dsimp only at h
  repeat' split at h
  all_goals first | (cases h; done) | skip
  all_goals try simp only [Res.bind] at h
  all_goals repeat' split at h
  all_goals first | (cases h; done) | skip
  all_goals first
    | (cases h; decide)
    | (cases h; first | exact hpe _ _ (by assumption))
    | exact hpe _ _ h

theorem parse_arguments_loop_exit {pe : PState → Res PState (data_type × PState)}
    (hpe : ∀ s c, pe s = Res.exit c → c ≠ 0) (func_data : func_data_t) :
    ∀ (fuel : Nat) (argIndex : Nat) (s : PState) (c : Nat),
      parse_arguments_loop pe func_data fuel argIndex s = Res.exit c → c ≠ 0 := by
  intro fuel
  induction fuel with
  | zero => intros; simp_all [parse_arguments_loop]
  | succ fuel ih =>
    intros
    rename_i h
    unfold parse_arguments_loop at h
    try dsimp only at h
    repeat' split at h
    all_goals first | (cases h; done) | skip
    all_goals try simp only [Res.bind] at h
    all_goals repeat' split at h
    all_goals first | (cases h; done) | skip
    all_goals first
      | (cases h; decide)
      | (cases h; first | exact parse_expression_exit hpe (by assumption))
      | exact parse_expression_exit hpe h | exact ih _ _ h | exact ih _ _ _ h | exact ih _ _ _ _ h | exact ih _ _ _ _ _ h | exact ih _ _ _ _ _ _ h | exact ih _ _ _ _ _ _ _ h

theorem parse_function_call_expr_exit {pe : PState → Res PState (data_type × PState)}
    (hpe : ∀ s c, pe s = Res.exit c → c ≠ 0) {fuel : Nat} {s : PState} {c : Nat}
    (h : parse_function_call_expr pe fuel s = Res.exit c) : c ≠ 0 := by
  unfold parse_function_call_expr parse_arguments at h
  try dsimp only at h
  repeat' split at h
  all_goals first | (cases h; done) | skip
  all_goals try simp only [Res.bind] at h
  all_goals repeat' split at h
  all_goals first | (cases h; done) | skip
  all_goals first
    | (cases h; decide)
    | (cases h; first | exact parse_arguments_loop_exit hpe _ _ _ _ _ (by assumption))
    | exact parse_arguments_loop_exit hpe _ _ _ _ _ h

theorem parse_expr_rec_exit (fuel : Nat) :
    ∀ (depth : Nat) (s : PState) (c : Nat), parse_expr_rec depth fuel s = Res.exit c → c ≠ 0 := by
  intro depth
  induction depth with
  | zero => intro s c h; simp [parse_expr_rec] at h
  | succ depth ih =>
    intro s c h
    unfold parse_expr_rec at h
    exact parse_expr_exit (fun s c h1 => parse_function_call_expr_exit ih h1) h

theorem parse_function_call_exit {pe : PState → Res PState (data_type × PState)}
    (hpe : ∀ s c, pe s = Res.exit c → c ≠ 0) {fuel : Nat} {id_name : String} {s : PState} {c : Nat}
    (h : parse_function_call pe fuel id_name s = Res.exit c) : c ≠ 0 := by
  unfold parse_function_call parse_arguments at h
  try dsimp only at h
  repeat' split at h
  all_goals first | (cases h; done) | skip
  all_goals try simp only [Res.bind] at h
  all_goals repeat' split at h
  all_goals first | (cases h; done) | skip
  all_goals first
    | (cases h; decide)
    | (cases h; first | exact parse_arguments_loop_exit hpe _ _ _ _ _ (by assumption))
    | exact parse_arguments_loop_exit hpe _ _ _ _ _ h

theorem parse_decl_exit {pe : PState → Res PState (data_type × PState)}
    (hpe : ∀ s c, pe s = Res.exit c → c ≠ 0) {keyword : token_type} {isConst : Bool} {s : PState} {c : Nat}
    (h : parse_decl pe keyword isConst s = Res.exit c) : c ≠ 0 := by
  unfold parse_decl at h
  try dsimp only at h
  repeat' split at h
  all_goals first | (cases h; done) | skip
  all_goals try simp only [Res.bind] at h
  all_goals repeat' split at h
  all_goals first | (cases h; done) | skip
  all_goals first
    | (cases h; decide)
    | (cases h; first | exact parse_expression_exit hpe (by assumption))
    | exact parse_expression_exit hpe h

theorem parse_assignment_exit {pe : PState → Res PState (data_type × PState)}
    (hpe : ∀ s c, pe s = Res.exit c → c ≠ 0) {id_name : Option String} {s : PState} {c : Nat}
    (h : parse_assignment pe id_name s = Res.exit c) : c ≠ 0 := by
  unfold parse_assignment at h
  try dsimp only at h
  repeat' split at h
  all_goals first | (cases h; done) | skip
  all_goals try simp only [Res.bind] at h
  all_goals repeat' split at h
  all_goals first | (cases h; done) | skip
  all_goals first
    | (cases h; decide)
    | (cases h; first | exact parse_expression_exit hpe (by assumption))
    | exact parse_expression_exit hpe h

theorem parse_return_statement_exit {pe : PState → Res PState (data_type × PState)}
    (hpe : ∀ s c, pe s = Res.exit c → c ≠ 0) {s : PState} {c : Nat}
    (h : parse_return_statement pe s = Res.exit c) : c ≠ 0 := by
  unfold parse_return_statement at h
  try dsimp only at h
  repeat' split at h
  all_goals first | (cases h; done) | skip
  all_goals try simp only [Res.bind] at h
  all_goals repeat' split at h
  all_goals first | (cases h; done) | skip
  all_goals first
    | (cases h; decide)
    | (cases h; first | exact parse_expression_exit hpe (by assumption))
    | exact parse_expression_exit hpe h

theorem parse_block_body_exit {stmts : PState → Res PState PState}
    (hst : ∀ s c, stmts s = Res.exit c → c ≠ 0) {s : PState} {c : Nat}
    (h : parse_block_body stmts s = Res.exit c) : c ≠ 0 := by
  unfold parse_block_body at h
  try dsimp only at h
  repeat' split at h
  all_goals first | (cases h; done) | skip
  all_goals try simp only [Res.bind] at h
  all_goals repeat' split at h
  all_goals first | (cases h; done) | skip
  all_goals first
    | (cases h; decide)
    | (cases h; first | exact hst _ _ (by assumption))
    | exact hst _ _ h

theorem check_unused_exit {s : PState} {c : Nat}
    (h : check_unused s = Res.exit c) : c ≠ 0 := by
  unfold check_unused at h
  try dsimp only at h
  repeat' split at h
  all_goals first | (cases h; done) | skip
  all_goals try simp only [Res.bind] at h
  all_goals repeat' split at h
  all_goals first | (cases h; done) | skip
  all_goals first
    | (cases h; decide)

theorem gen_if_else_exit {s : PState} {c : Nat}
    (h : gen_if_else s = Res.exit c) : c ≠ 0 := by
  unfold gen_if_else at h
  try dsimp only at h
  repeat' split at h
  all_goals first | (cases h; done) | skip
  all_goals try simp only [Res.bind] at h
  all_goals repeat' split at h
  all_goals first | (cases h; done) | skip
  all_goals first
    | (cases h; decide)

theorem gen_if_end_exit {s : PState} {c : Nat}
    (h : gen_if_end s = Res.exit c) : c ≠ 0 := by
  unfold gen_if_end at h
  try dsimp only at h
  repeat' split at h
  all_goals first | (cases h; done) | skip
  all_goals try simp only [Res.bind] at h
  all_goals repeat' split at h
  all_goals first | (cases h; done) | skip
  all_goals first
    | (cases h; decide)

theorem gen_if_nullable_else_exit {s : PState} {c : Nat}
    (h : gen_if_nullable_else s = Res.exit c) : c ≠ 0 := by
  unfold gen_if_nullable_else at h
  try dsimp only at h
  repeat' split at h
  all_goals first | (cases h; done) | skip
  all_goals try simp only [Res.bind] at h
  all_goals repeat' split at h
  all_goals first | (cases h; done) | skip
  all_goals first
    | (cases h; decide)

theorem gen_if_nullable_end_exit {s : PState} {c : Nat}
    (h : gen_if_nullable_end s = Res.exit c) : c ≠ 0 := by
  unfold gen_if_nullable_end at h
  try dsimp only at h
  repeat' split at h
  all_goals first | (cases h; done) | skip
  all_goals try simp only [Res.bind] at h
  all_goals repeat' split at h
  all_goals first | (cases h; done) | skip
  all_goals first
    | (cases h; decide)

theorem gen_while_cond_exit {s : PState} {c : Nat}
    (h : gen_while_cond s = Res.exit c) : c ≠ 0 := by
  unfold gen_while_cond at h
  try dsimp only at h
  repeat' split at h
  all_goals first | (cases h; done) | skip
  all_goals try simp only [Res.bind] at h
  all_goals repeat' split at h
  all_goals first | (cases h; done) | skip
  all_goals first
    | (cases h; decide)

theorem gen_while_end_exit {s : PState} {c : Nat}
    (h : gen_while_end s = Res.exit c) : c ≠ 0 := by
  unfold gen_while_end at h
  try dsimp only at h
  repeat' split at h
  all_goals first | (cases h; done) | skip
  all_goals try simp only [Res.bind] at h
  all_goals repeat' split at h
  all_goals first | (cases h; done) | skip
  all_goals first
    | (cases h; decide)

theorem gen_while_nullable_end_exit {s : PState} {c : Nat}
    (h : gen_while_nullable_end s = Res.exit c) : c ≠ 0 := by
  unfold gen_while_nullable_end at h
  try dsimp only at h
  repeat' split at h
  all_goals first | (cases h; done) | skip
  all_goals try simp only [Res.bind] at h
  all_goals repeat' split at h
  all_goals first | (cases h; done) | skip
  all_goals first
    | (cases h; decide)

theorem gen_while_nullable_cond_exit {name : String} {s : PState} {c : Nat}
    (h : gen_while_nullable_cond name s = Res.exit c) : c ≠ 0 := by
  unfold gen_while_nullable_cond at h
  try dsimp only at h
  repeat' split at h
  all_goals first | (cases h; done) | skip
  all_goals try simp only [Res.bind] at h
  all_goals repeat' split at h
  all_goals first | (cases h; done) | skip
  all_goals first
    | (cases h; decide)

theorem insert_binding_exit {id_name : String} {cond_type : data_type} {s : PState} {c : Nat}
    (h : insert_binding id_name cond_type s = Res.exit c) : c ≠ 0 := by
  unfold insert_binding at h
  try dsimp only at h
  repeat' split at h
  all_goals first | (cases h; done) | skip
  all_goals try simp only [Res.bind] at h
  all_goals repeat' split at h
  all_goals first | (cases h; done) | skip
  all_goals first
    | (cases h; decide)

theorem parse_else_block_exit {stmts : PState → Res PState PState}
    (hst : ∀ s c, stmts s = Res.exit c → c ≠ 0)
    {gen_else gen_end : PState → Res PState PState}
    (hge : ∀ s c, gen_else s = Res.exit c → c ≠ 0)
    (hgd : ∀ s c, gen_end s = Res.exit c → c ≠ 0) {s : PState} {c : Nat}
    (h : parse_else_block stmts gen_else gen_end s = Res.exit c) : c ≠ 0 := by
  unfold parse_else_block at h
  try dsimp only at h
  repeat' split at h
  all_goals first | (cases h; done) | skip
  all_goals try simp only [Res.bind] at h
  all_goals repeat' split at h
  all_goals first | (cases h; done) | skip
  all_goals first
    | (cases h; decide)
    | (cases h; first | exact hge _ _ (by assumption) | exact parse_block_body_exit hst (by assumption) | exact check_unused_exit (by assumption) | exact hgd _ _ (by assumption))
    | exact hge _ _ h | exact parse_block_body_exit hst h | exact check_unused_exit h | exact hgd _ _ h

theorem parse_if_nullable_statement_exit {stmts : PState → Res PState PState}
    (hst : ∀ s c, stmts s = Res.exit c → c ≠ 0) {cond_type : data_type} {s : PState} {c : Nat}
    (h : parse_if_nullable_statement stmts cond_type s = Res.exit c) : c ≠ 0 := by
  unfold parse_if_nullable_statement at h
  try dsimp only at h
  repeat' split at h
  all_goals first | (cases h; done) | skip
  all_goals try simp only [Res.bind] at h
  all_goals repeat' split at h
  all_goals first | (cases h; done) | skip
  all_goals first
    | (cases h; decide)
    | (cases h; first | exact insert_binding_exit (by assumption) | exact parse_block_body_exit hst (by assumption) | exact check_unused_exit (by assumption) | exact parse_else_block_exit hst (fun _ _ => gen_if_nullable_else_exit) (fun _ _ => gen_if_nullable_end_exit) (by assumption))
    | exact insert_binding_exit h | exact parse_block_body_exit hst h | exact check_unused_exit h | exact parse_else_block_exit hst (fun _ _ => gen_if_nullable_else_exit) (fun _ _ => gen_if_nullable_end_exit) h

theorem parse_if_statement_exit {pe : PState → Res PState (data_type × PState)}
    (hpe : ∀ s c, pe s = Res.exit c → c ≠ 0)
    {stmts : PState → Res PState PState}
    (hst : ∀ s c, stmts s = Res.exit c → c ≠ 0) {s : PState} {c : Nat}
    (h : parse_if_statement pe stmts s = Res.exit c) : c ≠ 0 := by
  unfold parse_if_statement at h
  try dsimp only at h
  repeat' split at h
  all_goals first | (cases h; done) | skip
  all_goals try simp only [Res.bind] at h
  all_goals repeat' split at h
  all_goals first | (cases h; done) | skip
  all_goals first
    | (cases h; decide)
    | (cases h; first | exact parse_expression_exit hpe (by assumption) | exact parse_if_nullable_statement_exit hst (by assumption) | exact parse_block_body_exit hst (by assumption) | exact check_unused_exit (by assumption) | exact gen_if_else_exit (by assumption) | exact parse_else_block_exit hst (fun _ _ hh => by cases hh) (fun _ _ => gen_if_end_exit) (by assumption))
    | exact parse_expression_exit hpe h | exact parse_if_nullable_statement_exit hst h | exact parse_block_body_exit hst h | exact check_unused_exit h | exact gen_if_else_exit h | exact parse_else_block_exit hst (fun _ _ hh => by cases hh) (fun _ _ => gen_if_end_exit) h

theorem parse_while_nullable_statement_exit {stmts : PState → Res PState PState}
    (hst : ∀ s c, stmts s = Res.exit c → c ≠ 0) {cond_type : data_type} {s : PState} {c : Nat}
    (h : parse_while_nullable_statement stmts cond_type s = Res.exit c) : c ≠ 0 := by
  unfold parse_while_nullable_statement at h
  try dsimp only at h
  repeat' split at h
  all_goals first | (cases h; done) | skip
  all_goals try simp only [Res.bind] at h
  all_goals repeat' split at h
  all_goals first | (cases h; done) | skip
  all_goals first
    | (cases h; decide)
    | (cases h; first | exact gen_while_nullable_cond_exit (by assumption) | exact insert_binding_exit (by assumption) | exact parse_block_body_exit hst (by assumption) | exact check_unused_exit (by assumption) | exact gen_while_nullable_end_exit (by assumption))
    | exact gen_while_nullable_cond_exit h | exact insert_binding_exit h | exact parse_block_body_exit hst h | exact check_unused_exit h | exact gen_while_nullable_end_exit h

theorem parse_while_statement_exit {pe : PState → Res PState (data_type × PState)}
    (hpe : ∀ s c, pe s = Res.exit c → c ≠ 0)
    {stmts : PState → Res PState PState}
    (hst : ∀ s c, stmts s = Res.exit c → c ≠ 0) {s : PState} {c : Nat}
    (h : parse_while_statement pe stmts s = Res.exit c) : c ≠ 0 := by
  unfold parse_while_statement at h
  try dsimp only at h
  repeat' split at h
  all_goals first | (cases h; done) | skip
  all_goals try simp only [Res.bind] at h
  all_goals repeat' split at h
  all_goals first | (cases h; done) | skip
  all_goals first
    | (cases h; decide)
    | (cases h; first | exact parse_expression_exit hpe (by assumption) | exact parse_while_nullable_statement_exit hst (by assumption) | exact gen_while_cond_exit (by assumption) | exact parse_block_body_exit hst (by assumption) | exact check_unused_exit (by assumption) | exact gen_while_end_exit (by assumption))
    | exact parse_expression_exit hpe h | exact parse_while_nullable_statement_exit hst h | exact gen_while_cond_exit h | exact parse_block_body_exit hst h | exact check_unused_exit h | exact gen_while_end_exit h

theorem parse_statement_exit {pe : PState → Res PState (data_type × PState)}
    (hpe : ∀ s c, pe s = Res.exit c → c ≠ 0) {fuel : Nat}
    {stmts : PState → Res PState PState}
    (hst : ∀ s c, stmts s = Res.exit c → c ≠ 0) {s : PState} {c : Nat}
    (h : parse_statement pe fuel stmts s = Res.exit c) : c ≠ 0 := by
  unfold parse_statement parse_var_decl parse_const_decl at h
  try dsimp only at h
  repeat' split at h
  all_goals first | (cases h; done) | skip
  all_goals try simp only [Res.bind] at h
  all_goals repeat' split at h
  all_goals first | (cases h; done) | skip
  all_goals first
    | (cases h; decide)
    | (cases h; first | exact parse_decl_exit hpe (by assumption) | exact parse_assignment_exit hpe (by assumption) | exact parse_function_call_exit hpe (by assumption) | exact parse_if_statement_exit hpe hst (by assumption) | exact parse_while_statement_exit hpe hst (by assumption) | exact parse_return_statement_exit hpe (by assumption))
    | exact parse_decl_exit hpe h | exact parse_assignment_exit hpe h | exact parse_function_call_exit hpe h | exact parse_if_statement_exit hpe hst h | exact parse_while_statement_exit hpe hst h | exact parse_return_statement_exit hpe h

theorem parse_statements_exit {pe : PState → Res PState (data_type × PState)}
    (hpe : ∀ s c, pe s = Res.exit c → c ≠ 0) :
    ∀ (fuel : Nat) (s : PState) (c : Nat),
      parse_statements pe fuel s = Res.exit c → c ≠ 0 := by
  intro fuel
  induction fuel with
  | zero => intros; simp_all [parse_statements]
  | succ fuel ih =>
    intros
    rename_i h
    unfold parse_statements at h
    try dsimp only at h
    repeat' split at h
    all_goals first | (cases h; done) | skip
    all_goals try simp only [Res.bind] at h
    all_goals repeat' split at h
    all_goals first | (cases h; done) | skip
    all_goals first
      | (cases h; decide)
      | (cases h; first | exact parse_statement_exit hpe ih (by assumption))
      | exact parse_statement_exit hpe ih h | exact ih _ _ h | exact ih _ _ _ h | exact ih _ _ _ _ h | exact ih _ _ _ _ _ h | exact ih _ _ _ _ _ _ h | exact ih _ _ _ _ _ _ _ h

theorem parse_parameter_exit {func_data : func_data_t} {s : PState} {c : Nat}
    (h : parse_parameter func_data s = Res.exit c) : c ≠ 0 := by
  unfold parse_parameter at h
  try dsimp only at h
  repeat' split at h
  all_goals first | (cases h; done) | skip
  all_goals try simp only [Res.bind] at h
  all_goals repeat' split at h
  all_goals first | (cases h; done) | skip
  all_goals first
    | (cases h; decide)

theorem parse_parameters_loop_exit  :
    ∀ (fuel : Nat) (func_data : func_data_t) (s : PState) (c : Nat),
      parse_parameters_loop fuel func_data s = Res.exit c → c ≠ 0 := by
  intro fuel
  induction fuel with
  | zero => intros; simp_all [parse_parameters_loop]
  | succ fuel ih =>
    intros
    rename_i h
    unfold parse_parameters_loop at h
    try dsimp only at h
    repeat' split at h
    all_goals first | (cases h; done) | skip
    all_goals try simp only [Res.bind] at h
    all_goals repeat' split at h
    all_goals first | (cases h; done) | skip
    all_goals first
      | (cases h; decide)
      | (cases h; first | exact parse_parameter_exit (by assumption))
      | exact parse_parameter_exit h | exact ih _ _ h | exact ih _ _ _ h | exact ih _ _ _ _ h | exact ih _ _ _ _ _ h | exact ih _ _ _ _ _ _ h | exact ih _ _ _ _ _ _ _ h

theorem parse_parameters_exit {fuel : Nat} {func_data : func_data_t} {s : PState} {c : Nat}
    (h : parse_parameters fuel func_data s = Res.exit c) : c ≠ 0 := by
  unfold parse_parameters at h
  try dsimp only at h
  repeat' split at h
  all_goals first | (cases h; done) | skip
  all_goals try simp only [Res.bind] at h
  all_goals repeat' split at h
  all_goals first | (cases h; done) | skip
  all_goals first
    | (cases h; decide)
    | (cases h; first | exact parse_parameters_loop_exit _ _ _ _ (by assumption))
    | exact parse_parameters_loop_exit _ _ _ _ h

theorem parse_return_type_exit {func_data : func_data_t} {s : PState} {c : Nat}
    (h : parse_return_type func_data s = Res.exit c) : c ≠ 0 := by
  unfold parse_return_type at h
  try dsimp only at h
  repeat' split at h
  all_goals first | (cases h; done) | skip
  all_goals try simp only [Res.bind] at h
  all_goals repeat' split at h
  all_goals first | (cases h; done) | skip
  all_goals first
    | (cases h; decide)

theorem parse_function_header_exit {fuel : Nat} {s : PState} {c : Nat}
    (h : parse_function_header fuel s = Res.exit c) : c ≠ 0 := by
  unfold parse_function_header at h
  try dsimp only at h
  repeat' split at h
  all_goals first | (cases h; done) | skip
  all_goals try simp only [Res.bind] at h
  all_goals repeat' split at h
  all_goals first | (cases h; done) | skip
  all_goals first
    | (cases h; decide)
    | (cases h; first | exact parse_parameters_exit (by assumption) | exact parse_return_type_exit (by assumption))
    | exact parse_parameters_exit h | exact parse_return_type_exit h

theorem parse_function_definition_exit {pe : PState → Res PState (data_type × PState)}
    (hpe : ∀ s c, pe s = Res.exit c → c ≠ 0) {fuel : Nat} {s : PState} {c : Nat}
    (h : parse_function_definition pe fuel s = Res.exit c) : c ≠ 0 := by
  unfold parse_function_definition at h
  try dsimp only at h
  repeat' split at h
  all_goals first | (cases h; done) | skip
  all_goals try simp only [Res.bind] at h
  all_goals repeat' split at h
  all_goals first | (cases h; done) | skip
  all_goals first
    | (cases h; decide)
    | (cases h; first | exact parse_parameters_exit (by assumption) | exact parse_statements_exit hpe _ _ _ (by assumption) | exact check_unused_exit (by assumption))
    | exact parse_parameters_exit h | exact parse_statements_exit hpe _ _ _ h | exact check_unused_exit h

theorem parse_prologue_exit {s : PState} {c : Nat}
    (h : parse_prologue s = Res.exit c) : c ≠ 0 := by
  unfold parse_prologue at h
  try dsimp only at h
  repeat' split at h
  all_goals first | (cases h; done) | skip
  all_goals try simp only [Res.bind] at h
  all_goals repeat' split at h
  all_goals first | (cases h; done) | skip
  all_goals first
    | (cases h; decide)

theorem parse_program_pass1_exit  :
    ∀ (fuel : Nat) (hasMain : Bool) (s : PState) (c : Nat),
      parse_program_pass1 fuel hasMain s = Res.exit c → c ≠ 0 := by
  intro fuel
  induction fuel with
  | zero => intros; simp_all [parse_program_pass1]
  | succ fuel ih =>
    intros
    rename_i h
    unfold parse_program_pass1 at h
    try dsimp only at h
    repeat' split at h
    all_goals first | (cases h; done) | skip
    all_goals try simp only [Res.bind] at h
    all_goals repeat' split at h
    all_goals first | (cases h; done) | skip
    all_goals first
      | (cases h; decide)
      | (cases h; first | exact parse_function_header_exit (by assumption))
      | exact parse_function_header_exit h | exact ih _ _ h | exact ih _ _ _ h | exact ih _ _ _ _ h | exact ih _ _ _ _ _ h | exact ih _ _ _ _ _ _ h | exact ih _ _ _ _ _ _ _ h

theorem parse_program_pass2_exit {pe : PState → Res PState (data_type × PState)}
    (hpe : ∀ s c, pe s = Res.exit c → c ≠ 0) :
    ∀ (fuel : Nat) (s : PState) (c : Nat),
      parse_program_pass2 pe fuel s = Res.exit c → c ≠ 0 := by
  intro fuel
  induction fuel with
  | zero => intros; simp_all [parse_program_pass2]
  | succ fuel ih =>
    intros
    rename_i h
    unfold parse_program_pass2 at h
    try dsimp only at h
    repeat' split at h
    all_goals first | (cases h; done) | skip
    all_goals try simp only [Res.bind] at h
    all_goals repeat' split at h
    all_goals first | (cases h; done) | skip
    all_goals first
      | (cases h; decide)
      | (cases h; first | exact parse_function_definition_exit hpe (by assumption))
      | exact parse_function_definition_exit hpe h | exact ih _ _ h | exact ih _ _ _ h | exact ih _ _ _ _ h | exact ih _ _ _ _ _ h | exact ih _ _ _ _ _ _ h | exact ih _ _ _ _ _ _ _ h

theorem parse_program_first_exit {fuel : Nat} {s : PState} {c : Nat}
    (h : parse_program_first fuel s = Res.exit c) : c ≠ 0 := by
  unfold parse_program_first at h
  try dsimp only at h
  repeat' split at h
  all_goals first | (cases h; done) | skip
  all_goals try simp only [Res.bind] at h
  all_goals repeat' split at h
  all_goals first | (cases h; done) | skip
  all_goals first
    | (cases h; decide)
    | (cases h; first | exact parse_prologue_exit (by assumption) | exact parse_program_pass1_exit _ _ _ _ (by assumption))
    | exact parse_prologue_exit h | exact parse_program_pass1_exit _ _ _ _ h

theorem parse_program_exit {pe : PState → Res PState (data_type × PState)}
    (hpe : ∀ s c, pe s = Res.exit c → c ≠ 0) {fuel : Nat} {source : List token_t} {s : PState} {c : Nat}
    (h : parse_program pe fuel source s = Res.exit c) : c ≠ 0 := by
  unfold parse_program at h
  try dsimp only at h
  repeat' split at h
  all_goals first | (cases h; done) | skip
  all_goals try simp only [Res.bind] at h
  all_goals repeat' split at h
  all_goals first | (cases h; done) | skip
  all_goals first
    | (cases h; decide)
    | (cases h; first | exact parse_program_first_exit (by assumption) | exact parse_prologue_exit (by assumption) | exact parse_program_pass2_exit hpe _ _ _ (by assumption))
    | exact parse_program_first_exit h | exact parse_prologue_exit h | exact parse_program_pass2_exit hpe _ _ _ h

/-! ## Pass 1 prints nothing (parser.c) -/

theorem parse_prologue_out {s s1 : PState} (h : parse_prologue s = Res.ok s1) :
    s1.out = s.out := by
  unfold parse_prologue at h
  dsimp only at h
  repeat' split at h
  all_goals first | (cases h; done) | skip
  simp only [Res.ok.injEq] at h
  subst h
  rfl

theorem parse_prologue_ne_fail (s e : PState) : parse_prologue s ≠ Res.fail e := by
  intro h
  unfold parse_prologue at h
  dsimp only at h
  repeat' split at h
  all_goals cases h

theorem parse_parameter_pass1_out {func_data func_data1 : func_data_t} {s s1 : PState}
    (hfc : s.first_control = true)
    (h : parse_parameter func_data s = Res.ok (func_data1, s1)) : s1.out = s.out := by
  have hfc2 : (fetch_next_token (fetch_next_token s)).first_control = true := hfc
  unfold parse_parameter at h
  dsimp only at h
  simp only [hfc, hfc2, not_true_eq_false, false_and, if_false, if_true] at h
  repeat' split at h
  all_goals first | (cases h; done) | skip
  simp only [Res.ok.injEq, Prod.mk.injEq] at h
  obtain ⟨-, rfl⟩ := h
  rfl

theorem parse_parameters_loop_pass1_out (fuel : Nat) :
    ∀ (func_data func_data1 : func_data_t) (s s1 : PState), s.first_control = true →
      parse_parameters_loop fuel func_data s = Res.ok (func_data1, s1) → s1.out = s.out := by
  induction fuel with
  | zero => intro _ _ _ _ _ h; cases h
  | succ fuel ih =>
    intro func_data func_data1 s s1 hfc h
    unfold parse_parameters_loop at h
    simp only [Res.bind] at h
    split at h
    all_goals first | (cases h; done) | skip
    rename_i fd sp hp
    have h1 := parse_parameter_pass1_out hfc hp
    have hf := (parse_parameter_pass1 _ _ _ _ hfc hp).2.1
    try dsimp only at h
    repeat' split at h
    all_goals first | (cases h; done) | skip
    · have h2 := ih _ _ _ _ (by exact hf) h
      rw [h2]
      exact h1
    · simp only [Res.ok.injEq, Prod.mk.injEq] at h
      obtain ⟨-, rfl⟩ := h
      exact h1
    · simp only [Res.ok.injEq, Prod.mk.injEq] at h
      obtain ⟨-, rfl⟩ := h
      exact h1

theorem parse_parameters_pass1_out {fuel : Nat} {func_data func_data1 : func_data_t}
    {s s1 : PState} (hfc : s.first_control = true)
    (h : parse_parameters fuel func_data s = Res.ok (func_data1, s1)) : s1.out = s.out := by
  unfold parse_parameters at h
  dsimp only at h
  split at h
  · simp only [Res.ok.injEq, Prod.mk.injEq] at h
    obtain ⟨-, rfl⟩ := h
    rfl
  · exact parse_parameters_loop_pass1_out _ _ _ _ _ hfc h

theorem parse_return_type_out {func_data func_data1 : func_data_t} {s s1 : PState}
    (h : parse_return_type func_data s = Res.ok (func_data1, s1)) : s1.out = s.out := by
  unfold parse_return_type at h
  repeat' split at h
  all_goals first | (cases h; done) | skip
  all_goals (simp only [Res.ok.injEq, Prod.mk.injEq] at h; obtain ⟨-, rfl⟩ := h; rfl)

theorem parse_function_header_pass1_out {fuel : Nat} {s s1 : PState}
    (hfc : s.first_control = true) (h : parse_function_header fuel s = Res.ok s1) :
    s1.out = s.out := by
  unfold parse_function_header at h
  dsimp only at h
  repeat' split at h
  all_goals first | (cases h; done) | skip
  have hp := id ‹parse_parameters _ _ _ = Res.ok _›
  have h1 := parse_parameters_pass1_out (by exact hfc) hp
  have h2 := parse_return_type_out (by assumption)
  simp only [Res.ok.injEq] at h
  subst h
  simp only [fetch_next_token_out] at h1 h2
  show _ = s.out
  unfold skip_to_pub
  dsimp only
  rw [h2]
  exact h1

theorem parse_program_pass1_out (fuel : Nat) :
    ∀ (hasMain hasMain1 : Bool) (s s1 : PState), s.first_control = true →
      parse_program_pass1 fuel hasMain s = Res.ok (hasMain1, s1) → s1.out = s.out := by
  induction fuel with
  | zero => intro _ _ _ _ _ h; cases h
  | succ fuel ih =>
    intro hasMain hasMain1 s s1 hfc h
    unfold parse_program_pass1 at h
    dsimp only at h
    repeat' split at h
    all_goals first | (cases h; done) | skip
    all_goals try simp only [Res.bind] at h
    all_goals repeat' split at h
    all_goals first | (cases h; done) | skip
    all_goals first
      | (simp only [Res.ok.injEq, Prod.mk.injEq] at h
         obtain ⟨-, rfl⟩ := h
         first
           | rfl
           | (have hp := id ‹parse_function_header _ _ = Res.ok _›
              have h1 := parse_function_header_pass1_out (by exact hfc) hp
              exact h1))
      | (have hp := id ‹parse_function_header _ _ = Res.ok _›
         have h1 := parse_function_header_pass1_out (by exact hfc) hp
         have hf := (parse_function_header_pass1 _ _ _ (by exact hfc) hp).1
         exact (ih _ _ _ _ hf h).trans h1)

theorem parse_program_first_out {fuel : Nat} {s s1 : PState}
    (hfc : s.first_control = true) (h : parse_program_first fuel s = Res.ok s1) :
    s1.out = s.out := by
  unfold parse_program_first at h
  simp only [Res.bind] at h
  repeat' split at h
  all_goals first | (cases h; done) | skip
  have hp := id ‹parse_prologue _ = Res.ok _›
  have h1 := parse_prologue_out hp
  have hf := parse_prologue_first_control _ _ hp
  have h2 := parse_program_pass1_out _ _ _ _ _ (hf.trans (by exact hfc)) (by assumption)
  simp only [Res.ok.injEq] at h
  subst h
  rw [h2, h1]
  rfl

/-- C30: when the compiler ends with exit code 0, pass 1 has printed nothing (it returns
with an empty output, and so does the second `parse_prologue`), pass 2 starts right after
`gen_header` has printed its lines, and the output of the run is what pass 2 returns with:
the five lines `.IFJcode24`, `DEFVAR GF@return`, `DEFVAR GF@_discard`, `DEFVAR GF@temp`,
`JUMP $main`, then the bodies of the built-in functions, then the lines `user` printed by
pass 2 for the user functions. -/
theorem C30_output_header (depth fuel : Nat) (source : List token_t) (out : List Instr)
    (h : compile depth fuel source = some (0, out)) :
    ∃ s2 s4 s5 user,
      parse_program_first fuel (parser_init source) = Res.ok s2 ∧ s2.out = [] ∧
      parse_prologue { s2 with tokens := source, first_control := false } = Res.ok s4 ∧
      s4.out = [] ∧
      parse_program_pass2 (parse_expr_rec depth fuel) fuel (emit s4 gen_header) = Res.ok s5 ∧
      out = s5.out ∧
      out =
        [Instr.line ".IFJcode24" [], Instr.line "DEFVAR" ["GF@return"],
         Instr.line "DEFVAR" ["GF@_discard"], Instr.line "DEFVAR" ["GF@temp"],
         Instr.line "JUMP" ["$main"]] ++ gen_builtin_functions ++ user ∧
      out.take 5 =
        [Instr.line ".IFJcode24" [], Instr.line "DEFVAR" ["GF@return"],
         Instr.line "DEFVAR" ["GF@_discard"], Instr.line "DEFVAR" ["GF@temp"],
         Instr.line "JUMP" ["$main"]] := by
  unfold compile at h
  split at h
  · rename_i s hpp
    simp only [Option.some.injEq, Prod.mk.injEq, true_and] at h
    subst h
    unfold parse_program at hpp
    simp only [Res.bind] at hpp
    split at hpp
    all_goals first | (cases hpp; done) | skip
    rename_i s2 h1
    have ho2 : s2.out = [] := parse_program_first_out (by rfl) h1
    split at hpp
    all_goals first | (cases hpp; done) | skip
    · rename_i s4 h2
      have ho4 : s4.out = [] := (parse_prologue_out h2).trans ho2
      have h3 := parse_program_pass2_out (parse_expr_rec_out fuel depth) _ _ _ hpp
      rw [emit_out, ho4, List.nil_append] at h3
      obtain ⟨user, hu⟩ := h3
      refine ⟨s2, s4, s, user, h1, ho2, h2, ho4, hpp, rfl, hu.symm, ?_⟩
      rw [← hu]
      rfl
    · rename_i e h2
      exact absurd h2 (parse_prologue_ne_fail _ _)
  · simp [ERROR_SYNTAX_ANALYSIS] at h
  · rename_i code hpp
    simp only [Option.some.injEq, Prod.mk.injEq] at h
    exact absurd h.1 (parse_program_exit (parse_expr_rec_exit fuel depth) hpp)
  · cases h
  · cases h

set_option maxRecDepth 1000000 in
theorem C30_output_header_witness :
    compile 3 40 (main_program []) =
      some (0, gen_header ++
        [Instr.line "" [], Instr.line "LABEL" ["$main"], Instr.line "CREATEFRAME" [],
         Instr.line "PUSHFRAME" [], Instr.line "POPFRAME" [], Instr.line "EXIT" ["int@0"]]) ∧
    ∃ s2 s4 s5 user,
      parse_program_first 40 (parser_init (main_program [])) = Res.ok s2 ∧ s2.out = [] ∧
      parse_prologue { s2 with tokens := main_program [], first_control := false } =
        Res.ok s4 ∧
      s4.out = [] ∧
      parse_program_pass2 (parse_expr_rec 3 40) 40 (emit s4 gen_header) = Res.ok s5 ∧
      gen_header ++
        [Instr.line "" [], Instr.line "LABEL" ["$main"], Instr.line "CREATEFRAME" [],
         Instr.line "PUSHFRAME" [], Instr.line "POPFRAME" [], Instr.line "EXIT" ["int@0"]] =
        s5.out ∧
      gen_header ++
        [Instr.line "" [], Instr.line "LABEL" ["$main"], Instr.line "CREATEFRAME" [],
         Instr.line "PUSHFRAME" [], Instr.line "POPFRAME" [], Instr.line "EXIT" ["int@0"]] =
        [Instr.line ".IFJcode24" [], Instr.line "DEFVAR" ["GF@return"],
         Instr.line "DEFVAR" ["GF@_discard"], Instr.line "DEFVAR" ["GF@temp"],
         Instr.line "JUMP" ["$main"]] ++ gen_builtin_functions ++ user ∧
      (gen_header ++
        [Instr.line "" [], Instr.line "LABEL" ["$main"], Instr.line "CREATEFRAME" [],
         Instr.line "PUSHFRAME" [], Instr.line "POPFRAME" [], Instr.line "EXIT" ["int@0"]]).take 5 =
        [Instr.line ".IFJcode24" [], Instr.line "DEFVAR" ["GF@return"],
         Instr.line "DEFVAR" ["GF@_discard"], Instr.line "DEFVAR" ["GF@temp"],
         Instr.line "JUMP" ["$main"]] :=
  ⟨by rfl, C30_output_header 3 40 (main_program []) _ (by rfl)⟩

/-! ## The default branch of `token_to_prec_symb` -/

theorem token_to_prec_symb_default (call : PState → Res PState (data_type × PState))
    (s : PState) (h : (current_token s).type ∉ expression_tokens) :
    token_to_prec_symb call s = Res.exit ERROR_LEXICAL_ANALYSIS := by
  unfold token_to_prec_symb
  dsimp only
  generalize (current_token s).type = ty at h ⊢
  cases ty <;> first | rfl | (exfalso; revert h; decide)

theorem parse_expr_default (call : PState → Res PState (data_type × PState)) (fuel : Nat)
    (s : PState) (h : (current_token s).type ∉ expression_tokens) :
    parse_expr call fuel s = Res.exit ERROR_LEXICAL_ANALYSIS := by
  unfold parse_expr
  dsimp only
  rw [token_to_prec_symb_default]
  cases s.main_stack.isEmpty <;> exact h

set_option maxRecDepth 1000000 in
/-- C36 at its failing inputs. The tokens of `var x: i32 = 1 }` in `main` are all delivered
by the scanner, and compilation ends with exit code 1, the code of a lexical error; so it
does for `var x: i32 = 1 var`, `var x: i32 = 1 = 1;` and `return }`. Whenever the
expression parser looks at a token whose type has no case in the switch of
`token_to_prec_symb`, it ends the process with `ERROR_LEXICAL_ANALYSIS`. The other paths
that meet a misplaced token report the syntax error 2: the expression parser itself for
`var x: i32 = 1 2;`, `var x: i32 = 1);` and `var x: i32 = ;` (no action in the precedence
table), and the statement parser for the same `}` one token earlier, in `var x: i32 }`. -/
theorem C36_misplaced_brace_exits_with_1 :
    exit_code (main_program (var_x_then TOKEN_CLOSING_BRACKET)) = some 1 ∧
    exit_code (main_program (var_x_then KW_VAR)) = some 1 ∧
    exit_code (main_program (var_x_then TOKEN_ASSIGN ++ [tk_int 1, tk TOKEN_SEMICOLON])) =
      some 1 ∧
    exit_code (main_program [tk KW_RETURN, tk TOKEN_CLOSING_BRACKET]) = some 1 ∧
    exit_code (main_program (var_x_then TOKEN_SEMICOLON ++ use_x_tokens)) = some 0 ∧
    (∀ (depth fuel : Nat) (s : PState) (call : PState → Res PState (data_type × PState)),
      (current_token s).type ∉ expression_tokens →
      token_to_prec_symb call s = Res.exit ERROR_LEXICAL_ANALYSIS ∧
      parse_expr call fuel s = Res.exit ERROR_LEXICAL_ANALYSIS ∧
      parse_expression (parse_expr_rec (depth + 1) fuel) s =
        Res.exit ERROR_LEXICAL_ANALYSIS) ∧
    ERROR_LEXICAL_ANALYSIS = 1 ∧ ERROR_SYNTAX_ANALYSIS = 2 ∧
    exit_code (main_program [tk KW_VAR, tk_id "x", tk TOKEN_TWODOT, tk KW_INT_TYPE,
      tk TOKEN_ASSIGN, tk_int 1, tk_int 2, tk TOKEN_SEMICOLON]) = some 2 ∧
    exit_code (main_program (var_x_then TOKEN_CLOSING_PARENTHESES ++ [tk TOKEN_SEMICOLON])) =
      some 2 ∧
    exit_code (main_program [tk KW_VAR, tk_id "x", tk TOKEN_TWODOT, tk KW_INT_TYPE,
      tk TOKEN_ASSIGN, tk TOKEN_SEMICOLON]) = some 2 ∧
    exit_code (main_program [tk KW_VAR, tk_id "x", tk TOKEN_TWODOT, tk KW_INT_TYPE,
      tk TOKEN_CLOSING_BRACKET]) = some 2 := by
  refine ⟨by rfl, by rfl, by rfl, by rfl, by rfl, ?_, rfl, rfl, by rfl, by rfl, by rfl,
    by rfl⟩
  intro depth fuel s call h
  refine ⟨token_to_prec_symb_default call s h, parse_expr_default call fuel s h, ?_⟩
  have hid : (current_token s).type ≠ TOKEN_ID := by
    intro e
    rw [e] at h
    exact h (by decide)
  unfold parse_expression
  dsimp only
  rw [if_neg hid]
  simp only [parse_expr_rec]
  rw [parse_expr_default _ _ _ h]


/-! ## Nested activations of `parse_expr` -/

theorem third_activation_result (main_top : StackData) (main_rest temp_stack : List StackData)
    (call : PState → Res PState (data_type × PState)) :
    parse_expr call 3 (third_activation (main_top :: main_rest) temp_stack) =
      Res.ok (int_type,
        { third_activation (main_top :: main_rest) [] with
          tokens := [tk TOKEN_CLOSING_PARENTHESES], bracket_count := -1,
          is_main_stack := true, out := [Instr.PUSHS_int 1] }) := by
  rfl

set_option maxRecDepth 1000000 in
/-- C32: `parse_expr` is not re-entrant beyond one nested activation. An activation started
while `main_stack` is in use takes the one global `temp_stack`, empties it at its start and
at its end, whatever the enclosing activation had pushed there; `x = f(g(1));` and
`ifj.write(ifj.i2f(ifj.length(s)));` end with exit code 2, while one level of calls
(`x = f(1);`, `x = 1 + g(1);`, `ifj.write(ifj.length(s));`) is accepted. -/
theorem C32_nested_call_argument_rejected :
    (∀ (main_top : StackData) (main_rest temp_stack : List StackData)
        (call : PState → Res PState (data_type × PState)),
      ∃ s1, parse_expr call 3 (third_activation (main_top :: main_rest) temp_stack) =
          Res.ok (int_type, s1) ∧
        s1.temp_stack = [] ∧ s1.main_stack = main_top :: main_rest ∧
        s1.is_main_stack = true) ∧
    exit_code (assign_call_program (call_tokens "f" (call_tokens "g" [tk_int 1]))) = some 2 ∧
    exit_code (write_program (call_tokens "ifj.i2f" (call_tokens "ifj.length" [tk_id "s"]))) =
      some 2 ∧
    exit_code (assign_call_program (call_tokens "f" [tk_int 1])) = some 0 ∧
    exit_code (assign_call_program ([tk_int 1, tk TOKEN_ADD] ++ call_tokens "g" [tk_int 1])) =
      some 0 ∧
    exit_code (write_program (call_tokens "ifj.length" [tk_id "s"])) = some 0 := by
  refine ⟨?_, ?_, ?_, ?_, ?_, ?_⟩
  · intro main_top main_rest temp_stack call
    exact ⟨_, third_activation_result main_top main_rest temp_stack call, rfl, rfl, rfl⟩
  all_goals rfl

/-! ## Names that are entered twice -/

set_option maxRecDepth 1000000 in
/-- C34: a parameter and a nullable-unwrap binding are checked against the current level
only. `pub fn f(main: i32) void { _ = main; }`, `if (m) |m| { _ = m; } else { }` and
`while (m) |m| { _ = m; }` are accepted, and when the parameter `main` has been entered the
table holds two entries with the key `main`; a `var main` and a parameter that repeats
another one of the same function are rejected with 5. -/
theorem C34_shadowing_entries_accepted :
    exit_code (param_program "main") = some 0 ∧
    exit_code (param_program "f") = some 0 ∧
    exit_code (main_program (nullable_m_tokens ++ if_binding_tokens "m")) = some 0 ∧
    exit_code (main_program (nullable_m_tokens ++ while_binding_tokens "m")) = some 0 ∧
    exit_code (main_program (nullable_m_tokens ++ if_binding_tokens "main")) = some 0 ∧
    ((table_after_parameters (param_program "main")
        [tk_id "main", tk TOKEN_TWODOT, tk KW_INT_TYPE, tk TOKEN_CLOSING_PARENTHESES]).map
      (fun table => (entries_of table "main").map
        (fun item => (item.key, item.value.type, item.scope_level)))) =
      some [("main", symbol_type.const_t, 1), ("main", symbol_type.fn_t, 0)] ∧
    exit_code (main_program (decl_tokens KW_VAR "main" (some KW_INT_TYPE)
      [tk_int 1, tk TOKEN_SEMICOLON])) = some 5 ∧
    exit_code (program_with_f [tk_id "a", tk TOKEN_TWODOT, tk KW_INT_TYPE, tk TOKEN_COMMA,
      tk_id "a", tk TOKEN_TWODOT, tk KW_INT_TYPE] KW_VOID []) = some 5 := by
  refine ⟨?_, ?_, ?_, ?_, ?_, ?_, ?_, ?_⟩ <;> rfl

/-! ## Tokens after the last function -/

set_option maxRecDepth 1000000 in
/-- C35: the loop of pass 2 ends at the first token that is not `pub` and `parse_program`
returns 0 without looking for the end of file: in every state whose current token is not
`pub` the loop returns 0 at once. A stray `42` or `var` after the last function is
accepted with exit code 0, and a function that follows such a token is registered by
pass 1 but no code is printed for it. -/
theorem C35_trailing_tokens_accepted :
    (∀ (pe : PState → Res PState (data_type × PState)) (fuel : Nat) (s : PState),
      (current_token s).type = KW_PUB ∨ parse_program_pass2 pe (fuel + 1) s = Res.ok s) ∧
    exit_code (main_program [] ++ [tk_int 42]) = some 0 ∧
    exit_code (main_program [] ++ [tk KW_VAR]) = some 0 ∧
    exit_code (main_program [] ++ [tk TOKEN_CLOSING_BRACKET, tk_id "x"]) = some 0 ∧
    exit_code (main_program [] ++ [tk_int 42] ++ fn_tokens "f" [] KW_VOID []) = some 0 ∧
    user_code (main_program [] ++ [tk_int 42] ++ fn_tokens "f" [] KW_VOID []) =
      user_code (main_program []) ∧
    user_code (main_program [] ++ fn_tokens "f" [] KW_VOID []) =
      user_code (main_program []) ++
        [Instr.line "" [], Instr.line "LABEL" ["$f"], Instr.line "CREATEFRAME" [],
         Instr.line "PUSHFRAME" [], Instr.line "POPFRAME" []] ∧
    exit_code (prologue_tokens ++ [tk_int 42] ++ main_tokens []) = some 2 := by
  refine ⟨?_, ?_, ?_, ?_, ?_, ?_, ?_, ?_⟩
  · intro pe fuel s
    by_cases h : (current_token s).type = KW_PUB
    · exact Or.inl h
    · right
      unfold parse_program_pass2
      rw [if_neg h]
  all_goals rfl

/-! ## Assignment to a function name -/

theorem parse_statement_assign_function (pe : PState → Res PState (data_type × PState))
    (fuel : Nat) (stmts : PState → Res PState PState) (table : symtable_t) (name : String)
    (func_data : func_data_t) (scope_level : Int) (rest : List token_t) :
    parse_statement pe fuel stmts
      (init_state (symtable_insert_function table name func_data scope_level)
        (tk_id name :: tk TOKEN_ASSIGN :: rest)) = Res.crash := by
  unfold parse_statement
  simp only [current_token, init_state, List.headD, tk_id, token_t.attr_s, fetch_next_token,
    List.tail, tk, if_true]
  unfold parse_assignment
  simp only [symtable_find_insert_function, if_true]

set_option maxRecDepth 1000000 in
/-- C37: `parse_assignment` reads `entry->varData->isUsed` of whatever entry the name has.
An assignment whose target was entered by `symtable_insert_function` dereferences the NULL
`varData` (the model's `crash`), for every table, name and callee data; the programs with
`main = 1;` and `ifj.write = 1;` in `main` crash, whereas an unknown target gives 3. -/
theorem C37_assignment_to_function_crashes
    (pe : PState → Res PState (data_type × PState)) (fuel : Nat)
    (stmts : PState → Res PState PState) (table : symtable_t) (name : String)
    (func_data : func_data_t) (scope_level : Int) (rest : List token_t) :
    parse_statement pe fuel stmts
      (init_state (symtable_insert_function table name func_data scope_level)
        (tk_id name :: tk TOKEN_ASSIGN :: rest)) = Res.crash ∧
    run_program (main_program (assign_one "main")) = Res.crash ∧
    run_program (main_program (assign_one "ifj.write")) = Res.crash ∧
    exit_code (main_program (assign_one "nothere")) = some 3 := by
  refine ⟨parse_statement_assign_function pe fuel stmts table name func_data scope_level rest,
    ?_, ?_, ?_⟩ <;> rfl

/-! ## Labels of user functions -/

set_option maxRecDepth 1000000 in
/-- C38: the name of a user function is not checked against the labels the generator uses
itself. Functions called `substr_loop`, `ifj_write`, `strcmp_less` and `if_else_0` are
accepted, and their `LABEL` line is printed a second time: by the built-in prelude or, for
`if_else_0`, by the first `if` of the program. -/
theorem C38_duplicate_labels_accepted :
    exit_code (prologue_tokens ++ fn_tokens "substr_loop" [] KW_VOID [] ++ main_tokens []) =
      some 0 ∧
    label_count "$substr_loop"
      (prologue_tokens ++ fn_tokens "substr_loop" [] KW_VOID [] ++ main_tokens []) = 2 ∧
    label_count "$ifj_write"
      (prologue_tokens ++ fn_tokens "ifj_write" [] KW_VOID [] ++ main_tokens []) = 2 ∧
    label_count "$strcmp_less"
      (prologue_tokens ++ fn_tokens "strcmp_less" [] KW_VOID [] ++ main_tokens []) = 2 ∧
    exit_code (prologue_tokens ++ fn_tokens "if_else_0" [] KW_VOID [] ++
      main_tokens (if_tokens [] [])) = some 0 ∧
    label_count "$if_else_0" (prologue_tokens ++ fn_tokens "if_else_0" [] KW_VOID [] ++
      main_tokens (if_tokens [] [])) = 2 ∧
    label_count "$substr_loop" (main_program []) = 1 ∧
    label_count "$if_else_0" (main_program (if_tokens [] [])) = 1 := by
  refine ⟨?_, ?_, ?_, ?_, ?_, ?_, ?_, ?_⟩ <;> rfl

/-! ## The bucket index and the size of the table -/

theorem symtable_create_size (size : Nat) : (symtable_create size).size = size := rfl

theorem built_in_func_items_out (table : symtable_t) (i : Nat) (hi : TABLE_SIZE ≤ i) :
    (built_in_func table).items i = table.items i := by
  have hne : ∀ key : String, i ≠ hash_function key := by
    intro key h
    have := hash_function_lt key
    omega
  simp only [built_in_func, List.foldl, symtable_insert_function, bucket_prepend]
  simp only [if_neg (hne _)]

/-- C40 as stated fails: `symtable_create(1)` has one bucket, and the index of the key
`ifj.readstr`, which `symtable_create` enters itself, is 730; the key `fib` has index 1023.
So the index is not below the size for every size from 1 on. -/
theorem C40_index_beyond_small_table :
    (symtable_create 1).size = 1 ∧ hash_function "ifj.readstr" = 730 ∧
    hash_function "fib" = 1023 ∧
    ¬ (∀ size : Nat, 1 ≤ size → ∀ key : String,
        hash_function key < (symtable_create size).size) := by
  refine ⟨rfl, by decide, by decide, ?_⟩
  intro h
  have h1 := h 1 (le_refl 1) "fib"
  have h2 : hash_function "fib" = 1023 := by decide
  rw [symtable_create_size] at h1
  omega

/-- C40 amended: for a table created with at least `TABLE_SIZE` buckets, as `parser_init`
creates it, the bucket index `hash_function key` that `symtable_insert_function`,
`symtable_insert_variable`, `symtable_find` and `symtable_find_in_scope` compute is below
the size of the table, for every key; the two inserts put the entry into that bucket and
leave every bucket from the size on empty. The index is below the size for every key
exactly when the size is at least `TABLE_SIZE`. -/
theorem C40_bucket_index_in_range (size : Nat) (hsize : TABLE_SIZE ≤ size) (key : String) :
    hash_function key < (symtable_create size).size ∧
    (∀ (func_data : func_data_t) (scope_level : Int),
      symtable_insert_function (symtable_create size) key func_data scope_level =
        bucket_prepend (symtable_create size) (hash_function key)
          { key := key,
            value := { type := symbol_type.fn_t, funcData := some func_data, varData := none },
            scope_level := scope_level } ∧
      ∀ i, (symtable_create size).size ≤ i →
        (symtable_insert_function (symtable_create size) key func_data scope_level).items i =
          []) ∧
    (∀ (var_data : var_data_t) (scope_level : Int) (isConst : Bool) (i : Nat),
      (symtable_create size).size ≤ i →
      (symtable_insert_variable (symtable_create size) key var_data scope_level
        isConst).items i = []) ∧
    symtable_find (symtable_create size) key =
      (((symtable_create size).items (hash_function key)).find?
        (fun item => item.key == key)).map (fun item => item.value) ∧
    (∀ scope_level : Int, symtable_find_in_scope (symtable_create size) key scope_level =
      (((symtable_create size).items (hash_function key)).find?
        (fun item => item.key == key && item.scope_level == scope_level)).map
        (fun item => item.value)) ∧
    (∀ source : List token_t, (parser_init source).symbol_table.size = TABLE_SIZE) ∧
    (∀ n : Nat, (∀ k : String, hash_function k < (symtable_create n).size) ↔ TABLE_SIZE ≤ n) := by
  have hlt := hash_function_lt key
  have hempty : ∀ i, size ≤ i → (symtable_create size).items i = [] := by
    intro i hi
    unfold symtable_create
    rw [built_in_func_items_out _ i (le_trans hsize hi)]
  refine ⟨?_, ?_, ?_, rfl, fun _ => rfl, fun _ => rfl, ?_⟩
  · rw [symtable_create_size]
    omega
  · intro func_data scope_level
    refine ⟨rfl, ?_⟩
    intro i hi
    rw [symtable_create_size] at hi
    simp only [symtable_insert_function, bucket_prepend]
    rw [if_neg (by omega)]
    exact hempty i hi
  · intro var_data scope_level isConst i hi
    rw [symtable_create_size] at hi
    simp only [symtable_insert_variable, bucket_prepend]
    rw [if_neg (by omega)]
    exact hempty i hi
  · intro n
    constructor
    · intro h
      have h1 := h "fib"
      rw [symtable_create_size] at h1
      have h2 : hash_function "fib" = 1023 := by decide
      unfold TABLE_SIZE
      omega
    · intro h k
      rw [symtable_create_size]
      exact lt_of_lt_of_le (hash_function_lt k) h

/-- Witness of C40 amended: the table of `parser_init` and the key `fib`. -/
theorem C40_bucket_index_in_range_witness :
    hash_function "fib" < (symtable_create TABLE_SIZE).size :=
  (C40_bucket_index_in_range TABLE_SIZE (le_refl _) "fib").1

/-! ## The body of `$ifj_strcmp` -/

theorem run_strcmp_to_second_jump (gf_return : Option Data) (param1 param2 : String)
    (rest : List Data)
    (h : read_symb { stack := rest, gf_return := gf_return, frame := [] } "GF@return" =
      Except.ok (Data.bool false) ∨
      read_symb { stack := rest, gf_return := gf_return, frame := [] } "GF@return" =
      Except.ok Data.nil) :
    run_strcmp gf_return (Data.string param1 :: Data.string param2 :: rest) =
      run_body (code_from "$ifj_strcmp" gen_builtin_functions) 21 11
        { stack := rest, gf_return := some (Data.bool (decide (param1.toList < param2.toList))),
          frame := [("LF@result", some (Data.bool (decide (param2.toList < param1.toList)))),
                    ("LF@param1", some (Data.string param1)),
                    ("LF@param2", some (Data.string param2))] } := by
  cases gf_return with
  | none => rcases h with h | h <;> cases h
  | some v =>
    rcases h with h | h
    · have hv : v = Data.bool false := by
        have h1 : (Except.ok v : Except Nat Data) = Except.ok (Data.bool false) := h
        cases h1
        rfl
      subst hv
      rfl
    · have hv : v = Data.nil := by
        have h1 : (Except.ok v : Except Nat Data) = Except.ok Data.nil := h
        cases h1
        rfl
      subst hv
      rfl

theorem run_strcmp_from_second_jump (less : Bool) (rest : List Data)
    (frame : List (String × Option Data)) :
    run_body (code_from "$ifj_strcmp" gen_builtin_functions) 21 11
        { stack := rest, gf_return := some (Data.bool less), frame := frame } =
      BodyEnd.returned
        { stack := rest, gf_return := some (Data.int (if less then -1 else 0)), frame := [] } := by
  cases less <;> rfl

/-- C31: the first conditional jump of the body printed for `$ifj_strcmp` tests
`GF@return`, not the `LF@result` that the `GT` before it wrote. For all strings popped into
`param1` and `param2`: when `GF@return` held `true` the body returns 1; when it held
`false` or nil the body returns -1 if `param1` is less and 0 otherwise, also when `param1`
is greater; when it had no value the run ends with error 56, and when it held a number or
a string with error 53. -/
theorem C31_strcmp_depends_on_old_return (param1 param2 : String) :
    strcmp_value (some (Data.bool true)) param1 param2 = Except.ok (Data.int 1) ∧
    strcmp_value (some (Data.bool false)) param1 param2 =
      Except.ok (Data.int (if param1.toList < param2.toList then -1 else 0)) ∧
    strcmp_value (some Data.nil) param1 param2 =
      Except.ok (Data.int (if param1.toList < param2.toList then -1 else 0)) ∧
    strcmp_value none param1 param2 = Except.error (BodyEnd.error 56) ∧
    (∀ v, strcmp_value (some (Data.int v)) param1 param2 = Except.error (BodyEnd.error 53)) ∧
    (∀ v, strcmp_value (some (Data.string v)) param1 param2 =
      Except.error (BodyEnd.error 53)) ∧
    (∀ v, strcmp_value (some (Data.float v)) param1 param2 =
      Except.error (BodyEnd.error 53)) ∧
    strcmp_value (some (Data.bool false)) "b" "a" = Except.ok (Data.int 0) ∧
    strcmp_value (some (Data.bool true)) "a" "b" = Except.ok (Data.int 1) ∧
    strcmp_value (some (Data.bool true)) "a" "a" = Except.ok (Data.int 1) := by
  have hrun : ∀ gf : Option Data,
      (read_symb { stack := [], gf_return := gf, frame := [] } "GF@return" =
        Except.ok (Data.bool false) ∨
       read_symb { stack := [], gf_return := gf, frame := [] } "GF@return" =
        Except.ok Data.nil) →
      strcmp_value gf param1 param2 =
        Except.ok (Data.int (if param1.toList < param2.toList then -1 else 0)) := by
    intro gf h
    unfold strcmp_value
    rw [run_strcmp_to_second_jump gf param1 param2 [] h, run_strcmp_from_second_jump]
    by_cases hlt : param1.toList < param2.toList <;> simp [hlt]
  refine ⟨rfl, hrun _ (Or.inl rfl), hrun _ (Or.inr rfl), rfl, fun _ => rfl, fun _ => rfl,
    fun _ => rfl, ?_, ?_, ?_⟩ <;> rfl

/-! ## Dynamic strings -/

theorem strlen_eq (block : List Int) : ∀ n : Nat,
    (∀ x ∈ block.take n, x ≠ 0) → block[n]? = some 0 → strlen block = Mem.ok n := by
  induction block with
  | nil => intro n _ h; simp at h
  | cons c rest ih =>
    intro n hne h0
    cases n with
    | zero =>
      simp at h0
      simp [strlen, h0]
    | succ n =>
      have hc : c ≠ 0 := hne c (by simp)
      have hr : strlen rest = Mem.ok n := by
        apply ih
        · intro x hx
          exact hne x (by simp [hx])
        · simpa using h0
      simp [strlen, hc, hr, Mem.bind]

theorem memcpy_start (block src : List Int) (n : Nat) (hs : n ≤ src.length)
    (hb : n ≤ block.length) :
    memcpy block 0 src n = Mem.ok (src.take n ++ block.drop n) := by
  unfold memcpy
  rw [if_pos ⟨hs, by omega⟩]
  simp

theorem memcpy_start_out (block src : List Int) (n : Nat) (hb : block.length < n) :
    memcpy block 0 src n = Mem.out_of_bounds := by
  unfold memcpy
  rw [if_neg]
  omega

theorem extend_capacity_spec (required_size : Nat) (hr : required_size ≤ 2 ^ 62) :
    ∀ (fuel capacity : Nat), 0 < capacity → capacity ≤ 2 ^ 63 →
      required_size ≤ capacity * 2 ^ fuel →
      ∃ c, extend_capacity (fuel + 1) capacity required_size = some c ∧
        required_size ≤ c ∧ capacity ≤ c ∧ c ≤ 2 ^ 63 ∧
        (capacity < required_size ∨ c = capacity) := by
  intro fuel
  induction fuel with
  | zero =>
    intro capacity h0 hc hle
    refine ⟨capacity, ?_, by omega, le_refl _, hc, Or.inr rfl⟩
    unfold extend_capacity
    rw [if_neg (by omega)]
  | succ fuel ih =>
    intro capacity h0 hc hle
    by_cases hlt : capacity < required_size
    · have h2 : capacity * 2 % 2 ^ 64 = capacity * 2 := Nat.mod_eq_of_lt (by omega)
      obtain ⟨c, hc1, hc2, hc3, hc4, _⟩ := ih (capacity * 2) (by omega) (by omega)
        (by rw [pow_succ] at hle; nlinarith)
      refine ⟨c, ?_, hc2, by omega, hc4, Or.inl hlt⟩
      rw [extend_capacity, if_pos hlt, h2]
      exact hc1
    · refine ⟨capacity, ?_, by omega, le_refl _, hc, Or.inr rfl⟩
      rw [extend_capacity, if_neg hlt]

theorem dstring_extend_spec (junk : Int) (d : dstring_t) (required_size : Nat)
    (hr : required_size ≤ 2 ^ 62) (h0 : 0 < d.capacity) (hc : d.capacity ≤ 2 ^ 62) :
    ∃ c, dstring_extend junk d required_size =
        Mem.ok { data := realloc junk d.data (c + 1), length := d.length, capacity := c } ∧
      required_size ≤ c ∧ d.capacity ≤ c := by
  have h64 : required_size ≤ d.capacity * 2 ^ 64 := by
    have : (1 : Nat) * 2 ^ 64 ≤ d.capacity * 2 ^ 64 := Nat.mul_le_mul_right _ h0
    omega
  obtain ⟨c, hc1, hc2, hc3, hc4, _⟩ :=
    extend_capacity_spec required_size hr 64 d.capacity h0 (by omega) h64
  refine ⟨c, ?_, hc2, hc3⟩
  unfold dstring_extend
  rw [hc1]
  have : (c + 1) % 2 ^ 64 = c + 1 := Nat.mod_eq_of_lt (by omega)
  simp only [this]

theorem realloc_grow (junk : Int) (block : List Int) (n : Nat) (h : block.length ≤ n) :
    realloc junk block n = block ++ List.replicate (n - block.length) junk := by
  unfold realloc
  rw [List.take_of_length_le h]

theorem realloc_length (junk : Int) (block : List Int) (n : Nat) (h : block.length ≤ n) :
    (realloc junk block n).length = n := by
  rw [realloc_grow junk block n h]
  simp
  omega

theorem copied_wf (block src : List Int) (n c : Nat) (hs : n + 1 ≤ src.length)
    (hb : n + 1 ≤ block.length) (h0 : src[n]? = some 0)
    (hcap : block.length = c ∨ block.length = c + 1) (hc : 0 < c) :
    dstring_wf { data := src.take (n + 1) ++ block.drop (n + 1), length := n, capacity := c } ∧
    ({ data := src.take (n + 1) ++ block.drop (n + 1), length := n,
       capacity := c } : dstring_t).content = src.take n := by
  constructor
  · refine ⟨?_, ?_, ?_, hc⟩
    · simp
      omega
    · show (src.take (n + 1) ++ block.drop (n + 1))[n]? = some 0
      rw [List.getElem?_append_left (by simp; omega), List.getElem?_take_of_lt (by omega)]
      exact h0
    · show (src.take (n + 1) ++ block.drop (n + 1)).length = c ∨ _ = c + 1
      simp
      omega
  · show (src.take (n + 1) ++ block.drop (n + 1)).take n = src.take n
    rw [List.take_append_of_le_length (by simp; omega), List.take_take]
    simp

theorem dstring_assign_spec (junk : Int) (dest src : dstring_t) (hd : dstring_wf dest)
    (hs : dstring_wf src) (hnul : ∀ x ∈ src.content, x ≠ 0) (hsl : src.length ≤ 2 ^ 62) :
    (dest.data.length = dest.capacity ∧ src.length = dest.capacity →
      dstring_assign junk dest src = Mem.out_of_bounds) ∧
    (¬ (dest.data.length = dest.capacity ∧ src.length = dest.capacity) →
      ∃ d, dstring_assign junk dest src = Mem.ok d ∧ dstring_wf d ∧
        d.content = src.content ∧ d.length = src.length) := by
  obtain ⟨hd1, hd2, hd3, hd4⟩ := hd
  obtain ⟨hs1, hs2, hs3, hs4⟩ := hs
  have hlen : strlen src.data = Mem.ok src.length := strlen_eq _ _ hnul hs2
  constructor
  · rintro ⟨h1, h2⟩
    unfold dstring_assign strcpy
    rw [if_neg (by omega), hlen]
    simp only [Mem.bind]
    rw [memcpy_start_out dest.data src.data (src.length + 1) (by omega)]
  · intro hne
    unfold dstring_assign strcpy
    rw [hlen]
    by_cases hlt : dest.capacity < src.length
    · obtain ⟨c, hc1, hc2, hc3⟩ :=
        dstring_extend_spec junk dest src.length hsl hd4 (by omega)
      rw [if_pos hlt, hc1]
      simp only [Mem.bind]
      have hbl : (realloc junk dest.data (c + 1)).length = c + 1 :=
        realloc_length junk dest.data (c + 1) (by omega)
      rw [memcpy_start _ _ _ hs1 (by omega)]
      have hw := copied_wf (realloc junk dest.data (c + 1)) src.data src.length c hs1
        (by omega) hs2 (Or.inr hbl) (by omega)
      exact ⟨_, rfl, hw.1, hw.2, rfl⟩
    · rw [if_neg hlt]
      simp only [Mem.bind]
      rw [memcpy_start _ _ _ hs1 (by omega)]
      have hw := copied_wf dest.data src.data src.length dest.capacity hs1
        (by omega) hs2 hd3 hd4
      exact ⟨_, rfl, hw.1, hw.2, rfl⟩

theorem grow_spec (junk : Int) (d : dstring_t) (r : Nat) (hd : dstring_wf d)
    (hr : r ≤ 2 ^ 62) :
    ∃ d1 t, (if r ≥ d.capacity then dstring_extend junk d r else Mem.ok d) = Mem.ok d1 ∧
      d1.length = d.length ∧ d1.data = d.data ++ t ∧ r + 1 ≤ d1.data.length ∧
      (d1.data.length = d1.capacity ∨ d1.data.length = d1.capacity + 1) ∧
      0 < d1.capacity := by
  obtain ⟨hd1, hd2, hd3, hd4⟩ := hd
  by_cases hge : r ≥ d.capacity
  · obtain ⟨c, hc1, hc2, hc3⟩ := dstring_extend_spec junk d r hr hd4 (by omega)
    rw [if_pos hge, hc1]
    have hg := realloc_grow junk d.data (c + 1) (by omega)
    have hl := realloc_length junk d.data (c + 1) (by omega)
    refine ⟨_, _, rfl, rfl, hg, ?_, Or.inr hl, by show 0 < c; omega⟩
    show r + 1 ≤ (realloc junk d.data (c + 1)).length
    omega
  · rw [if_neg hge]
    exact ⟨d, [], rfl, rfl, by simp, by omega, hd3, hd4⟩

theorem take_set_two (v : Int) : ∀ (l : List Int) (n : Nat), n < l.length →
    ((l.set n v).set (n + 1) 0).take (n + 1) = l.take n ++ [v] := by
  intro l
  induction l with
  | nil => intro n h; simp at h
  | cons x xs ih =>
    intro n h
    cases n with
    | zero => cases xs <;> simp
    | succ n =>
      have := ih n (by simpa using h)
      simp [this]

theorem take_set_self (v : Int) : ∀ (l : List Int) (n : Nat),
    (l.set n v).take n = l.take n := by
  intro l
  induction l with
  | nil => intro n; simp
  | cons x xs ih =>
    intro n
    cases n with
    | zero => simp
    | succ n => simp [ih n]

theorem dstring_add_char_spec (junk : Int) (d : dstring_t) (c : Int) (hd : dstring_wf d)
    (hdl : d.data.length ≤ 2 ^ 62) :
    ∃ d1, dstring_add_char junk d c = Mem.ok d1 ∧ dstring_wf d1 ∧
      d1.content = d.content ++ [c] ∧ d1.length = d.length + 1 := by
  have hd1 := hd.1
  have hmod : (d.length + 1) % 2 ^ 64 = d.length + 1 := Nat.mod_eq_of_lt (by omega)
  obtain ⟨g, t, hg, hgl, hgd, hgb, hgc, hg0⟩ := grow_spec junk d (d.length + 1) hd (by omega)
  unfold dstring_add_char
  rw [hmod, hg]
  simp only [Mem.bind, store, hgl, hmod]
  rw [if_pos (by omega)]
  simp only [List.length_set]
  rw [if_pos (by omega)]
  refine ⟨_, rfl, ⟨?_, ?_, ?_, hg0⟩, ?_, rfl⟩
  · simp only [List.length_set]
    omega
  · show ((g.data.set d.length c).set (d.length + 1) 0)[d.length + 1]? = some 0
    rw [List.getElem?_set_self (by simp; omega)]
  · simp only [List.length_set]
    exact hgc
  · show ((g.data.set d.length c).set (d.length + 1) 0).take (d.length + 1) = _
    rw [take_set_two c g.data d.length (by omega), hgd]
    unfold dstring_t.content
    rw [List.take_append_of_le_length (by omega)]

theorem dstring_add_dstring_spec (junk : Int) (dest src : dstring_t) (hd : dstring_wf dest)
    (hs : src.length ≤ src.data.length) (hdl : dest.data.length ≤ 2 ^ 61)
    (hsl : src.length ≤ 2 ^ 61) :
    ∃ d1, dstring_add_dstring junk dest src = Mem.ok d1 ∧ dstring_wf d1 ∧
      d1.content = dest.content ++ src.content ∧ d1.length = dest.length + src.length := by
  have hd1 := hd.1
  have hmod : (dest.length + src.length) % 2 ^ 64 = dest.length + src.length :=
    Nat.mod_eq_of_lt (by omega)
  obtain ⟨g, t, hg, hgl, hgd, hgb, hgc, hg0⟩ :=
    grow_spec junk dest (dest.length + src.length) hd (by omega)
  unfold dstring_add_dstring
  rw [hmod, hg]
  simp only [Mem.bind, memcpy, hgl]
  rw [if_pos ⟨hs, by omega⟩]
  simp only [store, hmod]
  have hlen : (List.take dest.length g.data ++ List.take src.length src.data ++
      List.drop (dest.length + src.length) g.data).length = g.data.length := by
    simp
    omega
  rw [if_pos (by omega)]
  refine ⟨_, rfl, ⟨?_, ?_, ?_, hg0⟩, ?_, rfl⟩
  · simp only [List.length_set]
    omega
  · show (List.set _ (dest.length + src.length) 0)[dest.length + src.length]? = some 0
    rw [List.getElem?_set_self (by omega)]
  · simp only [List.length_set]
    omega
  · show (List.set _ (dest.length + src.length) 0).take (dest.length + src.length) = _
    rw [take_set_self, List.take_left' (by simp; omega), hgd]
    unfold dstring_t.content
    rw [List.take_append_of_le_length (by omega)]

theorem strlen_le (block : List Int) : ∀ n : Nat, strlen block = Mem.ok n →
    n + 1 ≤ block.length := by
  induction block with
  | nil => intro n h; cases h
  | cons c rest ih =>
    intro n h
    unfold strlen at h
    by_cases hc : c = 0
    · rw [if_pos hc] at h
      cases h
      simp
    · rw [if_neg hc] at h
      cases hr : strlen rest with
      | ok m =>
        rw [hr] at h
        simp only [Mem.bind] at h
        cases h
        have := ih m hr
        simp
        omega
      | out_of_bounds => rw [hr] at h; cases h
      | timeout => rw [hr] at h; cases h

theorem strlen_nul (block : List Int) : ∀ n : Nat, strlen block = Mem.ok n →
    block[n]? = some 0 := by
  induction block with
  | nil => intro n h; cases h
  | cons c rest ih =>
    intro n h
    unfold strlen at h
    by_cases hc : c = 0
    · rw [if_pos hc] at h
      cases h
      simp [hc]
    · rw [if_neg hc] at h
      cases hr : strlen rest with
      | ok m =>
        rw [hr] at h
        simp only [Mem.bind] at h
        cases h
        simpa using ih m hr
      | out_of_bounds => rw [hr] at h; cases h
      | timeout => rw [hr] at h; cases h

theorem dstring_add_str_spec (junk : Int) (dest : dstring_t) (src : List Int) (n : Nat)
    (hd : dstring_wf dest) (hn : strlen src = Mem.ok n) (hdl : dest.data.length ≤ 2 ^ 61)
    (hsl : n ≤ 2 ^ 61) :
    ∃ d1, dstring_add_str junk dest src = Mem.ok d1 ∧ dstring_wf d1 ∧
      d1.content = dest.content ++ src.take n ∧ d1.length = dest.length + n := by
  have hd1 := hd.1
  have hle := strlen_le src n hn
  have hz := strlen_nul src n hn
  have hmod : (dest.length + n) % 2 ^ 64 = dest.length + n := Nat.mod_eq_of_lt (by omega)
  have hmod1 : (n + 1) % 2 ^ 64 = n + 1 := Nat.mod_eq_of_lt (by omega)
  obtain ⟨g, t, hg, hgl, hgd, hgb, hgc, hg0⟩ := grow_spec junk dest (dest.length + n) hd (by omega)
  unfold dstring_add_str
  rw [hn]
  simp only [Mem.bind, hmod, hmod1]
  rw [hg]
  simp only [memcpy, hgl, hmod, hmod1]
  rw [if_pos ⟨hle, by omega⟩]
  have hlen : (List.take dest.length g.data ++ List.take (n + 1) src ++
      List.drop (dest.length + (n + 1)) g.data).length = g.data.length := by
    simp
    omega
  refine ⟨_, rfl, ⟨?_, ?_, ?_, hg0⟩, ?_, rfl⟩
  · show dest.length + n + 1 ≤ (_ : List Int).length
    rw [hlen]
    omega
  · show (List.take dest.length g.data ++ List.take (n + 1) src ++
      List.drop (dest.length + (n + 1)) g.data)[dest.length + n]? = some 0
    rw [List.append_assoc, List.getElem?_append_right (by simp)]
    have h1 : (List.take dest.length g.data).length = dest.length :=
      List.length_take_of_le (by omega)
    rw [h1, Nat.add_sub_cancel_left, List.getElem?_append_left (by simp; omega),
      List.getElem?_take_of_lt (by omega)]
    exact hz
  · show (_ : List Int).length = g.capacity ∨ (_ : List Int).length = g.capacity + 1
    rw [hlen]
    exact hgc
  · show (List.take dest.length g.data ++ List.take (n + 1) src ++
      List.drop (dest.length + (n + 1)) g.data).take (dest.length + n) = _
    rw [List.append_assoc, List.take_append_eq_append_take]
    have h1 : (List.take dest.length g.data).length = dest.length :=
      List.length_take_of_le (by omega)
    rw [h1, Nat.add_sub_cancel_left, List.take_append_of_le_length (by simp; omega),
      List.take_take, List.take_take, hgd]
    unfold dstring_t.content
    rw [List.take_append_of_le_length (by omega)]
    simp

theorem dstring_init_eq (junk : Int) : dstring_init junk = Mem.ok (dstring_fresh junk) := rfl

theorem dstring_fresh_wf (junk : Int) : dstring_wf (dstring_fresh junk) := by
  refine ⟨?_, ?_, ?_, ?_⟩ <;> simp [dstring_fresh]

/-- C39: `dstring_assign` extends the destination only when `capacity < length` of the
source, so a destination that was never extended (`capacity` bytes allocated) is
overrun by one byte when the source has exactly `capacity` characters. For every
well-formed source without an inner NUL, `dstring_copy` writes outside the 8 bytes of its
fresh destination exactly when the source has `STRING_INIT_SIZE` = 8 characters; for every
other length it returns a well-formed string with the content of the source. -/
theorem C39_copy_overruns_at_init_size (junk : Int) (src : dstring_t) (hs : dstring_wf src)
    (hnul : ∀ x ∈ src.content, x ≠ 0) (hsl : src.length ≤ 2 ^ 62) :
    (dstring_copy junk src = Mem.out_of_bounds ↔ src.length = STRING_INIT_SIZE) ∧
    (src.length ≠ STRING_INIT_SIZE →
      ∃ d, dstring_copy junk src = Mem.ok d ∧ dstring_wf d ∧ d.content = src.content ∧
        d.length = src.length) := by
  have hcopy : dstring_copy junk src = dstring_assign junk (dstring_fresh junk) src := rfl
  have h := dstring_assign_spec junk (dstring_fresh junk) src (dstring_fresh_wf junk) hs hnul
    hsl
  have hbyte : (dstring_fresh junk).data.length = 8 := by simp [dstring_fresh]
  have hcap : (dstring_fresh junk).capacity = 8 := rfl
  rw [hcopy]
  unfold STRING_INIT_SIZE
  rw [hbyte, hcap] at h
  refine ⟨⟨?_, ?_⟩, ?_⟩
  · intro hout
    by_contra hne
    obtain ⟨d, hd, _⟩ := h.2 (fun hh => hne hh.2)
    rw [hd] at hout
    cases hout
  · intro h8
    exact h.1 ⟨rfl, h8⟩
  · intro hne
    exact h.2 (fun hh => hne hh.2)

theorem C39_copy_overruns_at_init_size_witness :
    dstring_wf { data := ascii "abcdefgh" ++ [0], length := 8, capacity := 8 } ∧
    dstring_of 7 (ascii "abcdefgh") =
      Mem.ok { data := ascii "abcdefgh" ++ [0], length := 8, capacity := 8 } ∧
    dstring_copy 7 { data := ascii "abcdefgh" ++ [0], length := 8, capacity := 8 } =
      Mem.out_of_bounds :=
  ⟨by decide, by decide,
   (C39_copy_overruns_at_init_size 7
      { data := ascii "abcdefgh" ++ [0], length := 8, capacity := 8 } (by decide)
      (by decide) (by decide)).1.2 rfl⟩

/-! ## Unused parameters -/

section keeps
variable {p : Prop} {x : String} {L : Int}

theorem keeps_refl (a : List token_t × symtable_t) : Keeps p x L a a :=
  ⟨[], rfl, fun _ _ => ⟨rfl, rfl, fun _ h => h⟩⟩

theorem keeps_trans {a b c : List token_t × symtable_t} (h1 : Keeps p x L a b)
    (h2 : Keeps p x L b c) : Keeps p x L a c := by
  obtain ⟨c1, e1, k1⟩ := h1
  obtain ⟨c2, e2, k2⟩ := h2
  refine ⟨c1 ++ c2, by rw [e1, e2, List.append_assoc], ?_⟩
  intro hp hno
  have hno1 : ∀ t ∈ c1 ++ b.1.take 1, mentions x t = false := by
    intro t ht
    rw [List.mem_append] at ht
    rcases ht with ht | ht
    · exact hno t (by simp [ht])
    · rw [e2] at ht
      cases c2 with
      | nil => exact hno t (by simpa using Or.inr ht)
      | cons u us =>
        simp at ht
        exact hno t (by simp [ht])
  have hno2 : ∀ t ∈ c2 ++ c.1.take 1, mentions x t = false := by
    intro t ht
    exact hno t (by rw [List.append_assoc]; exact List.mem_append_right _ ht)
  obtain ⟨l1, z1, u1⟩ := k1 hp hno1
  obtain ⟨l2, z2, u2⟩ := k2 hp hno2
  exact ⟨l2.trans l1, z2.trans z1, fun hl hu => u2 (by rw [l1]; exact hl) (u1 hl hu)⟩

theorem keeps_weaken {q : Prop} {a b : List token_t × symtable_t} (hq : q → p)
    (h : Keeps p x L a b) : Keeps q x L a b := by
  obtain ⟨c, e, k⟩ := h
  exact ⟨c, e, fun h1 hno => k (hq h1) hno⟩

theorem keeps_tail (tokens : List token_t) (table : symtable_t) :
    Keeps p x L (tokens, table) (tokens.tail, table) := by
  refine ⟨tokens.take 1, ?_, fun _ _ => ⟨rfl, rfl, fun _ h => h⟩⟩
  cases tokens <;> simp

theorem keeps_dropWhile (f : token_t → Bool) (tokens : List token_t) (table : symtable_t) :
    Keeps p x L (tokens, table) (tokens.dropWhile f, table) :=
  ⟨tokens.takeWhile f, (List.takeWhile_append_dropWhile f tokens).symm,
    fun _ _ => ⟨rfl, rfl, fun _ h => h⟩⟩

theorem chain_mark_used_mem (key : String) (item : symtable_item_t) (hne : item.key ≠ key) :
    ∀ chain : List symtable_item_t, item ∈ chain → item ∈ chain_mark_used key chain := by
  intro chain
  induction chain with
  | nil => intro h; cases h
  | cons head rest ih =>
    intro h
    unfold chain_mark_used
    rw [List.mem_cons] at h
    by_cases hk : (head.key == key) = true
    · rw [if_pos hk]
      rcases h with h | h
      · subst h
        exact absurd (by simpa using hk) hne
      · exact List.mem_cons_of_mem _ h
    · rw [if_neg hk]
      rcases h with h | h
      · subst h
        exact List.mem_cons_self _ _
      · exact List.mem_cons_of_mem _ (ih h)

theorem unused_at_mark_used (table : symtable_t) (key : String) (hne : key ≠ x)
    (h : unused_at x L table) : unused_at x L (symtable_mark_used table key) := by
  obtain ⟨item, hmem, hkey, hun⟩ := h
  refine ⟨item, ?_, hkey, hun⟩
  unfold symtable_mark_used
  dsimp only
  split
  · exact chain_mark_used_mem key item (by rw [hkey]; exact fun e => hne e.symm) _ hmem
  · exact hmem

theorem keeps_mark_of_ne (tokens : List token_t) (table : symtable_t) (key : String) :
    Keeps (key ≠ x) x L (tokens, table) (tokens, symtable_mark_used table key) :=
  ⟨[], rfl, fun hne _ => ⟨rfl, rfl, fun _ h => unused_at_mark_used table key hne h⟩⟩

theorem keeps_mark_current (s : PState) (name : String)
    (hty : (current_token s).type = TOKEN_ID) (hname : (current_token s).attr_s = some name) :
    Keeps p x L (view s) (s.tokens, symtable_mark_used s.symbol_table name) := by
  refine ⟨[], rfl, fun _ hno => ⟨rfl, rfl, fun _ h => unused_at_mark_used _ name ?_ h⟩⟩
  intro e
  subst e
  unfold current_token at hty hname
  cases htk : s.tokens with
  | nil =>
    rw [htk] at hty
    cases hty
  | cons t rest =>
    rw [htk] at hty hname
    have := hno t (by simp [htk])
    simp [mentions, hty, hname] at this
    exact this hty hname

theorem unused_at_insert (table : symtable_t) (name : String) (var_data : var_data_t)
    (scope_level : Int) (isConst : Bool) (h : unused_at x L table) :
    unused_at x L (symtable_insert_variable table name var_data scope_level isConst) := by
  obtain ⟨item, hmem, hkey, hun⟩ := h
  refine ⟨item, ?_, hkey, hun⟩
  unfold symtable_insert_variable bucket_prepend
  dsimp only
  split
  · exact List.mem_cons_of_mem _ hmem
  · exact hmem

theorem keeps_insert (tokens : List token_t) (table : symtable_t) (name : String)
    (var_data : var_data_t) (scope_level : Int) (isConst : Bool) :
    Keeps p x L (tokens, table)
      (tokens, symtable_insert_variable table name var_data scope_level isConst) :=
  ⟨[], rfl, fun _ _ => ⟨rfl, rfl, fun _ h => unused_at_insert table name var_data _ _ h⟩⟩

theorem keeps_scope {tokens tokens1 : List token_t} {table table1 : symtable_t}
    (h : Keeps p x L (tokens, symtable_enter_scope table) (tokens1, table1)) :
    Keeps p x L (tokens, table) (tokens1, symtable_exit_scope table1) := by
  obtain ⟨c, e, k⟩ := h
  refine ⟨c, e, fun hp hno => ?_⟩
  obtain ⟨l1, z1, u1⟩ := k hp hno
  have l2 : table1.scope_level = table.scope_level + 1 := l1
  refine ⟨?_, z1, ?_⟩
  · show table1.scope_level - 1 = table.scope_level
    omega
  · intro hl hu
    have hl0 : L ≤ table.scope_level := hl
    have hl1 : L ≤ (symtable_enter_scope table).scope_level := by
      show L ≤ table.scope_level + 1
      omega
    obtain ⟨item, hmem, hkey, hun⟩ := u1 hl1 hu
    refine ⟨item, ?_, hkey, hun⟩
    have hlev : item.scope_level = L := by
      unfold item_is_unused at hun
      simp only [Bool.and_eq_true, beq_iff_eq] at hun
      exact hun.1.1
    unfold symtable_exit_scope
    dsimp only
    split
    · rw [List.mem_filter]
      refine ⟨hmem, ?_⟩
      simp only [Bool.not_eq_true', beq_eq_false_iff_ne, ne_eq]
      rw [hlev, l2]
      omega
    · exact hmem


theorem token_to_prec_symb_keeps {call : PState → Res PState (data_type × PState)}
    (hcall : ∀ s t s1, call s = Res.ok (t, s1) → Keeps True x L (view s) (view s1))
    {s s1 : PState} {d : StackData}
    (h : token_to_prec_symb call s = Res.ok (d, s1)) :
    Keeps True x L (view s) (view s1) := by
  unfold token_to_prec_symb at h
  dsimp only at h
  repeat' split at h
  all_goals first | (cases h; done) | skip
  all_goals (simp only [Res.ok.injEq, Prod.mk.injEq] at h; obtain ⟨_, h⟩ := h; subst h)
  all_goals first
    | exact keeps_refl _
    | exact keeps_mark_current s _ (by assumption) (by assumption)
    | (have hc := id ‹call _ = Res.ok _›
       first
        | (rw [if_pos (by assumption)] at hc
           have h1 := hcall _ _ _ hc
           exact keeps_trans (keeps_mark_current s _ (by assumption) (by assumption)) h1)
        | (rw [if_neg (by assumption)] at hc
           have h1 := hcall _ _ _ hc
           exact h1))

theorem parse_expr_step_keeps {call : PState → Res PState (data_type × PState)}
    (hcall : ∀ s t s1, call s = Res.ok (t, s1) → Keeps True x L (view s) (view s1))
    {use_main : Bool} {current_data : StackData} {current_symbol : prec_sym_t}
    {s s1 : PState} {d : StackData} {sym : prec_sym_t}
    (h : parse_expr_step call use_main current_data current_symbol s = Res.ok (d, sym, s1)) :
    Keeps True x L (view s) (view s1) := by
  unfold parse_expr_step at h
  dsimp only at h
  repeat' split at h
  all_goals first | (cases h; done) | skip
  all_goals (simp only [Res.ok.injEq, Prod.mk.injEq] at h; obtain ⟨_, _, h⟩ := h; subst h)
  · have h1 := token_to_prec_symb_keeps hcall (by assumption)
    cases use_main <;> exact keeps_trans (keeps_tail _ _) h1
  · cases use_main <;> exact keeps_refl _

theorem parse_expr_finish_keeps {use_main : Bool} {s s1 : PState} {t : data_type}
    (h : parse_expr_finish use_main s = Res.ok (t, s1)) :
    Keeps True x L (view s) (view s1) := by
  unfold parse_expr_finish at h
  dsimp only at h
  repeat' split at h
  all_goals first | (cases h; done) | skip
  all_goals (simp only [Res.ok.injEq, Prod.mk.injEq] at h; obtain ⟨_, h⟩ := h; subst h)
  all_goals first | exact keeps_refl _ | (split <;> exact keeps_refl _)

theorem parse_expr_loop_keeps {call : PState → Res PState (data_type × PState)}
    (hcall : ∀ s t s1, call s = Res.ok (t, s1) → Keeps True x L (view s) (view s1)) :
    ∀ (fuel : Nat) (use_main : Bool) (current_data : StackData) (current_symbol : prec_sym_t)
      (s s1 : PState) (t : data_type),
      parse_expr_loop call fuel use_main current_data current_symbol s = Res.ok (t, s1) →
      Keeps True x L (view s) (view s1) := by
  intro fuel
  induction fuel with
  | zero => intro _ _ _ _ _ _ h; cases h
  | succ fuel ih =>
    intro use_main current_data current_symbol s s1 t h
    unfold parse_expr_loop at h
    split at h
    all_goals first | (cases h; done) | skip
    have h1 := parse_expr_step_keeps hcall (by assumption)
    dsimp only at h
    repeat' split at h
    all_goals first | (cases h; done) | skip
    all_goals first
      | exact keeps_trans h1 (parse_expr_finish_keeps h)
      | exact keeps_trans h1 (ih _ _ _ _ _ _ h)

theorem parse_expr_keeps {call : PState → Res PState (data_type × PState)}
    (hcall : ∀ s t s1, call s = Res.ok (t, s1) → Keeps True x L (view s) (view s1))
    {fuel : Nat} {s s1 : PState} {t : data_type}
    (h : parse_expr call fuel s = Res.ok (t, s1)) :
    Keeps True x L (view s) (view s1) := by
  unfold parse_expr at h
  dsimp only at h
  split at h
  all_goals first | (cases h; done) | skip
  have h1 := token_to_prec_symb_keeps hcall (by assumption)
  have h2 := parse_expr_loop_keeps hcall _ _ _ _ _ _ _ h
  have h3 := keeps_trans h1 h2
  cases hm : s.main_stack.isEmpty
  all_goals (rw [hm] at h3; exact h3)

theorem parse_expression_keeps {pe : PState → Res PState (data_type × PState)}
    (hpe : ∀ s t s1, pe s = Res.ok (t, s1) → Keeps True x L (view s) (view s1))
    {s s1 : PState} {t : data_type}
    (h : parse_expression pe s = Res.ok (t, s1)) :
    Keeps True x L (view s) (view s1) := by
  unfold parse_expression at h
  dsimp only at h
  repeat' split at h
  all_goals first | (cases h; done) | skip
  all_goals (cases h; exact hpe _ _ _ (by assumption))

theorem parse_arguments_loop_keeps {pe : PState → Res PState (data_type × PState)}
    (hpe : ∀ s t s1, pe s = Res.ok (t, s1) → Keeps True x L (view s) (view s1))
    (func_data : func_data_t) :
    ∀ (fuel argIndex : Nat) (s s1 : PState),
      parse_arguments_loop pe func_data fuel argIndex s = Res.ok s1 →
      Keeps True x L (view s) (view s1) := by
  intro fuel
  induction fuel with
  | zero => intro _ _ _ h; cases h
  | succ fuel ih =>
    intro argIndex s s1 h
    unfold parse_arguments_loop at h
    dsimp only at h
    repeat' split at h
    all_goals first | (cases h; done) | skip
    all_goals first
      | (cases h; exact keeps_refl _)
      | (have h1 := parse_expression_keeps hpe (by assumption)
         have h2 := ih _ _ _ h
         first
          | exact keeps_trans h1 (keeps_trans (keeps_tail _ _) h2)
          | exact keeps_trans h1 h2)

theorem parse_function_call_expr_keeps {pe : PState → Res PState (data_type × PState)}
    (hpe : ∀ s t s1, pe s = Res.ok (t, s1) → Keeps True x L (view s) (view s1))
    {fuel : Nat} {s s1 : PState} {t : data_type}
    (h : parse_function_call_expr pe fuel s = Res.ok (t, s1)) :
    Keeps True x L (view s) (view s1) := by
  unfold parse_function_call_expr parse_arguments at h
  dsimp only at h
  repeat' split at h
  all_goals first | (cases h; done) | skip
  all_goals (simp only [Res.ok.injEq, Prod.mk.injEq] at h; obtain ⟨_, h⟩ := h; subst h)
  all_goals have h1 := parse_arguments_loop_keeps hpe _ _ _ _ _ (by assumption)
  all_goals exact keeps_trans (keeps_trans (keeps_tail _ _) (keeps_tail _ _)) h1

theorem parse_function_call_keeps {pe : PState → Res PState (data_type × PState)}
    (hpe : ∀ s t s1, pe s = Res.ok (t, s1) → Keeps True x L (view s) (view s1))
    {fuel : Nat} {id_name : String} {s s1 : PState}
    (h : parse_function_call pe fuel id_name s = Res.ok s1) :
    Keeps True x L (view s) (view s1) := by
  unfold parse_function_call parse_arguments at h
  dsimp only at h
  repeat' split at h
  all_goals first | (cases h; done) | skip
  all_goals (simp only [Res.ok.injEq] at h; subst h)
  all_goals have h1 := parse_arguments_loop_keeps hpe _ _ _ _ _ (by assumption)
  all_goals exact (keeps_trans (keeps_trans (keeps_tail _ _) h1)
    (keeps_trans (keeps_tail _ _) (keeps_tail _ _)))

theorem parse_expr_rec_keeps : ∀ (depth fuel : Nat) (s : PState) (t : data_type) (s1 : PState),
    parse_expr_rec depth fuel s = Res.ok (t, s1) → Keeps True x L (view s) (view s1) := by
  intro depth
  induction depth with
  | zero => intro _ _ _ _ h; cases h
  | succ depth ih =>
    intro fuel s t s1 h
    unfold parse_expr_rec at h
    exact parse_expr_keeps
      (fun s t s1 hc => parse_function_call_expr_keeps (ih fuel) hc) h


theorem keeps_tail2 (tokens : List token_t) (table : symtable_t) :
    Keeps True x L (tokens, table) (tokens.tail.tail, table) :=
  keeps_trans (keeps_tail _ _) (keeps_tail _ _)

theorem keeps_tail3 (tokens : List token_t) (table : symtable_t) :
    Keeps True x L (tokens, table) (tokens.tail.tail.tail, table) :=
  keeps_trans (keeps_tail2 _ _) (keeps_tail _ _)

theorem keeps_tail5 (tokens : List token_t) (table : symtable_t) :
    Keeps True x L (tokens, table) (tokens.tail.tail.tail.tail.tail, table) :=
  keeps_trans (keeps_tail3 _ _) (keeps_tail2 _ _)

theorem parse_decl_keeps {pe : PState → Res PState (data_type × PState)}
    (hpe : ∀ s t s1, pe s = Res.ok (t, s1) → Keeps True x L (view s) (view s1))
    {keyword : token_type} {isConst : Bool} {s s1 : PState}
    (h : parse_decl pe keyword isConst s = Res.ok s1) :
    Keeps True x L (view s) (view s1) := by
  unfold parse_decl at h
  dsimp only at h
  repeat' split at h
  all_goals first | (cases h; done) | skip
  all_goals try simp only [Res.bind] at h
  all_goals repeat' split at h
  all_goals first | (cases h; done) | skip
  all_goals (simp only [Res.ok.injEq] at h; subst h)
  all_goals have h1 := parse_expression_keeps hpe (by assumption)
  all_goals first
    | exact (keeps_trans (keeps_trans (keeps_tail3 _ _) h1)
        (keeps_trans (keeps_insert _ _ _ _ _ _) (keeps_tail _ _)))
    | exact (keeps_trans (keeps_trans (keeps_tail5 _ _) h1)
        (keeps_trans (keeps_insert _ _ _ _ _ _) (keeps_tail _ _)))

theorem parse_assignment_keeps {pe : PState → Res PState (data_type × PState)}
    (hpe : ∀ s t s1, pe s = Res.ok (t, s1) → Keeps True x L (view s) (view s1))
    {id_name : Option String} {s s1 : PState}
    (h : parse_assignment pe id_name s = Res.ok s1) :
    Keeps (id_name ≠ some x) x L (view s) (view s1) := by
  unfold parse_assignment at h
  dsimp only at h
  repeat' split at h
  all_goals first | (cases h; done) | skip
  all_goals try simp only [Res.bind] at h
  all_goals repeat' split at h
  all_goals first | (cases h; done) | skip
  all_goals (simp only [Res.ok.injEq] at h; subst h)
  all_goals have h1 := parse_expression_keeps hpe (by assumption)
  all_goals first
    | exact (keeps_trans
        (keeps_weaken (fun hne e => hne (by rw [e])) (keeps_mark_of_ne _ _ _))
        (keeps_trans (keeps_tail _ _)
          (keeps_trans (keeps_weaken (fun _ => trivial) h1) (keeps_tail _ _))))
    | exact (keeps_weaken (fun _ => trivial)
        (keeps_trans (keeps_tail _ _) (keeps_trans h1 (keeps_tail _ _))))
    | trace_state

theorem parse_return_statement_keeps {pe : PState → Res PState (data_type × PState)}
    (hpe : ∀ s t s1, pe s = Res.ok (t, s1) → Keeps True x L (view s) (view s1))
    {s s1 : PState} (h : parse_return_statement pe s = Res.ok s1) :
    Keeps True x L (view s) (view s1) := by
  unfold parse_return_statement at h
  dsimp only at h
  repeat' split at h
  all_goals first | (cases h; done) | skip
  all_goals (simp only [Res.ok.injEq] at h; subst h)
  · exact keeps_tail2 _ _
  · have h1 := parse_expression_keeps hpe (by assumption)
    exact keeps_trans (keeps_tail _ _) (keeps_trans h1 (keeps_tail _ _))

theorem parse_block_body_keeps {stmts : PState → Res PState PState}
    (hst : ∀ s s1, stmts s = Res.ok s1 → Keeps True x L (view s) (view s1))
    {s s1 : PState} (h : parse_block_body stmts s = Res.ok s1) :
    Keeps True x L (view s) (view s1) := by
  unfold parse_block_body at h
  repeat' split at h
  all_goals first | (cases h; done) | skip
  cases h
  exact hst _ _ (by assumption)

theorem check_unused_eq {s s1 : PState} (h : check_unused s = Res.ok s1) : s1 = s := by
  unfold check_unused at h
  split at h
  · cases h
  · cases h
    rfl

theorem insert_binding_keeps {id_name : String} {cond_type : data_type} {s s1 : PState}
    (h : insert_binding id_name cond_type s = Res.ok s1) :
    Keeps True x L (view s) (view s1) := by
  unfold insert_binding at h
  dsimp only at h
  repeat' split at h
  all_goals first | (cases h; done) | skip
  all_goals (cases h)
  · exact keeps_insert _ _ _ _ _ _
  · exact keeps_refl _

theorem gen_if_else_view {s s1 : PState} (h : gen_if_else s = Res.ok s1) :
    view s1 = view s := by
  unfold gen_if_else at h
  split at h <;> cases h
  rfl

theorem gen_if_end_view {s s1 : PState} (h : gen_if_end s = Res.ok s1) :
    view s1 = view s := by
  unfold gen_if_end at h
  split at h <;> cases h
  rfl

theorem gen_if_nullable_else_view {s s1 : PState} (h : gen_if_nullable_else s = Res.ok s1) :
    view s1 = view s := by
  unfold gen_if_nullable_else at h
  split at h <;> cases h
  rfl

theorem gen_if_nullable_end_view {s s1 : PState} (h : gen_if_nullable_end s = Res.ok s1) :
    view s1 = view s := by
  unfold gen_if_nullable_end at h
  split at h <;> cases h
  rfl

theorem gen_while_cond_view {s s1 : PState} (h : gen_while_cond s = Res.ok s1) :
    view s1 = view s := by
  unfold gen_while_cond at h
  split at h <;> cases h
  rfl

theorem gen_while_end_view {s s1 : PState} (h : gen_while_end s = Res.ok s1) :
    view s1 = view s := by
  unfold gen_while_end at h
  split at h <;> cases h
  rfl

theorem gen_while_nullable_cond_view {name : String} {s s1 : PState}
    (h : gen_while_nullable_cond name s = Res.ok s1) : view s1 = view s := by
  unfold gen_while_nullable_cond at h
  split at h <;> cases h
  rfl

theorem gen_while_nullable_end_view {s s1 : PState}
    (h : gen_while_nullable_end s = Res.ok s1) : view s1 = view s := by
  unfold gen_while_nullable_end at h
  split at h <;> cases h
  rfl

theorem keeps_of_view {a b : PState} (h : view b = view a) :
    Keeps True x L (view a) (view b) := by
  rw [h]
  exact keeps_refl _

theorem keeps_block {a b c : PState}
    (h : Keeps True x L (view (fetch_next_token (enter_scope a))) (view b))
    (hc : check_unused (fetch_next_token b) = Res.ok c) :
    Keeps True x L (view a) (view (exit_scope c)) := by
  have hc1 := check_unused_eq hc
  subst hc1
  exact keeps_scope (keeps_trans (keeps_tail _ _) (keeps_trans h (keeps_tail _ _)))

theorem keeps_fetch (s : PState) :
    Keeps True x L (view s) (view (fetch_next_token s)) :=
  keeps_tail _ _

theorem keeps_scoped {a b : PState}
    (h : Keeps True x L (view (enter_scope a)) (view b)) :
    Keeps True x L (view a) (view (exit_scope b)) :=
  keeps_scope h

theorem view_exit_scope {a b : PState} (h : view a = view b) :
    view (exit_scope a) = view (exit_scope b) := by
  have h1 : a.tokens = b.tokens := congrArg Prod.fst h
  have h2 : a.symbol_table = b.symbol_table := congrArg Prod.snd h
  show (a.tokens, symtable_exit_scope a.symbol_table) =
    (b.tokens, symtable_exit_scope b.symbol_table)
  rw [h1, h2]

theorem parse_else_block_keeps {stmts : PState → Res PState PState}
    (hst : ∀ s s1, stmts s = Res.ok s1 → Keeps True x L (view s) (view s1))
    {gen_else gen_end : PState → Res PState PState}
    (hge : ∀ s s1, gen_else s = Res.ok s1 → view s1 = view s)
    (hgn : ∀ s s1, gen_end s = Res.ok s1 → view s1 = view s)
    {s s1 : PState} (h : parse_else_block stmts gen_else gen_end s = Res.ok s1) :
    Keeps True x L (view s) (view s1) := by
  unfold parse_else_block at h
  dsimp only at h
  repeat' split at h
  all_goals first | (cases h; done) | skip
  all_goals try simp only [Res.bind] at h
  all_goals repeat' split at h
  all_goals first | (cases h; done) | skip
  have h1 : Keeps True x L _ _ := keeps_of_view (hge _ _ ‹gen_else _ = Res.ok _›)
  have h2 := parse_block_body_keeps hst ‹parse_block_body _ _ = Res.ok _›
  have h3 := keeps_block h2 ‹check_unused _ = Res.ok _›
  have h4 : Keeps True x L _ _ := keeps_of_view (hgn _ _ h)
  exact keeps_trans h1 (keeps_trans (keeps_tail _ _) (keeps_trans h3 h4))

theorem parse_if_nullable_statement_keeps {stmts : PState → Res PState PState}
    (hst : ∀ s s1, stmts s = Res.ok s1 → Keeps True x L (view s) (view s1))
    {cond_type : data_type} {s s1 : PState}
    (h : parse_if_nullable_statement stmts cond_type s = Res.ok s1) :
    Keeps True x L (view s) (view s1) := by
  unfold parse_if_nullable_statement at h
  dsimp only at h
  repeat' split at h
  all_goals first | (cases h; done) | skip
  all_goals try simp only [Res.bind] at h
  all_goals repeat' split at h
  all_goals first | (cases h; done) | skip
  have hib := insert_binding_keeps (x := x) (L := L) ‹insert_binding _ _ _ = Res.ok _›
  have hbb := parse_block_body_keeps hst ‹parse_block_body _ _ = Res.ok _›
  have hcu := check_unused_eq ‹check_unused _ = Res.ok _›
  subst hcu
  have hsc := keeps_scoped (keeps_trans hib (keeps_trans (keeps_tail _ _)
    (keeps_trans hbb (keeps_fetch _))))
  have hel := parse_else_block_keeps hst (fun _ _ => gen_if_nullable_else_view)
    (fun _ _ => gen_if_nullable_end_view) h
  exact keeps_trans (keeps_tail3 _ _) (keeps_trans hsc hel)

theorem parse_if_statement_keeps {pe : PState → Res PState (data_type × PState)}
    (hpe : ∀ s t s1, pe s = Res.ok (t, s1) → Keeps True x L (view s) (view s1))
    {stmts : PState → Res PState PState}
    (hst : ∀ s s1, stmts s = Res.ok s1 → Keeps True x L (view s) (view s1))
    {s s1 : PState} (h : parse_if_statement pe stmts s = Res.ok s1) :
    Keeps True x L (view s) (view s1) := by
  unfold parse_if_statement at h
  dsimp only at h
  repeat' split at h
  all_goals first | (cases h; done) | skip
  all_goals try simp only [Res.bind] at h
  all_goals repeat' split at h
  all_goals first | (cases h; done) | skip
  · have he := parse_expression_keeps hpe ‹parse_expression _ _ = Res.ok _›
    have hn := parse_if_nullable_statement_keeps hst h
    exact keeps_trans (keeps_tail2 _ _) (keeps_trans he (keeps_trans (keeps_tail _ _) hn))
  · have he := parse_expression_keeps hpe ‹parse_expression _ _ = Res.ok _›
    have hbb := parse_block_body_keeps hst ‹parse_block_body _ _ = Res.ok _›
    have hsc := keeps_block hbb ‹check_unused _ = Res.ok _›
    have hv := view_exit_scope (gen_if_else_view ‹gen_if_else _ = Res.ok _›)
    have hel := parse_else_block_keeps hst (fun _ _ (e : Res.ok _ = Res.ok _) => by cases e; rfl)
      (fun _ _ => gen_if_end_view) h
    rw [hv] at hel
    exact keeps_trans (keeps_tail2 _ _) (keeps_trans he (keeps_trans (keeps_tail _ _)
      (keeps_trans hsc hel)))

theorem parse_while_nullable_statement_keeps {stmts : PState → Res PState PState}
    (hst : ∀ s s1, stmts s = Res.ok s1 → Keeps True x L (view s) (view s1))
    {cond_type : data_type} {s s1 : PState}
    (h : parse_while_nullable_statement stmts cond_type s = Res.ok s1) :
    Keeps True x L (view s) (view s1) := by
  unfold parse_while_nullable_statement at h
  dsimp only at h
  repeat' split at h
  all_goals first | (cases h; done) | skip
  all_goals try simp only [Res.bind] at h
  all_goals repeat' split at h
  all_goals first | (cases h; done) | skip
  cases h
  have hg : Keeps True x L _ _ :=
    keeps_of_view (gen_while_nullable_cond_view ‹gen_while_nullable_cond _ _ = Res.ok _›)
  have hib := insert_binding_keeps (x := x) (L := L) ‹insert_binding _ _ _ = Res.ok _›
  have hbb := parse_block_body_keeps hst ‹parse_block_body _ _ = Res.ok _›
  have hcu := check_unused_eq ‹check_unused _ = Res.ok _›
  subst hcu
  have hsc := keeps_scoped (keeps_trans hib (keeps_trans hbb (keeps_fetch _)))
  have hv := view_exit_scope
    (gen_while_nullable_end_view ‹gen_while_nullable_end _ = Res.ok _›)
  rw [hv]
  exact keeps_trans (keeps_tail _ _) (keeps_trans hg (keeps_trans (keeps_tail3 _ _) hsc))

theorem parse_while_statement_keeps {pe : PState → Res PState (data_type × PState)}
    (hpe : ∀ s t s1, pe s = Res.ok (t, s1) → Keeps True x L (view s) (view s1))
    {stmts : PState → Res PState PState}
    (hst : ∀ s s1, stmts s = Res.ok s1 → Keeps True x L (view s) (view s1))
    {s s1 : PState} (h : parse_while_statement pe stmts s = Res.ok s1) :
    Keeps True x L (view s) (view s1) := by
  unfold parse_while_statement at h
  dsimp only at h
  repeat' split at h
  all_goals first | (cases h; done) | skip
  all_goals try simp only [Res.bind] at h
  all_goals repeat' split at h
  all_goals first | (cases h; done) | skip
  · have he := parse_expression_keeps hpe ‹parse_expression _ _ = Res.ok _›
    have hn := parse_while_nullable_statement_keeps hst h
    exact keeps_trans (keeps_tail2 _ _) (keeps_trans he (keeps_trans (keeps_tail _ _) hn))
  · cases h
    have he := parse_expression_keeps hpe ‹parse_expression _ _ = Res.ok _›
    have hg : Keeps True x L _ _ :=
      keeps_of_view (gen_while_cond_view ‹gen_while_cond _ = Res.ok _›)
    have hbb := parse_block_body_keeps hst ‹parse_block_body _ _ = Res.ok _›
    have hcu := check_unused_eq ‹check_unused _ = Res.ok _›
    subst hcu
    have hsc := keeps_scoped (keeps_trans (keeps_tail _ _) hbb)
    have hge : Keeps True x L _ _ :=
      keeps_of_view (gen_while_end_view ‹gen_while_end _ = Res.ok _›)
    exact keeps_trans (keeps_tail2 _ _) (keeps_trans he (keeps_trans (keeps_tail _ _)
      (keeps_trans hg (keeps_trans hsc (keeps_trans hge (keeps_tail _ _))))))

theorem keeps_of_consumed_id {s : PState} {name : String}
    (hty : (current_token s).type = TOKEN_ID) (hname : (current_token s).attr_s = some name)
    {b : List token_t × symtable_t}
    (h : Keeps (some name ≠ some x) x L (view (fetch_next_token s)) b) :
    Keeps True x L (view s) b := by
  unfold current_token at hty hname
  obtain ⟨c, e, k⟩ := h
  cases htk : s.tokens with
  | nil =>
    rw [htk] at hty
    cases hty
  | cons t rest =>
    rw [htk] at hty hname
    have e1 : rest = c ++ b.1 := by
      have e2 : s.tokens.tail = c ++ b.1 := e
      rw [htk] at e2
      exact e2
    refine ⟨t :: c, ?_, fun _ hno => ?_⟩
    · show s.tokens = t :: c ++ b.1
      rw [htk, e1]
      rfl
    · have hne : some name ≠ some x := by
        intro e3
        have := hno t (by simp)
        simp [mentions, hty, hname] at this
        rw [e3] at hname
        exact this hty hname
      exact k hne (fun u hu => hno u (by simp at hu ⊢; tauto))

theorem parse_statement_keeps {pe : PState → Res PState (data_type × PState)}
    (hpe : ∀ s t s1, pe s = Res.ok (t, s1) → Keeps True x L (view s) (view s1))
    {stmts : PState → Res PState PState}
    (hst : ∀ s s1, stmts s = Res.ok s1 → Keeps True x L (view s) (view s1))
    {fuel : Nat} {s s1 : PState} (h : parse_statement pe fuel stmts s = Res.ok s1) :
    Keeps True x L (view s) (view s1) := by
  unfold parse_statement at h
  dsimp only at h
  repeat' split at h
  all_goals first | (cases h; done) | skip
  all_goals first
    | exact parse_decl_keeps hpe h
    | exact parse_if_statement_keeps hpe hst h
    | exact parse_while_statement_keeps hpe hst h
    | exact parse_return_statement_keeps hpe h
    | (cases h; exact keeps_refl _)
    | exact keeps_of_consumed_id (by assumption) (by assumption) (parse_assignment_keeps hpe h)
    | exact keeps_trans (keeps_tail _ _) (parse_function_call_keeps hpe h)
    | exact keeps_trans (keeps_tail _ _)
        (keeps_weaken (fun _ => by simp) (parse_assignment_keeps hpe h))
    | trace_state

theorem parse_statements_keeps {pe : PState → Res PState (data_type × PState)}
    (hpe : ∀ s t s1, pe s = Res.ok (t, s1) → Keeps True x L (view s) (view s1)) :
    ∀ (fuel : Nat) (s s1 : PState), parse_statements pe fuel s = Res.ok s1 →
      Keeps True x L (view s) (view s1) := by
  intro fuel
  induction fuel with
  | zero => intro _ _ h; cases h
  | succ fuel ih =>
    intro s s1 h
    unfold parse_statements at h
    repeat' split at h
    all_goals first | (cases h; done) | skip
    · have h1 := parse_statement_keeps hpe ih ‹parse_statement _ _ _ _ = Res.ok _›
      exact keeps_trans h1 (ih _ _ h)
    · cases h
      exact keeps_refl _

theorem parse_statements_closing {pe : PState → Res PState (data_type × PState)} :
    ∀ (fuel : Nat) (s s1 : PState), parse_statements pe fuel s = Res.ok s1 →
      (current_token s1).type = TOKEN_CLOSING_BRACKET := by
  intro fuel
  induction fuel with
  | zero => intro _ _ h; cases h
  | succ fuel ih =>
    intro s s1 h
    unfold parse_statements at h
    repeat' split at h
    all_goals first | (cases h; done) | skip
    · exact ih _ _ h
    · cases h
      rename_i hc
      simpa using hc

end keeps

theorem parse_function_definition_eq {pe : PState → Res PState (data_type × PState)}
    {fuel : Nat} {s s4 s5 : PState} {func_data : func_data_t}
    (h : function_body_start fuel s = Res.ok (func_data, s4))
    (hb : parse_statements pe fuel s4 = Res.ok s5) :
    parse_function_definition pe fuel s = function_body_end func_data s5 := by
  unfold function_body_start at h
  dsimp only at h
  repeat' split at h
  all_goals first | (cases h; done) | skip
  simp only [Res.ok.injEq, Prod.mk.injEq] at h
  obtain ⟨h1, h2⟩ := h
  subst h1
  subst h2
  unfold parse_function_definition
  dsimp only
  rw [if_neg ‹¬(current_token s).type ≠ TOKEN_ID›, ‹(current_token s).attr_s = some _›]
  dsimp only
  rw [‹symtable_find _ _ = some _›]
  dsimp only
  rw [if_neg ‹¬_ ≠ symbol_type.fn_t›, ‹symtable_data_t.funcData _ = some _›]
  dsimp only
  rw [if_neg ‹¬(current_token _).type ≠ TOKEN_OPENING_PARENTHESES›,
    ‹parse_parameters _ _ _ = Res.ok _›]
  dsimp only
  rw [if_neg ‹¬(current_token _).type ≠ TOKEN_CLOSING_PARENTHESES›,
    ‹skip_to_opening_bracket _ = some _›]
  dsimp only
  rw [hb]
  rfl

theorem tokens_cons (s : PState) (h : (current_token s).type ≠ TOKEN_EOF) :
    s.tokens = current_token s :: (fetch_next_token s).tokens := by
  unfold current_token at h ⊢
  unfold fetch_next_token
  cases htk : s.tokens with
  | nil =>
    rw [htk] at h
    exact absurd rfl h
  | cons t rest => rfl

theorem declared_refl (a : PState) : Declared a a := by
  refine ⟨[], rfl, ?_, rfl, rfl, rfl, fun _ _ h => h, ?_⟩
  · intro t ht
    cases ht
  · rintro x ⟨t, ht, _⟩
    cases ht

theorem declared_trans {a b c : PState} (h1 : Declared a b) (h2 : Declared b c) :
    Declared a c := by
  obtain ⟨c1, e1, p1, f1, l1, z1, k1, d1⟩ := h1
  obtain ⟨c2, e2, p2, f2, l2, z2, k2, d2⟩ := h2
  refine ⟨c1 ++ c2, by rw [e1, e2, List.append_assoc], ?_, f2.trans f1, l2.trans l1,
    z2.trans z1, fun x L h => k2 x L (k1 x L h), ?_⟩
  · intro t ht
    rw [List.mem_append] at ht
    rcases ht with ht | ht
    · exact p1 t ht
    · exact p2 t ht
  · rintro x ⟨t, ht, hm⟩
    rw [List.mem_append] at ht
    rcases ht with ht | ht
    · exact k2 x _ (d1 x ⟨t, ht, hm⟩)
    · have := d2 x ⟨t, ht, hm⟩
      rw [l1] at this
      exact this

theorem declared_skip (s : PState) (hty : (current_token s).type ≠ TOKEN_EOF)
    (hid : (current_token s).type ≠ TOKEN_ID)
    (hp : (current_token s).type ≠ TOKEN_CLOSING_PARENTHESES) :
    Declared s (fetch_next_token s) := by
  refine ⟨[current_token s], tokens_cons s hty, ?_, rfl, rfl, rfl, fun _ _ h => h, ?_⟩
  · intro t ht
    rw [List.mem_singleton] at ht
    rw [ht]
    exact hp
  · rintro x ⟨t, ht, hm⟩
    rw [List.mem_singleton] at ht
    rw [ht] at hm
    simp [mentions, hid] at hm

theorem unused_at_inserted (table : symtable_t) (name : String) (type : data_type)
    (isConst : Bool) :
    unused_at name table.scope_level
      (symtable_insert_variable table name { name := name, type := type, isUsed := false }
        table.scope_level isConst) := by
  unfold unused_at symtable_insert_variable bucket_prepend
  dsimp only
  rw [if_pos rfl]
  exact ⟨_, List.mem_cons_self _ _, rfl, by cases isConst <;> simp [item_is_unused]⟩

theorem parse_parameter_declared {func_data func_data1 : func_data_t} {s s1 : PState}
    (hfc : s.first_control = false)
    (h : parse_parameter func_data s = Res.ok (func_data1, s1)) : Declared s s1 := by
  unfold parse_parameter at h
  dsimp only at h
  repeat' split at h
  all_goals first | (cases h; done) | skip
  all_goals (simp only [Res.ok.injEq, Prod.mk.injEq] at h; obtain ⟨_, h⟩ := h; subst h)
  · rename_i hf _
    exact absurd hf (by simp [fetch_next_token, hfc])
  · rename_i h0 _ name hname _ h1 h2 _ ptype _ _ _
    have h0a : (current_token s).type = TOKEN_ID := by simpa using h0
    have h1a : (current_token (fetch_next_token s)).type = TOKEN_TWODOT := by simpa using h1
    have h2a : (current_token (fetch_next_token (fetch_next_token s))).type ≠ TOKEN_EOF ∧
        (current_token (fetch_next_token (fetch_next_token s))).type ≠ TOKEN_ID ∧
        (current_token (fetch_next_token (fetch_next_token s))).type ≠
          TOKEN_CLOSING_PARENTHESES := by
      simp only [parse_type, decide_eq_true_eq] at h2
      rcases h2 with h2 | h2 | h2 | h2 | h2 | h2 <;> rw [h2] <;> decide
    refine ⟨[current_token s, current_token (fetch_next_token s),
      current_token (fetch_next_token (fetch_next_token s))], ?_, ?_, rfl, rfl, rfl,
      fun _ _ hu => unused_at_insert _ _ _ _ _ hu, ?_⟩
    · rw [tokens_cons s (by rw [h0a]; decide),
        tokens_cons (fetch_next_token s) (by rw [h1a]; decide),
        tokens_cons (fetch_next_token (fetch_next_token s)) h2a.1]
      rfl
    · intro t ht
      simp only [List.mem_cons, List.mem_singleton, List.not_mem_nil, or_false] at ht
      rcases ht with ht | ht | ht <;> rw [ht]
      · rw [h0a]; decide
      · rw [h1a]; decide
      · exact h2a.2.2
    · rintro x ⟨t, ht, hm⟩
      simp only [List.mem_cons, List.mem_singleton, List.not_mem_nil, or_false] at ht
      rcases ht with ht | ht | ht <;> rw [ht] at hm
      · have hx : name = x := by
          simp [mentions, h0a, hname] at hm
          exact hm
        subst hx
        exact unused_at_inserted _ _ _ _
      · simp [mentions, h1a] at hm
      · simp [mentions, h2a.2.1] at hm

theorem parse_parameters_loop_declared : ∀ (fuel : Nat) (func_data func_data1 : func_data_t)
    (s s1 : PState), s.first_control = false →
    parse_parameters_loop fuel func_data s = Res.ok (func_data1, s1) → Declared s s1 := by
  intro fuel
  induction fuel with
  | zero => intro _ _ _ _ _ h; cases h
  | succ fuel ih =>
    intro func_data func_data1 s s1 hfc h
    unfold parse_parameters_loop at h
    cases hp : parse_parameter func_data s with
    | ok r =>
      obtain ⟨fd2, s2⟩ := r
      have hd := parse_parameter_declared hfc hp
      have hfc2 : s2.first_control = false := by
        obtain ⟨_, _, _, f, _⟩ := hd
        rw [f, hfc]
      rw [hp] at h
      simp only [Res.bind] at h
      repeat' split at h
      all_goals first | (cases h; done) | skip
      · rename_i hc _ _
        have hs : Declared s2 (fetch_next_token s2) :=
          declared_skip s2 (by rw [hc]; decide) (by rw [hc]; decide) (by rw [hc]; decide)
        exact declared_trans hd (declared_trans hs (ih _ _ _ _ hfc2 h))
      · rename_i hc _ _
        have hs : Declared s2 (fetch_next_token s2) :=
          declared_skip s2 (by rw [hc]; decide) (by rw [hc]; decide) (by rw [hc]; decide)
        simp only [Res.ok.injEq, Prod.mk.injEq] at h
        obtain ⟨_, h⟩ := h
        subst h
        exact declared_trans hd hs
      · simp only [Res.ok.injEq, Prod.mk.injEq] at h
        obtain ⟨_, h⟩ := h
        subst h
        exact hd
    | fail e => rw [hp] at h; cases h
    | exit code => rw [hp] at h; cases h
    | crash => rw [hp] at h; cases h
    | timeout => rw [hp] at h; cases h

theorem parse_parameters_declared {fuel : Nat} {func_data func_data1 : func_data_t}
    {s s1 : PState} (h : parse_parameters fuel func_data s = Res.ok (func_data1, s1))
    (hfc : s.first_control = false) : Declared s s1 := by
  unfold parse_parameters at h
  dsimp only at h
  split at h
  · simp only [Res.ok.injEq, Prod.mk.injEq] at h
    obtain ⟨_, h⟩ := h
    subst h
    exact declared_refl _
  · exact parse_parameters_loop_declared _ _ _ _ _ hfc h

theorem takeWhile_split (f : token_t → Bool) : ∀ (c r : List token_t),
    (∀ t ∈ c, f t = true) → (∀ t ∈ r.take 1, f t = false) → (c ++ r).takeWhile f = c := by
  intro c
  induction c with
  | nil =>
    intro r _ hr
    cases r with
    | nil => rfl
    | cons t rest =>
      have := hr t (by simp)
      simp [List.takeWhile, this]
  | cons u us ih =>
    intro r hc hr
    have hu := hc u (by simp)
    rw [List.cons_append, List.takeWhile_cons_of_pos hu,
      ih r (fun t ht => hc t (by simp [ht])) hr]

theorem check_unused_of_unused_at {x : String} (s : PState)
    (hu : unused_at x s.symbol_table.scope_level s.symbol_table)
    (hs : TABLE_SIZE ≤ s.symbol_table.size) :
    check_unused s = Res.exit ERROR_SEMANTIC_UNUSED_VARIABLE := by
  obtain ⟨item, hmem, _, hun⟩ := hu
  have hlt : hash_function x < s.symbol_table.size := lt_of_lt_of_le (hash_function_lt x) hs
  have hany : (List.range s.symbol_table.size).any
      (fun i => (s.symbol_table.items i).any (item_is_unused s.symbol_table.scope_level)) =
      true := by
    rw [List.any_eq_true]
    refine ⟨hash_function x, List.mem_range.mpr hlt, ?_⟩
    rw [List.any_eq_true]
    exact ⟨item, hmem, hun⟩
  unfold check_unused check_unused_variables_in_scope
  rw [if_pos hany, if_pos (by decide)]

set_option maxRecDepth 1000000 in
/-- C33, counterexample: `pub fn f(x: i32) i32 { }` never refers to its parameter, and
when the closing brace is reached compilation ends with 6 (missing return), not with 9;
with the return type `void` it ends with 9. -/
theorem C33_missing_return_comes_first :
    exit_code (program_with_f [tk_id "x", tk TOKEN_TWODOT, tk KW_INT_TYPE] KW_INT_TYPE []) =
      some 6 ∧
    exit_code (program_with_f [tk_id "x", tk TOKEN_TWODOT, tk KW_INT_TYPE] KW_VOID []) =
      some 9 := by
  constructor <;> rfl

/-- C33, amended: in pass 2 a parameter is entered as an unused constant of the L of
the function body, and only an identifier token with its name (in an expression or as the
target of an assignment) marks it as used. If the body of a function is parsed up to its
closing brace and no identifier token of the body carries the name `x` of one of the
parameters, `parse_function_definition` ends the process: with 6 when the function is
not void and no `return` was parsed, and with 9 otherwise. -/
theorem C33_unused_parameter_rejected (depth fuel : Nat) (s s4 s5 : PState)
    (func_data : func_data_t) (x : String)
    (hpass : s.first_control = false) (hsize : TABLE_SIZE ≤ s.symbol_table.size)
    (hstart : function_body_start fuel s = Res.ok (func_data, s4))
    (hbody : parse_statements (parse_expr_rec depth fuel) fuel s4 = Res.ok s5)
    (hparam : ∃ t ∈ parameter_tokens s, mentions x t = true)
    (hunref : ∀ body, s4.tokens = body ++ s5.tokens → ∀ t ∈ body, mentions x t = false) :
    parse_function_definition (parse_expr_rec depth fuel) fuel s =
      if func_data.returnType ≠ void_type ∧ ¬ s5.has_return then
        Res.exit ERROR_SEMANTIC_MISSING_OR_ABSENT_EXPRESSION_IN_RETURN
      else Res.exit ERROR_SEMANTIC_UNUSED_VARIABLE := by
  rw [parse_function_definition_eq hstart hbody]
  have hclose := parse_statements_closing _ _ _ hbody
  have hkeep := parse_statements_keeps (x := x) (L := s.symbol_table.scope_level + 1)
    (parse_expr_rec_keeps depth fuel) _ _ _ hbody
  unfold function_body_start at hstart
  dsimp only at hstart
  repeat' split at hstart
  all_goals first | (cases hstart; done) | skip
  simp only [Res.ok.injEq, Prod.mk.injEq] at hstart
  obtain ⟨h1, h2⟩ := hstart
  subst h1
  rename_i s2 hpp hcp _ s3 hskip
  have hdecl := parse_parameters_declared hpp hpass
  obtain ⟨consumed, e, pc, _, l2, z2, _, d2⟩ := hdecl
  have hcp1 : (current_token s2).type = TOKEN_CLOSING_PARENTHESES := by simpa using hcp
  have hpt : parameter_tokens s = consumed := by
    unfold parameter_tokens
    have e1 : s.tokens.tail.tail = consumed ++ s2.tokens := e
    rw [e1]
    apply takeWhile_split
    · intro t ht
      simpa using pc t ht
    · intro t ht
      unfold current_token at hcp1
      cases htk : s2.tokens with
      | nil =>
        rw [htk] at ht
        cases ht
      | cons u us =>
        rw [htk] at ht hcp1
        simp only [List.take, List.mem_singleton] at ht
        subst ht
        simpa using hcp1
  rw [hpt] at hparam
  have hu2 : unused_at x (s.symbol_table.scope_level + 1) s2.symbol_table := d2 x hparam
  have hl2 : s2.symbol_table.scope_level = s.symbol_table.scope_level + 1 := l2
  have hz2 : s2.symbol_table.size = s.symbol_table.size := z2
  have hs3 : s3.symbol_table = s2.symbol_table := by
    unfold skip_to_opening_bracket at hskip
    split at hskip
    · cases hskip
    · cases hskip
      rfl
  obtain ⟨body, eb, k⟩ := hkeep
  subst h2
  have hno : ∀ t ∈ body ++ s5.tokens.take 1, mentions x t = false := by
    intro t ht
    rw [List.mem_append] at ht
    rcases ht with ht | ht
    · exact hunref body eb t ht
    · unfold current_token at hclose
      cases htk : s5.tokens with
      | nil =>
        rw [htk] at ht
        cases ht
      | cons u us =>
        rw [htk] at ht hclose
        simp only [List.take, List.mem_singleton] at ht
        subst ht
        have hc : t.type = TOKEN_CLOSING_BRACKET := hclose
        simp [mentions, hc]
  obtain ⟨l5, z5, u5⟩ := k trivial hno
  have l5a : s5.symbol_table.scope_level = s.symbol_table.scope_level + 1 := by
    have : s5.symbol_table.scope_level = s3.symbol_table.scope_level := l5
    rw [this, hs3, hl2]
  have z5a : s5.symbol_table.size = s.symbol_table.size := by
    have : s5.symbol_table.size = s3.symbol_table.size := z5
    rw [this, hs3, hz2]
  have hu5 : unused_at x (s.symbol_table.scope_level + 1) s5.symbol_table := by
    apply u5
    · show s.symbol_table.scope_level + 1 ≤ s3.symbol_table.scope_level
      rw [hs3, hl2]
    · show unused_at x _ s3.symbol_table
      rw [hs3]
      exact hu2
  unfold function_body_end
  rw [if_neg (by rw [hclose]; decide)]
  split
  · rfl
  · dsimp only
    have hc : ∀ s7 : PState, s7.symbol_table = s5.symbol_table →
        check_unused s7 = Res.exit ERROR_SEMANTIC_UNUSED_VARIABLE := by
      intro s7 h7
      apply check_unused_of_unused_at (x := x)
      · rw [h7, l5a]
        exact hu5
      · rw [h7, z5a]
        exact hsize
    rw [hc _ (by repeat' split
                 all_goals rfl)]
    rfl

theorem C33_unused_parameter_rejected_witness :
    function_body_start 8 unused_x_state =
      Res.ok (mk_builtin "f" [int_type] void_type, unused_x_body) ∧
    parse_statements (parse_expr_rec 1 8) 8 unused_x_body = Res.ok unused_x_end ∧
    parameter_tokens unused_x_state = [tk_id "x", tk TOKEN_TWODOT, tk KW_INT_TYPE] ∧
    unused_x_body.tokens =
      [tk TOKEN_UNDERSCORE, tk TOKEN_ASSIGN, tk_int 1, tk TOKEN_SEMICOLON] ++
        unused_x_end.tokens ∧
    parse_function_definition (parse_expr_rec 1 8) 8 unused_x_state = Res.exit 9 := by
  refine ⟨rfl, rfl, rfl, rfl, ?_⟩
  have h := C33_unused_parameter_rejected 1 8 unused_x_state unused_x_body unused_x_end
    (mk_builtin "f" [int_type] void_type) "x" rfl (Nat.le_refl _) rfl rfl
    ⟨tk_id "x", by decide, by decide⟩
    (by
      intro body hb
      have hb1 : [tk TOKEN_UNDERSCORE, tk TOKEN_ASSIGN, tk_int 1, tk TOKEN_SEMICOLON] ++
          [tk TOKEN_CLOSING_BRACKET] = body ++ [tk TOKEN_CLOSING_BRACKET] := hb
      have hb2 := List.append_cancel_right hb1
      subst hb2
      decide)
  rw [h]
  rfl

end IFJ24
